import Mathlib

/-!
# MQTT client over a raw Ethernet controller: protocol core

Shallow embedding of `eth0.c` (checksum engine, frame classifiers, message
builders) and of the connection state machine in the main loop of
`ethernet.c`.

Conventions of the embedding

* A region of memory reached through a pointer is a function `Mem := Nat → Nat`
  from byte offsets to byte values; a well-formed region holds values below 256
  (`IsBytes`).
* The target (TM4C123, Cortex-M4) is little endian: a `uint16_t` or `uint32_t`
  field is stored low byte first (`wr16`, `rd16`, `wr32`, `rd32`).
* Machine arithmetic is arithmetic on `Nat` with an explicit reduction modulo
  the width of the C type: `x & 0xF` is `x % 16`, `x >> 16` is `x / 65536`,
  `x << 8` is `x * 256`, and `~x` on a `uint16_t` is `65535 - x`.
-/

namespace MqttClient

/-! ## Memory -/

/-- Byte-addressed memory seen through a pointer. -/
abbrev Mem := Nat → Nat

/-- Every cell holds a byte. -/
def IsBytes (m : Mem) : Prop := ∀ i, m i < 256

/-- Store of one byte: `p[a] = v`. -/
def wr (m : Mem) (a v : Nat) : Mem := fun i => if i = a then v else m i

/-- Store of a `uint16_t` at byte offset `a` (low byte first). -/
def wr16 (m : Mem) (a v : Nat) : Mem := wr (wr m a (v % 256)) (a + 1) (v / 256 % 256)

/-- Load of a `uint16_t` at byte offset `a` (low byte first). -/
def rd16 (m : Mem) (a : Nat) : Nat := m a + 256 * m (a + 1)

/-- Store of a `uint32_t` at byte offset `a` (low byte first). -/
def wr32 (m : Mem) (a v : Nat) : Mem :=
  wr (wr (wr (wr m a (v % 256)) (a + 1) (v / 256 % 256)) (a + 2) (v / 65536 % 256))
    (a + 3) (v / 16777216 % 256)

/-- Load of a `uint32_t` at byte offset `a` (low byte first). -/
def rd32 (m : Mem) (a : Nat) : Nat :=
  m a + 256 * m (a + 1) + 65536 * m (a + 2) + 16777216 * m (a + 3)

/-- Memory holding the bytes of a list, zero beyond its end. -/
def memOfList (l : List Nat) : Mem := fun i => l.getD i 0

/-! ## Byte order -/

/-- The function `htons` (also used as `ntohs`):
`((value & 0xFF00) >> 8) + ((value & 0x00FF) << 8)` on a `uint16_t`. -/
def htons (value : Nat) : Nat := (value / 256 % 256 + value % 256 * 256) % 65536

/-! ## Checksum engine -/

/-- Loop of `etherSumWords`: `n` bytes remain, `p` is the offset of the next
byte, `phase` the alternating phase and `sum` the 32-bit accumulator. -/
def etherSumWordsLoop (m : Mem) : Nat → Nat → Nat → Nat → Nat
  | 0, _, _, sum => sum
  | n + 1, p, phase, sum =>
    etherSumWordsLoop m n (p + 1) (1 - phase)
      (if phase ≠ 0 then (sum + m p * 256) % 4294967296 else (sum + m p) % 4294967296)

/-- The function `etherSumWords(data, sizeInBytes, &sum)`; `p` is the offset of
`data` in `m`, the result is the new value of `*sum`. -/
def etherSumWords (m : Mem) (p sizeInBytes sum : Nat) : Nat :=
  etherSumWordsLoop m sizeInBytes p 0 sum

/-- Loop of `getEtherChecksum`:
`while ((sum >> 16) > 0) sum = (sum & 0xFFFF) + (sum >> 16);`. -/
def foldCarries : Nat → Nat → Nat
  | 0, sum => sum
  | fuel + 1, sum =>
    if sum / 65536 > 0 then foldCarries fuel (sum % 65536 + sum / 65536) else sum

/-- The function `getEtherChecksum(sum)`: fold the carries, return the one's
complement of the low 16 bits.  The loop runs at most twice on a 32-bit `sum`
(`foldCarries_done`), so the fuel is never exhausted. -/
def getEtherChecksum (sum : Nat) : Nat := 65535 - foldCarries 32 sum % 65536

/-! ## Frame layout -/

/-- Modelled from the spec: `eth0.h`, which declares the header structs, is not
among the sources.  `sizeof(etherHeader)`: destination and source hardware
addresses (6 bytes each) and the 2-byte frame type. -/
def ETHER_HEADER_SIZE : Nat := 14

/-- Modelled from the spec: `sizeof(arpPacket)`, the 28-byte ARP message. -/
def ARP_PACKET_SIZE : Nat := 28

def HW_ADD_LENGTH : Nat := 6
def IP_ADD_LENGTH : Nat := 4

/-- Offsets of the fields of `etherHeader` from the start of the frame. -/
def ETH_DEST : Nat := 0
def ETH_SOURCE : Nat := 6
def ETH_FRAME_TYPE : Nat := 12
/-- Offset of `ether->data`, where the `ipHeader` or `arpPacket` starts. -/
def ETH_DATA : Nat := 14

/-- Modelled from the spec: offsets of the fields of `ipHeader` from its start
(version and header length, type of service, total length, identification,
flags and offset, TTL, protocol, header checksum, source and destination
address). -/
def IP_REV_SIZE : Nat := 0
def IP_TOS : Nat := 1
def IP_LENGTH : Nat := 2
def IP_ID : Nat := 4
def IP_FLAGS_OFFSET : Nat := 6
def IP_TTL : Nat := 8
def IP_PROTOCOL : Nat := 9
def IP_CHECKSUM : Nat := 10
def IP_SOURCE_IP : Nat := 12
def IP_DEST_IP : Nat := 16

/-- The header length in bytes, `(ip->revSize & 0xF) * 4`, of the IP header at
offset `ip`. -/
def ipHeaderLength (m : Mem) (ip : Nat) : Nat := m (ip + IP_REV_SIZE) % 16 * 4

/-- The function `etherCalcIpChecksum(ip)` on the IP header at offset `ip`. -/
def etherCalcIpChecksum (m : Mem) (ip : Nat) : Mem :=
  let len := ipHeaderLength m ip
  let m1 := wr16 m (ip + IP_CHECKSUM) 0
  let sum := etherSumWords m1 ip len 0
  wr16 m1 (ip + IP_CHECKSUM) (getEtherChecksum sum)

/-- Modelled from the spec: offsets of the fields of `arpPacket` from its start
(hardware and protocol type and size, operation, sender hardware and protocol
address, target hardware and protocol address). -/
def ARP_HARDWARE_TYPE : Nat := 0
def ARP_PROTOCOL_TYPE : Nat := 2
def ARP_HARDWARE_SIZE : Nat := 4
def ARP_PROTOCOL_SIZE : Nat := 5
def ARP_OP : Nat := 6
def ARP_SOURCE_ADDRESS : Nat := 8
def ARP_SOURCE_IP : Nat := 14
def ARP_DEST_ADDRESS : Nat := 18
def ARP_DEST_IP : Nat := 24

/-- Modelled from the spec: offsets of the fields of `icmpHeader` (type, code,
checksum, identifier, sequence number, data). -/
def ICMP_TYPE : Nat := 0
def ICMP_CODE : Nat := 1
def ICMP_CHECK : Nat := 2
def ICMP_ID : Nat := 4
def ICMP_SEQ_NO : Nat := 6
def ICMP_DATA : Nat := 8

/-- Modelled from the spec: offsets of the fields of `udpHeader` (source port,
destination port, length, checksum, data). -/
def UDP_SOURCE_PORT : Nat := 0
def UDP_DEST_PORT : Nat := 2
def UDP_LENGTH : Nat := 4
def UDP_CHECK : Nat := 6
def UDP_DATA : Nat := 8

/-- Modelled from the spec: offsets of the fields of `tcpHeader` (source port,
destination port, 32-bit sequence and acknowledgment numbers, data offset and
flags, window, checksum, urgent pointer, options and data). -/
def TCP_SOURCE_PORT : Nat := 0
def TCP_DEST_PORT : Nat := 2
def TCP_SEQUENCE_NUMBER : Nat := 4
def TCP_ACKNOWLEDGEMENT_NUMBER : Nat := 8
def TCP_OFFSET_FIELDS : Nat := 12
def TCP_WINDOW_SIZE : Nat := 14
def TCP_CHECKSUM : Nat := 16
def TCP_URGENT_POINTER : Nat := 18
def TCP_DATA : Nat := 20

/-- Modelled from the spec: the flag constants of `eth0.h`, which is not among
the sources; they are the values of the 12-bit TCP flag field for FIN, SYN,
RST, ACK, FIN-ACK, SYN-ACK, RST-ACK and PUSH-ACK. -/
def TCP_FIN : Nat := 0x001
def TCP_SYNC : Nat := 0x002
def TCP_RESET : Nat := 0x004
def TCP_ACK : Nat := 0x010
def TCP_FIN_ACK : Nat := 0x011
def TCP_SYNACK : Nat := 0x012
def TCP_REST_ACK : Nat := 0x014
def TCP_PUSH_ACK : Nat := 0x018

/-- The constant `MAX_PACKET_SIZE` of `ethernet.c`. -/
def MAX_PACKET_SIZE : Nat := 1522

/-! ## Process-wide configuration -/

/-- The globals of `eth0.c` and `ethernet.c`.  Address arrays are byte
memories indexed from 0. -/
structure Globals where
  sequenceId : Nat
  macAddress : Mem
  ipAddress : Mem
  ipSubnetMask : Mem
  ipGwAddress : Mem
  mqttBrokerIpAddress : Mem
  mqttBrokerMacAddress : Mem
  sequenceNumber : Nat
  acknowledgementNumber : Nat
  payLoadLength : Nat
  dhcpEnabled : Bool

/-- Well-formed configuration: the arrays hold bytes and the counters fit
their 32-bit type. -/
structure Globals.WF (g : Globals) : Prop where
  mac : IsBytes g.macAddress
  ip : IsBytes g.ipAddress
  brokerIp : IsBytes g.mqttBrokerIpAddress
  brokerMac : IsBytes g.mqttBrokerMacAddress
  seq : g.sequenceNumber < 4294967296
  ack : g.acknowledgementNumber < 4294967296

/-- The connection context `socket`; every field is filled by
`etherFillUpMqttConnectionSocket` before use. -/
structure Socket where
  destAddress : Mem
  sourceAddress : Mem
  destIp : Mem
  sourceIp : Mem
  destPort : Nat
  sourcePort : Nat

/-- What a builder leaves behind: the packet buffer and the size it passed to
`etherPutPacket` (a `uint16_t`). -/
structure TxResult where
  buf : Mem
  size : Nat

/-! ## Loops -/

/-- The loop `for (i = i0; i < i0 + n; i++) body`, for a body that does not
change the bound: `forLoop body n i0 m`. -/
def forLoop (body : Nat → Mem → Mem) : Nat → Nat → Mem → Mem
  | 0, _, m => m
  | n + 1, i, m => forLoop body n (i + 1) (body i m)

/-- The loop `while (ok & (i < n)) { ok = (a[i] == b[i]); i++; }` of the
address comparisons, started at `i` with `fuel` rounds allowed; `n` rounds
always suffice. -/
def eqWhile (a b : Nat → Nat) (n : Nat) : Nat → Nat → Bool → Bool
  | 0, _, ok => ok
  | fuel + 1, i, ok =>
    if ok && decide (i < n) then eqWhile a b n fuel (i + 1) (decide (a i = b i)) else ok

/-- The copy loop `for (i = 0; i < n; i++) dst[i] = src[i];` with a `uint8_t`
counter `i` and a 16-bit bound `n`: the counter wraps at 256, so the loop
only ends when `n <= 255`.  The result is `none` when `fuel` rounds do not
reach the end. -/
def copyLoopU8 (src : Mem) (dst n : Nat) : Nat → Nat → Mem → Option Mem
  | 0, _, _ => none
  | fuel + 1, i, m =>
    if i < n then copyLoopU8 src dst n fuel ((i + 1) % 256) (wr m (dst + i) (src i))
    else some m

/-! ## Configuration accessors -/

/-- The function `etherGetMacAddress(mac)`. -/
def etherGetMacAddress (g : Globals) (mac : Mem) : Mem :=
  forLoop (fun i m => wr m i (g.macAddress i)) 6 0 mac

/-- The function `etherGetIpAddress(ip)`. -/
def etherGetIpAddress (g : Globals) (ip : Mem) : Mem :=
  forLoop (fun i m => wr m i (g.ipAddress i)) 4 0 ip

/-- The function `etherGetMqttBrokerIpAddress(mqttBIp)`. -/
def etherGetMqttBrokerIpAddress (g : Globals) (mqttBIp : Mem) : Mem :=
  forLoop (fun i m => wr m i (g.mqttBrokerIpAddress i)) 4 0 mqttBIp

/-- The function `etherGetMqttBrokerMacAddress(mqttBMac)`. -/
def etherGetMqttBrokerMacAddress (g : Globals) (mqttBMac : Mem) : Mem :=
  forLoop (fun i m => wr m i (g.mqttBrokerMacAddress i)) 6 0 mqttBMac

/-- The function `etherSetIpAddress(ip0, ip1, ip2, ip3)` (`uint8_t` arguments). -/
def etherSetIpAddress (g : Globals) (ip0 ip1 ip2 ip3 : Nat) : Globals :=
  { g with
    ipAddress :=
      wr (wr (wr (wr g.ipAddress 0 (ip0 % 256)) 1 (ip1 % 256)) 2 (ip2 % 256)) 3 (ip3 % 256) }

/-- The function `etherSetMqttBrokerIp(b0, b1, b2, b3)` (`uint8_t` arguments). -/
def etherSetMqttBrokerIp (g : Globals) (b0 b1 b2 b3 : Nat) : Globals :=
  { g with
    mqttBrokerIpAddress :=
      wr (wr (wr (wr g.mqttBrokerIpAddress 0 (b0 % 256)) 1 (b1 % 256)) 2 (b2 % 256))
        3 (b3 % 256) }

/-- The function `etherStoreMqttMacAddress(ether)`: copy the ARP sender hardware
address of the frame in the buffer into `mqttBrokerMacAddress`. -/
def etherStoreMqttMacAddress (g : Globals) (ether : Mem) : Globals :=
  { g with
    mqttBrokerMacAddress :=
      forLoop (fun i a => wr a i (ether (ETH_DATA + ARP_SOURCE_ADDRESS + i))) HW_ADD_LENGTH 0
        g.mqttBrokerMacAddress }

/-- The function `etherFillUpMqttConnectionSocket(s)`. -/
def etherFillUpMqttConnectionSocket (g : Globals) (s : Socket) : Socket :=
  { destAddress := etherGetMqttBrokerMacAddress g s.destAddress
    sourceAddress := etherGetMacAddress g s.sourceAddress
    destIp := etherGetMqttBrokerIpAddress g s.destIp
    sourceIp := etherGetIpAddress g s.sourceIp
    destPort := htons 1883
    sourcePort := htons 110 }

/-! ## Frame classifier -/

/-- The function `etherIsIp(ether)`. -/
def etherIsIp (ether : Mem) : Bool :=
  let ip := ETH_DATA
  let len := ipHeaderLength ether ip
  if rd16 ether ETH_FRAME_TYPE = htons 0x0800 then
    decide (getEtherChecksum (etherSumWords ether (ip + IP_REV_SIZE) len 0) = 0)
  else false

/-- The function `etherIsIpUnicast(ether)`. -/
def etherIsIpUnicast (g : Globals) (ether : Mem) : Bool :=
  eqWhile (fun i => ether (ETH_DATA + IP_DEST_IP + i)) g.ipAddress IP_ADD_LENGTH
    IP_ADD_LENGTH 0 true

/-- The function `etherIsPingRequest(ether)`:
`(ip->protocol == 0x01 & icmp->type == 8)`. -/
def etherIsPingRequest (ether : Mem) : Bool :=
  let ip := ETH_DATA
  let icmp := ip + ipHeaderLength ether ip
  decide (ether (ip + IP_PROTOCOL) = 1) && decide (ether (icmp + ICMP_TYPE) = 8)

/-- The function `etherIsArpRequest(ether)`. -/
def etherIsArpRequest (g : Globals) (ether : Mem) : Bool :=
  let arp := ETH_DATA
  let ok := decide (rd16 ether ETH_FRAME_TYPE = htons 0x0806)
  let ok := eqWhile (fun i => ether (arp + ARP_DEST_IP + i)) g.ipAddress IP_ADD_LENGTH
    IP_ADD_LENGTH 0 ok
  if ok then decide (rd16 ether (arp + ARP_OP) = htons 1) else ok

/-- The function `etherIsArpReply(ether)`. -/
def etherIsArpReply (g : Globals) (ether : Mem) : Bool :=
  let arp := ETH_DATA
  let ok := decide (rd16 ether ETH_FRAME_TYPE = htons 0x0806)
  let ok := eqWhile (fun i => ether (arp + ARP_DEST_IP + i)) g.ipAddress IP_ADD_LENGTH
    IP_ADD_LENGTH 0 ok
  if ok then decide (rd16 ether (arp + ARP_OP) = htons 2) else ok

/-- The function `etherIsUdp(ether)`. -/
def etherIsUdp (ether : Mem) : Bool :=
  let ip := ETH_DATA
  let udp := ip + ipHeaderLength ether ip
  if ether (ip + IP_PROTOCOL) = 0x11 then
    let sum := etherSumWords ether (ip + IP_SOURCE_IP) 8 0
    let tmp16 := ether (ip + IP_PROTOCOL)
    let sum := (sum + tmp16 % 256 * 256) % 4294967296
    let sum := etherSumWords ether (udp + UDP_LENGTH) 2 sum
    let sum := etherSumWords ether udp (htons (rd16 ether (udp + UDP_LENGTH))) sum
    decide (getEtherChecksum sum = 0)
  else false

/-- The function `etherIsTcp(ether)`. -/
def etherIsTcp (ether : Mem) : Bool :=
  decide (ether (ETH_DATA + IP_PROTOCOL) = 0x06)

/-- The function `etherIsTcpAck(ether)`. -/
def etherIsTcpAck (ether : Mem) : Bool :=
  if etherIsTcp ether then
    let ip := ETH_DATA
    let tcp := ip + ipHeaderLength ether ip
    let tcpFieldType := htons (rd16 ether (tcp + TCP_OFFSET_FIELDS)) % 4096
    decide (tcpFieldType = TCP_SYNACK) || decide (tcpFieldType = TCP_ACK)
      || decide (tcpFieldType = TCP_PUSH_ACK) || decide (tcpFieldType = TCP_FIN_ACK)
      || decide (tcpFieldType = TCP_REST_ACK)
  else false

/-! ## Classifiers of TCP and MQTT segments addressed to this node -/

/-- The loop `for (i = 0; i < n; i++) ok &= (a[i] == b[i]);` of the hardware
address comparisons, started at `i`: `andEqLoop a b n i ok`. -/
def andEqLoop (a b : Nat → Nat) : Nat → Nat → Bool → Bool
  | 0, _, ok => ok
  | n + 1, i, ok => andEqLoop a b n (i + 1) (ok && decide (a i = b i))

/-- The assignment `ok = v;` to a variable that already holds a value: the old
value is dropped. -/
def overwrite (_old v : Bool) : Bool := v

/-- The function `etherIsTcpFinAck(ether)`: the result of the address
comparison is in `ok` when `ok = (tcpFieldType == TCP_FIN_ACK)` assigns it
anew. -/
def etherIsTcpFinAck (g : Globals) (ether : Mem) : Bool :=
  let ok := andEqLoop (fun i => ether (ETH_DEST + i)) g.macAddress HW_ADD_LENGTH 0 true
  let ip := ETH_DATA
  let tcp := ip + ipHeaderLength ether ip
  let tcpFieldType := htons (rd16 ether (tcp + TCP_OFFSET_FIELDS)) % 4096
  overwrite ok (decide (tcpFieldType = TCP_FIN_ACK))

/-- The function `etherIsTcpResetAck(ether)`, of the same shape. -/
def etherIsTcpResetAck (g : Globals) (ether : Mem) : Bool :=
  let ok := andEqLoop (fun i => ether (ETH_DEST + i)) g.macAddress HW_ADD_LENGTH 0 true
  let ip := ETH_DATA
  let tcp := ip + ipHeaderLength ether ip
  let tcpFieldType := htons (rd16 ether (tcp + TCP_OFFSET_FIELDS)) % 4096
  overwrite ok (decide (tcpFieldType = TCP_REST_ACK))

/-- The function `etherIsMqttConnectAck(ether)`; `copyData` is `tcp->data`, the
byte 20 past the start of the TCP header. -/
def etherIsMqttConnectAck (g : Globals) (ether : Mem) : Bool :=
  let ok := andEqLoop (fun i => ether (ETH_DEST + i)) g.macAddress HW_ADD_LENGTH 0 true
  let ip := ETH_DATA
  let tcp := ip + ipHeaderLength ether ip
  let copyData := tcp + TCP_DATA
  if ok then
    -- Is it Connect Ack Mqtt Payload
    let ok := overwrite ok (decide (ether (copyData + 0) = 0x20))
    -- It it an accepted connection
    ok && decide (ether (copyData + 2) = 0x00)
  else ok

/-- The function `etherIsMqttSubAck(ether)`: the result and the globals, in which
it stores `payLoadLength` (a `uint32_t`). -/
def etherIsMqttSubAck (g : Globals) (ether : Mem) : Bool × Globals :=
  let ok := andEqLoop (fun i => ether (ETH_DEST + i)) g.macAddress HW_ADD_LENGTH 0 true
  let ip := ETH_DATA
  let tcp := ip + ipHeaderLength ether ip
  let copyData := tcp + TCP_DATA
  if ok then
    let ok := ok && decide (ether (copyData + 0) = 0x90)
    (ok, { g with payLoadLength := (ether (copyData + 1) + 2) % 4294967296 })
  else (ok, g)

/-- The function `etherIsMqttUnSubAck(ether)`. -/
def etherIsMqttUnSubAck (g : Globals) (ether : Mem) : Bool × Globals :=
  let ok := andEqLoop (fun i => ether (ETH_DEST + i)) g.macAddress HW_ADD_LENGTH 0 true
  let ip := ETH_DATA
  let tcp := ip + ipHeaderLength ether ip
  let copyData := tcp + TCP_DATA
  if ok then
    let ok := ok && decide (ether (copyData + 0) = 0xb0)
    (ok, { g with payLoadLength := (ether (copyData + 1) + 2) % 4294967296 })
  else (ok, g)

/-- The function `etherIsMqttPublish(ether)`. -/
def etherIsMqttPublish (g : Globals) (ether : Mem) : Bool × Globals :=
  let ok := andEqLoop (fun i => ether (ETH_DEST + i)) g.macAddress HW_ADD_LENGTH 0 true
  let ip := ETH_DATA
  let tcp := ip + ipHeaderLength ether ip
  let copyData := tcp + TCP_DATA
  if ok then
    let ok := ok && decide (ether (copyData + 0) = 0x30)
    (ok, { g with payLoadLength := (ether (copyData + 1) + 2) % 4294967296 })
  else (ok, g)

/-- The fourteen classifier predicates of `eth0.c`. -/
inductive Classifier where
  | isIp
  | isIpUnicast
  | isArpRequest
  | isArpReply
  | isPingRequest
  | isUdp
  | isTcp
  | isTcpAck
  | isTcpFinAck
  | isTcpResetAck
  | isMqttConnectAck
  | isMqttSubAck
  | isMqttUnSubAck
  | isMqttPublish

/-- A call of classifier `c` on the buffer `ether` with globals `g`: its result
and the globals after the call.  The classifiers receive the buffer through a
pointer and contain no store through it, so the buffer after the call is the
buffer before; only three of them assign a global. -/
def classify (c : Classifier) (g : Globals) (ether : Mem) : Bool × Globals :=
  match c with
  | Classifier.isIp => (etherIsIp ether, g)
  | Classifier.isIpUnicast => (etherIsIpUnicast g ether, g)
  | Classifier.isArpRequest => (etherIsArpRequest g ether, g)
  | Classifier.isArpReply => (etherIsArpReply g ether, g)
  | Classifier.isPingRequest => (etherIsPingRequest ether, g)
  | Classifier.isUdp => (etherIsUdp ether, g)
  | Classifier.isTcp => (etherIsTcp ether, g)
  | Classifier.isTcpAck => (etherIsTcpAck ether, g)
  | Classifier.isTcpFinAck => (etherIsTcpFinAck g ether, g)
  | Classifier.isTcpResetAck => (etherIsTcpResetAck g ether, g)
  | Classifier.isMqttConnectAck => (etherIsMqttConnectAck g ether, g)
  | Classifier.isMqttSubAck => etherIsMqttSubAck g ether
  | Classifier.isMqttUnSubAck => etherIsMqttUnSubAck g ether
  | Classifier.isMqttPublish => etherIsMqttPublish g ether

/-! ## Classifier calls on a memory -/

/-- The frame seen through the pointer `ether` into the memory `m`: the byte at
offset `i` of the frame is the byte of `m` at address `ether + i`. -/
def view (m : Mem) (ether : Nat) : Mem := fun i => m (ether + i)

/-- Loop of `etherSumWords(data, sizeInBytes, sum)` on a memory that holds both
the data and the accumulator: each round loads `*pData` at address `p` and loads
and stores the `uint32_t` at address `sum` (`*sum += ...`). -/
def etherSumWordsAtLoop (sum : Nat) : Nat → Nat → Nat → Mem → Mem
  | 0, _, _, m => m
  | n + 1, p, phase, m =>
    etherSumWordsAtLoop sum n (p + 1) (1 - phase)
      (wr32 m sum
        (if phase ≠ 0 then (rd32 m sum + m p * 256) % 4294967296
          else (rd32 m sum + m p) % 4294967296))

/-- The function `etherSumWords(data, sizeInBytes, sum)` with `data` and `sum`
as addresses in `m`; the result is the memory after the call. -/
def etherSumWordsAt (m : Mem) (data sizeInBytes sum : Nat) : Mem :=
  etherSumWordsAtLoop sum sizeInBytes data 0 m

/-- The function `etherIsIp(ether)` as a call on the memory `m`: `ether` is the
address of the frame and `sum` the address of the local `uint32_t sum`, the only
object the function stores to (`sum = 0`, then through `&sum` in
`etherSumWords`).  The result is the returned value and the memory after the
call. -/
def etherIsIpAt (m : Mem) (ether sum : Nat) : Bool × Mem :=
  let ip := ether + ETH_DATA
  let len := ipHeaderLength m ip
  let m := wr32 m sum 0
  if rd16 m (ether + ETH_FRAME_TYPE) = htons 0x0800 then
    let m := etherSumWordsAt m (ip + IP_REV_SIZE) len sum
    (decide (getEtherChecksum (rd32 m sum) = 0), m)
  else (false, m)

/-- The function `etherIsUdp(ether)` as a call on the memory `m`, with the local
`uint32_t sum` at address `sum`. -/
def etherIsUdpAt (m : Mem) (ether sum : Nat) : Bool × Mem :=
  let ip := ether + ETH_DATA
  let udp := ip + ipHeaderLength m ip
  let m := wr32 m sum 0
  if m (ip + IP_PROTOCOL) = 0x11 then
    let m := etherSumWordsAt m (ip + IP_SOURCE_IP) 8 sum
    let tmp16 := m (ip + IP_PROTOCOL)
    let m := wr32 m sum ((rd32 m sum + tmp16 % 256 * 256) % 4294967296)
    let m := etherSumWordsAt m (udp + UDP_LENGTH) 2 sum
    let m := etherSumWordsAt m udp (htons (rd16 m (udp + UDP_LENGTH))) sum
    (decide (getEtherChecksum (rd32 m sum) = 0), m)
  else (false, m)

/-- A call of classifier `c` with the pointer `ether` into the memory `m` and
the globals `g`: the returned value, the globals and the memory after the call.
`etherIsIp` and `etherIsUdp` store to their local `sum`, which is placed at
address `sum`; the other twelve functions contain no store through a pointer,
and the only call among them that passes `ether` on, `etherIsTcp(ether)` in
`etherIsTcpAck`, is to such a function, so their memory after the call is `m`. -/
def classifyAt (c : Classifier) (g : Globals) (m : Mem) (ether sum : Nat) :
    Bool × Globals × Mem :=
  match c with
  | Classifier.isIp => ((etherIsIpAt m ether sum).1, g, (etherIsIpAt m ether sum).2)
  | Classifier.isIpUnicast => (etherIsIpUnicast g (view m ether), g, m)
  | Classifier.isArpRequest => (etherIsArpRequest g (view m ether), g, m)
  | Classifier.isArpReply => (etherIsArpReply g (view m ether), g, m)
  | Classifier.isPingRequest => (etherIsPingRequest (view m ether), g, m)
  | Classifier.isUdp => ((etherIsUdpAt m ether sum).1, g, (etherIsUdpAt m ether sum).2)
  | Classifier.isTcp => (etherIsTcp (view m ether), g, m)
  | Classifier.isTcpAck => (etherIsTcpAck (view m ether), g, m)
  | Classifier.isTcpFinAck => (etherIsTcpFinAck g (view m ether), g, m)
  | Classifier.isTcpResetAck => (etherIsTcpResetAck g (view m ether), g, m)
  | Classifier.isMqttConnectAck => (etherIsMqttConnectAck g (view m ether), g, m)
  | Classifier.isMqttSubAck =>
    ((etherIsMqttSubAck g (view m ether)).1, (etherIsMqttSubAck g (view m ether)).2, m)
  | Classifier.isMqttUnSubAck =>
    ((etherIsMqttUnSubAck g (view m ether)).1, (etherIsMqttUnSubAck g (view m ether)).2, m)
  | Classifier.isMqttPublish =>
    ((etherIsMqttPublish g (view m ether)).1, (etherIsMqttPublish g (view m ether)).2, m)

/-! ## Message builders -/

/-- Body of the swap loops: `tmp = d[i]; d[i] = s[i]; s[i] = tmp;` for the
arrays at offsets `d` and `s`. -/
def swapBody (d s : Nat) (i : Nat) (m : Mem) : Mem :=
  let tmp := m (d + i)
  let m1 := wr m (d + i) (m (s + i))
  wr m1 (s + i) tmp

/-- The function `etherSendPingResponse(ether)`. -/
def etherSendPingResponse (ether : Mem) : TxResult :=
  let ip := ETH_DATA
  let ipHeaderLen := ipHeaderLength ether ip
  let icmp := ip + ipHeaderLen
  -- swap source and destination fields
  let m := forLoop (swapBody ETH_DEST ETH_SOURCE) HW_ADD_LENGTH 0 ether
  let m := forLoop (swapBody (ip + IP_DEST_IP) (ip + IP_SOURCE_IP)) IP_ADD_LENGTH 0 m
  -- this is a response
  let m := wr m (icmp + ICMP_TYPE) 0
  -- calc icmp checksum
  let m := wr16 m (icmp + ICMP_CHECK) 0
  let icmp_size := (htons (rd16 m (ip + IP_LENGTH)) + 65536 - ipHeaderLen) % 65536
  let sum := etherSumWords m icmp icmp_size 0
  let m := wr16 m (icmp + ICMP_CHECK) (getEtherChecksum sum)
  -- send packet
  { buf := m, size := (ETHER_HEADER_SIZE + htons (rd16 m (ip + IP_LENGTH))) % 65536 }

/-- Body of the first loop of `etherSendArpResponse`. -/
def arpResponseBody (g : Globals) (i : Nat) (m : Mem) : Mem :=
  let arp := ETH_DATA
  let m := wr m (arp + ARP_DEST_ADDRESS + i) (m (arp + ARP_SOURCE_ADDRESS + i))
  let m := wr m (ETH_DEST + i) (m (ETH_SOURCE + i))
  let m := wr m (arp + ARP_SOURCE_ADDRESS + i) (g.macAddress i)
  wr m (ETH_SOURCE + i) (m (arp + ARP_SOURCE_ADDRESS + i))

/-- The function `etherSendArpResponse(ether)`. -/
def etherSendArpResponse (g : Globals) (ether : Mem) : TxResult :=
  let arp := ETH_DATA
  -- set op to response
  let m := wr16 ether (arp + ARP_OP) (htons 2)
  -- swap source and destination fields
  let m := forLoop (arpResponseBody g) HW_ADD_LENGTH 0 m
  let m := forLoop (swapBody (arp + ARP_DEST_IP) (arp + ARP_SOURCE_IP)) IP_ADD_LENGTH 0 m
  { buf := m, size := ETHER_HEADER_SIZE + ARP_PACKET_SIZE }

/-- The function `etherSendArpRequest(ether, ip)`. -/
def etherSendArpRequest (g : Globals) (ether : Mem) (ipArg : Mem) : TxResult :=
  let arp := ETH_DATA
  -- fill ethernet frame
  let m := forLoop (fun i m => wr (wr m (ETH_DEST + i) 0xFF) (ETH_SOURCE + i) (g.macAddress i))
    HW_ADD_LENGTH 0 ether
  let m := wr16 m ETH_FRAME_TYPE 0x0608
  -- fill arp frame
  let m := wr16 m (arp + ARP_HARDWARE_TYPE) (htons 1)
  let m := wr16 m (arp + ARP_PROTOCOL_TYPE) (htons 0x0800)
  let m := wr m (arp + ARP_HARDWARE_SIZE) HW_ADD_LENGTH
  let m := wr m (arp + ARP_PROTOCOL_SIZE) IP_ADD_LENGTH
  let m := wr16 m (arp + ARP_OP) (htons 1)
  let m := forLoop
    (fun i m => wr (wr m (arp + ARP_SOURCE_ADDRESS + i) (g.macAddress i))
      (arp + ARP_DEST_ADDRESS + i) 0xFF)
    HW_ADD_LENGTH 0 m
  let m := forLoop
    (fun i m => wr (wr m (arp + ARP_SOURCE_IP + i) (g.ipAddress i)) (arp + ARP_DEST_IP + i)
      (ipArg i))
    IP_ADD_LENGTH 0 m
  { buf := m, size := ETHER_HEADER_SIZE + ARP_PACKET_SIZE }

/-- The function `etherSendUdpResponse(ether, udpData, udpSize)`; `udpSize` is a
`uint8_t`, so the `uint8_t` counter of the copy loop reaches it without
wrapping. -/
def etherSendUdpResponse (ether : Mem) (udpData : Mem) (udpSize : Nat) : TxResult :=
  let ip := ETH_DATA
  let ipHeaderLen := ipHeaderLength ether ip
  let udp := ip + ipHeaderLen
  -- swap source and destination fields
  let m := forLoop (swapBody ETH_DEST ETH_SOURCE) HW_ADD_LENGTH 0 ether
  let m := forLoop (swapBody (ip + IP_DEST_IP) (ip + IP_SOURCE_IP)) IP_ADD_LENGTH 0 m
  -- set source port of resp will be dest port of req
  let m := wr16 m (udp + UDP_SOURCE_PORT) (rd16 m (udp + UDP_DEST_PORT))
  -- adjust lengths
  let udpLength := (8 + udpSize) % 65536
  let m := wr16 m (ip + IP_LENGTH) (htons ((ipHeaderLen + udpLength) % 65536))
  -- 32-bit sum over ip header
  let m := etherCalcIpChecksum m ip
  -- set udp length
  let m := wr16 m (udp + UDP_LENGTH) (htons udpLength)
  -- copy data
  let m := forLoop (fun i m => wr m (udp + UDP_DATA + i) (udpData i)) udpSize 0 m
  -- 32-bit sum over pseudo-header
  let sum := etherSumWords m (ip + IP_SOURCE_IP) 8 0
  let tmp16 := m (ip + IP_PROTOCOL)
  let sum := (sum + tmp16 % 256 * 256) % 4294967296
  let sum := etherSumWords m (udp + UDP_LENGTH) 2 sum
  -- add udp header
  let m := wr16 m (udp + UDP_CHECK) 0
  let sum := etherSumWords m udp udpLength sum
  let m := wr16 m (udp + UDP_CHECK) (getEtherChecksum sum)
  -- send packet with size = ether + udp hdr + ip header + udp_size
  { buf := m, size := (ETHER_HEADER_SIZE + ipHeaderLen + udpLength) % 65536 }

/-- What `etherSendTcp` leaves behind: the globals (sequence and acknowledgment
numbers), the packet buffer, the socket, and the size passed to
`etherPutPacket`. -/
structure TcpResult where
  g : Globals
  buf : Mem
  s : Socket
  size : Nat

/-- State of `etherSendTcp` after its first part: globals, buffer, socket and
the pointer `tcp` (an offset into the buffer). -/
structure TcpHeaders where
  g : Globals
  buf : Mem
  s : Socket
  tcp : Nat

/-- First part of `etherSendTcp` (up to `tcp->windowSize = htons(1220)`): fill
the socket, the Ethernet header, the IP header and the fixed TCP fields. -/
def etherSendTcpHeaders (g : Globals) (ether : Mem) (s : Socket) (flags : Nat) : TcpHeaders :=
  let s := etherFillUpMqttConnectionSocket g s
  -- Fill up ethernet Header
  let m := forLoop (fun i m => wr m (ETH_SOURCE + i) (s.sourceAddress i)) HW_ADD_LENGTH 0 ether
  let m := forLoop (fun i m => wr m (ETH_DEST + i) (s.destAddress i)) HW_ADD_LENGTH 0 m
  let m := wr16 m ETH_FRAME_TYPE (htons 0x0800)
  let ip := ETH_DATA
  -- Fill up IP Header from socket
  let m := forLoop (fun i m => wr m (ip + IP_SOURCE_IP + i) (s.sourceIp i)) IP_ADD_LENGTH 0 m
  let m := forLoop (fun i m => wr m (ip + IP_DEST_IP + i) (s.destIp i)) IP_ADD_LENGTH 0 m
  let m := wr m (ip + IP_REV_SIZE) 0x45
  let m := wr m (ip + IP_TOS) 0x00
  let m := wr16 m (ip + IP_ID) 0x0000
  let m := wr16 m (ip + IP_FLAGS_OFFSET) 0x0000
  let m := wr m (ip + IP_PROTOCOL) 6
  let m := wr m (ip + IP_TTL) 128
  let tcp := ip + m (ip + IP_REV_SIZE) % 16 * 4
  -- Fill up Tcp Header
  let m := wr16 m (tcp + TCP_SOURCE_PORT) s.sourcePort
  let m := wr16 m (tcp + TCP_DEST_PORT) s.destPort
  let g := if flags = TCP_SYNC then { g with sequenceNumber := 0, acknowledgementNumber := 0 }
    else g
  let m := wr32 m (tcp + TCP_SEQUENCE_NUMBER) g.sequenceNumber
  let m := wr32 m (tcp + TCP_ACKNOWLEDGEMENT_NUMBER) g.acknowledgementNumber
  let m := wr16 m (tcp + TCP_URGENT_POINTER) 0x0000
  let m := wr16 m (tcp + TCP_WINDOW_SIZE) (htons 1220)
  { g := g, buf := m, s := s, tcp := tcp }

/-- Second part of `etherSendTcp`: the three `if` statements on `flags`, which
set `tcpDataOffset` and the offset/flags word, write the option bytes of a SYN
and copy the payload of a PUSH-ACK.  The local `tcpDataOffset` is not
initialised; `tcpDataOffset0` stands for the value it holds when no branch
assigns it.  The result is `none` when the copy loop does not end within
`fuel` rounds. -/
def etherSendTcpFlags (m : Mem) (tcp : Nat) (flags : Nat) (tcpData : Mem) (dataLength : Nat)
    (tcpDataOffset0 : Nat) (fuel : Nat) : Option (Nat × Mem) :=
  let r1 : Nat × Mem :=
    if flags = TCP_SYNC then
      let m := wr16 m (tcp + TCP_OFFSET_FIELDS) (htons ((6 * 4096 + TCP_SYNC) % 65536))
      -- Hardcoding up the options field
      let m := wr m (tcp + TCP_DATA + 0) 0x02
      let m := wr m (tcp + TCP_DATA + 1) 0x04
      let m := wr m (tcp + TCP_DATA + 2) 0x04
      let m := wr m (tcp + TCP_DATA + 3) 0xc4
      (6, m)
    else (tcpDataOffset0, m)
  let r2 : Nat × Mem :=
    if flags = TCP_ACK ∨ flags = TCP_FIN_ACK ∨ flags = TCP_RESET ∨ flags = TCP_REST_ACK
        ∨ flags = TCP_FIN then
      (5, wr16 r1.2 (tcp + TCP_OFFSET_FIELDS) (htons ((5 * 4096 + flags) % 65536)))
    else r1
  if flags = TCP_PUSH_ACK then
    let m := wr16 r2.2 (tcp + TCP_OFFSET_FIELDS) (htons ((5 * 4096 + TCP_PUSH_ACK) % 65536))
    (copyLoopU8 tcpData (tcp + TCP_DATA) dataLength fuel 0 m).map (fun m => (5, m))
  else some r2

/-- Last part of `etherSendTcp` (from `uint16_t tcpLength = ...`): lengths, IP
header checksum, TCP checksum over the pseudo-header and the segment, and the
size passed to `etherPutPacket`. -/
def etherSendTcpFinish (m : Mem) (tcp : Nat) (tcpDataOffset dataLength : Nat) : TxResult :=
  let ip := ETH_DATA
  let tcpLength := (tcpDataOffset * 4 + dataLength) % 65536
  -- Calculate length of IP message and IP header Checksum
  let m := wr16 m (ip + IP_LENGTH) (htons ((m (ip + IP_REV_SIZE) % 16 * 4 + tcpLength) % 65536))
  let m := etherCalcIpChecksum m ip
  -- Calculate size of TCP Header
  let m := wr16 m (tcp + TCP_CHECKSUM) 0
  let sum := etherSumWords m (ip + IP_SOURCE_IP) 8 0
  let temp := (m (ip + IP_PROTOCOL) % 256 * 256) % 65536
  let sum := (sum + temp) % 4294967296
  let sum := (sum + htons tcpLength) % 4294967296
  -- add contents of tcp message
  let sum := etherSumWords m tcp tcpLength sum
  let m := wr16 m (tcp + TCP_CHECKSUM) (getEtherChecksum sum)
  { buf := m, size := (ETHER_HEADER_SIZE + m (ip + IP_REV_SIZE) % 16 * 4 + tcpLength) % 65536 }

/-- The function `etherSendTcp(ether, s, flags, tcpData, dataLength)`. -/
def etherSendTcp (g : Globals) (ether : Mem) (s : Socket) (flags : Nat) (tcpData : Mem)
    (dataLength : Nat) (tcpDataOffset0 : Nat) (fuel : Nat) : Option TcpResult :=
  let h := etherSendTcpHeaders g ether s flags
  match etherSendTcpFlags h.buf h.tcp flags tcpData dataLength tcpDataOffset0 fuel with
  | none => none
  | some (tcpDataOffset, m) =>
    let r := etherSendTcpFinish m h.tcp tcpDataOffset dataLength
    some { g := h.g, buf := r.buf, s := h.s, size := r.size }

/-! ## MQTT payload constructors -/

/-- The loop `while (string[i] != 0) i++;` of `strLen`, with its `uint16_t`
counter started at `i` and `fuel` rounds allowed; `none` when no NUL is reached
within `fuel` rounds. -/
def strLenLoop (string : Mem) : Nat → Nat → Option Nat
  | 0, _ => none
  | fuel + 1, i =>
    if string i ≠ 0 then strLenLoop string fuel ((i + 1) % 65536) else some i

/-- The function `strLen(string)` of `uart0.c`. -/
def strLen (string : Mem) (fuel : Nat) : Option Nat := strLenLoop string fuel 0

/-- The loop `for (i = 0; i < n; i++) dst[i + off] = src[i];` of the payload
constructors, with a `uint8_t` counter `i` and a 16-bit bound `n`, started at
`i` with `fuel` rounds allowed.  The result is the final counter and the
memory, or `none` when the loop does not end within `fuel` rounds. -/
def copyLoopIdxU8 (src : Mem) (off n : Nat) : Nat → Nat → Mem → Option (Nat × Mem)
  | 0, _, _ => none
  | fuel + 1, i, m =>
    if i < n then copyLoopIdxU8 src off n fuel ((i + 1) % 256) (wr m (i + off) (src i))
    else some (i, m)

/-- What a payload constructor leaves behind: the globals (it stores the encoded
length in `payLoadLength`) and the payload buffer it returns.  The buffer
`mqttPayload` is indexed from 0; the strings passed to a constructor are read
from memory of their own, which the constructor does not write. -/
structure MqttResult where
  g : Globals
  mqttPayload : Mem

/-- The function `etherMqttCreateConnectPayload(mqttPayload)`. -/
def etherMqttCreateConnectPayload (g : Globals) (mqttPayload : Mem) : MqttResult :=
  let m := wr mqttPayload 0 0x10
  let m := wr m 1 15
  let m := wr m 2 0x00
  let m := wr m 3 0x04
  let m := wr m 4 77
  let m := wr m 5 81
  let m := wr m 6 84
  let m := wr m 7 84
  let m := wr m 8 0x04
  let m := wr m 9 0x02
  let m := wr m 10 0x00
  let m := wr m 11 0x3c
  let m := wr m 12 0x00
  let m := wr m 13 0x03
  let m := wr m 14 114
  let m := wr m 15 98
  let m := wr m 16 118
  { g := { g with payLoadLength := (m 1 + 2) % 4294967296 }, mqttPayload := m }

/-- The function `etherMqttCreateSubscribePayload(mqttPayload, subTopic)`; each
of its loops is allowed `fuel` rounds. -/
def etherMqttCreateSubscribePayload (g : Globals) (mqttPayload : Mem) (subTopic : Mem)
    (fuel : Nat) : Option MqttResult :=
  (strLen subTopic fuel).bind fun subTopicLength =>
  let m := wr mqttPayload 0 0x82
  let m := wr m 1 ((subTopicLength + 2 + 2 + 1) % 256)
  let m := wr m 2 0x00
  let m := wr m 3 0x0C
  let m := wr16 m 4 (htons subTopicLength)
  (copyLoopIdxU8 subTopic 6 subTopicLength fuel 0 m).map fun r =>
  let m := wr r.2 (r.1 + 6) 0x00
  { g := { g with payLoadLength := (m 1 + 2) % 4294967296 }, mqttPayload := m }

/-- The function `etherMqttCreateUnSubscribePayload(mqttPayload, subTopic)`; each
of its loops is allowed `fuel` rounds. -/
def etherMqttCreateUnSubscribePayload (g : Globals) (mqttPayload : Mem) (subTopic : Mem)
    (fuel : Nat) : Option MqttResult :=
  (strLen subTopic fuel).bind fun subTopicLength =>
  let m := wr mqttPayload 0 0xA2
  let m := wr m 1 ((subTopicLength + 2 + 2) % 256)
  let m := wr m 2 0x00
  let m := wr m 3 0x0C
  let m := wr16 m 4 (htons subTopicLength)
  (copyLoopIdxU8 subTopic 6 subTopicLength fuel 0 m).map fun r =>
  let m := wr r.2 (r.1 + 6) 0x00
  { g := { g with payLoadLength := (m 1 + 2) % 4294967296 }, mqttPayload := m }

/-- The function `etherMqttCreatePublishPayload(mqttPayload, topic, data)`; each
of its loops is allowed `fuel` rounds. -/
def etherMqttCreatePublishPayload (g : Globals) (mqttPayload : Mem) (topic data : Mem)
    (fuel : Nat) : Option MqttResult :=
  (strLen topic fuel).bind fun topicLength =>
  (strLen data fuel).bind fun dataLength =>
  let m := wr mqttPayload 0 0x30
  let m := wr m 1 ((topicLength + dataLength + 2 + 2) % 256)
  let m := wr16 m 2 (htons topicLength)
  (copyLoopIdxU8 topic 4 topicLength fuel 0 m).bind fun r =>
  let i := r.1
  let m := wr r.2 (i + 4) 0x10
  let m := wr m (i + 5) ((0x11 + i) % 256)
  (copyLoopIdxU8 data (i + 6) dataLength fuel 0 m).map fun r2 =>
  let m := r2.2
  { g := { g with payLoadLength := (m 1 + 2) % 4294967296 }, mqttPayload := m }

/-! ## Receive path and main loop -/

/-- The function `etherGetPacket(ether, maxSize)`: the bytes of the received
packet (delivered by the controller, here the list `packet`) overwrite the start
of the buffer, at most `maxSize` of them; the rest of the buffer keeps its old
content.  The result is the buffer and the returned size. -/
def etherGetPacket (ether : Mem) (packet : List Nat) (maxSize : Nat) : Mem × Nat :=
  let size := if packet.length > maxSize then maxSize else packet.length
  (fun i => if i < size then packet.getD i 0 else ether i, size)

/-- The values of the enumeration `state` used by `main`. -/
inductive state where
  | idle
  | sendArpReq
  | waitArpRes
  | sendTcpSyn
  | waitTcpSynAck
  | sendTcpAck
  | tcpConnectionActive
  deriving DecidableEq, Repr

/-- Outcome of the command dispatch of the main loop on one line of terminal
input (`getsUart0`, `parseFields`, `isCommand`): which branch is taken, with
the four integer fields of a `SET IP` or `SET MQTT` command. -/
inductive Command where
  | reboot
  | status
  | setIp (f3 f4 f5 f6 : Nat)
  | setMqtt (f3 f4 f5 f6 : Nat)
  | connect
  | invalid

/-- A frame handed to `etherPutPacket`: the buffer at the time of the call and
the size argument. -/
structure TxFrame where
  frame : Mem
  size : Nat

/-- The variables of `main` and the globals, with two logs that the program does
not keep: `sent`, the frames handed to `etherPutPacket` in order, and
`history`, the values assigned to `currentState` in order.  `resetRequested`
records the write to the reset register by `REBOOT`. -/
structure Machine where
  g : Globals
  buffer : Mem
  s : Socket
  currentState : state
  sent : List TxFrame
  history : List state
  resetRequested : Bool

/-- The assignment `currentState = st`. -/
def Machine.setState (M : Machine) (st : state) : Machine :=
  { M with currentState := st, history := M.history ++ [st] }

/-- A builder ran on the buffer and called `etherPutPacket`. -/
def Machine.transmit (M : Machine) (r : TxResult) : Machine :=
  { M with buffer := r.buf, sent := M.sent ++ [{ frame := r.buf, size := r.size }] }

/-- The calls `etherSendTcp(data, &s, TCP_SYNC)` and `etherSendTcp(data, &s,
TCP_ACK)` of `main` supply three of the five arguments of the definition in
`eth0.c`; the values received for `tcpData` and `dataLength`, and the initial
value of the local `tcpDataOffset`, are not determined by the program text. -/
structure Unspecified where
  tcpData : Mem
  dataLength : Nat
  tcpDataOffset0 : Nat

/-- Terminal processing of one loop iteration (`if (kbhitUart0()) ...`).  Only
the effects on the globals and on `currentState` are kept; terminal output and
EEPROM writes are left out.  REBOOT writes the reset request register: the
model records the request and does not follow the device through the reset. -/
def processCommand (cmd : Option Command) (M : Machine) : Machine :=
  match cmd with
  | none => M
  | some Command.reboot => { M with resetRequested := true }
  | some Command.status => M
  | some (Command.setIp a b c d) => { M with g := etherSetIpAddress M.g a b c d }
  | some (Command.setMqtt a b c d) => { M with g := etherSetMqttBrokerIp M.g a b c d }
  | some Command.connect => M.setState state.sendArpReq
  | some Command.invalid => M

/-- The statement `if (currentState == sendArpReq) ...` of the main loop.  The
local array `mqttBIp` is filled entirely by `etherGetMqttBrokerIpAddress`; its
content before the call, taken as zero, is never read. -/
def stepSendArpReq (M : Machine) : Machine :=
  if M.currentState = state.sendArpReq then
    let mqttBIp := etherGetMqttBrokerIpAddress M.g (fun _ => 0)
    (M.transmit (etherSendArpRequest M.g M.buffer mqttBIp)).setState state.waitArpRes
  else M

/-- The call `etherSendTcp(data, &s, flags)` of the main loop. -/
def sendTcpFromMain (u : Unspecified) (fuel : Nat) (flags : Nat) (M : Machine) :
    Option Machine :=
  (etherSendTcp M.g M.buffer M.s flags u.tcpData u.dataLength u.tcpDataOffset0 fuel).map
    (fun r => { M with g := r.g, s := r.s, buffer := r.buf,
                       sent := M.sent ++ [{ frame := r.buf, size := r.size }] })

/-- The statement `if (currentState == sendTcpSyn) ...` of the main loop. -/
def stepSendTcpSyn (u : Unspecified) (fuel : Nat) (M : Machine) : Option Machine :=
  if M.currentState = state.sendTcpSyn then
    (sendTcpFromMain u fuel TCP_SYNC M).map (fun M => M.setState state.waitTcpSynAck)
  else some M

/-- The statement `if (currentState == sendTcpAck) ...` of the main loop. -/
def stepSendTcpAck (u : Unspecified) (fuel : Nat) (M : Machine) : Option Machine :=
  if M.currentState = state.sendTcpAck then
    (sendTcpFromMain u fuel TCP_ACK M).map (fun M => M.setState state.tcpConnectionActive)
  else some M

/-- The payload `"Received"` (with its terminating NUL) of the UDP reply. -/
def udpReceived : Mem := memOfList [82, 101, 99, 101, 105, 118, 101, 100, 0]

/-- The statement `if (etherIsArpRequest(data)) etherSendArpResponse(data);`. -/
def handleArpRequest (M : Machine) : Machine :=
  if etherIsArpRequest M.g M.buffer then M.transmit (etherSendArpResponse M.g M.buffer) else M

/-- The statement `if (etherIsArpReply(data) && (currentState == waitArpRes)) ...`. -/
def handleArpReply (M : Machine) : Machine :=
  if etherIsArpReply M.g M.buffer && decide (M.currentState = state.waitArpRes) then
    ({ M with g := etherStoreMqttMacAddress M.g M.buffer }).setState state.sendTcpSyn
  else M

/-- The statement `if (etherIsTcp(data)) ...`: on a TCP acknowledgement received
in state `waitTcpSynAck` the sequence and acknowledgment numbers are taken from
the segment and the state becomes `sendTcpAck`. -/
def handleTcp (M : Machine) : Machine :=
  if etherIsTcp M.buffer then
    if etherIsTcpAck M.buffer && decide (M.currentState = state.waitTcpSynAck) then
      let ip := ETH_DATA
      let tcp := ip + ipHeaderLength M.buffer ip
      let g := { M.g with acknowledgementNumber := rd32 M.buffer (tcp + TCP_SEQUENCE_NUMBER) }
      let g := { g with sequenceNumber := rd32 M.buffer (tcp + TCP_ACKNOWLEDGEMENT_NUMBER) }
      ({ M with g := g }).setState state.sendTcpAck
    else M
  else M

/-- The statement `if (etherIsPingRequest(data)) etherSendPingResponse(data);`. -/
def handlePing (M : Machine) : Machine :=
  if etherIsPingRequest M.buffer then M.transmit (etherSendPingResponse M.buffer) else M

/-- The statement `if (etherIsUdp(data)) ...`; the LED commands "on" and "off"
have no effect on the modelled state. -/
def handleUdp (M : Machine) : Machine :=
  if etherIsUdp M.buffer then M.transmit (etherSendUdpResponse M.buffer udpReceived 9) else M

/-- The statement `if (etherIsIp(data)) { if (etherIsIpUnicast(data)) ... }`. -/
def handleIp (M : Machine) : Machine :=
  if etherIsIp M.buffer then
    if etherIsIpUnicast M.g M.buffer then handleUdp (handlePing (handleTcp M)) else M
  else M

/-- Handling of the frame in the buffer (the body of `if (etherIsDataAvailable())`
after `etherGetPacket`). -/
def processPacket (M : Machine) : Machine :=
  handleIp (handleArpReply (handleArpRequest M))

/-- The buffer after `etherGetPacket(data, MAX_PACKET_SIZE)` has stored `packet`
over the buffer `b`. -/
def received (b : Mem) (packet : List Nat) : Mem := (etherGetPacket b packet MAX_PACKET_SIZE).1

/-- Packet processing of one loop iteration: `rx` is the packet waiting in the
controller, if any (`etherIsDataAvailable`).  The overflow check only drives an
LED and is left out. -/
def receive (rx : Option (List Nat)) (M : Machine) : Machine :=
  match rx with
  | none => M
  | some packet =>
    processPacket { M with buffer := received M.buffer packet }

/-- One iteration of the main loop `while (true)`: terminal processing, the
three send states, packet processing. -/
def mainLoopBody (u : Unspecified) (fuel : Nat) (cmd : Option Command) (rx : Option (List Nat))
    (M : Machine) : Option Machine :=
  let M := processCommand cmd M
  let M := stepSendArpReq M
  (stepSendTcpSyn u fuel M).bind fun M =>
  (stepSendTcpAck u fuel M).map fun M =>
  receive rx M

/-- Successive iterations of the main loop on a list of inputs. -/
def mainLoop (u : Unspecified) (fuel : Nat) : List (Option Command × Option (List Nat)) →
    Machine → Option Machine
  | [], M => some M
  | (cmd, rx) :: rest, M => (mainLoopBody u fuel cmd rx M).bind (mainLoop u fuel rest)

/-! ## Byte pairs of a summed buffer -/

/-- The sum of the `k` consecutive byte pairs at `p`, each pair `(b0, b1)` read
as a big-endian word `b0 * 256 + b1`. This reading follows the words of the
specification; it is compared with `etherSumWords`. -/
def bigEndianPairSum (m : Mem) (p : Nat) : Nat → Nat
  | 0 => 0
  | k + 1 => bigEndianPairSum m p k + (m (p + 2 * k) * 256 + m (p + 2 * k + 1))

/-- The sum of the `k` consecutive byte pairs at `p`, each pair `(b0, b1)` read
as a little-endian word `b0 + b1 * 256`. -/
def littleEndianPairSum (m : Mem) (p : Nat) : Nat → Nat
  | 0 => 0
  | k + 1 => littleEndianPairSum m p k + (m (p + 2 * k) + m (p + 2 * k + 1) * 256)

/-! ## Printing a received PUBLISH -/

/-- What `printPublishData` hands to the terminal apart from the fixed texts:
the topic length and the data length passed to `itoa`, and the characters sent
by the two `putcUart0` loops. -/
structure PublishPrint where
  topicLength : Nat
  topic : List Nat
  dataLength : Nat
  data : List Nat
deriving DecidableEq

/-- A loop `for (i = 0; i < bound; i++) putcUart0(p[off + i]);` with a `uint8_t`
counter, started at `i` with `fuel` rounds allowed and `out` already sent.  The
result is the final counter and the characters sent, or `none` when the loop
does not end within `fuel` rounds. -/
def printLoopU8 (m : Mem) (off bound : Nat) : Nat → Nat → List Nat → Option (Nat × List Nat)
  | 0, _, _ => none
  | fuel + 1, i, out =>
    if i < bound then printLoopU8 m off bound fuel ((i + 1) % 256) (out ++ [m (off + i)])
    else some (i, out)

/-- The function `printPublishData(ether)`.  The topic length is the 16-bit
value at payload bytes 2..3; the data length is the `uint8_t` value of
`copyData[1] - 4 - topicLength`; the data loop reads from `copyData[i + j + 6]`
with `i` as the topic loop left it. -/
def printPublishData (ether : Mem) (fuel : Nat) : Option PublishPrint :=
  let ip := ETH_DATA
  let ipHeaderLen := ipHeaderLength ether ip
  let tcp := ip + ipHeaderLen
  let copyData := tcp + TCP_DATA
  let topicLength := htons (rd16 ether (copyData + 2))
  (printLoopU8 ether (copyData + 4) topicLength fuel 0 []).bind fun r =>
  let i := r.1
  let dataLength := (ether (copyData + 1) + 65792 - 4 - topicLength) % 256
  (printLoopU8 ether (copyData + i + 6) dataLength fuel 0 []).map fun r2 =>
  { topicLength := topicLength, topic := r.2, dataLength := dataLength, data := r2.2 }

/-! ## Terminal functions (`uart0.c`) -/

/-- The constant `MAX_CHARS` of `uart0.h`. -/
def MAX_CHARS : Nat := 80

/-- The constant `MAX_FIELDS` of `uart0.h`. -/
def MAX_FIELDS : Nat := 30

/-- The structure `USER_DATA` of `uart0.h`: `buffer` has `MAX_CHARS + 1` cells,
`fieldPositon` and `fieldType` have `MAX_FIELDS` cells; each array is a memory of
its own indexed from 0, so that a store beyond the end of an array shows as a
store at an index beyond its size. -/
structure USER_DATA where
  buffer : Mem
  fieldCount : Nat
  fieldPositon : Mem
  fieldType : Mem

/-- The loop of `getsUart0(data)` with `count` characters stored.  The characters
delivered by the successive calls of `getcUart0` are the list `input`; the
result is the buffer and the characters not yet read, or `none` when the input
ends before the function returns (`getcUart0` then waits).  Plain `char` is
unsigned on the target, so `c >= 32` holds for the codes 32 to 255. -/
def getsUart0Loop : List Nat → Nat → Mem → Option (Mem × List Nat)
  | [], count, buffer => if count < MAX_CHARS then none else some (buffer, [])
  | c :: rest, count, buffer =>
    if count < MAX_CHARS then
      if c = 8 ∨ c = 127 then
        if count > 0 then getsUart0Loop rest (count - 1) buffer
        else getsUart0Loop rest count buffer
      else if c = 13 ∨ c = 10 then some (wr buffer count 0, rest)
      else if c ≥ 32 then
        if (count + 1) % 256 = MAX_CHARS then
          some (wr (wr buffer count c) ((count + 1) % 256) 0, rest)
        else getsUart0Loop rest ((count + 1) % 256) (wr buffer count c)
      else getsUart0Loop rest count buffer
    else some (buffer, c :: rest)

/-- The function `getsUart0(data)`. -/
def getsUart0 (data : USER_DATA) (input : List Nat) : Option (USER_DATA × List Nat) :=
  (getsUart0Loop input 0 data.buffer).map fun r => ({ data with buffer := r.1 }, r.2)

/-- The test `(c > 47 && c < 58) || (c > 64 && c < 91) || (c > 96 && c < 122)`
of `parseFields`. -/
def isFieldChar (c : Nat) : Bool :=
  (decide (c > 47) && decide (c < 58)) || (decide (c > 64) && decide (c < 91))
    || (decide (c > 96) && decide (c < 122))

/-- The loop of `parseFields(data)` with its `uint8_t` counters `i` and `j` and
`fuel` rounds allowed; `none` when the loop does not end within `fuel` rounds.
When `j` exceeds `MAX_FIELDS - 1` the function prints a message and returns
without assigning `fieldCount`. -/
def parseFieldsLoop : Nat → USER_DATA → Nat → Nat → Option USER_DATA
  | 0, _, _, _ => none
  | fuel + 1, data, i, j =>
    if data.buffer i ≠ 0 then
      let buffer :=
        if data.buffer i ≥ 97 ∧ data.buffer i ≤ 122 then wr data.buffer i (data.buffer i - 32)
        else data.buffer
      let r : USER_DATA × Nat :=
        if i = 0 then
          if isFieldChar (buffer i) then
            ({ data with buffer := buffer, fieldPositon := wr data.fieldPositon j i },
              (j + 1) % 256)
          else ({ data with buffer := wr buffer i 0 }, j)
        else
          if isFieldChar (buffer i) then
            if buffer (i - 1) = 0 then
              ({ data with buffer := buffer, fieldPositon := wr data.fieldPositon j i },
                (j + 1) % 256)
            else ({ data with buffer := buffer }, j)
          else ({ data with buffer := wr buffer i 0 }, j)
      if r.2 ≤ MAX_FIELDS - 1 then parseFieldsLoop fuel r.1 ((i + 1) % 256) r.2
      else some r.1
    else some { data with fieldCount := (j + 1) % 256 }

/-- The function `parseFields(data)`. -/
def parseFields (data : USER_DATA) (fuel : Nat) : Option USER_DATA :=
  parseFieldsLoop fuel data 0 0

/-- The loop of `reverse(s, l)`: `for (i = 0; i < j; i++) { swap s[i], s[j]; j--; }`
with `uint8_t` counters, `fuel` rounds allowed. -/
def reverseLoop : Nat → Mem → Nat → Nat → Option Mem
  | 0, _, _, _ => none
  | fuel + 1, s, i, j =>
    if i < j then
      reverseLoop fuel (wr (wr s i (s j)) j (s i)) ((i + 1) % 256) ((j + 255) % 256)
    else some s

/-- The function `reverse(s, l)`; `j` starts at the `uint8_t` value of `l - 1`. -/
def reverse (s : Mem) (l : Nat) (fuel : Nat) : Option Mem :=
  reverseLoop fuel s 0 ((l + 255) % 256)

/-- The byte stored by an assignment of an `int` value to a `char`. -/
def charOfInt (c : Int) : Nat := (c % 256).toNat

/-- A 32-bit two's complement value: the result of `int` arithmetic on the
target, where an overflow (which C leaves undefined) wraps. -/
def wrapInt (x : Int) : Int := (x + 2147483648) % 4294967296 - 2147483648

/-- The loop `while (num != 0) { rem = num % base; str[i++] = ...; num = num/base; }`
of `itoa`, with the truncating division of C; the result is the final `num`,
the final `i` and the string. -/
def itoaDigits (base : Int) : Nat → Int → Nat → Mem → Option (Int × Nat × Mem)
  | 0, _, _, _ => none
  | fuel + 1, num, i, str =>
    if num ≠ 0 then
      let rem := Int.tmod num base
      itoaDigits base fuel (Int.tdiv num base) (i + 1)
        (wr str i (charOfInt (if rem > 9 then (rem - 10) + 65 else rem + 48)))
    else some (num, i, str)

/-- The loop `while (num == 0 && i <= 7 && base == 16) str[i++] = '0';` of `itoa`. -/
def itoaPad (num base : Int) : Nat → Nat → Mem → Option (Nat × Mem)
  | 0, _, _ => none
  | fuel + 1, i, str =>
    if num = 0 ∧ i ≤ 7 ∧ base = 16 then itoaPad num base fuel (i + 1) (wr str i 48)
    else some (i, str)

/-- The function `itoa(num, str, base)`; the result is the content of `str`,
which the function returns. -/
def itoa (num : Int) (str : Mem) (base : Int) (fuel : Nat) : Option Mem :=
  if num = 0 then
    (itoaPad num base fuel 1 (wr str 0 48)).map fun r => wr r.2 r.1 0
  else
    let isNegative := decide (num < 0 ∧ base = 10)
    let num := if num < 0 ∧ base = 10 then wrapInt (-num) else num
    (itoaDigits base fuel num 0 str).bind fun r =>
    let num := r.1
    let i := if isNegative then r.2.1 + 1 else r.2.1
    let str := if isNegative then wr r.2.2 r.2.1 45 else r.2.2
    (itoaPad num base fuel i str).bind fun r2 =>
    reverse (wr r2.2 r2.1 0) (r2.1 % 256) fuel

/-! ## Lines and decimal strings (specification side) -/

/-- The line held after the characters of `input` have been typed, starting
from the stored characters `line`: a backspace (8 or 127) removes the last
stored character if any, a carriage return or line feed ends the line, a
character of code 32 or more is appended and ends the line when it is the 80th,
any other character is ignored.  The result is the line and the characters not
yet read, or `none` when the input ends first. -/
def editLine : List Nat → List Nat → Option (List Nat × List Nat)
  | [], _ => none
  | c :: rest, line =>
    if c = 8 ∨ c = 127 then editLine rest line.dropLast
    else if c = 13 ∨ c = 10 then some (line, rest)
    else if 32 ≤ c then
      if (line ++ [c]).length = 80 then some (line ++ [c], rest)
      else editLine rest (line ++ [c])
    else editLine rest line

/-- Letters and digits. -/
def isAlnum (c : Nat) : Bool :=
  (decide (48 ≤ c) && decide (c ≤ 57)) || (decide (65 ≤ c) && decide (c ≤ 90))
    || (decide (97 ≤ c) && decide (c ≤ 122))

/-- Upper case of a lowercase letter, any other character as it is. -/
def toUpper (c : Nat) : Nat := if 97 ≤ c ∧ c ≤ 122 then c - 32 else c

/-- Index `s` starts a maximal run of letters and digits of `line`. -/
def isRunStart (line : Mem) (s : Nat) : Bool :=
  isAlnum (line s) && (decide (s = 0) || !isAlnum (line (s - 1)))

/-- The number of maximal runs of letters and digits that start below index `n`. -/
def countRuns (line : Mem) : Nat → Nat
  | 0 => 0
  | n + 1 => countRuns line n + (if isRunStart line n then 1 else 0)

/-- The canonical decimal representation of an integer as character codes: a
leading `'-'` for a negative value, then the decimal digits of the absolute
value, most significant first, without leading zeros; the single digit `'0'`
for zero. -/
def decimalString (num : Int) : List Nat :=
  if num = 0 then [48]
  else (if num < 0 then [45] else []) ++ ((Nat.digits 10 num.natAbs).reverse.map (· + 48))

/-! ## Closed form of the word sum (specification side) -/

/-- Weight of the byte at index `i` of a summed region: the loop of
`etherSumWords` adds bytes at even indices as they are and bytes at odd indices
shifted left by 8. -/
def byteWeight (i : Nat) : Nat := if i % 2 = 1 then 256 else 1

/-- Exact (unbounded) sum of the weighted bytes `m p .. m (p + n - 1)`. -/
def wordSum (m : Mem) (p : Nat) : Nat → Nat
  | 0 => 0
  | n + 1 => wordSum m p n + m (p + n) * byteWeight n

/-! ## Pseudo-headers (specification side) -/

/-- The 12-byte TCP pseudo-header of the frame: source IP, destination IP, a
zero byte, protocol 6 and the TCP length in network byte order. -/
def tcpPseudoHeader (frame : Mem) (tcpLength : Nat) : Mem :=
  memOfList [frame (ETH_DATA + IP_SOURCE_IP + 0), frame (ETH_DATA + IP_SOURCE_IP + 1),
    frame (ETH_DATA + IP_SOURCE_IP + 2), frame (ETH_DATA + IP_SOURCE_IP + 3),
    frame (ETH_DATA + IP_DEST_IP + 0), frame (ETH_DATA + IP_DEST_IP + 1),
    frame (ETH_DATA + IP_DEST_IP + 2), frame (ETH_DATA + IP_DEST_IP + 3),
    0, 6, tcpLength / 256 % 256, tcpLength % 256]

/-! ## Example data -/

/-- A 20-byte IPv4 header (ICMP, 192.168.1.10 to 192.168.1.112) with a stale
checksum field. -/
def exampleIpHeader : Mem :=
  memOfList [0x45, 0, 0, 0x54, 0xab, 0xcd, 0x40, 0, 64, 1, 0x12, 0x34,
    192, 168, 1, 10, 192, 168, 1, 112]

/-- All-zero memory. -/
def zeroMem : Mem := fun _ => 0

/-- A configuration: local MAC 02:03:04:05:06:70, local IP 192.168.1.112, broker
IP 192.168.1.10, broker MAC not yet resolved. -/
def exampleGlobals : Globals :=
  { sequenceId := 1
    macAddress := memOfList [2, 3, 4, 5, 6, 112]
    ipAddress := memOfList [192, 168, 1, 112]
    ipSubnetMask := memOfList [255, 255, 255, 0]
    ipGwAddress := memOfList [192, 168, 1, 1]
    mqttBrokerIpAddress := memOfList [192, 168, 1, 10]
    mqttBrokerMacAddress := memOfList [0, 0, 0, 0, 0, 0]
    sequenceNumber := 0
    acknowledgementNumber := 0
    payLoadLength := 0
    dhcpEnabled := false }

/-- A socket with all fields zero. -/
def exampleSocket : Socket :=
  { destAddress := zeroMem, sourceAddress := zeroMem, destIp := zeroMem, sourceIp := zeroMem,
    destPort := 0, sourcePort := 0 }

/-- A three-byte payload. -/
def examplePayload : Mem := memOfList [0xE0, 0x00, 0x7F]

/-- A UDP request (port 1024, payload "on") from 192.168.1.10 to 192.168.1.112;
the checksum fields are not filled. -/
def exampleUdpRequest : Mem :=
  memOfList [2, 3, 4, 5, 6, 112, 0xaa, 0xbb, 0xcc, 0xdd, 0xee, 0xff, 0x08, 0x00,
    0x45, 0, 0, 30, 0, 1, 0, 0, 64, 17, 0, 0, 192, 168, 1, 10, 192, 168, 1, 112,
    0x30, 0x39, 0x04, 0x00, 0, 10, 0, 0, 111, 110]

/-- An ICMP echo request (IHL 5, total length 28) from 192.168.1.10 to
192.168.1.112, as a received packet. -/
def examplePingPacket : List Nat :=
  [2, 3, 4, 5, 6, 112, 0xaa, 0xbb, 0xcc, 0xdd, 0xee, 0xff, 0x08, 0x00,
    0x45, 0, 0, 28, 0, 1, 0, 0, 64, 1, 0xf7, 0x15, 192, 168, 1, 10, 192, 168, 1, 112,
    8, 0, 0xf7, 0xfd, 0, 1, 0, 1]

/-- The same echo request in a buffer. -/
def examplePingRequest : Mem := memOfList examplePingPacket

/-- A machine with the example configuration, an empty buffer and empty logs, in
state `st`. -/
def exampleMachine (st : state) : Machine :=
  { g := exampleGlobals, buffer := zeroMem, s := exampleSocket, currentState := st,
    sent := [], history := [], resetRequested := false }

/-- Values for the arguments that the calls in `main` leave open. -/
def exampleUnspecified : Unspecified :=
  { tcpData := zeroMem, dataLength := 0, tcpDataOffset0 := 0 }

/-- A frame whose header-length nibble is 4: the ICMP header found at
`ip + 16` lies over the destination address field of the IP header.  The bytes
B9 F6 are the valid checksum of the 16 header bytes. -/
def shortHeaderPingRequest : Mem :=
  memOfList [2, 3, 4, 5, 6, 112, 0xaa, 0xbb, 0xcc, 0xdd, 0xee, 0xff, 0x08, 0x00,
    0x44, 0, 0, 0x54, 0, 1, 0, 0, 64, 1, 0xb9, 0xf6, 192, 168, 1, 10,
    8, 0, 0, 0, 0, 1, 0, 1]

/-- A broadcast ARP request from 192.168.1.10 (AA:BB:CC:DD:EE:FF) for
192.168.1.112. -/
def exampleArpRequest : List Nat :=
  [0xff, 0xff, 0xff, 0xff, 0xff, 0xff, 0xaa, 0xbb, 0xcc, 0xdd, 0xee, 0xff, 0x08, 0x06,
    0, 1, 0x08, 0x00, 6, 4, 0, 1,
    0xaa, 0xbb, 0xcc, 0xdd, 0xee, 0xff, 192, 168, 1, 10,
    0, 0, 0, 0, 0, 0, 192, 168, 1, 112]

/-- An ARP request for 192.168.1.112 whose Ethernet source address
(AA:BB:CC:DD:EE:FF) differs from the ARP sender hardware address
(11:22:33:44:55:66), as when a bridge or proxy forwards it. -/
def relayedArpRequest : List Nat :=
  [0xff, 0xff, 0xff, 0xff, 0xff, 0xff, 0xaa, 0xbb, 0xcc, 0xdd, 0xee, 0xff, 0x08, 0x06,
    0, 1, 0x08, 0x00, 6, 4, 0, 1,
    0x11, 0x22, 0x33, 0x44, 0x55, 0x66, 192, 168, 1, 10,
    0, 0, 0, 0, 0, 0, 192, 168, 1, 112]

/-- An ARP reply from the broker 192.168.1.10 (AA:BB:CC:DD:EE:FF) to
192.168.1.112. -/
def exampleArpReply : List Nat :=
  [2, 3, 4, 5, 6, 112, 0xaa, 0xbb, 0xcc, 0xdd, 0xee, 0xff, 0x08, 0x06,
    0, 1, 0x08, 0x00, 6, 4, 0, 2,
    0xaa, 0xbb, 0xcc, 0xdd, 0xee, 0xff, 192, 168, 1, 10,
    2, 3, 4, 5, 6, 112, 192, 168, 1, 112]

/-- A SYN-ACK segment (74 bytes: 20-byte IP header with valid checksum B6 F1,
40-byte TCP header with options) from 192.168.1.10 port 1883 to 192.168.1.112
port 110, sequence number bytes 11 22 33 44, acknowledgment number bytes
00 00 00 01. -/
def exampleSynAck : List Nat :=
  [2, 3, 4, 5, 6, 112, 0xaa, 0xbb, 0xcc, 0xdd, 0xee, 0xff, 0x08, 0x00,
    0x45, 0, 0, 0x3c, 0, 0, 0x40, 0, 64, 6, 0xb6, 0xf1, 192, 168, 1, 10, 192, 168, 1, 112,
    0x07, 0x5b, 0x00, 0x6e, 0x11, 0x22, 0x33, 0x44, 0, 0, 0, 1, 0xa0, 0x12, 0xff, 0xff,
    0, 0, 0, 0,
    2, 4, 5, 0xb4, 4, 2, 8, 10, 0, 0, 0, 1, 0, 0, 0, 0, 1, 3, 3, 7]

/-- An ARP request for 192.168.1.112 sent by another station that uses
192.168.1.112 itself (sender IP equal to target IP, as in an address-conflict
announcement), with hardware address 0A:0B:0C:0D:0E:0F. -/
def conflictingArpRequest : List Nat :=
  [0xff, 0xff, 0xff, 0xff, 0xff, 0xff, 0x0a, 0x0b, 0x0c, 0x0d, 0x0e, 0x0f, 0x08, 0x06,
    0, 1, 0x08, 0x00, 6, 4, 0, 1,
    0x0a, 0x0b, 0x0c, 0x0d, 0x0e, 0x0f, 192, 168, 1, 112,
    0, 0, 0, 0, 0, 0, 192, 168, 1, 112]

/-- A string of `n` bytes `c` followed by NULs. -/
def repeated (c n : Nat) : Mem := fun i => if i < n then c else 0

/-- The topic `"a/b"` as a NUL-terminated string. -/
def exampleTopic : Mem := memOfList [97, 47, 98, 0]

/-- The data `"on"` as a NUL-terminated string. -/
def exampleData : Mem := memOfList [111, 110, 0]

/-- A socket whose fields hold other values than those of `exampleSocket`. -/
def otherSocket : Socket :=
  { destAddress := memOfList [1, 2, 3, 4, 5, 6], sourceAddress := memOfList [9, 9, 9, 9, 9, 9],
    destIp := memOfList [10, 0, 0, 1], sourceIp := memOfList [10, 0, 0, 2],
    destPort := 80, sourcePort := 4242 }

/-- A TCP FIN-ACK segment (flags 0x011) from 192.168.1.10 whose destination
hardware address 0A:0B:0C:0D:0E:0F is not the local MAC; the checksum fields are
not filled. -/
def foreignFinAck : Mem :=
  memOfList [0x0a, 0x0b, 0x0c, 0x0d, 0x0e, 0x0f, 0xaa, 0xbb, 0xcc, 0xdd, 0xee, 0xff, 0x08, 0x00,
    0x45, 0, 0, 40, 0, 0, 0x40, 0, 64, 6, 0, 0, 192, 168, 1, 10, 192, 168, 1, 113,
    0x07, 0x5b, 0x00, 0x6e, 0, 0, 0, 5, 0, 0, 0, 9, 0x50, 0x11, 0xff, 0xff, 0, 0, 0, 0]

/-- A UDP datagram (protocol 17) addressed to another station, whose bytes at
the place of the TCP offset/flags word are 50 14. -/
def foreignUdpDatagram : Mem :=
  memOfList [0x0a, 0x0b, 0x0c, 0x0d, 0x0e, 0x0f, 0xaa, 0xbb, 0xcc, 0xdd, 0xee, 0xff, 0x08, 0x00,
    0x45, 0, 0, 40, 0, 0, 0x40, 0, 64, 17, 0, 0, 192, 168, 1, 10, 192, 168, 1, 113,
    0x30, 0x39, 0x04, 0x00, 0, 20, 0, 0, 1, 2, 3, 4, 0x50, 0x14, 5, 6, 7, 8, 9, 10]

/-- A TCP segment from the broker to the local MAC carrying an MQTT SUBACK
(90 03 00 0C 00) after a 20-byte TCP header; the checksum fields are not
filled. -/
def exampleSubAck : Mem :=
  memOfList [2, 3, 4, 5, 6, 112, 0xaa, 0xbb, 0xcc, 0xdd, 0xee, 0xff, 0x08, 0x00,
    0x45, 0, 0, 45, 0, 0, 0x40, 0, 64, 6, 0, 0, 192, 168, 1, 10, 192, 168, 1, 112,
    0x07, 0x5b, 0x00, 0x6e, 0, 0, 0, 5, 0, 0, 0, 9, 0x50, 0x18, 0xff, 0xff, 0, 0, 0, 0,
    0x90, 0x03, 0x00, 0x0c, 0x00]

/-- A TCP segment from the broker to the local MAC carrying an MQTT CONNACK
(20 02 00 00). -/
def exampleConnAck : Mem :=
  memOfList [2, 3, 4, 5, 6, 112, 0xaa, 0xbb, 0xcc, 0xdd, 0xee, 0xff, 0x08, 0x00,
    0x45, 0, 0, 44, 0, 0, 0x40, 0, 64, 6, 0, 0, 192, 168, 1, 10, 192, 168, 1, 112,
    0x07, 0x5b, 0x00, 0x6e, 0, 0, 0, 5, 0, 0, 0, 9, 0x50, 0x18, 0xff, 0xff, 0, 0, 0, 0,
    0x20, 0x02, 0x00, 0x00]

/-- The broker IP 192.168.1.10 as an argument array. -/
def exampleTargetIp : Mem := memOfList [192, 168, 1, 10]

/-- A TCP RST-ACK segment (flags 0x014) with a valid IP header checksum 6E B1,
sent from 10.0.0.7 port 4242 to 192.168.1.112 port 80, whose destination
hardware address 0A:0B:0C:0D:0E:0F is not the local MAC. -/
def strangerResetAck : List Nat :=
  [0x0a, 0x0b, 0x0c, 0x0d, 0x0e, 0x0f, 0xaa, 0xbb, 0xcc, 0xdd, 0xee, 0xff, 0x08, 0x00,
    0x45, 0, 0, 40, 0, 0, 0x40, 0, 64, 6, 0x6e, 0xb1, 10, 0, 0, 7, 192, 168, 1, 112,
    0x10, 0x92, 0x00, 0x50, 0, 0, 0, 5, 0, 0, 0, 9, 0x50, 0x14, 0xff, 0xff, 0, 0, 0, 0]

/-- A TCP segment from the broker to the local MAC carrying the MQTT PUBLISH
built for the topic "a/b" and the data "on" (30 09 00 03 61 2F 62 10 14 6F 6E)
after a 20-byte TCP header. -/
def examplePublish : Mem :=
  memOfList [2, 3, 4, 5, 6, 112, 0xaa, 0xbb, 0xcc, 0xdd, 0xee, 0xff, 0x08, 0x00,
    0x45, 0, 0, 51, 0, 0, 0x40, 0, 64, 6, 0, 0, 192, 168, 1, 10, 192, 168, 1, 112,
    0x07, 0x5b, 0x00, 0x6e, 0, 0, 0, 5, 0, 0, 0, 9, 0x50, 0x18, 0xff, 0xff, 0, 0, 0, 0,
    0x30, 0x09, 0x00, 0x03, 0x61, 0x2f, 0x62, 0x10, 0x14, 0x6f, 0x6e]

/-- The line `" set 1.zy"` (nine characters and a NUL) in a `USER_DATA` whose
other fields are zero. -/
def exampleUserData : USER_DATA :=
  { buffer := memOfList [32, 115, 101, 116, 32, 49, 46, 122, 121, 0],
    fieldCount := 0, fieldPositon := zeroMem, fieldType := zeroMem }

/-- A memory that holds the example echo request at address 8 and the bytes EE
below it, where a local of a called function lies. -/
def exampleMemory : Mem := fun a => if 8 ≤ a then examplePingRequest (a - 8) else 0xEE

/-! # Theorems -/

/-! ## Lemmas: memory -/

theorem wr_same (m : Mem) (a v : Nat) : wr m a v a = v := by simp [wr]

theorem wr_other (m : Mem) (a v i : Nat) (h : i ≠ a) : wr m a v i = m i := by simp [wr, h]

theorem IsBytes.wr {m : Mem} (hm : IsBytes m) (a v : Nat) (hv : v < 256) :
    IsBytes (wr m a v) := by
  intro i
  by_cases h : i = a
  · simp [MqttClient.wr, h, hv]
  · simp [MqttClient.wr, h, hm i]

theorem IsBytes.wr16 {m : Mem} (hm : IsBytes m) (a v : Nat) : IsBytes (wr16 m a v) :=
  (hm.wr a _ (Nat.mod_lt _ (by norm_num))).wr _ _ (Nat.mod_lt _ (by norm_num))

theorem wr16_other (m : Mem) (a v i : Nat) (h1 : i ≠ a) (h2 : i ≠ a + 1) :
    wr16 m a v i = m i := by
  simp [wr16, wr, h1, h2]

theorem rd16_wr16 (m : Mem) (a v : Nat) (hv : v < 65536) : rd16 (wr16 m a v) a = v := by
  simp [rd16, wr16, wr]
  omega

theorem isBytes_memOfList (l : List Nat) (h : ∀ x ∈ l, x < 256) : IsBytes (memOfList l) := by
  intro i
  unfold memOfList
  by_cases hi : i < l.length
  · rw [List.getD_eq_getElem _ _ hi]
    exact h _ (List.getElem_mem hi)
  · rw [List.getD_eq_default _ _ (by omega)]
    norm_num


/-! ## Lemmas: checksum engine -/

theorem byteWeight_le (i : Nat) : byteWeight i ≤ 256 := by
  unfold byteWeight; split <;> omega

theorem byteWeight_even (i : Nat) (h : i % 2 = 0) : byteWeight i = 1 := by
  unfold byteWeight; simp [h]

theorem byteWeight_odd (i : Nat) (h : i % 2 = 1) : byteWeight i = 256 := by
  unfold byteWeight; simp [h]

theorem wordSum_le (m : Mem) (hm : IsBytes m) (p n : Nat) : wordSum m p n ≤ 65280 * n := by
  induction n with
  | zero => simp [wordSum]
  | succ n ih =>
    have h1 := hm (p + n)
    have h2 := byteWeight_le n
    have h3 : m (p + n) * byteWeight n ≤ 255 * 256 := Nat.mul_le_mul (by omega) h2
    simp only [wordSum]
    omega

theorem wordSum_congr (m m' : Mem) (p n : Nat) (h : ∀ i, i < n → m' (p + i) = m (p + i)) :
    wordSum m' p n = wordSum m p n := by
  induction n with
  | zero => rfl
  | succ n ih =>
    simp only [wordSum]
    rw [ih (fun i hi => h i (by omega)), h n (by omega)]

/-- Overwriting one byte inside the summed region changes the exact sum by the
weighted difference of the old and the new byte. -/
theorem wordSum_wr (m : Mem) (p k v n : Nat) (hk : k < n) :
    wordSum (wr m (p + k) v) p n + m (p + k) * byteWeight k
      = wordSum m p n + v * byteWeight k := by
  induction n with
  | zero => omega
  | succ n ih =>
    simp only [wordSum]
    by_cases h : k = n
    · subst h
      have hc : wordSum (wr m (p + k) v) p k = wordSum m p k :=
        wordSum_congr _ _ _ _ (fun i hi => wr_other _ _ _ _ (by omega))
      rw [hc, wr_same]
      omega
    · have hlt : k < n := by omega
      have := ih hlt
      rw [wr_other _ _ _ _ (by omega : p + n ≠ p + k)]
      omega

/-- Storing a 16-bit value over a zeroed field at an even index of the summed
region adds exactly that value to the exact sum. -/
theorem wordSum_wr16 (m : Mem) (p k c n : Nat) (hk : k % 2 = 0) (hn : k + 1 < n)
    (hc : c < 65536) :
    wordSum (wr16 (wr16 m (p + k) 0) (p + k) c) p n = wordSum (wr16 m (p + k) 0) p n + c := by
  set z := wr16 m (p + k) 0 with hz
  have z0 : z (p + k) = 0 := by simp [hz, wr16, wr]
  have z1 : z (p + (k + 1)) = 0 := by simp [hz, wr16, wr, Nat.add_assoc]
  have e1 := wordSum_wr z p k (c % 256) n (by omega)
  have e2 := wordSum_wr (wr z (p + k) (c % 256)) p (k + 1) (c / 256 % 256) n hn
  have z1b : wr z (p + k) (c % 256) (p + (k + 1)) = 0 := by
    rw [wr_other _ _ _ _ (by omega)]; exact z1
  rw [z0] at e1
  rw [z1b] at e2
  rw [byteWeight_even k hk] at e1
  rw [byteWeight_odd (k + 1) (by omega)] at e2
  have : wr16 z (p + k) c = wr (wr z (p + k) (c % 256)) (p + (k + 1)) (c / 256 % 256) := by
    simp [wr16, Nat.add_assoc]
  rw [this]
  omega

theorem etherSumWordsLoop_eq (m : Mem) (p n : Nat) :
    ∀ i s, etherSumWordsLoop m n (p + i) (i % 2) ((s + wordSum m p i) % 4294967296)
      = (s + wordSum m p (i + n)) % 4294967296 := by
  induction n with
  | zero => intro i s; rfl
  | succ n ih =>
    intro i s
    have hph : 1 - i % 2 = (i + 1) % 2 := by omega
    have key : (if i % 2 ≠ 0 then ((s + wordSum m p i) % 4294967296 + m (p + i) * 256) % 4294967296
          else ((s + wordSum m p i) % 4294967296 + m (p + i)) % 4294967296)
        = (s + wordSum m p (i + 1)) % 4294967296 := by
      simp only [wordSum, Nat.mod_add_mod]
      by_cases hi : i % 2 = 1
      · rw [byteWeight_odd i hi, if_pos (by omega)]; congr 1; omega
      · rw [byteWeight_even i (by omega), if_neg (by omega)]; congr 1; omega
    simp only [etherSumWordsLoop]
    rw [key, hph, Nat.add_assoc p i 1, ih (i + 1) s]
    have e : i + 1 + n = i + (n + 1) := by omega
    rw [e]

/-- The accumulator after `etherSumWords` is the old value plus the exact
weighted sum, reduced modulo 2^32. -/
theorem etherSumWords_eq (m : Mem) (p n sum : Nat) (hs : sum < 4294967296) :
    etherSumWords m p n sum = (sum + wordSum m p n) % 4294967296 := by
  have h := etherSumWordsLoop_eq m p n 0 sum
  simp only [wordSum, Nat.add_zero, Nat.zero_add, Nat.zero_mod, Nat.mod_eq_of_lt hs] at h
  exact h

theorem foldCarries_small (fuel s : Nat) (h : s < 65536) : foldCarries fuel s = s := by
  cases fuel with
  | zero => rfl
  | succ f =>
    have : s / 65536 = 0 := Nat.div_eq_of_lt h
    simp [foldCarries, this]

/-- On a 32-bit sum the folding loop ends within two rounds: the result fits 16
bits, is congruent to the sum modulo 65535 and is zero only for a zero sum. -/
theorem foldCarries_done (fuel s : Nat) (hs : s < 4294967296) :
    foldCarries (fuel + 2) s < 65536 ∧ foldCarries (fuel + 2) s % 65535 = s % 65535
      ∧ (foldCarries (fuel + 2) s = 0 ↔ s = 0) := by
  by_cases h1 : s / 65536 > 0
  · by_cases h2 : (s % 65536 + s / 65536) / 65536 > 0
    · have e : foldCarries (fuel + 2) s
          = (s % 65536 + s / 65536) % 65536 + (s % 65536 + s / 65536) / 65536 := by
        simp only [foldCarries, if_pos h1, if_pos h2]
        exact foldCarries_small _ _ (by omega)
      rw [e]; omega
    · have e : foldCarries (fuel + 2) s = s % 65536 + s / 65536 := by
        simp only [foldCarries, if_pos h1, if_neg h2]
      rw [e]; omega
  · have e : foldCarries (fuel + 2) s = s := by
      simp only [foldCarries, if_neg h1]
    rw [e]; omega

theorem getEtherChecksum_lt (sum : Nat) : getEtherChecksum sum < 65536 := by
  unfold getEtherChecksum; omega

/-- Characterisation of `getEtherChecksum` on a 32-bit sum: `r` is the folded sum. -/
theorem getEtherChecksum_spec (s : Nat) (hs : s < 4294967296) :
    ∃ r, getEtherChecksum s = 65535 - r ∧ r < 65536 ∧ r % 65535 = s % 65535 ∧ (r = 0 ↔ s = 0) := by
  obtain ⟨a1, a2, a3⟩ := foldCarries_done 30 s hs
  refine ⟨foldCarries 32 s, ?_, a1, a2, a3⟩
  unfold getEtherChecksum
  rw [Nat.mod_eq_of_lt a1]

/-- Adding the checksum of a sum to that sum gives a sum whose checksum is 0. -/
theorem getEtherChecksum_add_self (S : Nat) (hS : S < 4294901760) :
    getEtherChecksum (S + getEtherChecksum S) = 0 := by
  obtain ⟨r, hc, a1, a2, a3⟩ := getEtherChecksum_spec S (by omega)
  obtain ⟨r', hT, b1, b2, b3⟩ := getEtherChecksum_spec (S + getEtherChecksum S)
    (by rw [hc]; omega)
  rw [hT]
  rw [hc] at b2 b3
  omega

/-- A checksum stored over its own zeroed field, at an even index `k` of the
summed region, makes the region (continued from the same initial sum) fold to
zero. -/
theorem checksum_store_valid (m : Mem) (hm : IsBytes m) (p k n s0 : Nat) (hk : k % 2 = 0)
    (hn : k + 1 < n) (hb : s0 + 65280 * n < 4294901760) :
    getEtherChecksum (etherSumWords
      (wr16 (wr16 m (p + k) 0) (p + k)
        (getEtherChecksum (etherSumWords (wr16 m (p + k) 0) p n s0))) p n s0) = 0 := by
  have hz : IsBytes (wr16 m (p + k) 0) := hm.wr16 _ _
  have hle := wordSum_le _ hz p n
  have hS : etherSumWords (wr16 m (p + k) 0) p n s0 = s0 + wordSum (wr16 m (p + k) 0) p n := by
    rw [etherSumWords_eq _ _ _ _ (by omega), Nat.mod_eq_of_lt (by omega)]
  have hc := getEtherChecksum_lt (etherSumWords (wr16 m (p + k) 0) p n s0)
  rw [etherSumWords_eq _ _ _ _ (by omega), wordSum_wr16 m p k _ n hk hn hc, ← Nat.add_assoc,
    ← hS, Nat.mod_eq_of_lt (by omega)]
  exact getEtherChecksum_add_self _ (by omega)

/-- After `etherCalcIpChecksum` on a header with IHL at least 5 the header
length is unchanged and the header sums to a value that folds to zero. -/
theorem etherCalcIpChecksum_valid (m : Mem) (ip : Nat) (hm : IsBytes m)
    (h5 : 5 ≤ m (ip + IP_REV_SIZE) % 16) :
    ipHeaderLength (etherCalcIpChecksum m ip) ip = ipHeaderLength m ip ∧
    getEtherChecksum
      (etherSumWords (etherCalcIpChecksum m ip) ip (ipHeaderLength m ip) 0) = 0 := by
  have hb := hm (ip + IP_REV_SIZE)
  constructor
  · simp only [ipHeaderLength, etherCalcIpChecksum, IP_REV_SIZE, IP_CHECKSUM]
    rw [wr16_other _ _ _ _ (by omega) (by omega), wr16_other _ _ _ _ (by omega) (by omega)]
  · have hlen : ipHeaderLength m ip = m (ip + IP_REV_SIZE) % 16 * 4 := rfl
    exact checksum_store_valid m hm ip IP_CHECKSUM (ipHeaderLength m ip) 0 (by decide)
      (by rw [hlen]; simp only [IP_CHECKSUM]; omega) (by rw [hlen]; omega)

theorem etherSumWords_congr (m m' : Mem) (p n s0 : Nat) (hs : s0 < 4294967296)
    (h : ∀ i, i < n → m' (p + i) = m (p + i)) :
    etherSumWords m' p n s0 = etherSumWords m p n s0 := by
  rw [etherSumWords_eq _ _ _ _ hs, etherSumWords_eq _ _ _ _ hs, wordSum_congr m m' p n h]

theorem etherSumWords_lt (m : Mem) (p n s0 : Nat) (hs : s0 < 4294967296) :
    etherSumWords m p n s0 < 4294967296 := by
  rw [etherSumWords_eq _ _ _ _ hs]
  exact Nat.mod_lt _ (by norm_num)

theorem htons_eq (v : Nat) : htons v = v / 256 % 256 + v % 256 * 256 := by
  unfold htons; omega

theorem htons_htons (v : Nat) (hv : v < 65536) : htons (htons v) = v := by
  have h1 : htons v = v / 256 + v % 256 * 256 := by rw [htons_eq]; omega
  have h2 : (v / 256 + v % 256 * 256) / 256 = v % 256 := by omega
  have h3 : (v / 256 + v % 256 * 256) % 256 = v / 256 := by omega
  rw [h1, htons_eq, h2, h3]; omega

theorem etherCalcIpChecksum_other (m : Mem) (ip i : Nat) (h1 : i ≠ ip + 10)
    (h2 : i ≠ ip + 11) : etherCalcIpChecksum m ip i = m i := by
  simp only [etherCalcIpChecksum, IP_CHECKSUM]
  rw [wr16_other _ _ _ _ h1 h2, wr16_other _ _ _ _ h1 h2]

theorem IsBytes.etherCalcIpChecksum {m : Mem} (hm : IsBytes m) (ip : Nat) :
    IsBytes (etherCalcIpChecksum m ip) := by
  unfold MqttClient.etherCalcIpChecksum
  exact (hm.wr16 _ _).wr16 _ _

theorem IsBytes.wr32 {m : Mem} (hm : IsBytes m) (a v : Nat) : IsBytes (wr32 m a v) := by
  unfold MqttClient.wr32
  exact (((hm.wr _ _ (Nat.mod_lt _ (by norm_num))).wr _ _ (Nat.mod_lt _ (by norm_num))).wr _ _
    (Nat.mod_lt _ (by norm_num))).wr _ _ (Nat.mod_lt _ (by norm_num))

theorem wr32_other (m : Mem) (a v i : Nat) (h : i < a ∨ a + 3 < i) : wr32 m a v i = m i := by
  unfold wr32
  rw [wr_other _ _ _ _ (by omega), wr_other _ _ _ _ (by omega), wr_other _ _ _ _ (by omega),
    wr_other _ _ _ _ (by omega)]

/-- A loop that stores `v i` at `base + i` for `i0 <= i < i0 + n`. -/
theorem forLoop_wr (base : Nat) (v : Nat → Nat) (n : Nat) : ∀ (i0 : Nat) (m : Mem) (j : Nat),
    forLoop (fun i m => wr m (base + i) (v i)) n i0 m j
      = if base + i0 ≤ j ∧ j < base + i0 + n then v (j - base) else m j := by
  induction n with
  | zero =>
    intro i0 m j
    simp only [forLoop]
    rw [if_neg (by omega)]
  | succ n ih =>
    intro i0 m j
    simp only [forLoop]
    rw [ih (i0 + 1)]
    by_cases h : base + (i0 + 1) ≤ j ∧ j < base + (i0 + 1) + n
    · rw [if_pos h, if_pos (by omega)]
    · rw [if_neg h]
      by_cases h2 : j = base + i0
      · subst h2
        rw [wr_same, if_pos (by omega)]
        congr 1; omega
      · rw [wr_other _ _ _ _ h2, if_neg (by omega)]

/-- The same loop with the array starting at offset 0. -/
theorem forLoop_wr0 (v : Nat → Nat) (n i0 : Nat) (m : Mem) (j : Nat) :
    forLoop (fun i m => wr m i (v i)) n i0 m j = if i0 ≤ j ∧ j < i0 + n then v j else m j := by
  have h := forLoop_wr 0 v n i0 m j
  simp only [Nat.zero_add, Nat.sub_zero] at h
  exact h

theorem IsBytes.of_forLoop_wr {m : Mem} (hm : IsBytes m) (base : Nat) (v : Nat → Nat) (n i0 : Nat)
    (hv : ∀ i, i0 ≤ i → i < i0 + n → v i < 256) :
    IsBytes (forLoop (fun i m => MqttClient.wr m (base + i) (v i)) n i0 m) := by
  intro j
  rw [MqttClient.forLoop_wr]
  split
  · exact hv _ (by omega) (by omega)
  · exact hm j

theorem etherGetMacAddress_apply (g : Globals) (a : Mem) (j : Nat) :
    etherGetMacAddress g a j = if j < 6 then g.macAddress j else a j := by
  unfold etherGetMacAddress
  rw [forLoop_wr0]; simp

theorem etherGetIpAddress_apply (g : Globals) (a : Mem) (j : Nat) :
    etherGetIpAddress g a j = if j < 4 then g.ipAddress j else a j := by
  unfold etherGetIpAddress
  rw [forLoop_wr0]; simp

theorem etherGetMqttBrokerIpAddress_apply (g : Globals) (a : Mem) (j : Nat) :
    etherGetMqttBrokerIpAddress g a j = if j < 4 then g.mqttBrokerIpAddress j else a j := by
  unfold etherGetMqttBrokerIpAddress
  rw [forLoop_wr0]; simp

theorem etherGetMqttBrokerMacAddress_apply (g : Globals) (a : Mem) (j : Nat) :
    etherGetMqttBrokerMacAddress g a j = if j < 6 then g.mqttBrokerMacAddress j else a j := by
  unfold etherGetMqttBrokerMacAddress
  rw [forLoop_wr0]; simp

/-- The copy loop with a `uint8_t` counter ends when the length is at most 255
and the fuel exceeds the remaining rounds; it then has copied `src` to
`dst .. dst + n - 1` and changed nothing else. -/
theorem copyLoopU8_spec (src : Mem) (dst n : Nat) (hn : n ≤ 255) :
    ∀ (fuel i : Nat) (m : Mem), i ≤ n → n - i < fuel →
      ∃ m', copyLoopU8 src dst n fuel i m = some m' ∧
        ∀ j, m' j = if dst + i ≤ j ∧ j < dst + n then src (j - dst) else m j := by
  intro fuel
  induction fuel with
  | zero => intro i m _ h; omega
  | succ fuel ih =>
    intro i m hi hf
    by_cases h : i < n
    · have hw : (i + 1) % 256 = i + 1 := Nat.mod_eq_of_lt (by omega)
      obtain ⟨m', e1, e2⟩ := ih (i + 1) (wr m (dst + i) (src i)) (by omega) (by omega)
      refine ⟨m', ?_, ?_⟩
      · simp only [copyLoopU8, if_pos h, hw]; exact e1
      · intro j
        rw [e2 j]
        by_cases h1 : dst + (i + 1) ≤ j ∧ j < dst + n
        · rw [if_pos h1, if_pos (by omega)]
        · rw [if_neg h1]
          by_cases h2 : j = dst + i
          · subst h2
            rw [wr_same, if_pos (by omega)]
            congr 1; omega
          · rw [wr_other _ _ _ _ h2, if_neg (by omega)]
    · refine ⟨m, ?_, ?_⟩
      · simp only [copyLoopU8, if_neg h]
      · intro j
        rw [if_neg (by omega)]

/-- A swap loop over two arrays that do not overlap exchanges them and changes
nothing else. -/
theorem forLoop_swap (d s : Nat) (n : Nat) (hds : d + n ≤ s ∨ s + n ≤ d) :
    ∀ (i0 : Nat) (m : Mem) (j : Nat),
    forLoop (swapBody d s) n i0 m j
      = if d + i0 ≤ j ∧ j < d + i0 + n then m (j - d + s)
        else if s + i0 ≤ j ∧ j < s + i0 + n then m (j - s + d) else m j := by
  induction n with
  | zero =>
    intro i0 m j
    simp only [forLoop]
    rw [if_neg (by omega), if_neg (by omega)]
  | succ n ih =>
    intro i0 m j
    simp only [forLoop]
    rw [ih (by omega) (i0 + 1)]
    simp only [swapBody, wr]
    by_cases h1 : d + i0 ≤ j ∧ j < d + i0 + (n + 1)
    · rw [if_pos h1]
      by_cases h2 : j = d + i0
      · subst h2
        rw [if_neg (by omega), if_neg (by omega), if_neg (by omega), if_pos rfl]
        congr 1; omega
      · rw [if_pos (by omega), if_neg (by omega), if_neg (by omega)]
    · rw [if_neg h1, if_neg (by omega)]
      by_cases h3 : s + i0 ≤ j ∧ j < s + i0 + (n + 1)
      · rw [if_pos h3]
        by_cases h4 : j = s + i0
        · subst h4
          rw [if_neg (by omega), if_pos rfl]
          congr 1; omega
        · rw [if_pos (by omega), if_neg (by omega), if_neg (by omega)]
      · rw [if_neg h3, if_neg (by omega), if_neg (by omega), if_neg (by omega)]

theorem IsBytes.of_forLoop_swap {m : Mem} (hm : IsBytes m) (d s n : Nat)
    (hds : d + n ≤ s ∨ s + n ≤ d) (i0 : Nat) : IsBytes (forLoop (swapBody d s) n i0 m) := by
  intro j
  rw [MqttClient.forLoop_swap d s n hds]
  split
  · exact hm _
  · split
    · exact hm _
    · exact hm _

theorem forLoop_swap_other (d s n : Nat) (hds : d + n ≤ s ∨ s + n ≤ d) (m : Mem) (j : Nat)
    (h1 : j < d ∨ d + n ≤ j) (h2 : j < s ∨ s + n ≤ j) :
    forLoop (swapBody d s) n 0 m j = m j := by
  rw [forLoop_swap d s n hds, if_neg (by omega), if_neg (by omega)]

theorem etherSumWords_le (m : Mem) (hm : IsBytes m) (p n s0 : Nat)
    (h : s0 + 65280 * n < 4294967296) : etherSumWords m p n s0 ≤ s0 + 65280 * n := by
  have := wordSum_le m hm p n
  rw [etherSumWords_eq _ _ _ _ (by omega), Nat.mod_eq_of_lt (by omega)]
  omega

theorem rd16_congr (m m' : Mem) (a : Nat) (h0 : m' a = m a) (h1 : m' (a + 1) = m (a + 1)) :
    rd16 m' a = rd16 m a := by
  simp only [rd16, h0, h1]

/-- The frame type `htons(0x0800)` is stored as the bytes 08 00. -/
theorem rd16_frameType_ip (m : Mem) (h12 : m 12 = 8) (h13 : m 13 = 0) :
    rd16 m ETH_FRAME_TYPE = htons 0x0800 := by
  simp [rd16, ETH_FRAME_TYPE, h12, h13, htons]

/-- After `etherCalcIpChecksum` on the header at offset 14, a frame of type 0x0800
that keeps the header bytes satisfies `etherIsIp`. -/
theorem etherIsIp_of_calc (m f : Mem) (hm : IsBytes m) (h5 : 5 ≤ m 14 % 16)
    (h12 : f 12 = 8) (h13 : f 13 = 0)
    (hf : ∀ i, i < ipHeaderLength m 14 → f (14 + i) = etherCalcIpChecksum m 14 (14 + i)) :
    etherIsIp f = true := by
  have hb := hm 14
  obtain ⟨e1, e2⟩ := etherCalcIpChecksum_valid m 14 hm h5
  have hl2 : 20 ≤ ipHeaderLength m 14 := by
    simp only [ipHeaderLength, IP_REV_SIZE, Nat.add_zero]; omega
  have hl : ipHeaderLength f ETH_DATA = ipHeaderLength m 14 := by
    rw [← e1]
    simp only [ipHeaderLength, ETH_DATA, IP_REV_SIZE]
    rw [hf 0 (by omega)]
  unfold etherIsIp
  simp only [rd16_frameType_ip f h12 h13, if_true, decide_eq_true_eq, hl]
  simp only [ETH_DATA, IP_REV_SIZE, Nat.add_zero]
  rw [etherSumWords_congr _ f 14 _ 0 (by norm_num) (fun i hi => hf i hi)]
  exact e2

theorem tcpPseudoHeader_sum (f : Mem) (L : Nat) (hf : IsBytes f) :
    etherSumWords (tcpPseudoHeader f L) 0 12 0 = wordSum f 26 8 + 1536 + htons L := by
  have b0 := hf 26; have b1 := hf 27; have b2 := hf 28; have b3 := hf 29
  have b4 := hf 30; have b5 := hf 31; have b6 := hf 32; have b7 := hf 33
  rw [etherSumWords_eq _ _ _ _ (by norm_num), htons_eq]
  simp [wordSum, byteWeight, tcpPseudoHeader, memOfList, ETH_DATA, IP_SOURCE_IP, IP_DEST_IP]
  omega

/-- The last part of `etherSendTcp`, run on a buffer whose Ethernet and IP
headers are filled (frame type 0x0800, `revSize` 0x45, protocol 6), leaves a
frame with a valid IP header checksum and a valid TCP checksum. -/
theorem etherSendTcpFinish_valid (m : Mem) (hm : IsBytes m) (off dl : Nat)
    (h12 : m 12 = 8) (h13 : m 13 = 0) (h14 : m 14 = 0x45) (h23 : m 23 = 6)
    (hlo : 18 ≤ (off * 4 + dl) % 65536) (hhi : (off * 4 + dl) % 65536 ≤ 60000) :
    etherIsIp (etherSendTcpFinish m 34 off dl).buf = true ∧
    getEtherChecksum (etherSumWords (etherSendTcpFinish m 34 off dl).buf 34
      ((off * 4 + dl) % 65536)
      (etherSumWords (tcpPseudoHeader (etherSendTcpFinish m 34 off dl).buf
        ((off * 4 + dl) % 65536)) 0 12 0)) = 0 := by
  set L := (off * 4 + dl) % 65536 with hL
  set m1 := wr16 m 16 (htons ((m 14 % 16 * 4 + L) % 65536)) with hm1
  have hm1b : IsBytes m1 := hm.wr16 _ _
  set m2 := etherCalcIpChecksum m1 14 with hm2
  have hm2b : IsBytes m2 := hm1b.etherCalcIpChecksum 14
  set Z := wr16 m2 50 0 with hZ
  have hZb : IsBytes Z := hm2b.wr16 _ _
  set S0 := ((etherSumWords Z 26 8 0 + Z 23 % 256 * 256 % 65536) % 4294967296 + htons L)
    % 4294967296 with hS0
  have hF : (etherSendTcpFinish m 34 off dl).buf
      = wr16 Z 50 (getEtherChecksum (etherSumWords Z 34 L S0)) := rfl
  rw [hF]
  set F := wr16 Z 50 (getEtherChecksum (etherSumWords Z 34 L S0)) with hFd
  have hFb : IsBytes F := hZb.wr16 _ _
  have m1_14 : m1 14 = 0x45 := by rw [hm1, wr16_other _ _ _ _ (by omega) (by omega), h14]
  constructor
  · apply etherIsIp_of_calc m1 F hm1b (by rw [m1_14])
    · rw [hFd, hZ, wr16_other _ _ _ _ (by omega) (by omega),
        wr16_other _ _ _ _ (by omega) (by omega), hm2,
        etherCalcIpChecksum_other _ _ _ (by omega) (by omega), hm1,
        wr16_other _ _ _ _ (by omega) (by omega), h12]
    · rw [hFd, hZ, wr16_other _ _ _ _ (by omega) (by omega),
        wr16_other _ _ _ _ (by omega) (by omega), hm2,
        etherCalcIpChecksum_other _ _ _ (by omega) (by omega), hm1,
        wr16_other _ _ _ _ (by omega) (by omega), h13]
    · intro i hi
      have : ipHeaderLength m1 14 = 20 := by
        simp only [ipHeaderLength, IP_REV_SIZE, Nat.add_zero, m1_14]
      rw [hFd, hZ, wr16_other _ _ _ _ (by omega) (by omega),
        wr16_other _ _ _ _ (by omega) (by omega)]
  · have z23 : Z 23 = 6 := by
      rw [hZ, wr16_other _ _ _ _ (by omega) (by omega), hm2,
        etherCalcIpChecksum_other _ _ _ (by omega) (by omega), hm1,
        wr16_other _ _ _ _ (by omega) (by omega), h23]
    have hw : wordSum F 26 8 = wordSum Z 26 8 :=
      wordSum_congr _ _ _ _ (fun i hi => by
        rw [hFd, wr16_other _ _ _ _ (by omega) (by omega)])
    have hwl := wordSum_le Z hZb 26 8
    have hh : htons L < 65536 := by unfold htons; exact Nat.mod_lt _ (by norm_num)
    have hS0v : S0 = wordSum Z 26 8 + 1536 + htons L := by
      rw [hS0, etherSumWords_eq _ _ _ _ (by norm_num), z23]
      omega
    rw [tcpPseudoHeader_sum F L hFb, hw, ← hS0v]
    exact checksum_store_valid m2 hm2b 34 16 L S0 (by decide) (by omega) (by omega)

theorem etherSendTcpHeaders_tcp (g : Globals) (ether : Mem) (s : Socket) (flags : Nat) :
    (etherSendTcpHeaders g ether s flags).tcp = 34 := by
  simp [etherSendTcpHeaders, wr, wr16, ETH_DATA, IP_REV_SIZE, IP_TOS, IP_ID, IP_FLAGS_OFFSET,
    IP_PROTOCOL, IP_TTL]

theorem etherSendTcpHeaders_isBytes (g : Globals) (hg : g.WF) (ether : Mem) (he : IsBytes ether)
    (s : Socket) (flags : Nat) : IsBytes (etherSendTcpHeaders g ether s flags).buf := by
  simp only [etherSendTcpHeaders, etherFillUpMqttConnectionSocket, HW_ADD_LENGTH, IP_ADD_LENGTH]
  refine IsBytes.wr16 ?_ _ _
  refine IsBytes.wr16 ?_ _ _
  refine IsBytes.wr32 ?_ _ _
  refine IsBytes.wr32 ?_ _ _
  refine IsBytes.wr16 ?_ _ _
  refine IsBytes.wr16 ?_ _ _
  refine IsBytes.wr ?_ _ _ (by norm_num)
  refine IsBytes.wr ?_ _ _ (by norm_num)
  refine IsBytes.wr16 ?_ _ _
  refine IsBytes.wr16 ?_ _ _
  refine IsBytes.wr ?_ _ _ (by norm_num)
  refine IsBytes.wr ?_ _ _ (by norm_num)
  refine IsBytes.of_forLoop_wr ?_ _ _ _ _ ?_
  refine IsBytes.of_forLoop_wr ?_ _ _ _ _ ?_
  refine IsBytes.wr16 ?_ _ _
  refine IsBytes.of_forLoop_wr ?_ _ _ _ _ ?_
  refine IsBytes.of_forLoop_wr he _ _ _ _ ?_
  · intro i _ hi
    rw [etherGetMacAddress_apply, if_pos (by omega)]; exact hg.mac i
  · intro i _ hi
    rw [etherGetMqttBrokerMacAddress_apply, if_pos (by omega)]; exact hg.brokerMac i
  · intro i _ hi
    rw [etherGetIpAddress_apply, if_pos (by omega)]; exact hg.ip i
  · intro i _ hi
    rw [etherGetMqttBrokerIpAddress_apply, if_pos (by omega)]; exact hg.brokerIp i

/-- Bytes of the Ethernet and IP headers that `etherSendTcp` has set when its
first part ends: frame type 08 00, `revSize` 0x45, protocol 6. -/
theorem etherSendTcpHeaders_fixed (g : Globals) (ether : Mem) (s : Socket) (flags : Nat) :
    (etherSendTcpHeaders g ether s flags).buf 12 = 8 ∧
    (etherSendTcpHeaders g ether s flags).buf 13 = 0 ∧
    (etherSendTcpHeaders g ether s flags).buf 14 = 0x45 ∧
    (etherSendTcpHeaders g ether s flags).buf 23 = 6 := by
  simp [etherSendTcpHeaders, wr, wr16, wr32, forLoop_wr, ETH_DATA, IP_REV_SIZE, IP_TOS, IP_ID,
    IP_FLAGS_OFFSET, IP_PROTOCOL, IP_TTL, ETH_FRAME_TYPE, IP_SOURCE_IP, IP_DEST_IP,
    TCP_SOURCE_PORT, TCP_DEST_PORT, TCP_SEQUENCE_NUMBER, TCP_ACKNOWLEDGEMENT_NUMBER,
    TCP_URGENT_POINTER, TCP_WINDOW_SIZE, htons, HW_ADD_LENGTH, IP_ADD_LENGTH]

/-- The flag part of `etherSendTcp` ends for each recognised flags value and a
payload of at most 255 bytes; it sets the data offset to 5 or 6 and touches no
byte before the offset/flags word of the TCP header at offset 34. -/
theorem etherSendTcpFlags_spec (m : Mem) (flags : Nat) (tcpData : Mem) (n off0 fuel : Nat)
    (hflags : flags = TCP_SYNC ∨ flags = TCP_ACK ∨ flags = TCP_FIN_ACK ∨ flags = TCP_RESET
      ∨ flags = TCP_REST_ACK ∨ flags = TCP_FIN ∨ flags = TCP_PUSH_ACK)
    (hn : n ≤ 255) (hfuel : n < fuel) :
    ∃ m', etherSendTcpFlags m 34 flags tcpData n off0 fuel
        = some (if flags = TCP_SYNC then 6 else 5, m') ∧
      (IsBytes m → IsBytes tcpData → IsBytes m') ∧ ∀ j, j < 46 → m' j = m j := by
  rcases hflags with h | h | h | h | h | h | h
  · subst h
    refine ⟨_, by simp [etherSendTcpFlags, TCP_SYNC, TCP_ACK, TCP_FIN_ACK, TCP_RESET,
      TCP_REST_ACK, TCP_FIN, TCP_PUSH_ACK]; rfl, ?_, ?_⟩
    · intro hm _
      exact ((((hm.wr16 _ _).wr _ _ (by norm_num)).wr _ _ (by norm_num)).wr _ _
        (by norm_num)).wr _ _ (by norm_num)
    · intro j hj
      simp only [TCP_DATA, TCP_OFFSET_FIELDS]
      rw [wr_other _ _ _ _ (by omega), wr_other _ _ _ _ (by omega), wr_other _ _ _ _ (by omega),
        wr_other _ _ _ _ (by omega), wr16_other _ _ _ _ (by omega) (by omega)]
  · subst h
    refine ⟨_, by simp [etherSendTcpFlags, TCP_SYNC, TCP_ACK, TCP_FIN_ACK, TCP_RESET,
      TCP_REST_ACK, TCP_FIN, TCP_PUSH_ACK]; rfl, ?_, ?_⟩
    · intro hm _
      exact hm.wr16 _ _
    · intro j hj
      simp only [TCP_OFFSET_FIELDS]
      rw [wr16_other _ _ _ _ (by omega) (by omega)]
  · subst h
    refine ⟨_, by simp [etherSendTcpFlags, TCP_SYNC, TCP_ACK, TCP_FIN_ACK, TCP_RESET,
      TCP_REST_ACK, TCP_FIN, TCP_PUSH_ACK]; rfl, ?_, ?_⟩
    · intro hm _
      exact hm.wr16 _ _
    · intro j hj
      simp only [TCP_OFFSET_FIELDS]
      rw [wr16_other _ _ _ _ (by omega) (by omega)]
  · subst h
    refine ⟨_, by simp [etherSendTcpFlags, TCP_SYNC, TCP_ACK, TCP_FIN_ACK, TCP_RESET,
      TCP_REST_ACK, TCP_FIN, TCP_PUSH_ACK]; rfl, ?_, ?_⟩
    · intro hm _
      exact hm.wr16 _ _
    · intro j hj
      simp only [TCP_OFFSET_FIELDS]
      rw [wr16_other _ _ _ _ (by omega) (by omega)]
  · subst h
    refine ⟨_, by simp [etherSendTcpFlags, TCP_SYNC, TCP_ACK, TCP_FIN_ACK, TCP_RESET,
      TCP_REST_ACK, TCP_FIN, TCP_PUSH_ACK]; rfl, ?_, ?_⟩
    · intro hm _
      exact hm.wr16 _ _
    · intro j hj
      simp only [TCP_OFFSET_FIELDS]
      rw [wr16_other _ _ _ _ (by omega) (by omega)]
  · subst h
    refine ⟨_, by simp [etherSendTcpFlags, TCP_SYNC, TCP_ACK, TCP_FIN_ACK, TCP_RESET,
      TCP_REST_ACK, TCP_FIN, TCP_PUSH_ACK]; rfl, ?_, ?_⟩
    · intro hm _
      exact hm.wr16 _ _
    · intro j hj
      simp only [TCP_OFFSET_FIELDS]
      rw [wr16_other _ _ _ _ (by omega) (by omega)]
  · subst h
    obtain ⟨m', e1, e2⟩ := copyLoopU8_spec tcpData (34 + TCP_DATA) n hn fuel 0
      (wr16 m (34 + TCP_OFFSET_FIELDS) (htons ((5 * 4096 + TCP_PUSH_ACK) % 65536)))
      (by omega) (by omega)
    refine ⟨m', by simp [etherSendTcpFlags, TCP_SYNC, TCP_ACK, TCP_FIN_ACK, TCP_RESET,
      TCP_REST_ACK, TCP_FIN, TCP_PUSH_ACK] at e1 ⊢; exact e1, ?_, ?_⟩
    · intro hm hd j
      rw [e2 j]
      split
      · exact hd _
      · exact hm.wr16 _ _ j
    · intro j hj
      rw [e2 j]
      simp only [TCP_OFFSET_FIELDS, TCP_DATA]
      rw [if_neg (by omega), wr16_other _ _ _ _ (by omega) (by omega)]

/-- For a recognised flags value and a payload of at most 255 bytes `etherSendTcp`
returns, and the frame it leaves has a valid IP header checksum and a valid TCP
checksum over pseudo-header and segment. -/
theorem etherSendTcp_valid (g : Globals) (hg : g.WF) (ether : Mem) (he : IsBytes ether)
    (s : Socket) (flags : Nat)
    (hflags : flags = TCP_SYNC ∨ flags = TCP_ACK ∨ flags = TCP_FIN_ACK ∨ flags = TCP_RESET
      ∨ flags = TCP_REST_ACK ∨ flags = TCP_FIN ∨ flags = TCP_PUSH_ACK)
    (tcpData : Mem) (hd : IsBytes tcpData) (n : Nat) (hn : n ≤ 255) (off0 fuel : Nat)
    (hfuel : n < fuel) :
    ∃ r, etherSendTcp g ether s flags tcpData n off0 fuel = some r ∧
      etherIsIp r.buf = true ∧
      getEtherChecksum (etherSumWords r.buf (ETH_DATA + 20)
        ((if flags = TCP_SYNC then 24 else 20) + n)
        (etherSumWords (tcpPseudoHeader r.buf ((if flags = TCP_SYNC then 24 else 20) + n))
          0 12 0)) = 0 := by
  have ht := etherSendTcpHeaders_tcp g ether s flags
  obtain ⟨f12, f13, f14, f23⟩ := etherSendTcpHeaders_fixed g ether s flags
  have hbuf := etherSendTcpHeaders_isBytes g hg ether he s flags
  obtain ⟨m', e, hb, hsame⟩ := etherSendTcpFlags_spec (etherSendTcpHeaders g ether s flags).buf
    flags tcpData n off0 fuel hflags hn hfuel
  have hL : ((if flags = TCP_SYNC then 6 else 5) * 4 + n) % 65536
      = (if flags = TCP_SYNC then 24 else 20) + n := by split <;> omega
  have hv := etherSendTcpFinish_valid m' (hb hbuf hd) (if flags = TCP_SYNC then 6 else 5) n
    (by rw [hsame 12 (by omega)]; exact f12) (by rw [hsame 13 (by omega)]; exact f13)
    (by rw [hsame 14 (by omega)]; exact f14) (by rw [hsame 23 (by omega)]; exact f23)
    (by rw [hL]; split <;> omega) (by rw [hL]; split <;> omega)
  rw [hL] at hv
  refine ⟨{ g := (etherSendTcpHeaders g ether s flags).g,
            buf := (etherSendTcpFinish m' 34 (if flags = TCP_SYNC then 6 else 5) n).buf,
            s := (etherSendTcpHeaders g ether s flags).s,
            size := (etherSendTcpFinish m' 34 (if flags = TCP_SYNC then 6 else 5) n).size },
    ?_, hv.1, hv.2⟩
  simp only [etherSendTcp, ht, e]

/-- The UDP reply built on a received IPv4 frame (type 0x0800, IHL at least 5,
protocol 17): valid IP header checksum, valid UDP checksum, lengths and payload
as requested. -/
theorem etherSendUdpResponse_spec (ether : Mem) (he : IsBytes ether) (udpData : Mem)
    (hd : IsBytes udpData) (udpSize : Nat) (hs : udpSize ≤ 255)
    (hty : rd16 ether ETH_FRAME_TYPE = htons 0x0800)
    (h5 : 5 ≤ ether (ETH_DATA + IP_REV_SIZE) % 16)
    (hp : ether (ETH_DATA + IP_PROTOCOL) = 17) :
    etherIsIp (etherSendUdpResponse ether udpData udpSize).buf = true ∧
    etherIsUdp (etherSendUdpResponse ether udpData udpSize).buf = true ∧
    htons (rd16 (etherSendUdpResponse ether udpData udpSize).buf
      (ETH_DATA + ipHeaderLength ether ETH_DATA + UDP_LENGTH)) = 8 + udpSize ∧
    htons (rd16 (etherSendUdpResponse ether udpData udpSize).buf (ETH_DATA + IP_LENGTH))
      = ipHeaderLength ether ETH_DATA + 8 + udpSize ∧
    ∀ i, i < udpSize →
      (etherSendUdpResponse ether udpData udpSize).buf
        (ETH_DATA + ipHeaderLength ether ETH_DATA + UDP_DATA + i) = udpData i := by
  have h14 : ether (ETH_DATA + IP_REV_SIZE) = ether 14 := rfl
  rw [h14] at h5
  have hp23 : ether 23 = 17 := hp
  have hb14 := he 14
  have hb12 := he 12
  have hb13 := he 13
  have e12 : ether 12 = 8 ∧ ether 13 = 0 := by
    have : rd16 ether ETH_FRAME_TYPE = ether 12 + 256 * ether 13 := rfl
    rw [this] at hty
    have h8 : htons 0x0800 = 8 := by decide
    rw [h8] at hty
    omega
  have hihl : ipHeaderLength ether ETH_DATA = ether 14 % 16 * 4 := rfl
  obtain ⟨ihl, hi⟩ : ∃ ihl, ihl = ipHeaderLength ether ETH_DATA := ⟨_, rfl⟩
  rw [← hi]
  have hlo : 20 ≤ ihl := by omega
  have hhi : ihl ≤ 60 := by omega
  have hL : (8 + udpSize) % 65536 = 8 + udpSize := Nat.mod_eq_of_lt (by omega)
  obtain ⟨A, hA⟩ : ∃ A, A = forLoop (swapBody ETH_DEST ETH_SOURCE) HW_ADD_LENGTH 0 ether :=
    ⟨_, rfl⟩
  obtain ⟨B, hB⟩ : ∃ B, B = forLoop (swapBody (ETH_DATA + IP_DEST_IP) (ETH_DATA + IP_SOURCE_IP))
    IP_ADD_LENGTH 0 A := ⟨_, rfl⟩
  obtain ⟨C, hC⟩ : ∃ C, C = wr16 B (ETH_DATA + ihl + UDP_SOURCE_PORT)
    (rd16 B (ETH_DATA + ihl + UDP_DEST_PORT)) := ⟨_, rfl⟩
  obtain ⟨D, hD⟩ : ∃ D, D = wr16 C (ETH_DATA + IP_LENGTH)
    (htons ((ihl + (8 + udpSize) % 65536) % 65536)) := ⟨_, rfl⟩
  obtain ⟨E, hE⟩ : ∃ E, E = etherCalcIpChecksum D ETH_DATA := ⟨_, rfl⟩
  obtain ⟨Fm, hFm⟩ : ∃ Fm, Fm = wr16 E (ETH_DATA + ihl + UDP_LENGTH)
    (htons ((8 + udpSize) % 65536)) := ⟨_, rfl⟩
  obtain ⟨G, hG⟩ : ∃ G, G = forLoop (fun i m => wr m (ETH_DATA + ihl + UDP_DATA + i) (udpData i))
    udpSize 0 Fm := ⟨_, rfl⟩
  obtain ⟨S0, hS0⟩ : ∃ S0, S0 = etherSumWords G (ETH_DATA + ihl + UDP_LENGTH) 2
    ((etherSumWords G (ETH_DATA + IP_SOURCE_IP) 8 0 + G (ETH_DATA + IP_PROTOCOL) % 256 * 256)
      % 4294967296) := ⟨_, rfl⟩
  obtain ⟨F, hF⟩ : ∃ F, F = wr16 (wr16 G (ETH_DATA + ihl + UDP_CHECK) 0)
    (ETH_DATA + ihl + UDP_CHECK)
    (getEtherChecksum (etherSumWords (wr16 G (ETH_DATA + ihl + UDP_CHECK) 0) (ETH_DATA + ihl)
      ((8 + udpSize) % 65536) S0)) := ⟨_, rfl⟩
  have hbuf : (etherSendUdpResponse ether udpData udpSize).buf = F := by
    rw [hF, hS0, hG, hFm, hE, hD, hC, hB, hA, hi]; rfl
  rw [hbuf]
  -- every stage holds bytes
  have bA : IsBytes A := hA ▸ he.of_forLoop_swap _ _ _ (by decide) 0
  have bB : IsBytes B := hB ▸ bA.of_forLoop_swap _ _ _ (by decide) 0
  have bC : IsBytes C := hC ▸ bB.wr16 _ _
  have bD : IsBytes D := hD ▸ bC.wr16 _ _
  have bE : IsBytes E := hE ▸ bD.etherCalcIpChecksum _
  have bFm : IsBytes Fm := hFm ▸ bE.wr16 _ _
  have bG : IsBytes G := hG ▸ bFm.of_forLoop_wr _ _ _ _ (fun i _ _ => hd i)
  -- reads through the stages
  have rA : ∀ j, 12 ≤ j → A j = ether j := fun j hj => by
    rw [hA]; exact forLoop_swap_other _ _ _ (by decide) _ _
      (by simp only [ETH_DEST, HW_ADD_LENGTH]; omega)
      (by simp only [ETH_SOURCE, HW_ADD_LENGTH]; omega)
  have rB : ∀ j, j < 26 ∨ 34 ≤ j → B j = A j := fun j hj => by
    rw [hB]; exact forLoop_swap_other _ _ _ (by decide) _ _
      (by simp only [ETH_DATA, IP_DEST_IP, IP_ADD_LENGTH]; omega)
      (by simp only [ETH_DATA, IP_SOURCE_IP, IP_ADD_LENGTH]; omega)
  have rC : ∀ j, j < 14 + ihl ∨ 14 + ihl + 2 ≤ j → C j = B j := fun j hj => by
    rw [hC]; exact wr16_other _ _ _ _ (by simp only [ETH_DATA, UDP_SOURCE_PORT]; omega)
      (by simp only [ETH_DATA, UDP_SOURCE_PORT]; omega)
  have rD : ∀ j, j < 16 ∨ 18 ≤ j → D j = C j := fun j hj => by
    rw [hD]; exact wr16_other _ _ _ _ (by simp only [ETH_DATA, IP_LENGTH]; omega)
      (by simp only [ETH_DATA, IP_LENGTH]; omega)
  have rE : ∀ j, j < 24 ∨ 26 ≤ j → E j = D j := fun j hj => by
    rw [hE]; exact etherCalcIpChecksum_other _ _ _ (by simp only [ETH_DATA]; omega)
      (by simp only [ETH_DATA]; omega)
  have rFm : ∀ j, j < 14 + ihl + 4 ∨ 14 + ihl + 6 ≤ j → Fm j = E j := fun j hj => by
    rw [hFm]; exact wr16_other _ _ _ _ (by simp only [ETH_DATA, UDP_LENGTH]; omega)
      (by simp only [ETH_DATA, UDP_LENGTH]; omega)
  have rG : ∀ j, j < 14 + ihl + 8 → G j = Fm j := fun j hj => by
    rw [hG, forLoop_wr, if_neg (by simp only [ETH_DATA, UDP_DATA]; omega)]
  have rF : ∀ j, j < 14 + ihl + 6 ∨ 14 + ihl + 8 ≤ j → F j = G j := fun j hj => by
    rw [hF, wr16_other _ _ _ _ (by simp only [ETH_DATA, UDP_CHECK]; omega)
      (by simp only [ETH_DATA, UDP_CHECK]; omega),
      wr16_other _ _ _ _ (by simp only [ETH_DATA, UDP_CHECK]; omega)
      (by simp only [ETH_DATA, UDP_CHECK]; omega)]
  have rFE : ∀ j, j < 14 + ihl → F j = E j := fun j hj => by
    rw [rF j (by omega), rG j (by omega), rFm j (by omega)]
  have d14 : D 14 = ether 14 := by
    rw [rD 14 (by omega), rC 14 (by omega), rB 14 (by omega), rA 14 (by omega)]
  have hlenD : ipHeaderLength D 14 = ihl := by
    simp only [ipHeaderLength, IP_REV_SIZE, Nat.add_zero, d14]; omega
  have f14 : F 14 = ether 14 := by
    rw [rFE 14 (by omega), rE 14 (by omega), d14]
  have hlenF : ipHeaderLength F ETH_DATA = ihl := by
    simp only [ipHeaderLength, IP_REV_SIZE, ETH_DATA, Nat.add_zero, f14]; omega
  have f23 : F 23 = 17 := by
    rw [rFE 23 (by omega), rE 23 (by omega), rD 23 (by omega), rC 23 (by omega),
      rB 23 (by omega), rA 23 (by omega), hp23]
  have hh : htons (8 + udpSize) < 65536 := by unfold htons; exact Nat.mod_lt _ (by norm_num)
  have flen : rd16 F (14 + ihl + 4) = htons (8 + udpSize) := by
    rw [rd16_congr Fm F _ (by rw [rF _ (by omega), rG _ (by omega)])
      (by rw [rF _ (by omega), rG _ (by omega)]), hFm, hL]
    exact rd16_wr16 _ _ _ hh
  refine ⟨?_, ?_, ?_, ?_, ?_⟩
  · -- IP header checksum
    apply etherIsIp_of_calc D F bD (by rw [d14]; exact h5)
    · rw [rFE 12 (by omega), rE 12 (by omega), rD 12 (by omega), rC 12 (by omega),
        rB 12 (by omega), rA 12 (by omega)]; exact e12.1
    · rw [rFE 13 (by omega), rE 13 (by omega), rD 13 (by omega), rC 13 (by omega),
        rB 13 (by omega), rA 13 (by omega)]; exact e12.2
    · intro i hi2
      rw [hlenD] at hi2
      rw [rFE _ (by omega), hE]; rfl
  · -- UDP checksum
    have hsum : etherSumWords F (ETH_DATA + ihl + UDP_LENGTH) 2
        ((etherSumWords F (ETH_DATA + IP_SOURCE_IP) 8 0 + F (ETH_DATA + IP_PROTOCOL) % 256 * 256)
          % 4294967296) = S0 := by
      have p1 : F (ETH_DATA + IP_PROTOCOL) = G (ETH_DATA + IP_PROTOCOL) :=
        rF _ (by simp only [ETH_DATA, IP_PROTOCOL]; omega)
      rw [hS0, p1, etherSumWords_congr G F (ETH_DATA + IP_SOURCE_IP) 8 0 (by norm_num)
        (fun i hi2 => rF _ (by simp only [ETH_DATA, IP_SOURCE_IP]; omega)),
        etherSumWords_congr G F (ETH_DATA + ihl + UDP_LENGTH) 2 _
        (Nat.mod_lt _ (by norm_num))
        (fun i hi2 => rF _ (by simp only [ETH_DATA, UDP_LENGTH]; omega))]
    have g23 : G (ETH_DATA + IP_PROTOCOL) = 17 := by
      rw [← rF _ (by simp only [ETH_DATA, IP_PROTOCOL]; omega)]; exact f23
    have hS0le : S0 ≤ 4352 + 65280 * 10 := by
      have a1 := etherSumWords_le G bG (ETH_DATA + IP_SOURCE_IP) 8 0 (by norm_num)
      rw [hS0, g23]
      have a2 := etherSumWords_le G bG (ETH_DATA + ihl + UDP_LENGTH) 2
        ((etherSumWords G (ETH_DATA + IP_SOURCE_IP) 8 0 + 17 % 256 * 256) % 4294967296)
        (by omega)
      omega
    have hlen2 : htons (rd16 F (ETH_DATA + ihl + UDP_LENGTH)) = (8 + udpSize) % 65536 := by
      have : rd16 F (ETH_DATA + ihl + UDP_LENGTH) = rd16 F (14 + ihl + 4) := rfl
      rw [this, flen, hL, htons_htons _ (by omega)]
    have hprot : F (ETH_DATA + IP_PROTOCOL) = 0x11 := f23
    unfold etherIsUdp
    simp only [hlenF, hsum, hlen2]
    simp only [hprot, if_true, decide_eq_true_eq]
    rw [hF]
    exact checksum_store_valid G bG (ETH_DATA + ihl) UDP_CHECK ((8 + udpSize) % 65536) S0
      (by decide) (by rw [hL]; simp only [UDP_CHECK]; omega) (by rw [hL]; omega)
  · -- UDP length
    have : rd16 F (ETH_DATA + ihl + UDP_LENGTH) = rd16 F (14 + ihl + 4) := rfl
    rw [this, flen, htons_htons _ (by omega)]
  · -- IP total length
    have hh2 : htons (ihl + (8 + udpSize)) < 65536 := by
      unfold htons; exact Nat.mod_lt _ (by norm_num)
    have e1 : rd16 F (ETH_DATA + IP_LENGTH) = rd16 D (ETH_DATA + IP_LENGTH) :=
      rd16_congr D F _
        (by
          have : ETH_DATA + IP_LENGTH = 16 := rfl
          rw [this, rFE 16 (by omega), rE 16 (by omega)])
        (by
          have : ETH_DATA + IP_LENGTH + 1 = 17 := rfl
          rw [this, rFE 17 (by omega), rE 17 (by omega)])
    rw [e1, hD, hL, Nat.mod_eq_of_lt (by omega : ihl + (8 + udpSize) < 65536),
      rd16_wr16 _ _ _ hh2, htons_htons _ (by omega)]
    omega
  · -- payload
    intro i hi2
    rw [rF _ (by simp only [ETH_DATA, UDP_DATA]; omega), hG, forLoop_wr,
      if_pos (by omega)]
    congr 1; omega

/-- What `etherSendPingResponse` leaves in the buffer, for a frame whose ICMP
header does not start at the IP header itself (`ihl` is the header length in
bytes, at least 4). -/
theorem etherSendPingResponse_buf (ether : Mem) (ihl : Nat)
    (hi : ihl = ipHeaderLength ether ETH_DATA) :
    ∃ C : Mem,
      C = wr (forLoop (swapBody (ETH_DATA + IP_DEST_IP) (ETH_DATA + IP_SOURCE_IP)) IP_ADD_LENGTH 0
        (forLoop (swapBody ETH_DEST ETH_SOURCE) HW_ADD_LENGTH 0 ether)) (ETH_DATA + ihl + ICMP_TYPE) 0
      ∧ (etherSendPingResponse ether).buf
        = wr16 (wr16 C (ETH_DATA + ihl + ICMP_CHECK) 0) (ETH_DATA + ihl + ICMP_CHECK)
          (getEtherChecksum (etherSumWords (wr16 C (ETH_DATA + ihl + ICMP_CHECK) 0) (ETH_DATA + ihl)
            ((htons (rd16 (wr16 C (ETH_DATA + ihl + ICMP_CHECK) 0) (ETH_DATA + IP_LENGTH))
              + 65536 - ihl) % 65536) 0))
      ∧ (etherSendPingResponse ether).size
        = (ETHER_HEADER_SIZE + htons (rd16 (etherSendPingResponse ether).buf
            (ETH_DATA + IP_LENGTH))) % 65536 := by
  subst hi
  exact ⟨_, rfl, rfl, rfl⟩

/-- The echo reply on a frame with IHL at least 5: Ethernet and IP addresses are
exchanged, the ICMP type is 0 and the ICMP bytes after the checksum field are
kept. -/
theorem etherSendPingResponse_fields (ether : Mem)
    (h5 : 5 ≤ ether (ETH_DATA + IP_REV_SIZE) % 16) :
    (∀ i, i < 6 →
      (etherSendPingResponse ether).buf (ETH_DEST + i) = ether (ETH_SOURCE + i) ∧
      (etherSendPingResponse ether).buf (ETH_SOURCE + i) = ether (ETH_DEST + i)) ∧
    (∀ i, i < 4 →
      (etherSendPingResponse ether).buf (ETH_DATA + IP_DEST_IP + i)
        = ether (ETH_DATA + IP_SOURCE_IP + i) ∧
      (etherSendPingResponse ether).buf (ETH_DATA + IP_SOURCE_IP + i)
        = ether (ETH_DATA + IP_DEST_IP + i)) ∧
    (etherSendPingResponse ether).buf (ETH_DATA + ipHeaderLength ether ETH_DATA + ICMP_TYPE) = 0 ∧
    ∀ j, 4 ≤ j →
      (etherSendPingResponse ether).buf (ETH_DATA + ipHeaderLength ether ETH_DATA + j)
        = ether (ETH_DATA + ipHeaderLength ether ETH_DATA + j) := by
  have h14 : ether (ETH_DATA + IP_REV_SIZE) = ether 14 := rfl
  rw [h14] at h5
  have hihl : ipHeaderLength ether ETH_DATA = ether 14 % 16 * 4 := rfl
  obtain ⟨ihl, hi⟩ : ∃ ihl, ihl = ipHeaderLength ether ETH_DATA := ⟨_, rfl⟩
  obtain ⟨C, hC, hbuf, -⟩ := etherSendPingResponse_buf ether ihl hi
  rw [← hi]
  have hlo : 20 ≤ ihl := by omega
  -- bytes outside the ICMP type and checksum fields come from the two swaps
  have rF : ∀ j, j < 14 + ihl ∨ 14 + ihl + 4 ≤ j →
      (etherSendPingResponse ether).buf j
        = forLoop (swapBody (ETH_DATA + IP_DEST_IP) (ETH_DATA + IP_SOURCE_IP)) IP_ADD_LENGTH 0
          (forLoop (swapBody ETH_DEST ETH_SOURCE) HW_ADD_LENGTH 0 ether) j := fun j hj => by
    rw [hbuf, wr16_other _ _ _ _ (by simp only [ETH_DATA, ICMP_CHECK]; omega)
        (by simp only [ETH_DATA, ICMP_CHECK]; omega),
      wr16_other _ _ _ _ (by simp only [ETH_DATA, ICMP_CHECK]; omega)
        (by simp only [ETH_DATA, ICMP_CHECK]; omega),
      hC, wr_other _ _ _ _ (by simp only [ETH_DATA, ICMP_TYPE]; omega)]
  refine ⟨?_, ?_, ?_, ?_⟩
  · intro i hi6
    constructor
    · rw [rF _ (by simp only [ETH_DEST]; omega),
        forLoop_swap_other _ _ _ (by decide) _ _
          (by simp only [ETH_DATA, ETH_DEST, IP_DEST_IP, IP_ADD_LENGTH]; omega)
          (by simp only [ETH_DATA, ETH_DEST, IP_SOURCE_IP, IP_ADD_LENGTH]; omega),
        forLoop_swap _ _ _ (by decide),
        if_pos (by simp only [ETH_DEST, HW_ADD_LENGTH]; omega)]
      congr 1; simp only [ETH_DEST, ETH_SOURCE]; omega
    · rw [rF _ (by simp only [ETH_SOURCE]; omega),
        forLoop_swap_other _ _ _ (by decide) _ _
          (by simp only [ETH_DATA, ETH_SOURCE, IP_DEST_IP, IP_ADD_LENGTH]; omega)
          (by simp only [ETH_DATA, ETH_SOURCE, IP_SOURCE_IP, IP_ADD_LENGTH]; omega),
        forLoop_swap _ _ _ (by decide),
        if_neg (by simp only [ETH_DEST, ETH_SOURCE, HW_ADD_LENGTH]; omega),
        if_pos (by simp only [ETH_SOURCE, HW_ADD_LENGTH]; omega)]
      congr 1; simp only [ETH_DEST, ETH_SOURCE]; omega
  · intro i hi4
    constructor
    · rw [rF _ (by simp only [ETH_DATA, IP_DEST_IP]; omega), forLoop_swap _ _ _ (by decide),
        if_pos (by simp only [IP_ADD_LENGTH]; omega),
        forLoop_swap_other _ _ _ (by decide) _ _
          (by simp only [ETH_DATA, ETH_DEST, IP_DEST_IP, IP_SOURCE_IP, HW_ADD_LENGTH]; omega)
          (by simp only [ETH_DATA, ETH_SOURCE, IP_DEST_IP, IP_SOURCE_IP, HW_ADD_LENGTH]; omega)]
      congr 1; simp only [ETH_DATA, IP_DEST_IP, IP_SOURCE_IP]; omega
    · rw [rF _ (by simp only [ETH_DATA, IP_SOURCE_IP]; omega), forLoop_swap _ _ _ (by decide),
        if_neg (by simp only [ETH_DATA, IP_DEST_IP, IP_SOURCE_IP, IP_ADD_LENGTH]; omega),
        if_pos (by simp only [IP_ADD_LENGTH]; omega),
        forLoop_swap_other _ _ _ (by decide) _ _
          (by simp only [ETH_DATA, ETH_DEST, IP_DEST_IP, IP_SOURCE_IP, HW_ADD_LENGTH]; omega)
          (by simp only [ETH_DATA, ETH_SOURCE, IP_DEST_IP, IP_SOURCE_IP, HW_ADD_LENGTH]; omega)]
      congr 1; simp only [ETH_DATA, IP_DEST_IP, IP_SOURCE_IP]; omega
  · rw [hbuf, wr16_other _ _ _ _ (by simp only [ICMP_CHECK, ICMP_TYPE]; omega)
        (by simp only [ICMP_CHECK, ICMP_TYPE]; omega),
      wr16_other _ _ _ _ (by simp only [ICMP_CHECK, ICMP_TYPE]; omega)
        (by simp only [ICMP_CHECK, ICMP_TYPE]; omega), hC, wr_same]
  · intro j hj
    rw [rF _ (by simp only [ETH_DATA]; omega),
      forLoop_swap_other _ _ _ (by decide) _ _
        (by simp only [ETH_DATA, IP_DEST_IP, IP_ADD_LENGTH]; omega)
        (by simp only [ETH_DATA, IP_SOURCE_IP, IP_ADD_LENGTH]; omega),
      forLoop_swap_other _ _ _ (by decide) _ _
        (by simp only [ETH_DATA, ETH_DEST, HW_ADD_LENGTH]; omega)
        (by simp only [ETH_DATA, ETH_SOURCE, HW_ADD_LENGTH]; omega)]

/-- The comparison loop over four address bytes yields true exactly when it was
entered with true and the four bytes agree. -/
theorem eqWhile_four (a b : Nat → Nat) (ok : Bool) :
    eqWhile a b 4 4 0 ok = true ↔ ok = true ∧ ∀ i, i < 4 → a i = b i := by
  have hall : (∀ i, i < 4 → a i = b i) ↔ a 0 = b 0 ∧ a 1 = b 1 ∧ a 2 = b 2 ∧ a 3 = b 3 := by
    constructor
    · intro h
      exact ⟨h 0 (by omega), h 1 (by omega), h 2 (by omega), h 3 (by omega)⟩
    · rintro ⟨h0, h1, h2, h3⟩ i hi
      interval_cases i <;> assumption
  rw [hall]
  cases ok with
  | false => simp [eqWhile]
  | true =>
    by_cases h0 : a 0 = b 0 <;> by_cases h1 : a 1 = b 1 <;> by_cases h2 : a 2 = b 2 <;>
      by_cases h3 : a 3 = b 3 <;> simp [eqWhile, h0, h1, h2, h3]

theorem etherIsArpRequest_iff (g : Globals) (ether : Mem) :
    etherIsArpRequest g ether = true ↔
      rd16 ether ETH_FRAME_TYPE = htons 0x0806 ∧
      (∀ i, i < 4 → ether (ETH_DATA + ARP_DEST_IP + i) = g.ipAddress i) ∧
      rd16 ether (ETH_DATA + ARP_OP) = htons 1 := by
  unfold etherIsArpRequest
  simp only [IP_ADD_LENGTH]
  by_cases h : eqWhile (fun i => ether (ETH_DATA + ARP_DEST_IP + i)) g.ipAddress 4 4 0
      (decide (rd16 ether ETH_FRAME_TYPE = htons 0x0806)) = true
  · have h' := (eqWhile_four _ _ _).1 h
    simp only [decide_eq_true_eq] at h'
    simp only [h, if_true, decide_eq_true_eq]
    exact ⟨fun x => ⟨h'.1, h'.2, x⟩, fun x => x.2.2⟩
  · have hn : ¬ (rd16 ether ETH_FRAME_TYPE = htons 0x0806 ∧
        ∀ i, i < 4 → ether (ETH_DATA + ARP_DEST_IP + i) = g.ipAddress i) := by
      intro hc
      exact h ((eqWhile_four _ _ _).2 ⟨by simp only [decide_eq_true_eq]; exact hc.1, hc.2⟩)
    simp only [h]
    constructor
    · intro x; exact absurd x (by simp)
    · intro x; exact absurd ⟨x.1, x.2.1⟩ hn

theorem etherIsArpReply_iff (g : Globals) (ether : Mem) :
    etherIsArpReply g ether = true ↔
      rd16 ether ETH_FRAME_TYPE = htons 0x0806 ∧
      (∀ i, i < 4 → ether (ETH_DATA + ARP_DEST_IP + i) = g.ipAddress i) ∧
      rd16 ether (ETH_DATA + ARP_OP) = htons 2 := by
  unfold etherIsArpReply
  simp only [IP_ADD_LENGTH]
  by_cases h : eqWhile (fun i => ether (ETH_DATA + ARP_DEST_IP + i)) g.ipAddress 4 4 0
      (decide (rd16 ether ETH_FRAME_TYPE = htons 0x0806)) = true
  · have h' := (eqWhile_four _ _ _).1 h
    simp only [decide_eq_true_eq] at h'
    simp only [h, if_true, decide_eq_true_eq]
    exact ⟨fun x => ⟨h'.1, h'.2, x⟩, fun x => x.2.2⟩
  · have hn : ¬ (rd16 ether ETH_FRAME_TYPE = htons 0x0806 ∧
        ∀ i, i < 4 → ether (ETH_DATA + ARP_DEST_IP + i) = g.ipAddress i) := by
      intro hc
      exact h ((eqWhile_four _ _ _).2 ⟨by simp only [decide_eq_true_eq]; exact hc.1, hc.2⟩)
    simp only [h]
    constructor
    · intro x; exact absurd x (by simp)
    · intro x; exact absurd ⟨x.1, x.2.1⟩ hn

/-- Bytes of the frame left by `etherSendArpResponse`, in terms of the request
`ether` and the local MAC. -/
theorem etherSendArpResponse_fields (g : Globals) (ether : Mem) :
    (etherSendArpResponse g ether).buf (ETH_DATA + ARP_OP) = 0 ∧
    (etherSendArpResponse g ether).buf (ETH_DATA + ARP_OP + 1) = 2 ∧
    (∀ i, i < 6 →
      (etherSendArpResponse g ether).buf (ETH_SOURCE + i) = g.macAddress i ∧
      (etherSendArpResponse g ether).buf (ETH_DATA + ARP_SOURCE_ADDRESS + i) = g.macAddress i ∧
      (etherSendArpResponse g ether).buf (ETH_DEST + i) = ether (ETH_SOURCE + i) ∧
      (etherSendArpResponse g ether).buf (ETH_DATA + ARP_DEST_ADDRESS + i)
        = ether (ETH_DATA + ARP_SOURCE_ADDRESS + i)) ∧
    (∀ i, i < 4 →
      (etherSendArpResponse g ether).buf (ETH_DATA + ARP_SOURCE_IP + i)
        = ether (ETH_DATA + ARP_DEST_IP + i) ∧
      (etherSendArpResponse g ether).buf (ETH_DATA + ARP_DEST_IP + i)
        = ether (ETH_DATA + ARP_SOURCE_IP + i)) ∧
    (∀ j, 42 ≤ j → (etherSendArpResponse g ether).buf j = ether j) ∧
    (etherSendArpResponse g ether).buf 12 = ether 12 ∧
    (etherSendArpResponse g ether).buf 13 = ether 13 := by
  refine ⟨?_, ?_, ?_, ?_, ?_, ?_, ?_⟩
  · simp [etherSendArpResponse, forLoop, arpResponseBody, swapBody, wr, wr16, htons, ETH_DATA,
      ETH_DEST, ETH_SOURCE, ARP_OP, ARP_SOURCE_ADDRESS, ARP_SOURCE_IP, ARP_DEST_ADDRESS,
      ARP_DEST_IP, HW_ADD_LENGTH, IP_ADD_LENGTH]
  · simp [etherSendArpResponse, forLoop, arpResponseBody, swapBody, wr, wr16, htons, ETH_DATA,
      ETH_DEST, ETH_SOURCE, ARP_OP, ARP_SOURCE_ADDRESS, ARP_SOURCE_IP, ARP_DEST_ADDRESS,
      ARP_DEST_IP, HW_ADD_LENGTH, IP_ADD_LENGTH]
  · intro i hi
    interval_cases i <;>
      simp [etherSendArpResponse, forLoop, arpResponseBody, swapBody, wr, wr16, htons, ETH_DATA,
        ETH_DEST, ETH_SOURCE, ARP_OP, ARP_SOURCE_ADDRESS, ARP_SOURCE_IP, ARP_DEST_ADDRESS,
        ARP_DEST_IP, HW_ADD_LENGTH, IP_ADD_LENGTH]
  · intro i hi
    interval_cases i <;>
      simp [etherSendArpResponse, forLoop, arpResponseBody, swapBody, wr, wr16, htons, ETH_DATA,
        ETH_DEST, ETH_SOURCE, ARP_OP, ARP_SOURCE_ADDRESS, ARP_SOURCE_IP, ARP_DEST_ADDRESS,
        ARP_DEST_IP, HW_ADD_LENGTH, IP_ADD_LENGTH]
  · intro j hj
    have e : ∀ k, k < 42 → (j = k) = False := fun k hk => by
      simp only [eq_iff_iff, iff_false]; omega
    simp [etherSendArpResponse, forLoop, arpResponseBody, swapBody, wr, wr16, htons, ETH_DATA,
      ETH_DEST, ETH_SOURCE, ARP_OP, ARP_SOURCE_ADDRESS, ARP_SOURCE_IP, ARP_DEST_ADDRESS,
      ARP_DEST_IP, HW_ADD_LENGTH, IP_ADD_LENGTH, e]
  · simp [etherSendArpResponse, forLoop, arpResponseBody, swapBody, wr, wr16, htons, ETH_DATA,
      ETH_DEST, ETH_SOURCE, ARP_OP, ARP_SOURCE_ADDRESS, ARP_SOURCE_IP, ARP_DEST_ADDRESS,
      ARP_DEST_IP, HW_ADD_LENGTH, IP_ADD_LENGTH]
  · simp [etherSendArpResponse, forLoop, arpResponseBody, swapBody, wr, wr16, htons, ETH_DATA,
      ETH_DEST, ETH_SOURCE, ARP_OP, ARP_SOURCE_ADDRESS, ARP_SOURCE_IP, ARP_DEST_ADDRESS,
      ARP_DEST_IP, HW_ADD_LENGTH, IP_ADD_LENGTH]

/-- The last part of `etherSendTcp` only stores the IP total length, the IP header
checksum and the TCP checksum. -/
theorem etherSendTcpFinish_other (m : Mem) (tcp off n j : Nat)
    (h1 : j < 16 ∨ 18 ≤ j) (h2 : j < 24 ∨ 26 ≤ j) (h3 : j < tcp + 16 ∨ tcp + 18 ≤ j) :
    (etherSendTcpFinish m tcp off n).buf j = m j := by
  simp only [etherSendTcpFinish, ETH_DATA, IP_LENGTH, TCP_CHECKSUM]
  rw [wr16_other _ _ _ _ (by omega) (by omega), wr16_other _ _ _ _ (by omega) (by omega),
    etherCalcIpChecksum_other _ _ _ (by omega) (by omega),
    wr16_other _ _ _ _ (by omega) (by omega)]

/-- Sequence and acknowledgment number fields, as stored by the first part of
`etherSendTcp`: the four bytes of each 32-bit global, low byte first. -/
theorem etherSendTcpHeaders_numbers (g : Globals) (ether : Mem) (s : Socket) (flags : Nat) :
    (etherSendTcpHeaders g ether s flags).g
      = (if flags = TCP_SYNC then { g with sequenceNumber := 0, acknowledgementNumber := 0 }
        else g) ∧
    (etherSendTcpHeaders g ether s flags).buf 38
      = (etherSendTcpHeaders g ether s flags).g.sequenceNumber % 256 ∧
    (etherSendTcpHeaders g ether s flags).buf 39
      = (etherSendTcpHeaders g ether s flags).g.sequenceNumber / 256 % 256 ∧
    (etherSendTcpHeaders g ether s flags).buf 40
      = (etherSendTcpHeaders g ether s flags).g.sequenceNumber / 65536 % 256 ∧
    (etherSendTcpHeaders g ether s flags).buf 41
      = (etherSendTcpHeaders g ether s flags).g.sequenceNumber / 16777216 % 256 ∧
    (etherSendTcpHeaders g ether s flags).buf 42
      = (etherSendTcpHeaders g ether s flags).g.acknowledgementNumber % 256 ∧
    (etherSendTcpHeaders g ether s flags).buf 43
      = (etherSendTcpHeaders g ether s flags).g.acknowledgementNumber / 256 % 256 ∧
    (etherSendTcpHeaders g ether s flags).buf 44
      = (etherSendTcpHeaders g ether s flags).g.acknowledgementNumber / 65536 % 256 ∧
    (etherSendTcpHeaders g ether s flags).buf 45
      = (etherSendTcpHeaders g ether s flags).g.acknowledgementNumber / 16777216 % 256 := by
  refine ⟨rfl, ?_, ?_, ?_, ?_, ?_, ?_, ?_, ?_⟩ <;>
    simp [etherSendTcpHeaders, wr, wr16, wr32, ETH_DATA, IP_REV_SIZE, IP_TOS, IP_ID,
      IP_FLAGS_OFFSET, IP_PROTOCOL, IP_TTL, TCP_SOURCE_PORT, TCP_DEST_PORT, TCP_SEQUENCE_NUMBER,
      TCP_ACKNOWLEDGEMENT_NUMBER, TCP_URGENT_POINTER, TCP_WINDOW_SIZE]

/-- For SYN and ACK `etherSendTcp` returns whatever the payload arguments and the
fuel: no payload is copied.  The frame has type 0x0800, protocol 6, the
offset/flags word of the flags value, and carries the sequence and
acknowledgment numbers of the globals byte for byte. -/
theorem etherSendTcp_noPayload (g : Globals) (ether : Mem) (s : Socket) (flags : Nat)
    (hf : flags = TCP_SYNC ∨ flags = TCP_ACK) (tcpData : Mem) (n off0 fuel : Nat) :
    ∃ r, etherSendTcp g ether s flags tcpData n off0 fuel = some r ∧
      r.g = (if flags = TCP_SYNC then { g with sequenceNumber := 0, acknowledgementNumber := 0 }
        else g) ∧
      rd16 r.buf ETH_FRAME_TYPE = htons 0x0800 ∧
      r.buf (ETH_DATA + IP_PROTOCOL) = 6 ∧
      htons (rd16 r.buf (ETH_DATA + 20 + TCP_OFFSET_FIELDS))
        = (if flags = TCP_SYNC then 6 else 5) * 4096 + flags ∧
      r.buf 38 = r.g.sequenceNumber % 256 ∧
      r.buf 39 = r.g.sequenceNumber / 256 % 256 ∧
      r.buf 40 = r.g.sequenceNumber / 65536 % 256 ∧
      r.buf 41 = r.g.sequenceNumber / 16777216 % 256 ∧
      r.buf 42 = r.g.acknowledgementNumber % 256 ∧
      r.buf 43 = r.g.acknowledgementNumber / 256 % 256 ∧
      r.buf 44 = r.g.acknowledgementNumber / 65536 % 256 ∧
      r.buf 45 = r.g.acknowledgementNumber / 16777216 % 256 := by
  have ht := etherSendTcpHeaders_tcp g ether s flags
  obtain ⟨f12, f13, -, f23⟩ := etherSendTcpHeaders_fixed g ether s flags
  obtain ⟨hg, n0, n1, n2, n3, n4, n5, n6, n7⟩ := etherSendTcpHeaders_numbers g ether s flags
  obtain ⟨m', e, -, hsame⟩ := etherSendTcpFlags_spec (etherSendTcpHeaders g ether s flags).buf
    flags tcpData 0 off0 1
    (by rcases hf with h | h
        · exact Or.inl h
        · exact Or.inr (Or.inl h)) (by omega) (by omega)
  -- without a payload to copy the flag part does not depend on length and fuel
  have e' : etherSendTcpFlags (etherSendTcpHeaders g ether s flags).buf 34 flags tcpData n off0
      fuel = etherSendTcpFlags (etherSendTcpHeaders g ether s flags).buf 34 flags tcpData 0 off0
      1 := by
    rcases hf with h | h <;> subst h <;>
      simp [etherSendTcpFlags, TCP_SYNC, TCP_ACK, TCP_FIN_ACK, TCP_RESET, TCP_REST_ACK, TCP_FIN,
        TCP_PUSH_ACK]
  have h46 : htons (rd16 m' 46) = (if flags = TCP_SYNC then 6 else 5) * 4096 + flags := by
    rcases hf with h | h <;> subst h <;>
      · simp only [etherSendTcpFlags, TCP_SYNC, TCP_ACK, TCP_FIN_ACK, TCP_RESET, TCP_REST_ACK,
          TCP_FIN, TCP_PUSH_ACK, TCP_OFFSET_FIELDS, TCP_DATA] at e
        simp at e
        rw [← e]
        simp [rd16, wr16, wr, htons, TCP_SYNC, TCP_ACK]
  refine ⟨{ g := (etherSendTcpHeaders g ether s flags).g,
            buf := (etherSendTcpFinish m' 34 (if flags = TCP_SYNC then 6 else 5) n).buf,
            s := (etherSendTcpHeaders g ether s flags).s,
            size := (etherSendTcpFinish m' 34 (if flags = TCP_SYNC then 6 else 5) n).size },
    ?_, hg, ?_, ?_, ?_, ?_, ?_, ?_, ?_, ?_, ?_, ?_, ?_⟩
  · simp only [etherSendTcp, ht, e', e]
  · have a12 : (etherSendTcpFinish m' 34 (if flags = TCP_SYNC then 6 else 5) n).buf 12 = 8 := by
      rw [etherSendTcpFinish_other _ _ _ _ _ (by omega) (by omega) (by omega),
        hsame 12 (by omega), f12]
    have a13 : (etherSendTcpFinish m' 34 (if flags = TCP_SYNC then 6 else 5) n).buf 13 = 0 := by
      rw [etherSendTcpFinish_other _ _ _ _ _ (by omega) (by omega) (by omega),
        hsame 13 (by omega), f13]
    exact rd16_frameType_ip _ a12 a13
  · show (etherSendTcpFinish m' 34 (if flags = TCP_SYNC then 6 else 5) n).buf 23 = 6
    rw [etherSendTcpFinish_other _ _ _ _ _ (by omega) (by omega) (by omega),
      hsame 23 (by omega), f23]
  · have : rd16 (etherSendTcpFinish m' 34 (if flags = TCP_SYNC then 6 else 5) n).buf 46
        = rd16 m' 46 :=
      rd16_congr _ _ _
        (etherSendTcpFinish_other _ _ _ _ _ (by omega) (by omega) (by omega))
        (etherSendTcpFinish_other _ _ _ _ _ (by omega) (by omega) (by omega))
    show htons (rd16 (etherSendTcpFinish m' 34 (if flags = TCP_SYNC then 6 else 5) n).buf 46) = _
    rw [this, h46]
  · show (etherSendTcpFinish m' 34 (if flags = TCP_SYNC then 6 else 5) n).buf 38 = _
    rw [etherSendTcpFinish_other _ _ _ _ _ (by omega) (by omega) (by omega),
      hsame 38 (by omega), n0]
  · show (etherSendTcpFinish m' 34 (if flags = TCP_SYNC then 6 else 5) n).buf 39 = _
    rw [etherSendTcpFinish_other _ _ _ _ _ (by omega) (by omega) (by omega),
      hsame 39 (by omega), n1]
  · show (etherSendTcpFinish m' 34 (if flags = TCP_SYNC then 6 else 5) n).buf 40 = _
    rw [etherSendTcpFinish_other _ _ _ _ _ (by omega) (by omega) (by omega),
      hsame 40 (by omega), n2]
  · show (etherSendTcpFinish m' 34 (if flags = TCP_SYNC then 6 else 5) n).buf 41 = _
    rw [etherSendTcpFinish_other _ _ _ _ _ (by omega) (by omega) (by omega),
      hsame 41 (by omega), n3]
  · show (etherSendTcpFinish m' 34 (if flags = TCP_SYNC then 6 else 5) n).buf 42 = _
    rw [etherSendTcpFinish_other _ _ _ _ _ (by omega) (by omega) (by omega),
      hsame 42 (by omega), n4]
  · show (etherSendTcpFinish m' 34 (if flags = TCP_SYNC then 6 else 5) n).buf 43 = _
    rw [etherSendTcpFinish_other _ _ _ _ _ (by omega) (by omega) (by omega),
      hsame 43 (by omega), n5]
  · show (etherSendTcpFinish m' 34 (if flags = TCP_SYNC then 6 else 5) n).buf 44 = _
    rw [etherSendTcpFinish_other _ _ _ _ _ (by omega) (by omega) (by omega),
      hsame 44 (by omega), n6]
  · show (etherSendTcpFinish m' 34 (if flags = TCP_SYNC then 6 else 5) n).buf 45 = _
    rw [etherSendTcpFinish_other _ _ _ _ _ (by omega) (by omega) (by omega),
      hsame 45 (by omega), n7]

/-- Fields of the frame built by `etherSendArpRequest` that identify it as an ARP
request for the given IP: frame type bytes 08 06, operation bytes 00 01, target
IP, and the size 42. -/
theorem etherSendArpRequest_request (g : Globals) (ether : Mem) (ipArg : Mem) :
    (etherSendArpRequest g ether ipArg).buf 12 = 8 ∧
    (etherSendArpRequest g ether ipArg).buf 13 = 6 ∧
    (etherSendArpRequest g ether ipArg).buf (ETH_DATA + ARP_OP) = 0 ∧
    (etherSendArpRequest g ether ipArg).buf (ETH_DATA + ARP_OP + 1) = 1 ∧
    (∀ i, i < 4 → (etherSendArpRequest g ether ipArg).buf (ETH_DATA + ARP_DEST_IP + i) = ipArg i) ∧
    (etherSendArpRequest g ether ipArg).size = 42 := by
  refine ⟨?_, ?_, ?_, ?_, ?_, rfl⟩
  · simp [etherSendArpRequest, forLoop, wr, wr16, htons, ETH_DATA, ETH_DEST, ETH_SOURCE,
      ETH_FRAME_TYPE, ARP_HARDWARE_TYPE, ARP_PROTOCOL_TYPE, ARP_HARDWARE_SIZE, ARP_PROTOCOL_SIZE,
      ARP_OP, ARP_SOURCE_ADDRESS, ARP_SOURCE_IP, ARP_DEST_ADDRESS, ARP_DEST_IP, HW_ADD_LENGTH,
      IP_ADD_LENGTH]
  · simp [etherSendArpRequest, forLoop, wr, wr16, htons, ETH_DATA, ETH_DEST, ETH_SOURCE,
      ETH_FRAME_TYPE, ARP_HARDWARE_TYPE, ARP_PROTOCOL_TYPE, ARP_HARDWARE_SIZE, ARP_PROTOCOL_SIZE,
      ARP_OP, ARP_SOURCE_ADDRESS, ARP_SOURCE_IP, ARP_DEST_ADDRESS, ARP_DEST_IP, HW_ADD_LENGTH,
      IP_ADD_LENGTH]
  · simp [etherSendArpRequest, forLoop, wr, wr16, htons, ETH_DATA, ETH_DEST, ETH_SOURCE,
      ETH_FRAME_TYPE, ARP_HARDWARE_TYPE, ARP_PROTOCOL_TYPE, ARP_HARDWARE_SIZE, ARP_PROTOCOL_SIZE,
      ARP_OP, ARP_SOURCE_ADDRESS, ARP_SOURCE_IP, ARP_DEST_ADDRESS, ARP_DEST_IP, HW_ADD_LENGTH,
      IP_ADD_LENGTH]
  · simp [etherSendArpRequest, forLoop, wr, wr16, htons, ETH_DATA, ETH_DEST, ETH_SOURCE,
      ETH_FRAME_TYPE, ARP_HARDWARE_TYPE, ARP_PROTOCOL_TYPE, ARP_HARDWARE_SIZE, ARP_PROTOCOL_SIZE,
      ARP_OP, ARP_SOURCE_ADDRESS, ARP_SOURCE_IP, ARP_DEST_ADDRESS, ARP_DEST_IP, HW_ADD_LENGTH,
      IP_ADD_LENGTH]
  · intro i hi
    interval_cases i <;>
      simp [etherSendArpRequest, forLoop, wr, wr16, htons, ETH_DATA, ETH_DEST, ETH_SOURCE,
        ETH_FRAME_TYPE, ARP_HARDWARE_TYPE, ARP_PROTOCOL_TYPE, ARP_HARDWARE_SIZE,
        ARP_PROTOCOL_SIZE, ARP_OP, ARP_SOURCE_ADDRESS, ARP_SOURCE_IP, ARP_DEST_ADDRESS,
        ARP_DEST_IP, HW_ADD_LENGTH, IP_ADD_LENGTH]

/-! ## Lemmas: main loop -/

theorem received_apply (b : Mem) (p : List Nat) (i : Nat) (h1 : i < p.length)
    (h2 : p.length ≤ MAX_PACKET_SIZE) : received b p i = memOfList p i := by
  have hsz : (if p.length > MAX_PACKET_SIZE then MAX_PACKET_SIZE else p.length) = p.length :=
    if_neg (by omega)
  unfold received etherGetPacket memOfList
  simp only [hsz, if_pos h1]

theorem handleArpRequest_keeps (M : Machine) :
    (handleArpRequest M).currentState = M.currentState ∧
    (handleArpRequest M).history = M.history ∧ (handleArpRequest M).g = M.g ∧
    (handleArpRequest M).buffer 12 = M.buffer 12 ∧
    (handleArpRequest M).buffer 13 = M.buffer 13 := by
  unfold handleArpRequest
  split
  · obtain ⟨-, -, -, -, -, h12, h13⟩ := etherSendArpResponse_fields M.g M.buffer
    exact ⟨rfl, rfl, rfl, h12, h13⟩
  · exact ⟨rfl, rfl, rfl, rfl, rfl⟩

theorem handleArpRequest_of_not (M : Machine) (h : etherIsArpRequest M.g M.buffer = false) :
    handleArpRequest M = M := by
  unfold handleArpRequest
  simp [h]

theorem handleArpReply_of_not (M : Machine)
    (h : etherIsArpReply M.g M.buffer = false ∨ M.currentState ≠ state.waitArpRes) :
    handleArpReply M = M := by
  unfold handleArpReply
  rcases h with h | h
  · simp [h]
  · simp [h]

theorem handlePing_keeps (M : Machine) :
    (handlePing M).currentState = M.currentState ∧ (handlePing M).history = M.history ∧
    (handlePing M).g = M.g := by
  unfold handlePing
  split <;> exact ⟨rfl, rfl, rfl⟩

theorem handleUdp_keeps (M : Machine) :
    (handleUdp M).currentState = M.currentState ∧ (handleUdp M).history = M.history ∧
    (handleUdp M).g = M.g := by
  unfold handleUdp
  split <;> exact ⟨rfl, rfl, rfl⟩

theorem handleTcp_of_not (M : Machine)
    (h : etherIsTcp M.buffer = false ∨ etherIsTcpAck M.buffer = false
      ∨ M.currentState ≠ state.waitTcpSynAck) :
    handleTcp M = M := by
  unfold handleTcp
  rcases h with h | h | h
  · simp [h]
  · simp [h]
  · simp [h]

/-- A frame type other than 0x0800 is never an IP datagram for `etherIsIp`. -/
theorem etherIsIp_frameType (f : Mem) (h : etherIsIp f = true) :
    rd16 f ETH_FRAME_TYPE = htons 0x0800 := by
  unfold etherIsIp at h
  by_contra hc
  simp [hc] at h

/-- IP handling changes neither the state nor the history unless a TCP
acknowledgement is accepted in state `waitTcpSynAck`. -/
theorem handleIp_keeps (M : Machine)
    (h : etherIsIp M.buffer = false ∨ etherIsTcp M.buffer = false
      ∨ etherIsTcpAck M.buffer = false ∨ M.currentState ≠ state.waitTcpSynAck) :
    (handleIp M).currentState = M.currentState ∧ (handleIp M).history = M.history ∧
    (handleIp M).g = M.g := by
  unfold handleIp
  split
  · rename_i hip
    split
    · have ht : handleTcp M = M := by
        apply handleTcp_of_not
        rcases h with h | h | h | h
        · rw [hip] at h; exact absurd h (by simp)
        · exact Or.inl h
        · exact Or.inr (Or.inl h)
        · exact Or.inr (Or.inr h)
      obtain ⟨a1, a2, a3⟩ := handleUdp_keeps (handlePing (handleTcp M))
      obtain ⟨b1, b2, b3⟩ := handlePing_keeps (handleTcp M)
      rw [a1, a2, a3, b1, b2, b3, ht]
      exact ⟨rfl, rfl, rfl⟩
    · exact ⟨rfl, rfl, rfl⟩
  · exact ⟨rfl, rfl, rfl⟩

theorem htons_0806_ne_0800 : htons 0x0806 ≠ htons 0x0800 := by decide

/-- In state `waitArpRes` a frame whose type is not 0x0806 causes no transition. -/
theorem processPacket_waitArpRes (M : Machine) (hs : M.currentState = state.waitArpRes)
    (hty : rd16 M.buffer ETH_FRAME_TYPE ≠ htons 0x0806) :
    (processPacket M).currentState = M.currentState ∧
    (processPacket M).history = M.history := by
  have h1 : etherIsArpRequest M.g M.buffer = false := by
    rw [Bool.eq_false_iff]
    intro hc
    exact hty ((etherIsArpRequest_iff _ _).1 hc).1
  have h2 : etherIsArpReply M.g M.buffer = false := by
    rw [Bool.eq_false_iff]
    intro hc
    exact hty ((etherIsArpReply_iff _ _).1 hc).1
  unfold processPacket
  rw [handleArpRequest_of_not M h1, handleArpReply_of_not M (Or.inl h2)]
  obtain ⟨a, b, -⟩ := handleIp_keeps M (Or.inr (Or.inr (Or.inr (by rw [hs]; decide))))
  exact ⟨a, b⟩

/-- In state `waitTcpSynAck` a frame that is not an IPv4 frame with protocol 6
causes no transition. -/
theorem processPacket_waitTcpSynAck (M : Machine) (hs : M.currentState = state.waitTcpSynAck)
    (hty : ¬ (rd16 M.buffer ETH_FRAME_TYPE = htons 0x0800 ∧ M.buffer (ETH_DATA + IP_PROTOCOL) = 6)) :
    (processPacket M).currentState = M.currentState ∧
    (processPacket M).history = M.history := by
  obtain ⟨r1, r2, r3, r12, r13⟩ := handleArpRequest_keeps M
  have hrep : handleArpReply (handleArpRequest M) = handleArpRequest M :=
    handleArpReply_of_not _ (Or.inr (by rw [r1, hs]; decide))
  unfold processPacket
  rw [hrep]
  have key : etherIsIp (handleArpRequest M).buffer = false
      ∨ etherIsTcp (handleArpRequest M).buffer = false
      ∨ etherIsTcpAck (handleArpRequest M).buffer = false
      ∨ (handleArpRequest M).currentState ≠ state.waitTcpSynAck := by
    by_cases hip : etherIsIp (handleArpRequest M).buffer = true
    · have ht := etherIsIp_frameType _ hip
      have ht' : rd16 M.buffer ETH_FRAME_TYPE = htons 0x0800 := by
        rw [← ht]; exact rd16_congr _ _ _ r12.symm r13.symm
      have hreq : etherIsArpRequest M.g M.buffer = false := by
        rw [Bool.eq_false_iff]
        intro hc
        have := ((etherIsArpRequest_iff _ _).1 hc).1
        rw [ht'] at this
        exact htons_0806_ne_0800 this.symm
      rw [handleArpRequest_of_not M hreq]
      right; left
      unfold etherIsTcp
      simp only [decide_eq_false_iff_not]
      intro hp
      exact hty ⟨ht', hp⟩
    · left
      simpa using hip
  obtain ⟨a, b, -⟩ := handleIp_keeps _ key
  rw [a, b, r1, r2]
  exact ⟨rfl, rfl⟩

/-- Without a command, an iteration started in one of the two waiting states
only processes the received packet, if any. -/
theorem mainLoopBody_waiting (u : Unspecified) (fuel : Nat) (rx : Option (List Nat))
    (M : Machine)
    (hs : M.currentState = state.waitArpRes ∨ M.currentState = state.waitTcpSynAck) :
    mainLoopBody u fuel none rx M = some (receive rx M) := by
  rcases hs with hs | hs <;>
    simp [mainLoopBody, processCommand, stepSendArpReq, stepSendTcpSyn, stepSendTcpAck, hs]

/-- Any number of iterations without a command, started in a waiting state, stay
there as long as the frames received do not have the awaited form. -/
theorem mainLoop_waiting (u : Unspecified) (fuel : Nat)
    (inputs : List (Option Command × Option (List Nat))) :
    ∀ (M : Machine), (M.currentState = state.waitArpRes ∨ M.currentState = state.waitTcpSynAck) →
    (∀ x ∈ inputs, x.1 = none) →
    (∀ x ∈ inputs, ∀ p, x.2 = some p → ∀ b,
      (M.currentState = state.waitArpRes → rd16 (received b p) ETH_FRAME_TYPE ≠ htons 0x0806) ∧
      (M.currentState = state.waitTcpSynAck →
        ¬ (rd16 (received b p) ETH_FRAME_TYPE = htons 0x0800 ∧
          received b p (ETH_DATA + IP_PROTOCOL) = 6))) →
    ∃ M', mainLoop u fuel inputs M = some M' ∧ M'.currentState = M.currentState ∧
      M'.history = M.history := by
  induction inputs with
  | nil => intro M _ _ _; exact ⟨M, rfl, rfl, rfl⟩
  | cons x rest ih =>
    intro M hs hcmd hrx
    obtain ⟨cmd, rx⟩ := x
    have hc : cmd = none := hcmd (cmd, rx) (List.mem_cons_self _ _)
    subst hc
    have hstep : (receive rx M).currentState = M.currentState ∧
        (receive rx M).history = M.history := by
      cases rx with
      | none => exact ⟨rfl, rfl⟩
      | some p =>
        have hp := hrx (none, some p) (List.mem_cons_self _ _) p rfl M.buffer
        rcases hs with hs | hs
        · exact processPacket_waitArpRes { M with buffer := received M.buffer p } hs (hp.1 hs)
        · exact processPacket_waitTcpSynAck { M with buffer := received M.buffer p } hs (hp.2 hs)
    obtain ⟨M', e1, e2, e3⟩ := ih (receive rx M) (by rw [hstep.1]; exact hs)
      (fun y hy => hcmd y (List.mem_cons_of_mem _ hy))
      (fun y hy p hp b => by
        rw [hstep.1]; exact hrx y (List.mem_cons_of_mem _ hy) p hp b)
    refine ⟨M', ?_, by rw [e2, hstep.1], by rw [e3, hstep.2]⟩
    simp only [mainLoop, mainLoopBody_waiting u fuel rx M hs, Option.some_bind]
    exact e1

theorem mainLoop_append (u : Unspecified) (fuel : Nat)
    (l1 l2 : List (Option Command × Option (List Nat))) :
    ∀ M, mainLoop u fuel (l1 ++ l2) M = (mainLoop u fuel l1 M).bind (mainLoop u fuel l2) := by
  induction l1 with
  | nil => intro M; rfl
  | cons x rest ih =>
    intro M
    obtain ⟨cmd, rx⟩ := x
    simp only [List.cons_append, mainLoop]
    cases h : mainLoopBody u fuel cmd rx M with
    | none => rfl
    | some M1 => simp only [Option.some_bind]; exact ih M1

/-- An iteration without command and without packet changes nothing in the
states that do not send. -/
theorem mainLoopBody_idle (u : Unspecified) (fuel : Nat) (M : Machine)
    (hs : M.currentState = state.idle ∨ M.currentState = state.waitArpRes
      ∨ M.currentState = state.waitTcpSynAck ∨ M.currentState = state.tcpConnectionActive) :
    mainLoopBody u fuel none none M = some M := by
  rcases hs with hs | hs | hs | hs <;>
    simp [mainLoopBody, processCommand, stepSendArpReq, stepSendTcpSyn, stepSendTcpAck, receive,
      hs]

theorem mainLoop_idle (u : Unspecified) (fuel : Nat) (k : Nat) (M : Machine)
    (hs : M.currentState = state.idle ∨ M.currentState = state.waitArpRes
      ∨ M.currentState = state.waitTcpSynAck ∨ M.currentState = state.tcpConnectionActive) :
    mainLoop u fuel (List.replicate k (none, none)) M = some M := by
  induction k with
  | zero => rfl
  | succ k ih =>
    simp only [List.replicate_succ, mainLoop, mainLoopBody_idle u fuel M hs, Option.some_bind]
    exact ih

/-- The CONNECT command in state `idle`: `sendArpReq`, the ARP request, then
`waitArpRes`, all in the same iteration. -/
theorem mainLoopBody_connect (u : Unspecified) (fuel : Nat) (M : Machine) :
    mainLoopBody u fuel (some Command.connect) none M
      = some (((M.setState state.sendArpReq).transmit
          (etherSendArpRequest M.g M.buffer (etherGetMqttBrokerIpAddress M.g (fun _ => 0)))).setState
          state.waitArpRes) := by
  simp [mainLoopBody, processCommand, stepSendArpReq, stepSendTcpSyn, stepSendTcpAck, receive,
    Machine.setState, Machine.transmit]

theorem htons_2_ne_1 : htons 2 ≠ htons 1 := by decide

/-- An ARP reply processed in state `waitArpRes`: the sender hardware address is
stored and the state becomes `sendTcpSyn`; nothing is transmitted. -/
theorem processPacket_arpReply (M : Machine) (hs : M.currentState = state.waitArpRes)
    (h : etherIsArpReply M.g M.buffer = true) :
    processPacket M
      = ({ M with g := etherStoreMqttMacAddress M.g M.buffer }).setState state.sendTcpSyn := by
  obtain ⟨hty, -, hop⟩ := (etherIsArpReply_iff _ _).1 h
  have h1 : etherIsArpRequest M.g M.buffer = false := by
    rw [Bool.eq_false_iff]
    intro hc
    have := ((etherIsArpRequest_iff _ _).1 hc).2.2
    rw [hop] at this
    exact htons_2_ne_1 this
  have h3 : etherIsIp M.buffer = false := by
    rw [Bool.eq_false_iff]
    intro hc
    have := etherIsIp_frameType _ hc
    rw [hty] at this
    exact htons_0806_ne_0800 this
  unfold processPacket
  rw [handleArpRequest_of_not M h1]
  have h2 : handleArpReply M
      = ({ M with g := etherStoreMqttMacAddress M.g M.buffer }).setState state.sendTcpSyn := by
    unfold handleArpReply
    simp [h, hs]
  rw [h2]
  unfold handleIp
  simp [Machine.setState, h3]

theorem etherIsIpUnicast_congr (g g' : Globals) (h : g'.ipAddress = g.ipAddress) (f : Mem) :
    etherIsIpUnicast g' f = etherIsIpUnicast g f := by
  unfold etherIsIpUnicast
  rw [h]

/-- A TCP acknowledgement accepted in state `waitTcpSynAck`: the sequence number
field becomes the acknowledgment number, the acknowledgment number field
becomes the sequence number, the state becomes `sendTcpAck`; nothing is
transmitted and the buffer keeps the received frame. -/
theorem processPacket_tcpAck (M : Machine) (hs : M.currentState = state.waitTcpSynAck)
    (hip : etherIsIp M.buffer = true) (hu : etherIsIpUnicast M.g M.buffer = true)
    (ht : etherIsTcp M.buffer = true) (ha : etherIsTcpAck M.buffer = true) :
    processPacket M
      = ({ M with
            g := { M.g with
              acknowledgementNumber :=
                rd32 M.buffer (ETH_DATA + ipHeaderLength M.buffer ETH_DATA + TCP_SEQUENCE_NUMBER)
              sequenceNumber :=
                rd32 M.buffer
                  (ETH_DATA + ipHeaderLength M.buffer ETH_DATA + TCP_ACKNOWLEDGEMENT_NUMBER) }
          }).setState state.sendTcpAck := by
  have hty := etherIsIp_frameType _ hip
  have h1 : etherIsArpRequest M.g M.buffer = false := by
    rw [Bool.eq_false_iff]
    intro hc
    have := ((etherIsArpRequest_iff _ _).1 hc).1
    rw [hty] at this
    exact htons_0806_ne_0800 this.symm
  have hp : M.buffer (ETH_DATA + IP_PROTOCOL) = 6 := by
    unfold etherIsTcp at ht
    simpa using ht
  have hping : etherIsPingRequest M.buffer = false := by
    unfold etherIsPingRequest
    simp [hp]
  have hudp : etherIsUdp M.buffer = false := by
    unfold etherIsUdp
    simp [hp]
  unfold processPacket
  rw [handleArpRequest_of_not M h1, handleArpReply_of_not M (Or.inr (by rw [hs]; decide))]
  unfold handleIp
  simp only [hip, hu, if_true]
  have h2 : handleTcp M
      = ({ M with
            g := { M.g with
              acknowledgementNumber :=
                rd32 M.buffer (ETH_DATA + ipHeaderLength M.buffer ETH_DATA + TCP_SEQUENCE_NUMBER)
              sequenceNumber :=
                rd32 M.buffer
                  (ETH_DATA + ipHeaderLength M.buffer ETH_DATA + TCP_ACKNOWLEDGEMENT_NUMBER) }
          }).setState state.sendTcpAck := by
    unfold handleTcp
    simp [ht, ha, hs]
  rw [h2]
  unfold handlePing handleUdp
  simp [Machine.setState, hping, hudp]

/-- The send step of the main loop for SYN (in state `sendTcpSyn`) and for ACK
(in state `sendTcpAck`): the frame is built and logged, the globals are those
left by `etherSendTcp`, and the state advances. -/
theorem stepSendTcp_spec (u : Unspecified) (fuel : Nat) (M : Machine) (flags : Nat)
    (hf : flags = TCP_SYNC ∨ flags = TCP_ACK) :
    ∃ r, etherSendTcp M.g M.buffer M.s flags u.tcpData u.dataLength u.tcpDataOffset0 fuel
        = some r ∧
      sendTcpFromMain u fuel flags M
        = some { M with g := r.g, s := r.s, buffer := r.buf,
                        sent := M.sent ++ [{ frame := r.buf, size := r.size }] } ∧
      r.g = (if flags = TCP_SYNC then
          { M.g with sequenceNumber := 0, acknowledgementNumber := 0 } else M.g) ∧
      rd16 r.buf ETH_FRAME_TYPE = htons 0x0800 ∧
      r.buf (ETH_DATA + IP_PROTOCOL) = 6 ∧
      htons (rd16 r.buf (ETH_DATA + 20 + TCP_OFFSET_FIELDS))
        = (if flags = TCP_SYNC then 6 else 5) * 4096 + flags ∧
      r.buf 38 = r.g.sequenceNumber % 256 ∧
      r.buf 39 = r.g.sequenceNumber / 256 % 256 ∧
      r.buf 40 = r.g.sequenceNumber / 65536 % 256 ∧
      r.buf 41 = r.g.sequenceNumber / 16777216 % 256 ∧
      r.buf 42 = r.g.acknowledgementNumber % 256 ∧
      r.buf 43 = r.g.acknowledgementNumber / 256 % 256 ∧
      r.buf 44 = r.g.acknowledgementNumber / 65536 % 256 ∧
      r.buf 45 = r.g.acknowledgementNumber / 16777216 % 256 := by
  obtain ⟨r, e, rest⟩ := etherSendTcp_noPayload M.g M.buffer M.s flags hf u.tcpData u.dataLength
    u.tcpDataOffset0 fuel
  refine ⟨r, e, ?_, rest⟩
  unfold sendTcpFromMain
  rw [e]
  rfl

/-- Bytes of a 32-bit value read from byte memory. -/
theorem rd32_bytes (f : Mem) (hf : IsBytes f) (a : Nat) :
    rd32 f a % 256 = f a ∧ rd32 f a / 256 % 256 = f (a + 1) ∧
    rd32 f a / 65536 % 256 = f (a + 2) ∧ rd32 f a / 16777216 % 256 = f (a + 3) := by
  have h0 := hf a; have h1 := hf (a + 1); have h2 := hf (a + 2); have h3 := hf (a + 3)
  unfold rd32
  refine ⟨by omega, by omega, by omega, by omega⟩

/-- Packet processing only appends to the log of transmitted frames. -/
theorem processPacket_sent (M : Machine) : ∃ rest, (processPacket M).sent = M.sent ++ rest := by
  have hT : ∀ (X : Machine) (r : TxResult), (X.transmit r).sent = X.sent ++ [⟨r.buf, r.size⟩] :=
    fun _ _ => rfl
  have h1 : ∃ r1, (handleArpRequest M).sent = M.sent ++ r1 := by
    unfold handleArpRequest
    split
    · exact ⟨_, hT _ _⟩
    · exact ⟨[], by simp⟩
  obtain ⟨r1, e1⟩ := h1
  have h2 : (handleArpReply (handleArpRequest M)).sent = (handleArpRequest M).sent := by
    unfold handleArpReply
    split <;> rfl
  have h3 : ∀ X : Machine, ∃ r3, (handleIp X).sent = X.sent ++ r3 := by
    intro X
    have a : (handleTcp X).sent = X.sent := by
      unfold handleTcp
      split
      · split <;> rfl
      · rfl
    have b : ∀ Y : Machine, ∃ rb, (handlePing Y).sent = Y.sent ++ rb := by
      intro Y
      unfold handlePing
      split
      · exact ⟨_, hT _ _⟩
      · exact ⟨[], by simp⟩
    have c : ∀ Y : Machine, ∃ rc, (handleUdp Y).sent = Y.sent ++ rc := by
      intro Y
      unfold handleUdp
      split
      · exact ⟨_, hT _ _⟩
      · exact ⟨[], by simp⟩
    unfold handleIp
    split
    · split
      · obtain ⟨rb, eb⟩ := b (handleTcp X)
        obtain ⟨rc, ec⟩ := c (handlePing (handleTcp X))
        exact ⟨rb ++ rc, by rw [ec, eb, a, List.append_assoc]⟩
      · exact ⟨[], by simp⟩
    · exact ⟨[], by simp⟩
  obtain ⟨r3, e3⟩ := h3 (handleArpReply (handleArpRequest M))
  refine ⟨r1 ++ r3, ?_⟩
  unfold processPacket
  rw [e3, h2, e1, List.append_assoc]

/-- In a state other than the two waiting states packet processing changes
neither the state nor the history. -/
theorem processPacket_keeps (M : Machine) (h1 : M.currentState ≠ state.waitArpRes)
    (h2 : M.currentState ≠ state.waitTcpSynAck) :
    (processPacket M).currentState = M.currentState ∧
    (processPacket M).history = M.history := by
  obtain ⟨r1, r2, -, -, -⟩ := handleArpRequest_keeps M
  have hrep : handleArpReply (handleArpRequest M) = handleArpRequest M :=
    handleArpReply_of_not _ (Or.inr (by rw [r1]; exact h1))
  unfold processPacket
  rw [hrep]
  obtain ⟨a, b, -⟩ := handleIp_keeps (handleArpRequest M)
    (Or.inr (Or.inr (Or.inr (by rw [r1]; exact h2))))
  rw [a, b, r1, r2]
  exact ⟨rfl, rfl⟩

theorem receive_keeps (rx : Option (List Nat)) (M : Machine)
    (h1 : M.currentState ≠ state.waitArpRes) (h2 : M.currentState ≠ state.waitTcpSynAck) :
    (receive rx M).currentState = M.currentState ∧ (receive rx M).history = M.history ∧
    ∃ rest, (receive rx M).sent = M.sent ++ rest := by
  cases rx with
  | none => exact ⟨rfl, rfl, [], by simp [receive]⟩
  | some p =>
    obtain ⟨a, b⟩ := processPacket_keeps { M with buffer := received M.buffer p } h1 h2
    obtain ⟨rest, c⟩ := processPacket_sent { M with buffer := received M.buffer p }
    exact ⟨a, b, rest, c⟩

/-- A command other than CONNECT leaves the connection state, the logs, the
buffer and the sequence and acknowledgment numbers as they are. -/
theorem processCommand_keeps (cmd : Option Command) (M : Machine)
    (hc : cmd ≠ some Command.connect) :
    (processCommand cmd M).currentState = M.currentState ∧
    (processCommand cmd M).history = M.history ∧
    (processCommand cmd M).sent = M.sent ∧
    (processCommand cmd M).buffer = M.buffer ∧
    (processCommand cmd M).g.sequenceNumber = M.g.sequenceNumber ∧
    (processCommand cmd M).g.acknowledgementNumber = M.g.acknowledgementNumber := by
  cases cmd with
  | none => exact ⟨rfl, rfl, rfl, rfl, rfl, rfl⟩
  | some c =>
    cases c with
    | connect => exact absurd rfl hc
    | reboot => exact ⟨rfl, rfl, rfl, rfl, rfl, rfl⟩
    | status => exact ⟨rfl, rfl, rfl, rfl, rfl, rfl⟩
    | setIp a b c d => exact ⟨rfl, rfl, rfl, rfl, rfl, rfl⟩
    | setMqtt a b c d => exact ⟨rfl, rfl, rfl, rfl, rfl, rfl⟩
    | invalid => exact ⟨rfl, rfl, rfl, rfl, rfl, rfl⟩

/-- The iteration that starts in state `sendTcpAck`, with a command other than
CONNECT: the first frame it transmits is a TCP ACK carrying the sequence and
acknowledgment numbers of the globals byte for byte, and the state becomes
`tcpConnectionActive`. -/
theorem mainLoopBody_sendTcpAck (u : Unspecified) (fuel : Nat) (cmd : Option Command)
    (rx : Option (List Nat)) (M : Machine) (hs : M.currentState = state.sendTcpAck)
    (hc : cmd ≠ some Command.connect) :
    ∃ M' t rest, mainLoopBody u fuel cmd rx M = some M' ∧
      M'.currentState = state.tcpConnectionActive ∧
      M'.history = M.history ++ [state.tcpConnectionActive] ∧
      M'.sent = M.sent ++ t :: rest ∧ (rx = none → rest = []) ∧
      rd16 t.frame ETH_FRAME_TYPE = htons 0x0800 ∧
      t.frame (ETH_DATA + IP_PROTOCOL) = 6 ∧
      htons (rd16 t.frame (ETH_DATA + 20 + TCP_OFFSET_FIELDS)) = 5 * 4096 + TCP_ACK ∧
      t.frame 38 = M.g.sequenceNumber % 256 ∧
      t.frame 39 = M.g.sequenceNumber / 256 % 256 ∧
      t.frame 40 = M.g.sequenceNumber / 65536 % 256 ∧
      t.frame 41 = M.g.sequenceNumber / 16777216 % 256 ∧
      t.frame 42 = M.g.acknowledgementNumber % 256 ∧
      t.frame 43 = M.g.acknowledgementNumber / 256 % 256 ∧
      t.frame 44 = M.g.acknowledgementNumber / 65536 % 256 ∧
      t.frame 45 = M.g.acknowledgementNumber / 16777216 % 256 := by
  obtain ⟨c1, c2, c3, c4, c5, c6⟩ := processCommand_keeps cmd M hc
  obtain ⟨r, -, e2, hg, p1, p2, p3, n0, n1, n2, n3, n4, n5, n6, n7⟩ :=
    stepSendTcp_spec u fuel (processCommand cmd M) TCP_ACK (Or.inr rfl)
  have hne : TCP_ACK ≠ TCP_SYNC := by decide
  rw [if_neg hne] at hg p3
  rw [hg] at n0 n1 n2 n3 n4 n5 n6 n7
  rw [c5] at n0 n1 n2 n3
  rw [c6] at n4 n5 n6 n7
  obtain ⟨M1, hM1⟩ : ∃ M1 : Machine, M1 = ({ processCommand cmd M with
      g := r.g, s := r.s, buffer := r.buf,
      sent := (processCommand cmd M).sent ++ [TxFrame.mk r.buf r.size] }).setState
        state.tcpConnectionActive := ⟨_, rfl⟩
  have hbody : mainLoopBody u fuel cmd rx M = some (receive rx M1) := by
    simp [mainLoopBody, stepSendArpReq, stepSendTcpSyn, stepSendTcpAck, c1, hs, e2, hM1]
  have s1 : M1.currentState = state.tcpConnectionActive := by rw [hM1]; rfl
  have s2 : M1.history = M.history ++ [state.tcpConnectionActive] := by
    rw [hM1]; simp only [Machine.setState]; rw [c2]
  have s3 : M1.sent = M.sent ++ [TxFrame.mk r.buf r.size] := by
    rw [hM1]; simp only [Machine.setState]; rw [c3]
  obtain ⟨k1, k2, rest, k3⟩ := receive_keeps rx M1 (by rw [s1]; decide) (by rw [s1]; decide)
  refine ⟨receive rx M1, TxFrame.mk r.buf r.size, rest, hbody, by rw [k1, s1],
    by rw [k2, s2], by rw [k3, s3]; simp, ?_, p1, p2, p3, n0, n1, n2, n3, n4, n5, n6, n7⟩
  intro hrx
  subst hrx
  have : (receive none M1).sent = M1.sent := rfl
  rw [this] at k3
  exact (List.self_eq_append_right.1 k3)

theorem etherIsTcpAck_of_synAck (f : Mem) (ht : etherIsTcp f = true)
    (hfl : htons (rd16 f (ETH_DATA + ipHeaderLength f ETH_DATA + TCP_OFFSET_FIELDS)) % 4096
      = TCP_SYNACK) : etherIsTcpAck f = true := by
  unfold etherIsTcpAck
  simp [ht, hfl]

/-- Acceptance of a SYN-ACK in state `waitTcpSynAck` followed by the next
iteration: nothing is transmitted in between and the first frame transmitted
next is the TCP ACK, whose sequence number bytes are the acknowledgment number
bytes of the received segment and whose acknowledgment number bytes are its
sequence number bytes. -/
theorem synAck_then_ack (u : Unspecified) (fuel : Nat) (M : Machine) (p : List Nat)
    (cmd : Option Command) (rx : Option (List Nat))
    (hs : M.currentState = state.waitTcpSynAck)
    (hb : IsBytes (received M.buffer p))
    (hip : etherIsIp (received M.buffer p) = true)
    (hu : etherIsIpUnicast M.g (received M.buffer p) = true)
    (ht : etherIsTcp (received M.buffer p) = true)
    (hfl : htons (rd16 (received M.buffer p)
      (ETH_DATA + ipHeaderLength (received M.buffer p) ETH_DATA + TCP_OFFSET_FIELDS)) % 4096
        = TCP_SYNACK)
    (hc : cmd ≠ some Command.connect) :
    ∃ M1 M2 t rest,
      mainLoopBody u fuel none (some p) M = some M1 ∧
      M1.currentState = state.sendTcpAck ∧ M1.sent = M.sent ∧
      M1.history = M.history ++ [state.sendTcpAck] ∧
      mainLoopBody u fuel cmd rx M1 = some M2 ∧
      M2.currentState = state.tcpConnectionActive ∧
      M2.history = M.history ++ [state.sendTcpAck, state.tcpConnectionActive] ∧
      M2.sent = M.sent ++ t :: rest ∧ (rx = none → rest = []) ∧
      rd16 t.frame ETH_FRAME_TYPE = htons 0x0800 ∧
      t.frame (ETH_DATA + IP_PROTOCOL) = 6 ∧
      htons (rd16 t.frame (ETH_DATA + 20 + TCP_OFFSET_FIELDS)) = 5 * 4096 + TCP_ACK ∧
      ∀ i, i < 4 →
        t.frame (ETH_DATA + 20 + TCP_SEQUENCE_NUMBER + i)
          = received M.buffer p
            (ETH_DATA + ipHeaderLength (received M.buffer p) ETH_DATA
              + TCP_ACKNOWLEDGEMENT_NUMBER + i) ∧
        t.frame (ETH_DATA + 20 + TCP_ACKNOWLEDGEMENT_NUMBER + i)
          = received M.buffer p
            (ETH_DATA + ipHeaderLength (received M.buffer p) ETH_DATA
              + TCP_SEQUENCE_NUMBER + i) := by
  have ha := etherIsTcpAck_of_synAck _ ht hfl
  obtain ⟨f, hf⟩ : ∃ f, f = received M.buffer p := ⟨_, rfl⟩
  rw [← hf] at hb hip hu ht ha ⊢
  obtain ⟨M1, hM1⟩ : ∃ M1 : Machine, M1 = processPacket { M with buffer := f } := ⟨_, rfl⟩
  have h1 : mainLoopBody u fuel none (some p) M = some M1 := by
    rw [mainLoopBody_waiting u fuel _ M (Or.inr hs), hM1, hf]; rfl
  have hacc := processPacket_tcpAck { M with buffer := f } hs hip hu ht ha
  rw [← hM1] at hacc
  have s1 : M1.currentState = state.sendTcpAck := by rw [hacc]; rfl
  have s2 : M1.sent = M.sent := by rw [hacc]; rfl
  have s3 : M1.history = M.history ++ [state.sendTcpAck] := by rw [hacc]; rfl
  have s4 : M1.g.sequenceNumber
      = rd32 f (ETH_DATA + ipHeaderLength f ETH_DATA + TCP_ACKNOWLEDGEMENT_NUMBER) := by
    rw [hacc]; rfl
  have s5 : M1.g.acknowledgementNumber
      = rd32 f (ETH_DATA + ipHeaderLength f ETH_DATA + TCP_SEQUENCE_NUMBER) := by
    rw [hacc]; rfl
  obtain ⟨M2, t, rest, e, q1, q2, q3, q4, q5, q6, q7, n0, n1, n2, n3, n4, n5, n6, n7⟩ :=
    mainLoopBody_sendTcpAck u fuel cmd rx M1 s1 hc
  obtain ⟨a0, a1, a2, a3⟩ := rd32_bytes f hb
    (ETH_DATA + ipHeaderLength f ETH_DATA + TCP_ACKNOWLEDGEMENT_NUMBER)
  obtain ⟨b0, b1, b2, b3⟩ := rd32_bytes f hb
    (ETH_DATA + ipHeaderLength f ETH_DATA + TCP_SEQUENCE_NUMBER)
  rw [s4] at n0 n1 n2 n3
  rw [s5] at n4 n5 n6 n7
  refine ⟨M1, M2, t, rest, h1, s1, s2, s3, e, q1, by rw [q2, s3]; simp, by rw [q3, s2], q4, q5,
    q6, q7, ?_⟩
  intro i hi
  interval_cases i
  · exact ⟨n0.trans a0, n4.trans b0⟩
  · exact ⟨n1.trans a1, n5.trans b1⟩
  · exact ⟨n2.trans a2, n6.trans b2⟩
  · exact ⟨n3.trans a3, n7.trans b3⟩

/-- An iteration without a command that starts in state `sendTcpSyn`: the SYN is
built and transmitted, the state becomes `waitTcpSynAck`, and only then the
received packet, if any, is processed. -/
theorem mainLoopBody_sendTcpSyn (u : Unspecified) (fuel : Nat) (M : Machine)
    (hs : M.currentState = state.sendTcpSyn) :
    ∃ (M3 : Machine) (t : TxFrame),
      (∀ rx, mainLoopBody u fuel none rx M = some (receive rx M3)) ∧
      M3.currentState = state.waitTcpSynAck ∧
      M3.history = M.history ++ [state.waitTcpSynAck] ∧
      M3.sent = M.sent ++ [t] ∧
      M3.g.ipAddress = M.g.ipAddress ∧
      rd16 t.frame ETH_FRAME_TYPE = htons 0x0800 ∧
      t.frame (ETH_DATA + IP_PROTOCOL) = 6 ∧
      htons (rd16 t.frame (ETH_DATA + 20 + TCP_OFFSET_FIELDS)) = 6 * 4096 + TCP_SYNC := by
  obtain ⟨r, -, e2, hg, p1, p2, p3, -⟩ := stepSendTcp_spec u fuel M TCP_SYNC (Or.inl rfl)
  rw [if_pos rfl] at hg p3
  obtain ⟨M3, hM3⟩ : ∃ M3 : Machine, M3 = Machine.setState
      { M with
        g := r.g
        s := r.s
        buffer := r.buf
        sent := M.sent ++ [TxFrame.mk r.buf r.size] } state.waitTcpSynAck := ⟨_, rfl⟩
  refine ⟨M3, TxFrame.mk r.buf r.size, ?_, by rw [hM3]; rfl, by rw [hM3]; rfl,
    by rw [hM3]; rfl, ?_, p1, p2, p3⟩
  · intro rx
    simp [mainLoopBody, processCommand, stepSendArpReq, stepSendTcpSyn, stepSendTcpAck, hs, e2,
      Machine.setState, hM3]
  · rw [hM3]
    show r.g.ipAddress = M.g.ipAddress
    rw [hg]

/-- The whole handshake: CONNECT in state `idle`, `k1` idle iterations, an ARP
reply, `k2` idle iterations, a SYN-ACK, and at least one more iteration. -/
theorem handshake_run (u : Unspecified) (fuel : Nat) (M : Machine) (pArp pSyn : List Nat)
    (k1 k2 k3 : Nat)
    (hArp : ∀ b, etherIsArpReply M.g (received b pArp) = true)
    (hSyn : ∀ b, etherIsIp (received b pSyn) = true ∧
      etherIsIpUnicast M.g (received b pSyn) = true ∧
      etherIsTcp (received b pSyn) = true ∧
      htons (rd16 (received b pSyn)
        (ETH_DATA + ipHeaderLength (received b pSyn) ETH_DATA + TCP_OFFSET_FIELDS)) % 4096
          = TCP_SYNACK) :
    ∃ (M' : Machine) (t1 t2 t3 : TxFrame),
      mainLoop u fuel
        ([(some Command.connect, none)] ++ List.replicate k1 (none, none)
          ++ [(none, some pArp)] ++ List.replicate k2 (none, none)
          ++ [(none, some pSyn)] ++ List.replicate (k3 + 1) (none, none)) M = some M' ∧
      M'.currentState = state.tcpConnectionActive ∧
      M'.history = M.history ++ [state.sendArpReq, state.waitArpRes, state.sendTcpSyn,
        state.waitTcpSynAck, state.sendTcpAck, state.tcpConnectionActive] ∧
      M'.sent = M.sent ++ [t1, t2, t3] ∧
      (t1.size = 42 ∧ rd16 t1.frame ETH_FRAME_TYPE = htons 0x0806 ∧
        htons (rd16 t1.frame (ETH_DATA + ARP_OP)) = 1 ∧
        ∀ i, i < 4 → t1.frame (ETH_DATA + ARP_DEST_IP + i) = M.g.mqttBrokerIpAddress i) ∧
      (rd16 t2.frame ETH_FRAME_TYPE = htons 0x0800 ∧ t2.frame (ETH_DATA + IP_PROTOCOL) = 6 ∧
        htons (rd16 t2.frame (ETH_DATA + 20 + TCP_OFFSET_FIELDS)) = 6 * 4096 + TCP_SYNC) ∧
      (rd16 t3.frame ETH_FRAME_TYPE = htons 0x0800 ∧ t3.frame (ETH_DATA + IP_PROTOCOL) = 6 ∧
        htons (rd16 t3.frame (ETH_DATA + 20 + TCP_OFFSET_FIELDS)) = 5 * 4096 + TCP_ACK) := by
  -- CONNECT
  obtain ⟨req, hreq⟩ : ∃ req : TxResult, req = etherSendArpRequest M.g M.buffer
    (etherGetMqttBrokerIpAddress M.g (fun _ => 0)) := ⟨_, rfl⟩
  obtain ⟨M1, hM1⟩ : ∃ M1 : Machine, M1 = ((M.setState state.sendArpReq).transmit req).setState
    state.waitArpRes := ⟨_, rfl⟩
  have step1 : mainLoopBody u fuel (some Command.connect) none M = some M1 := by
    rw [mainLoopBody_connect, hM1, hreq]
  have a1 : M1.currentState = state.waitArpRes := by rw [hM1]; rfl
  have a2 : M1.history = M.history ++ [state.sendArpReq, state.waitArpRes] := by
    rw [hM1]; simp [Machine.setState, Machine.transmit]
  have a3 : M1.sent = M.sent ++ [TxFrame.mk req.buf req.size] := by rw [hM1]; rfl
  have a4 : M1.g = M.g := by rw [hM1]; rfl
  -- ARP reply
  obtain ⟨M2, hM2⟩ : ∃ M2 : Machine,
      M2 = processPacket { M1 with buffer := received M1.buffer pArp } := ⟨_, rfl⟩
  have step2 : mainLoopBody u fuel none (some pArp) M1 = some M2 := by
    rw [mainLoopBody_waiting u fuel _ M1 (Or.inl a1), hM2]; rfl
  have hM2' := processPacket_arpReply { M1 with buffer := received M1.buffer pArp } a1
    (by show etherIsArpReply M1.g (received M1.buffer pArp) = true
        rw [a4]; exact hArp _)
  rw [← hM2] at hM2'
  have b1 : M2.currentState = state.sendTcpSyn := by rw [hM2']; rfl
  have b2 : M2.history = M1.history ++ [state.sendTcpSyn] := by rw [hM2']; rfl
  have b3 : M2.sent = M1.sent := by rw [hM2']; rfl
  have b4 : M2.g.ipAddress = M.g.ipAddress := by rw [hM2', ← a4]; rfl
  -- SYN, then SYN-ACK
  obtain ⟨M3, t2, step3, c1, c2, c3, c4, c5, c6, c7⟩ := mainLoopBody_sendTcpSyn u fuel M2 b1
  obtain ⟨M4, hM4⟩ : ∃ M4 : Machine,
      M4 = processPacket { M3 with buffer := received M3.buffer pSyn } := ⟨_, rfl⟩
  have hrun3 : mainLoop u fuel (List.replicate k2 (none, none) ++ [(none, some pSyn)]) M2
      = some M4 := by
    cases k2 with
    | zero =>
      simp only [List.replicate_zero, List.nil_append, mainLoop, step3, Option.some_bind]
      rw [hM4]; rfl
    | succ j =>
      rw [mainLoop_append]
      have e0 : mainLoop u fuel (List.replicate (j + 1) (none, none)) M2 = some M3 := by
        simp only [List.replicate_succ, mainLoop, step3, Option.some_bind]
        exact mainLoop_idle u fuel j M3 (Or.inr (Or.inr (Or.inl c1)))
      rw [e0]
      simp only [Option.some_bind, mainLoop, mainLoopBody_waiting u fuel _ M3 (Or.inr c1)]
      rw [hM4]; rfl
  obtain ⟨s1, s2, s3, s4⟩ := hSyn M3.buffer
  have hM4' := processPacket_tcpAck { M3 with buffer := received M3.buffer pSyn } c1 s1
    (by show etherIsIpUnicast M3.g (received M3.buffer pSyn) = true
        rw [etherIsIpUnicast_congr M.g M3.g (by rw [c4, b4])]; exact s2)
    s3 (etherIsTcpAck_of_synAck _ s3 s4)
  rw [← hM4] at hM4'
  have d1 : M4.currentState = state.sendTcpAck := by rw [hM4']; rfl
  have d2 : M4.history = M3.history ++ [state.sendTcpAck] := by rw [hM4']; rfl
  have d3 : M4.sent = M3.sent := by rw [hM4']; rfl
  -- ACK
  obtain ⟨M5, t3, rest, step5, e1, e2, e3, e4, e5, e6, e7, -⟩ :=
    mainLoopBody_sendTcpAck u fuel none none M4 d1 (by simp)
  have hrest := e4 rfl
  subst hrest
  obtain ⟨q1, q2, q3, q4, q5, q6⟩ := etherSendArpRequest_request M.g M.buffer
    (etherGetMqttBrokerIpAddress M.g (fun _ => 0))
  refine ⟨M5, TxFrame.mk req.buf req.size, t2, t3, ?_, e1, ?_, ?_, ⟨?_, ?_, ?_, ?_⟩, ⟨c5, c6, c7⟩,
    ⟨e5, e6, e7⟩⟩
  · rw [mainLoop_append, mainLoop_append, mainLoop_append, mainLoop_append, mainLoop_append]
    have r1 : mainLoop u fuel [(some Command.connect, none)] M = some M1 := by
      simp only [mainLoop, step1, Option.some_bind]
    have r2 : mainLoop u fuel [(none, some pArp)] M1 = some M2 := by
      simp only [mainLoop, step2, Option.some_bind]
    have r5 : mainLoop u fuel (List.replicate (k3 + 1) (none, none)) M4 = some M5 := by
      simp only [List.replicate_succ, mainLoop, step5, Option.some_bind]
      exact mainLoop_idle u fuel k3 M5 (Or.inr (Or.inr (Or.inr e1)))
    rw [r1]
    simp only [Option.some_bind]
    rw [mainLoop_idle u fuel k1 M1 (Or.inr (Or.inl a1))]
    simp only [Option.some_bind]
    rw [r2]
    simp only [Option.some_bind]
    have := hrun3
    rw [mainLoop_append] at this
    rw [this]
    simp only [Option.some_bind]
    exact r5
  · rw [e2, d2, c2, b2, a2]; simp
  · rw [e3, d3, c3, b3, a3]; simp
  · rw [hreq]; exact q6
  · rw [hreq]; simp only [rd16, ETH_FRAME_TYPE, q1, q2]; decide
  · rw [hreq]; simp only [rd16, q3, q4]; decide
  · intro i hi
    show req.buf (ETH_DATA + ARP_DEST_IP + i) = _
    rw [hreq, q5 i hi, etherGetMqttBrokerIpAddress_apply, if_pos hi]

theorem rd16_received (b : Mem) (p : List Nat) (a : Nat) (h1 : a + 1 < p.length)
    (h2 : p.length ≤ MAX_PACKET_SIZE) : rd16 (received b p) a = rd16 (memOfList p) a :=
  rd16_congr _ _ _ (received_apply b p a (by omega) h2) (received_apply b p (a + 1) h1 h2)

theorem isBytes_received (b : Mem) (hb : IsBytes b) (p : List Nat) (hp : ∀ x ∈ p, x < 256) :
    IsBytes (received b p) := by
  intro i
  unfold received etherGetPacket
  simp only
  split <;> split <;> first | exact isBytes_memOfList p hp i | exact hb i

/-- The ARP classifiers read no byte beyond the 42 bytes of the ARP frame. -/
theorem etherIsArpReply_received (g : Globals) (b : Mem) (p : List Nat) (h1 : 42 ≤ p.length)
    (h2 : p.length ≤ MAX_PACKET_SIZE) :
    etherIsArpReply g (received b p) = etherIsArpReply g (memOfList p) := by
  rw [Bool.eq_iff_iff, etherIsArpReply_iff, etherIsArpReply_iff,
    rd16_received b p _ (by simp only [ETH_FRAME_TYPE]; omega) h2,
    rd16_received b p _ (by simp only [ETH_DATA, ARP_OP]; omega) h2]
  constructor
  · rintro ⟨a, c, d⟩
    exact ⟨a, fun i hi => by
      rw [← received_apply b p _ (by simp only [ETH_DATA, ARP_DEST_IP]; omega) h2]
      exact c i hi, d⟩
  · rintro ⟨a, c, d⟩
    exact ⟨a, fun i hi => by
      rw [received_apply b p _ (by simp only [ETH_DATA, ARP_DEST_IP]; omega) h2]
      exact c i hi, d⟩

/-- The IP and TCP classifiers of the handshake, on a packet of at least 74
bytes with a 20-byte IP header, read only bytes of the packet. -/
theorem tcp_classifiers_received (g : Globals) (b : Mem) (p : List Nat) (h1 : 74 ≤ p.length)
    (h2 : p.length ≤ MAX_PACKET_SIZE) (h20 : ipHeaderLength (memOfList p) ETH_DATA = 20) :
    etherIsIp (received b p) = etherIsIp (memOfList p) ∧
    etherIsIpUnicast g (received b p) = etherIsIpUnicast g (memOfList p) ∧
    etherIsTcp (received b p) = etherIsTcp (memOfList p) ∧
    htons (rd16 (received b p)
      (ETH_DATA + ipHeaderLength (received b p) ETH_DATA + TCP_OFFSET_FIELDS))
      = htons (rd16 (memOfList p) (ETH_DATA + 20 + TCP_OFFSET_FIELDS)) := by
  have hr : ∀ i, i < 74 → received b p i = memOfList p i := fun i hi =>
    received_apply b p i (by omega) h2
  have hl : ipHeaderLength (received b p) ETH_DATA = 20 := by
    rw [← h20]
    simp only [ipHeaderLength, ETH_DATA, IP_REV_SIZE]
    rw [hr _ (by omega)]
  refine ⟨?_, ?_, ?_, ?_⟩
  · unfold etherIsIp
    simp only [hl, h20]
    rw [rd16_received b p _ (by simp only [ETH_FRAME_TYPE]; omega) h2,
      etherSumWords_congr (memOfList p) (received b p) _ 20 0 (by norm_num)
        (fun i hi => hr _ (by simp only [ETH_DATA, IP_REV_SIZE]; omega))]
  · rw [Bool.eq_iff_iff]
    unfold etherIsIpUnicast
    simp only [IP_ADD_LENGTH, eqWhile_four, true_and]
    constructor
    · intro h i hi
      rw [← hr _ (by simp only [ETH_DATA, IP_DEST_IP]; omega)]
      exact h i hi
    · intro h i hi
      rw [hr _ (by simp only [ETH_DATA, IP_DEST_IP]; omega)]
      exact h i hi
  · unfold etherIsTcp
    rw [hr _ (by simp only [ETH_DATA, IP_PROTOCOL]; omega)]
  · rw [hl, rd16_received b p _ (by simp only [ETH_DATA, TCP_OFFSET_FIELDS]; omega) h2]

theorem isBytes_zeroMem : IsBytes zeroMem := fun _ => Nat.zero_lt_succ _

theorem exampleGlobals_wf : exampleGlobals.WF :=
  { mac := isBytes_memOfList _ (by decide)
    ip := isBytes_memOfList _ (by decide)
    brokerIp := isBytes_memOfList _ (by decide)
    brokerMac := isBytes_memOfList _ (by decide)
    seq := by decide
    ack := by decide }

/-! ## Lemmas: MQTT payload constructors -/

/-- On a string of `L` non-NUL bytes followed by a NUL, with `L` in the range of
the 16-bit counter, `strLen` returns `L` as soon as the fuel exceeds `L`. -/
theorem strLenLoop_spec (s : Mem) (L : Nat) (hL : L < 65536) (h0 : s L = 0) :
    ∀ (fuel i : Nat), i ≤ L → (∀ j, i ≤ j → j < L → s j ≠ 0) → L - i < fuel →
      strLenLoop s fuel i = some L := by
  intro fuel
  induction fuel with
  | zero => intro i _ _ h; omega
  | succ fuel ih =>
    intro i hi hs hf
    by_cases h : i = L
    · subst h
      simp [strLenLoop, h0]
    · have hw : (i + 1) % 65536 = i + 1 := Nat.mod_eq_of_lt (by omega)
      have hne : s i ≠ 0 := hs i (le_refl _) (by omega)
      simp only [strLenLoop, hw, if_pos hne]
      exact ih (i + 1) (by omega) (fun j a b => hs j (by omega) b) (by omega)

theorem strLen_spec (s : Mem) (L : Nat) (hL : L < 65536) (hs : ∀ j, j < L → s j ≠ 0)
    (h0 : s L = 0) (fuel : Nat) (hf : L < fuel) : strLen s fuel = some L :=
  strLenLoop_spec s L hL h0 fuel 0 (Nat.zero_le _) (fun j _ b => hs j b) (by omega)

/-- The copy loop of the payload constructors ends when the bound is at most 255
and the fuel exceeds the remaining rounds; its counter then equals the bound, it
has copied `src 0 .. src (n - 1)` to `off .. off + n - 1` and changed nothing
else. -/
theorem copyLoopIdxU8_spec (src : Mem) (off n : Nat) (hn : n ≤ 255) :
    ∀ (fuel i : Nat) (m : Mem), i ≤ n → n - i < fuel →
      ∃ m', copyLoopIdxU8 src off n fuel i m = some (n, m') ∧
        ∀ j, m' j = if off + i ≤ j ∧ j < off + n then src (j - off) else m j := by
  intro fuel
  induction fuel with
  | zero => intro i m _ h; omega
  | succ fuel ih =>
    intro i m hi hf
    by_cases h : i < n
    · have hw : (i + 1) % 256 = i + 1 := Nat.mod_eq_of_lt (by omega)
      obtain ⟨m', e1, e2⟩ := ih (i + 1) (wr m (i + off) (src i)) (by omega) (by omega)
      refine ⟨m', ?_, ?_⟩
      · simp only [copyLoopIdxU8, if_pos h, hw]; exact e1
      · intro j
        rw [e2 j]
        by_cases h1 : off + (i + 1) ≤ j ∧ j < off + n
        · rw [if_pos h1, if_pos (by omega)]
        · rw [if_neg h1]
          by_cases h2 : j = i + off
          · subst h2
            rw [wr_same, if_pos (by omega)]
            congr 1; omega
          · rw [wr_other _ _ _ _ h2, if_neg (by omega)]
    · have hin : i = n := by omega
      subst hin
      refine ⟨m, ?_, ?_⟩
      · simp only [copyLoopIdxU8, if_neg h]
      · intro j
        rw [if_neg (by omega)]

/-- With a bound above 255 the `uint8_t` counter never reaches the bound: the
copy loop of the payload constructors does not end, whatever the fuel. -/
theorem copyLoopIdxU8_diverges (src : Mem) (off n : Nat) (hn : 256 ≤ n) :
    ∀ (fuel i : Nat) (m : Mem), i < 256 → copyLoopIdxU8 src off n fuel i m = none := by
  intro fuel
  induction fuel with
  | zero => intro i m _; rfl
  | succ fuel ih =>
    intro i m hi
    have h : i < n := by omega
    simp only [copyLoopIdxU8, if_pos h]
    exact ih _ _ (Nat.mod_lt _ (by norm_num))

/-- The same for the copy loop of `etherSendTcp`. -/
theorem copyLoopU8_diverges (src : Mem) (dst n : Nat) (hn : 256 ≤ n) :
    ∀ (fuel i : Nat) (m : Mem), i < 256 → copyLoopU8 src dst n fuel i m = none := by
  intro fuel
  induction fuel with
  | zero => intro i m _; rfl
  | succ fuel ih =>
    intro i m hi
    have h : i < n := by omega
    simp only [copyLoopU8, if_pos h]
    exact ih _ _ (Nat.mod_lt _ (by norm_num))

/-- The two bytes of a 16-bit value stored after `htons` by a little-endian
store: high byte first. -/
theorem htons_bytes (v : Nat) (hv : v < 65536) :
    htons v % 256 = v / 256 ∧ htons v / 256 % 256 = v % 256 := by
  have ha : v / 256 < 256 := by omega
  have hb : v % 256 < 256 := Nat.mod_lt _ (by norm_num)
  have e : htons v = v / 256 + v % 256 * 256 := by
    unfold htons
    rw [Nat.mod_eq_of_lt ha, Nat.mod_eq_of_lt (by omega)]
  rw [e]
  generalize v / 256 = a at ha
  generalize v % 256 = b at hb
  omega

/-- The bytes stored by `*ptr = htons(v)`. -/
theorem wr16_htons (m : Mem) (a v : Nat) (hv : v < 65536) :
    wr16 m a (htons v) a = v / 256 ∧ wr16 m a (htons v) (a + 1) = v % 256 := by
  obtain ⟨h1, h2⟩ := htons_bytes v hv
  constructor
  · unfold wr16
    rw [wr_other _ _ _ _ (by omega), wr_same, h1]
  · unfold wr16
    rw [wr_same, h2]

/-- The CONNECT payload: the seventeen bytes written, the rest of the buffer
untouched, and the length stored in `payLoadLength`. -/
theorem etherMqttCreateConnectPayload_spec (g : Globals) (mqttPayload : Mem) :
    (∀ i, i < 17 → (etherMqttCreateConnectPayload g mqttPayload).mqttPayload i
      = [0x10, 0x0F, 0x00, 0x04, 77, 81, 84, 84, 0x04, 0x02, 0x00, 0x3C, 0x00, 0x03,
          114, 98, 118].getD i 0) ∧
    (∀ i, 17 ≤ i → (etherMqttCreateConnectPayload g mqttPayload).mqttPayload i = mqttPayload i) ∧
    (etherMqttCreateConnectPayload g mqttPayload).g = { g with payLoadLength := 17 } := by
  refine ⟨?_, ?_, ?_⟩
  · intro i hi
    interval_cases i <;> simp [etherMqttCreateConnectPayload, wr]
  · intro i hi
    simp only [etherMqttCreateConnectPayload]
    repeat rw [wr_other _ _ _ _ (by omega)]
  · simp [etherMqttCreateConnectPayload, wr]

/-- The SUBSCRIBE payload for a topic of `L <= 255` non-NUL bytes: the function
returns, and every byte of the result is as listed; the remaining-length byte
and the stored length are taken modulo 256. -/
theorem etherMqttCreateSubscribePayload_spec (g : Globals) (mqttPayload subTopic : Mem)
    (L fuel : Nat) (hL : L ≤ 255) (hs : ∀ j, j < L → subTopic j ≠ 0) (h0 : subTopic L = 0)
    (hf : L < fuel) :
    ∃ r, etherMqttCreateSubscribePayload g mqttPayload subTopic fuel = some r ∧
      r.mqttPayload 0 = 0x82 ∧ r.mqttPayload 1 = (L + 5) % 256 ∧
      r.mqttPayload 2 = 0x00 ∧ r.mqttPayload 3 = 0x0C ∧
      r.mqttPayload 4 = L / 256 ∧ r.mqttPayload 5 = L % 256 ∧
      (∀ i, i < L → r.mqttPayload (6 + i) = subTopic i) ∧
      r.mqttPayload (6 + L) = 0x00 ∧
      (∀ j, 6 + L < j → r.mqttPayload j = mqttPayload j) ∧
      r.g = { g with payLoadLength := (L + 5) % 256 + 2 } := by
  have hlen := strLen_spec subTopic L (by omega) hs h0 fuel hf
  obtain ⟨m', e1, e2⟩ := copyLoopIdxU8_spec subTopic 6 L hL fuel 0
    (wr16 (wr (wr (wr (wr mqttPayload 0 0x82) 1 ((L + 2 + 2 + 1) % 256)) 2 0x00) 3 0x0C) 4
      (htons L)) (by omega) (by omega)
  have hb1 : wr m' (L + 6) 0 1 = (L + 5) % 256 := by
    rw [wr_other _ _ _ _ (by omega), e2, if_neg (by omega),
      wr16_other _ _ _ _ (by omega) (by omega), wr_other _ _ _ _ (by omega),
      wr_other _ _ _ _ (by omega), wr_same]
  refine ⟨{ g := { g with payLoadLength := (wr m' (L + 6) 0 1 + 2) % 4294967296 },
            mqttPayload := wr m' (L + 6) 0 }, ?_, ?_, hb1, ?_, ?_, ?_, ?_, ?_, ?_, ?_, ?_⟩
  · simp only [etherMqttCreateSubscribePayload, hlen, Option.some_bind, e1, Option.map_some']
  · show wr m' (L + 6) 0 0 = _
    rw [wr_other _ _ _ _ (by omega), e2, if_neg (by omega),
      wr16_other _ _ _ _ (by omega) (by omega), wr_other _ _ _ _ (by omega),
      wr_other _ _ _ _ (by omega), wr_other _ _ _ _ (by omega), wr_same]
  · show wr m' (L + 6) 0 2 = _
    rw [wr_other _ _ _ _ (by omega), e2, if_neg (by omega),
      wr16_other _ _ _ _ (by omega) (by omega), wr_other _ _ _ _ (by omega), wr_same]
  · show wr m' (L + 6) 0 3 = _
    rw [wr_other _ _ _ _ (by omega), e2, if_neg (by omega),
      wr16_other _ _ _ _ (by omega) (by omega), wr_same]
  · show wr m' (L + 6) 0 4 = _
    rw [wr_other _ _ _ _ (by omega), e2, if_neg (by omega)]
    exact (wr16_htons _ 4 L (by omega)).1
  · show wr m' (L + 6) 0 5 = _
    rw [wr_other _ _ _ _ (by omega), e2, if_neg (by omega)]
    exact (wr16_htons _ 4 L (by omega)).2
  · intro i hi
    show wr m' (L + 6) 0 (6 + i) = _
    rw [wr_other _ _ _ _ (by omega), e2, if_pos (by omega)]
    congr 1; omega
  · show wr m' (L + 6) 0 (6 + L) = _
    rw [show 6 + L = L + 6 by omega, wr_same]
  · intro j hj
    show wr m' (L + 6) 0 j = _
    rw [wr_other _ _ _ _ (by omega), e2, if_neg (by omega),
      wr16_other _ _ _ _ (by omega) (by omega), wr_other _ _ _ _ (by omega),
      wr_other _ _ _ _ (by omega), wr_other _ _ _ _ (by omega), wr_other _ _ _ _ (by omega)]
  · show ({ g with payLoadLength := (wr m' (L + 6) 0 1 + 2) % 4294967296 } : Globals) = _
    rw [hb1]
    have : ((L + 5) % 256 + 2) % 4294967296 = (L + 5) % 256 + 2 := by omega
    rw [this]

/-- The UNSUBSCRIBE payload for a topic of `L <= 255` non-NUL bytes: the function
returns, and every byte of the result is as listed; the remaining-length byte
and the stored length are taken modulo 256. -/
theorem etherMqttCreateUnSubscribePayload_spec (g : Globals) (mqttPayload subTopic : Mem)
    (L fuel : Nat) (hL : L ≤ 255) (hs : ∀ j, j < L → subTopic j ≠ 0) (h0 : subTopic L = 0)
    (hf : L < fuel) :
    ∃ r, etherMqttCreateUnSubscribePayload g mqttPayload subTopic fuel = some r ∧
      r.mqttPayload 0 = 0xA2 ∧ r.mqttPayload 1 = (L + 4) % 256 ∧
      r.mqttPayload 2 = 0x00 ∧ r.mqttPayload 3 = 0x0C ∧
      r.mqttPayload 4 = L / 256 ∧ r.mqttPayload 5 = L % 256 ∧
      (∀ i, i < L → r.mqttPayload (6 + i) = subTopic i) ∧
      r.mqttPayload (6 + L) = 0x00 ∧
      (∀ j, 6 + L < j → r.mqttPayload j = mqttPayload j) ∧
      r.g = { g with payLoadLength := (L + 4) % 256 + 2 } := by
  have hlen := strLen_spec subTopic L (by omega) hs h0 fuel hf
  obtain ⟨m', e1, e2⟩ := copyLoopIdxU8_spec subTopic 6 L hL fuel 0
    (wr16 (wr (wr (wr (wr mqttPayload 0 0xA2) 1 ((L + 2 + 2) % 256)) 2 0x00) 3 0x0C) 4
      (htons L)) (by omega) (by omega)
  have hb1 : wr m' (L + 6) 0 1 = (L + 4) % 256 := by
    rw [wr_other _ _ _ _ (by omega), e2, if_neg (by omega),
      wr16_other _ _ _ _ (by omega) (by omega), wr_other _ _ _ _ (by omega),
      wr_other _ _ _ _ (by omega), wr_same]
  refine ⟨{ g := { g with payLoadLength := (wr m' (L + 6) 0 1 + 2) % 4294967296 },
            mqttPayload := wr m' (L + 6) 0 }, ?_, ?_, hb1, ?_, ?_, ?_, ?_, ?_, ?_, ?_, ?_⟩
  · simp only [etherMqttCreateUnSubscribePayload, hlen, Option.some_bind, e1, Option.map_some']
  · show wr m' (L + 6) 0 0 = _
    rw [wr_other _ _ _ _ (by omega), e2, if_neg (by omega),
      wr16_other _ _ _ _ (by omega) (by omega), wr_other _ _ _ _ (by omega),
      wr_other _ _ _ _ (by omega), wr_other _ _ _ _ (by omega), wr_same]
  · show wr m' (L + 6) 0 2 = _
    rw [wr_other _ _ _ _ (by omega), e2, if_neg (by omega),
      wr16_other _ _ _ _ (by omega) (by omega), wr_other _ _ _ _ (by omega), wr_same]
  · show wr m' (L + 6) 0 3 = _
    rw [wr_other _ _ _ _ (by omega), e2, if_neg (by omega),
      wr16_other _ _ _ _ (by omega) (by omega), wr_same]
  · show wr m' (L + 6) 0 4 = _
    rw [wr_other _ _ _ _ (by omega), e2, if_neg (by omega)]
    exact (wr16_htons _ 4 L (by omega)).1
  · show wr m' (L + 6) 0 5 = _
    rw [wr_other _ _ _ _ (by omega), e2, if_neg (by omega)]
    exact (wr16_htons _ 4 L (by omega)).2
  · intro i hi
    show wr m' (L + 6) 0 (6 + i) = _
    rw [wr_other _ _ _ _ (by omega), e2, if_pos (by omega)]
    congr 1; omega
  · show wr m' (L + 6) 0 (6 + L) = _
    rw [show 6 + L = L + 6 by omega, wr_same]
  · intro j hj
    show wr m' (L + 6) 0 j = _
    rw [wr_other _ _ _ _ (by omega), e2, if_neg (by omega),
      wr16_other _ _ _ _ (by omega) (by omega), wr_other _ _ _ _ (by omega),
      wr_other _ _ _ _ (by omega), wr_other _ _ _ _ (by omega), wr_other _ _ _ _ (by omega)]
  · show ({ g with payLoadLength := (wr m' (L + 6) 0 1 + 2) % 4294967296 } : Globals) = _
    rw [hb1]
    have : ((L + 4) % 256 + 2) % 4294967296 = (L + 4) % 256 + 2 := by omega
    rw [this]

/-- A topic of 256 bytes or more: `strLen` returns, but the copy loop with its
`uint8_t` counter does not end, so the SUBSCRIBE constructor never returns. -/
theorem etherMqttCreateSubscribePayload_diverges (g : Globals) (mqttPayload subTopic : Mem)
    (L : Nat) (hL : 256 ≤ L) (hL2 : L < 65536) (hs : ∀ j, j < L → subTopic j ≠ 0)
    (h0 : subTopic L = 0) (fuel : Nat) :
    etherMqttCreateSubscribePayload g mqttPayload subTopic fuel = none := by
  unfold etherMqttCreateSubscribePayload
  cases h : strLen subTopic fuel with
  | none => rfl
  | some n =>
    have hn : n = L := by
      by_cases hf : L < fuel
      · have := strLen_spec subTopic L hL2 hs h0 fuel hf
        rw [this] at h
        exact (Option.some.inj h).symm
      · have h2 := strLen_spec subTopic L hL2 hs h0 (L + 1) (by omega)
        -- more fuel never changes a result
        have mono : ∀ (f i k : Nat) (v : Nat), strLenLoop subTopic f i = some v →
            strLenLoop subTopic (f + k) i = some v := by
          intro f
          induction f with
          | zero => intro i k v hv; simp [strLenLoop] at hv
          | succ f ih =>
            intro i k v hv
            rw [show f + 1 + k = (f + k) + 1 by omega]
            simp only [strLenLoop] at hv ⊢
            by_cases hc : subTopic i ≠ 0
            · rw [if_pos hc] at hv ⊢
              exact ih _ k v hv
            · rw [if_neg hc] at hv ⊢
              exact hv
        have h3 := mono fuel 0 (L + 1 - fuel) n h
        rw [show fuel + (L + 1 - fuel) = L + 1 by omega] at h3
        unfold strLen at h2
        rw [h2] at h3
        exact (Option.some.inj h3).symm
    subst hn
    simp only [Option.some_bind]
    rw [copyLoopIdxU8_diverges subTopic 6 n hL fuel 0 _ (by norm_num)]
    rfl

/-- The PUBLISH payload for a topic of `T <= 255` and data of `D <= 255` non-NUL
bytes: the function returns, and every byte of the result is as listed; the
remaining-length byte, the stored length and the second byte of the pair after
the topic are taken modulo 256. -/
theorem etherMqttCreatePublishPayload_spec (g : Globals) (mqttPayload topic data : Mem)
    (T D fuel : Nat) (hT : T ≤ 255) (hD : D ≤ 255)
    (ht : ∀ j, j < T → topic j ≠ 0) (ht0 : topic T = 0)
    (hd : ∀ j, j < D → data j ≠ 0) (hd0 : data D = 0)
    (hfT : T < fuel) (hfD : D < fuel) :
    ∃ r, etherMqttCreatePublishPayload g mqttPayload topic data fuel = some r ∧
      r.mqttPayload 0 = 0x30 ∧ r.mqttPayload 1 = (T + D + 4) % 256 ∧
      r.mqttPayload 2 = T / 256 ∧ r.mqttPayload 3 = T % 256 ∧
      (∀ i, i < T → r.mqttPayload (4 + i) = topic i) ∧
      r.mqttPayload (4 + T) = 0x10 ∧ r.mqttPayload (5 + T) = (0x11 + T) % 256 ∧
      (∀ j, j < D → r.mqttPayload (6 + T + j) = data j) ∧
      (∀ j, 6 + T + D ≤ j → r.mqttPayload j = mqttPayload j) ∧
      r.g = { g with payLoadLength := (T + D + 4) % 256 + 2 } := by
  have hlenT := strLen_spec topic T (by omega) ht ht0 fuel hfT
  have hlenD := strLen_spec data D (by omega) hd hd0 fuel hfD
  obtain ⟨m1, e1, e2⟩ := copyLoopIdxU8_spec topic 4 T hT fuel 0
    (wr16 (wr (wr mqttPayload 0 0x30) 1 ((T + D + 2 + 2) % 256)) 2 (htons T))
    (by omega) (by omega)
  obtain ⟨m3, e3, e4⟩ := copyLoopIdxU8_spec data (T + 6) D hD fuel 0
    (wr (wr m1 (T + 4) 0x10) (T + 5) ((0x11 + T) % 256)) (by omega) (by omega)
  have hb1 : m3 1 = (T + D + 4) % 256 := by
    rw [e4, if_neg (by omega), wr_other _ _ _ _ (by omega), wr_other _ _ _ _ (by omega), e2,
      if_neg (by omega), wr16_other _ _ _ _ (by omega) (by omega), wr_same]
  refine ⟨{ g := { g with payLoadLength := (m3 1 + 2) % 4294967296 }, mqttPayload := m3 },
    ?_, ?_, hb1, ?_, ?_, ?_, ?_, ?_, ?_, ?_, ?_⟩
  · simp only [etherMqttCreatePublishPayload, hlenT, hlenD, Option.some_bind, e1, e3,
      Option.map_some']
  · show m3 0 = _
    rw [e4, if_neg (by omega), wr_other _ _ _ _ (by omega), wr_other _ _ _ _ (by omega), e2,
      if_neg (by omega), wr16_other _ _ _ _ (by omega) (by omega), wr_other _ _ _ _ (by omega),
      wr_same]
  · show m3 2 = _
    rw [e4, if_neg (by omega), wr_other _ _ _ _ (by omega), wr_other _ _ _ _ (by omega), e2,
      if_neg (by omega)]
    exact (wr16_htons _ 2 T (by omega)).1
  · show m3 3 = _
    rw [e4, if_neg (by omega), wr_other _ _ _ _ (by omega), wr_other _ _ _ _ (by omega), e2,
      if_neg (by omega)]
    exact (wr16_htons _ 2 T (by omega)).2
  · intro i hi
    show m3 (4 + i) = _
    rw [e4, if_neg (by omega), wr_other _ _ _ _ (by omega), wr_other _ _ _ _ (by omega), e2,
      if_pos (by omega)]
    congr 1; omega
  · show m3 (4 + T) = _
    rw [e4, if_neg (by omega), wr_other _ _ _ _ (by omega), show 4 + T = T + 4 by omega,
      wr_same]
  · show m3 (5 + T) = _
    rw [e4, if_neg (by omega), show 5 + T = T + 5 by omega, wr_same]
  · intro j hj
    show m3 (6 + T + j) = _
    rw [e4, if_pos (by omega)]
    congr 1; omega
  · intro j hj
    show m3 j = _
    rw [e4, if_neg (by omega), wr_other _ _ _ _ (by omega), wr_other _ _ _ _ (by omega), e2,
      if_neg (by omega), wr16_other _ _ _ _ (by omega) (by omega), wr_other _ _ _ _ (by omega),
      wr_other _ _ _ _ (by omega)]
  · show ({ g with payLoadLength := (m3 1 + 2) % 4294967296 } : Globals) = _
    rw [hb1]
    have : ((T + D + 4) % 256 + 2) % 4294967296 = (T + D + 4) % 256 + 2 := by omega
    rw [this]


/-! ## Lemmas: TCP segment lengths, payload and addressing -/

/-- Without a payload to copy (any flags value other than PUSH-ACK) the flag
part of `etherSendTcp` does not depend on the payload length and the fuel. -/
theorem etherSendTcpFlags_noCopy (m : Mem) (tcp flags : Nat) (tcpData : Mem) (n off0 fuel : Nat)
    (h : flags ≠ TCP_PUSH_ACK) :
    etherSendTcpFlags m tcp flags tcpData n off0 fuel
      = etherSendTcpFlags m tcp flags tcpData 0 off0 1 := by
  simp only [etherSendTcpFlags, if_neg h]

/-- The flag part of `etherSendTcp` ends for each recognised flags value, the
payload length being bounded by 255 only where a payload is copied. -/
theorem etherSendTcpFlags_returns (m : Mem) (flags : Nat) (tcpData : Mem) (n off0 fuel : Nat)
    (hflags : flags = TCP_SYNC ∨ flags = TCP_ACK ∨ flags = TCP_FIN_ACK ∨ flags = TCP_RESET
      ∨ flags = TCP_REST_ACK ∨ flags = TCP_FIN ∨ flags = TCP_PUSH_ACK)
    (hn : flags = TCP_PUSH_ACK → n ≤ 255 ∧ n < fuel) :
    ∃ m', etherSendTcpFlags m 34 flags tcpData n off0 fuel
        = some (if flags = TCP_SYNC then 6 else 5, m') ∧
      (IsBytes m → IsBytes tcpData → IsBytes m') ∧ ∀ j, j < 46 → m' j = m j := by
  by_cases h : flags = TCP_PUSH_ACK
  · exact etherSendTcpFlags_spec m flags tcpData n off0 fuel hflags (hn h).1 (hn h).2
  · rw [etherSendTcpFlags_noCopy _ _ _ _ _ _ _ h]
    exact etherSendTcpFlags_spec m flags tcpData 0 off0 1 hflags (by omega) (by omega)

/-- The size passed to `etherPutPacket` and the IP total length stored by the
last part of `etherSendTcp`, on a header with `revSize` 0x45: both are computed
in 16 bits. -/
theorem etherSendTcpFinish_lengths (m : Mem) (off n : Nat) (h14 : m 14 = 0x45) :
    (etherSendTcpFinish m 34 off n).size = (34 + (off * 4 + n) % 65536) % 65536 ∧
    (etherSendTcpFinish m 34 off n).buf 16 = (20 + (off * 4 + n) % 65536) % 65536 / 256 ∧
    (etherSendTcpFinish m 34 off n).buf 17 = (20 + (off * 4 + n) % 65536) % 65536 % 256 := by
  have hX : (20 + (off * 4 + n) % 65536) % 65536 < 65536 := Nat.mod_lt _ (by norm_num)
  have k14 : (etherSendTcpFinish m 34 off n).buf 14 = m 14 :=
    etherSendTcpFinish_other m 34 off n 14 (by omega) (by omega) (by omega)
  refine ⟨?_, ?_, ?_⟩
  · show (ETHER_HEADER_SIZE + (etherSendTcpFinish m 34 off n).buf (ETH_DATA + IP_REV_SIZE) % 16 * 4
      + (off * 4 + n) % 65536) % 65536 = _
    simp only [ETH_DATA, IP_REV_SIZE, ETHER_HEADER_SIZE, Nat.add_zero, k14, h14]
  · simp only [etherSendTcpFinish, ETH_DATA, IP_LENGTH, TCP_CHECKSUM, IP_REV_SIZE, Nat.add_zero,
      h14]
    rw [wr16_other _ _ _ _ (by omega) (by omega), wr16_other _ _ _ _ (by omega) (by omega),
      etherCalcIpChecksum_other _ _ _ (by omega) (by omega)]
    exact (wr16_htons m 16 _ hX).1
  · simp only [etherSendTcpFinish, ETH_DATA, IP_LENGTH, TCP_CHECKSUM, IP_REV_SIZE, Nat.add_zero,
      h14]
    rw [wr16_other _ _ _ _ (by omega) (by omega), wr16_other _ _ _ _ (by omega) (by omega),
      etherCalcIpChecksum_other _ _ _ (by omega) (by omega)]
    exact (wr16_htons m 16 _ hX).2

/-- The lengths produced by `etherSendTcp` for a recognised flags value: the
size handed to `etherPutPacket` and the two bytes of the IP total length. -/
theorem etherSendTcp_lengths (g : Globals) (ether : Mem) (s : Socket) (flags : Nat)
    (hflags : flags = TCP_SYNC ∨ flags = TCP_ACK ∨ flags = TCP_FIN_ACK ∨ flags = TCP_RESET
      ∨ flags = TCP_REST_ACK ∨ flags = TCP_FIN ∨ flags = TCP_PUSH_ACK)
    (tcpData : Mem) (n off0 fuel : Nat) (hn : flags = TCP_PUSH_ACK → n ≤ 255 ∧ n < fuel) :
    ∃ r, etherSendTcp g ether s flags tcpData n off0 fuel = some r ∧
      r.size = (34 + ((if flags = TCP_SYNC then 6 else 5) * 4 + n) % 65536) % 65536 ∧
      r.buf 16 = (20 + ((if flags = TCP_SYNC then 6 else 5) * 4 + n) % 65536) % 65536 / 256 ∧
      r.buf 17 = (20 + ((if flags = TCP_SYNC then 6 else 5) * 4 + n) % 65536) % 65536 % 256 := by
  have ht := etherSendTcpHeaders_tcp g ether s flags
  obtain ⟨-, -, f14, -⟩ := etherSendTcpHeaders_fixed g ether s flags
  obtain ⟨m', e, -, hsame⟩ := etherSendTcpFlags_returns (etherSendTcpHeaders g ether s flags).buf
    flags tcpData n off0 fuel hflags hn
  obtain ⟨a, b, c⟩ := etherSendTcpFinish_lengths m' (if flags = TCP_SYNC then 6 else 5) n
    (by rw [hsame 14 (by omega)]; exact f14)
  refine ⟨{ g := (etherSendTcpHeaders g ether s flags).g,
            buf := (etherSendTcpFinish m' 34 (if flags = TCP_SYNC then 6 else 5) n).buf,
            s := (etherSendTcpHeaders g ether s flags).s,
            size := (etherSendTcpFinish m' 34 (if flags = TCP_SYNC then 6 else 5) n).size },
    ?_, a, b, c⟩
  simp only [etherSendTcp, ht, e]

/-- A PUSH-ACK segment with a payload of at most 255 bytes: `etherSendTcp`
returns and the bytes after the 20-byte TCP header are the payload. -/
theorem etherSendTcp_pushAck_payload (g : Globals) (ether : Mem) (s : Socket) (tcpData : Mem)
    (n off0 fuel : Nat) (hn : n ≤ 255) (hf : n < fuel) :
    ∃ r, etherSendTcp g ether s TCP_PUSH_ACK tcpData n off0 fuel = some r ∧
      ∀ i, i < n → r.buf (ETH_DATA + 20 + TCP_DATA + i) = tcpData i := by
  have ht := etherSendTcpHeaders_tcp g ether s TCP_PUSH_ACK
  obtain ⟨m', e1, e2⟩ := copyLoopU8_spec tcpData (34 + TCP_DATA) n hn fuel 0
    (wr16 (etherSendTcpHeaders g ether s TCP_PUSH_ACK).buf (34 + TCP_OFFSET_FIELDS)
      (htons ((5 * 4096 + TCP_PUSH_ACK) % 65536))) (by omega) (by omega)
  have e : etherSendTcpFlags (etherSendTcpHeaders g ether s TCP_PUSH_ACK).buf 34 TCP_PUSH_ACK
      tcpData n off0 fuel = some (5, m') := by
    simp [etherSendTcpFlags, TCP_SYNC, TCP_ACK, TCP_FIN_ACK, TCP_RESET, TCP_REST_ACK, TCP_FIN,
      TCP_PUSH_ACK] at e1 ⊢
    exact e1
  refine ⟨{ g := (etherSendTcpHeaders g ether s TCP_PUSH_ACK).g,
            buf := (etherSendTcpFinish m' 34 5 n).buf,
            s := (etherSendTcpHeaders g ether s TCP_PUSH_ACK).s,
            size := (etherSendTcpFinish m' 34 5 n).size }, ?_, ?_⟩
  · simp only [etherSendTcp, ht, e]
  · intro i hi
    show (etherSendTcpFinish m' 34 5 n).buf (ETH_DATA + 20 + TCP_DATA + i) = _
    simp only [ETH_DATA, TCP_DATA] at e2 ⊢
    rw [etherSendTcpFinish_other _ _ _ _ _ (by omega) (by omega) (by omega), e2,
      if_pos (by omega)]
    congr 1; omega

/-- A PUSH-ACK segment with a payload length above 255: the copy loop with its
`uint8_t` counter does not end, so `etherSendTcp` never returns. -/
theorem etherSendTcp_pushAck_diverges (g : Globals) (ether : Mem) (s : Socket) (tcpData : Mem)
    (n off0 : Nat) (hn : 256 ≤ n) (fuel : Nat) :
    etherSendTcp g ether s TCP_PUSH_ACK tcpData n off0 fuel = none := by
  have e : etherSendTcpFlags (etherSendTcpHeaders g ether s TCP_PUSH_ACK).buf
      (etherSendTcpHeaders g ether s TCP_PUSH_ACK).tcp TCP_PUSH_ACK tcpData n off0 fuel
        = none := by
    simp only [etherSendTcpFlags, if_pos rfl]
    rw [copyLoopU8_diverges tcpData _ n hn fuel 0 _ (by norm_num)]
    rfl
  simp only [etherSendTcp, e]

/-- For a SYN `etherSendTcp` returns whatever the other arguments; it zeroes the
sequence and acknowledgment numbers, stores data offset 6 with the SYN flag, and
writes the option bytes 02 04 04 C4 after the fixed header. -/
theorem etherSendTcp_syn (g : Globals) (ether : Mem) (s : Socket) (tcpData : Mem)
    (n off0 fuel : Nat) :
    ∃ r, etherSendTcp g ether s TCP_SYNC tcpData n off0 fuel = some r ∧
      r.g = { g with sequenceNumber := 0, acknowledgementNumber := 0 } ∧
      (∀ i, i < 4 → r.buf (ETH_DATA + 20 + TCP_SEQUENCE_NUMBER + i) = 0) ∧
      (∀ i, i < 4 → r.buf (ETH_DATA + 20 + TCP_ACKNOWLEDGEMENT_NUMBER + i) = 0) ∧
      htons (rd16 r.buf (ETH_DATA + 20 + TCP_OFFSET_FIELDS)) = 6 * 4096 + TCP_SYNC ∧
      r.buf (ETH_DATA + 20 + TCP_DATA + 0) = 0x02 ∧
      r.buf (ETH_DATA + 20 + TCP_DATA + 1) = 0x04 ∧
      r.buf (ETH_DATA + 20 + TCP_DATA + 2) = 0x04 ∧
      r.buf (ETH_DATA + 20 + TCP_DATA + 3) = 0xC4 := by
  obtain ⟨r, e, hg, -, -, hfl, n0, n1, n2, n3, n4, n5, n6, n7⟩ :=
    etherSendTcp_noPayload g ether s TCP_SYNC (Or.inl rfl) tcpData n off0 fuel
  rw [if_pos rfl] at hg hfl
  rw [hg] at n0 n1 n2 n3 n4 n5 n6 n7
  have ht := etherSendTcpHeaders_tcp g ether s TCP_SYNC
  obtain ⟨m', hm'⟩ : ∃ m' : Mem, m' = wr (wr (wr (wr
      (wr16 (etherSendTcpHeaders g ether s TCP_SYNC).buf (34 + TCP_OFFSET_FIELDS)
        (htons ((6 * 4096 + TCP_SYNC) % 65536)))
      (34 + TCP_DATA + 0) 0x02) (34 + TCP_DATA + 1) 0x04) (34 + TCP_DATA + 2) 0x04)
      (34 + TCP_DATA + 3) 0xc4 := ⟨_, rfl⟩
  have ef : etherSendTcpFlags (etherSendTcpHeaders g ether s TCP_SYNC).buf 34 TCP_SYNC tcpData n
      off0 fuel = some (6, m') := by
    rw [hm']
    simp [etherSendTcpFlags, TCP_SYNC, TCP_ACK, TCP_FIN_ACK, TCP_RESET, TCP_REST_ACK, TCP_FIN,
      TCP_PUSH_ACK]
  have e2 : etherSendTcp g ether s TCP_SYNC tcpData n off0 fuel
      = some { g := (etherSendTcpHeaders g ether s TCP_SYNC).g,
               buf := (etherSendTcpFinish m' 34 6 n).buf,
               s := (etherSendTcpHeaders g ether s TCP_SYNC).s,
               size := (etherSendTcpFinish m' 34 6 n).size } := by
    simp only [etherSendTcp, ht, ef]
  have hr : r.buf = (etherSendTcpFinish m' 34 6 n).buf := by
    rw [e2] at e
    rw [← Option.some.inj e]
  have opt : ∀ j, 54 ≤ j → j < 58 → r.buf j = m' j := by
    intro j h1 h2
    rw [hr, etherSendTcpFinish_other _ _ _ _ _ (by omega) (by omega) (by omega)]
  refine ⟨r, e, hg, ?_, ?_, hfl, ?_, ?_, ?_, ?_⟩
  · intro i hi
    simp only [ETH_DATA, TCP_SEQUENCE_NUMBER]
    interval_cases i
    · simpa using n0
    · simpa using n1
    · simpa using n2
    · simpa using n3
  · intro i hi
    simp only [ETH_DATA, TCP_ACKNOWLEDGEMENT_NUMBER]
    interval_cases i
    · simpa using n4
    · simpa using n5
    · simpa using n6
    · simpa using n7
  · simp only [ETH_DATA, TCP_DATA]
    rw [opt 54 (by omega) (by omega), hm']
    simp only [TCP_DATA]
    rw [wr_other _ _ _ _ (by omega), wr_other _ _ _ _ (by omega), wr_other _ _ _ _ (by omega),
      wr_same]
  · simp only [ETH_DATA, TCP_DATA]
    rw [opt 55 (by omega) (by omega), hm']
    simp only [TCP_DATA]
    rw [wr_other _ _ _ _ (by omega), wr_other _ _ _ _ (by omega), wr_same]
  · simp only [ETH_DATA, TCP_DATA]
    rw [opt 56 (by omega) (by omega), hm']
    simp only [TCP_DATA]
    rw [wr_other _ _ _ _ (by omega), wr_same]
  · simp only [ETH_DATA, TCP_DATA]
    rw [opt 57 (by omega) (by omega), hm']
    simp only [TCP_DATA]
    rw [wr_same]


/-! ## Lemmas: the socket and the addressing of TCP frames -/

/-- Two store loops over the same range agree when the stored values agree on
that range. -/
theorem forLoop_wr_congr (base : Nat) (v w : Nat → Nat) (n i0 : Nat) (m : Mem)
    (h : ∀ i, i0 ≤ i → i < i0 + n → v i = w i) :
    forLoop (fun i m => wr m (base + i) (v i)) n i0 m
      = forLoop (fun i m => wr m (base + i) (w i)) n i0 m := by
  funext j
  rw [forLoop_wr, forLoop_wr]
  split
  · exact h _ (by omega) (by omega)
  · rfl

/-- The first part of `etherSendTcp` reads from the socket only what
`etherFillUpMqttConnectionSocket` has just stored there: the buffer it leaves
does not depend on the socket passed in. -/
theorem etherSendTcpHeaders_socket (g : Globals) (ether : Mem) (s1 s2 : Socket) (flags : Nat) :
    (etherSendTcpHeaders g ether s1 flags).buf = (etherSendTcpHeaders g ether s2 flags).buf ∧
    (etherSendTcpHeaders g ether s1 flags).g = (etherSendTcpHeaders g ether s2 flags).g := by
  have h1 : ∀ (s : Socket) (m : Mem),
      forLoop (fun i m => wr m (ETH_SOURCE + i) (etherGetMacAddress g s.sourceAddress i))
        HW_ADD_LENGTH 0 m
      = forLoop (fun i m => wr m (ETH_SOURCE + i) (g.macAddress i)) HW_ADD_LENGTH 0 m :=
    fun s m => forLoop_wr_congr _ _ _ _ _ _ (fun i _ hi => by
      rw [etherGetMacAddress_apply, if_pos (by simpa [HW_ADD_LENGTH] using hi)])
  have h2 : ∀ (s : Socket) (m : Mem),
      forLoop (fun i m => wr m (ETH_DEST + i) (etherGetMqttBrokerMacAddress g s.destAddress i))
        HW_ADD_LENGTH 0 m
      = forLoop (fun i m => wr m (ETH_DEST + i) (g.mqttBrokerMacAddress i)) HW_ADD_LENGTH 0 m :=
    fun s m => forLoop_wr_congr _ _ _ _ _ _ (fun i _ hi => by
      rw [etherGetMqttBrokerMacAddress_apply, if_pos (by simpa [HW_ADD_LENGTH] using hi)])
  have h3 : ∀ (s : Socket) (m : Mem),
      forLoop (fun i m => wr m (ETH_DATA + IP_SOURCE_IP + i) (etherGetIpAddress g s.sourceIp i))
        IP_ADD_LENGTH 0 m
      = forLoop (fun i m => wr m (ETH_DATA + IP_SOURCE_IP + i) (g.ipAddress i))
        IP_ADD_LENGTH 0 m :=
    fun s m => forLoop_wr_congr _ _ _ _ _ _ (fun i _ hi => by
      rw [etherGetIpAddress_apply, if_pos (by simpa [IP_ADD_LENGTH] using hi)])
  have h4 : ∀ (s : Socket) (m : Mem),
      forLoop (fun i m => wr m (ETH_DATA + IP_DEST_IP + i)
        (etherGetMqttBrokerIpAddress g s.destIp i)) IP_ADD_LENGTH 0 m
      = forLoop (fun i m => wr m (ETH_DATA + IP_DEST_IP + i) (g.mqttBrokerIpAddress i))
        IP_ADD_LENGTH 0 m :=
    fun s m => forLoop_wr_congr _ _ _ _ _ _ (fun i _ hi => by
      rw [etherGetMqttBrokerIpAddress_apply, if_pos (by simpa [IP_ADD_LENGTH] using hi)])
  constructor
  · simp only [etherSendTcpHeaders, etherFillUpMqttConnectionSocket, h1, h2, h3, h4]
  · rfl

/-- The frame, the size and the globals left by `etherSendTcp` do not depend on
the content of the socket passed in. -/
theorem etherSendTcp_socket (g : Globals) (ether : Mem) (s1 s2 : Socket) (flags : Nat)
    (tcpData : Mem) (n off0 fuel : Nat) :
    (etherSendTcp g ether s1 flags tcpData n off0 fuel).map (fun r => (r.buf, r.size, r.g))
      = (etherSendTcp g ether s2 flags tcpData n off0 fuel).map
          (fun r => (r.buf, r.size, r.g)) := by
  obtain ⟨hb, hg⟩ := etherSendTcpHeaders_socket g ether s1 s2 flags
  have t1 := etherSendTcpHeaders_tcp g ether s1 flags
  have t2 := etherSendTcpHeaders_tcp g ether s2 flags
  simp only [etherSendTcp, t1, t2, hb, hg]
  cases etherSendTcpFlags (etherSendTcpHeaders g ether s2 flags).buf 34 flags tcpData n off0 fuel
    with
  | none => rfl
  | some p => rfl

/-- Hardware and IP addresses stored by the first part of `etherSendTcp`. -/
theorem etherSendTcpHeaders_addressing (g : Globals) (ether : Mem) (s : Socket) (flags : Nat) :
    (∀ i, i < 6 → (etherSendTcpHeaders g ether s flags).buf (ETH_SOURCE + i) = g.macAddress i) ∧
    (∀ i, i < 6 →
      (etherSendTcpHeaders g ether s flags).buf (ETH_DEST + i) = g.mqttBrokerMacAddress i) ∧
    (∀ i, i < 4 →
      (etherSendTcpHeaders g ether s flags).buf (ETH_DATA + IP_SOURCE_IP + i) = g.ipAddress i) ∧
    (∀ i, i < 4 →
      (etherSendTcpHeaders g ether s flags).buf (ETH_DATA + IP_DEST_IP + i)
        = g.mqttBrokerIpAddress i) := by
  refine ⟨?_, ?_, ?_, ?_⟩ <;>
  · intro i hi
    interval_cases i <;>
      simp [etherSendTcpHeaders, etherFillUpMqttConnectionSocket, wr, wr16, wr32, forLoop_wr,
        forLoop_wr0, ETH_DATA, IP_REV_SIZE, IP_TOS, IP_ID, IP_FLAGS_OFFSET, IP_PROTOCOL, IP_TTL,
        ETH_FRAME_TYPE, IP_SOURCE_IP, IP_DEST_IP, TCP_SOURCE_PORT, TCP_DEST_PORT,
        TCP_SEQUENCE_NUMBER, TCP_ACKNOWLEDGEMENT_NUMBER, TCP_URGENT_POINTER, TCP_WINDOW_SIZE,
        HW_ADD_LENGTH, IP_ADD_LENGTH, ETH_SOURCE, ETH_DEST, etherGetMacAddress_apply,
        etherGetMqttBrokerMacAddress_apply, etherGetIpAddress_apply,
        etherGetMqttBrokerIpAddress_apply]

/-- Port fields stored by the first part of `etherSendTcp`: source port 110
(00 6E) and destination port 1883 (07 5B), high byte first. -/
theorem etherSendTcpHeaders_ports (g : Globals) (ether : Mem) (s : Socket) (flags : Nat) :
    (etherSendTcpHeaders g ether s flags).buf 34 = 0 ∧
    (etherSendTcpHeaders g ether s flags).buf 35 = 110 ∧
    (etherSendTcpHeaders g ether s flags).buf 36 = 7 ∧
    (etherSendTcpHeaders g ether s flags).buf 37 = 91 := by
  have h1 : htons 110 % 256 = 0 := by decide
  have h2 : htons 110 / 256 % 256 = 110 := by decide
  have h3 : htons 1883 % 256 = 7 := by decide
  have h4 : htons 1883 / 256 % 256 = 91 := by decide
  refine ⟨?_, ?_, ?_, ?_⟩ <;>
    simp [etherSendTcpHeaders, etherFillUpMqttConnectionSocket, wr, wr16, wr32, forLoop_wr,
      ETH_DATA, IP_REV_SIZE, IP_TOS, IP_ID, IP_FLAGS_OFFSET, IP_PROTOCOL, IP_TTL,
      ETH_FRAME_TYPE, IP_SOURCE_IP, IP_DEST_IP, TCP_SOURCE_PORT, TCP_DEST_PORT,
      TCP_SEQUENCE_NUMBER, TCP_ACKNOWLEDGEMENT_NUMBER, TCP_URGENT_POINTER, TCP_WINDOW_SIZE,
      HW_ADD_LENGTH, IP_ADD_LENGTH, ETH_SOURCE, ETH_DEST, h1, h2, h3, h4]

/-- The frame built by `etherSendTcp` for a recognised flags value: it returns,
and the frame carries the local and broker addresses of the configuration, frame
type 08 00, protocol 6, source port 110 and destination port 1883. -/
theorem etherSendTcp_addressing (g : Globals) (ether : Mem) (s : Socket) (flags : Nat)
    (hflags : flags = TCP_SYNC ∨ flags = TCP_ACK ∨ flags = TCP_FIN_ACK ∨ flags = TCP_RESET
      ∨ flags = TCP_REST_ACK ∨ flags = TCP_FIN ∨ flags = TCP_PUSH_ACK)
    (tcpData : Mem) (n off0 fuel : Nat) (hn : flags = TCP_PUSH_ACK → n ≤ 255 ∧ n < fuel) :
    ∃ r, etherSendTcp g ether s flags tcpData n off0 fuel = some r ∧
      (∀ i, i < 6 → r.buf (ETH_SOURCE + i) = g.macAddress i) ∧
      (∀ i, i < 6 → r.buf (ETH_DEST + i) = g.mqttBrokerMacAddress i) ∧
      (∀ i, i < 4 → r.buf (ETH_DATA + IP_SOURCE_IP + i) = g.ipAddress i) ∧
      (∀ i, i < 4 → r.buf (ETH_DATA + IP_DEST_IP + i) = g.mqttBrokerIpAddress i) ∧
      rd16 r.buf ETH_FRAME_TYPE = htons 0x0800 ∧
      r.buf (ETH_DATA + IP_PROTOCOL) = 6 ∧
      htons (rd16 r.buf (ETH_DATA + 20 + TCP_SOURCE_PORT)) = 110 ∧
      htons (rd16 r.buf (ETH_DATA + 20 + TCP_DEST_PORT)) = 1883 := by
  have ht := etherSendTcpHeaders_tcp g ether s flags
  obtain ⟨f12, f13, -, f23⟩ := etherSendTcpHeaders_fixed g ether s flags
  obtain ⟨a1, a2, a3, a4⟩ := etherSendTcpHeaders_addressing g ether s flags
  obtain ⟨p34, p35, p36, p37⟩ := etherSendTcpHeaders_ports g ether s flags
  obtain ⟨m', e, -, hsame⟩ := etherSendTcpFlags_returns (etherSendTcpHeaders g ether s flags).buf
    flags tcpData n off0 fuel hflags hn
  have key : ∀ j, j < 46 → (j < 16 ∨ 18 ≤ j) → (j < 24 ∨ 26 ≤ j) →
      (etherSendTcpFinish m' 34 (if flags = TCP_SYNC then 6 else 5) n).buf j
        = (etherSendTcpHeaders g ether s flags).buf j := by
    intro j h1 h2 h3
    rw [etherSendTcpFinish_other _ _ _ _ _ h2 h3 (by omega), hsame j h1]
  refine ⟨{ g := (etherSendTcpHeaders g ether s flags).g,
            buf := (etherSendTcpFinish m' 34 (if flags = TCP_SYNC then 6 else 5) n).buf,
            s := (etherSendTcpHeaders g ether s flags).s,
            size := (etherSendTcpFinish m' 34 (if flags = TCP_SYNC then 6 else 5) n).size },
    ?_, ?_, ?_, ?_, ?_, ?_, ?_, ?_, ?_⟩
  · simp only [etherSendTcp, ht, e]
  · intro i hi
    show (etherSendTcpFinish m' 34 (if flags = TCP_SYNC then 6 else 5) n).buf (ETH_SOURCE + i) = _
    rw [key _ (by simp only [ETH_SOURCE]; omega) (by simp only [ETH_SOURCE]; omega)
      (by simp only [ETH_SOURCE]; omega)]
    exact a1 i hi
  · intro i hi
    show (etherSendTcpFinish m' 34 (if flags = TCP_SYNC then 6 else 5) n).buf (ETH_DEST + i) = _
    rw [key _ (by simp only [ETH_DEST]; omega) (by simp only [ETH_DEST]; omega)
      (by simp only [ETH_DEST]; omega)]
    exact a2 i hi
  · intro i hi
    show (etherSendTcpFinish m' 34 (if flags = TCP_SYNC then 6 else 5) n).buf
      (ETH_DATA + IP_SOURCE_IP + i) = _
    rw [key _ (by simp only [ETH_DATA, IP_SOURCE_IP]; omega)
      (by simp only [ETH_DATA, IP_SOURCE_IP]; omega)
      (by simp only [ETH_DATA, IP_SOURCE_IP]; omega)]
    exact a3 i hi
  · intro i hi
    show (etherSendTcpFinish m' 34 (if flags = TCP_SYNC then 6 else 5) n).buf
      (ETH_DATA + IP_DEST_IP + i) = _
    rw [key _ (by simp only [ETH_DATA, IP_DEST_IP]; omega)
      (by simp only [ETH_DATA, IP_DEST_IP]; omega)
      (by simp only [ETH_DATA, IP_DEST_IP]; omega)]
    exact a4 i hi
  · exact rd16_frameType_ip _ ((key 12 (by omega) (by omega) (by omega)).trans f12)
      ((key 13 (by omega) (by omega) (by omega)).trans f13)
  · show (etherSendTcpFinish m' 34 (if flags = TCP_SYNC then 6 else 5) n).buf 23 = 6
    rw [key 23 (by omega) (by omega) (by omega)]; exact f23
  · show htons (rd16 (etherSendTcpFinish m' 34 (if flags = TCP_SYNC then 6 else 5) n).buf 34) = 110
    unfold rd16
    rw [key 34 (by omega) (by omega) (by omega), key 35 (by omega) (by omega) (by omega),
      p34, p35]
    decide
  · show htons (rd16 (etherSendTcpFinish m' 34 (if flags = TCP_SYNC then 6 else 5) n).buf 36) = 1883
    unfold rd16
    rw [key 36 (by omega) (by omega) (by omega), key 37 (by omega) (by omega) (by omega),
      p36, p37]
    decide

/-! ## Lemmas: the state `tcpConnectionActive` -/

/-- An iteration started in state `tcpConnectionActive` with a command other than
CONNECT keeps the state and assigns nothing to `currentState`. -/
theorem mainLoopBody_active (u : Unspecified) (fuel : Nat) (cmd : Option Command)
    (rx : Option (List Nat)) (M : Machine) (hs : M.currentState = state.tcpConnectionActive)
    (hc : cmd ≠ some Command.connect) :
    ∃ M', mainLoopBody u fuel cmd rx M = some M' ∧
      M'.currentState = state.tcpConnectionActive ∧ M'.history = M.history ∧
      ∃ rest, M'.sent = M.sent ++ rest := by
  obtain ⟨c1, c2, c3, -, -, -⟩ := processCommand_keeps cmd M hc
  have hs1 : (processCommand cmd M).currentState = state.tcpConnectionActive := by rw [c1, hs]
  have hbody : mainLoopBody u fuel cmd rx M = some (receive rx (processCommand cmd M)) := by
    simp [mainLoopBody, stepSendArpReq, stepSendTcpSyn, stepSendTcpAck, hs1]
  obtain ⟨k1, k2, rest, k3⟩ := receive_keeps rx (processCommand cmd M)
    (by rw [hs1]; decide) (by rw [hs1]; decide)
  exact ⟨_, hbody, by rw [k1, hs1], by rw [k2, c2], rest, by rw [k3, c3]⟩

/-- Any number of iterations started in state `tcpConnectionActive`, none of them
with a CONNECT command, keep the state. -/
theorem mainLoop_active (u : Unspecified) (fuel : Nat)
    (inputs : List (Option Command × Option (List Nat))) :
    ∀ (M : Machine), M.currentState = state.tcpConnectionActive →
    (∀ x ∈ inputs, x.1 ≠ some Command.connect) →
    ∃ M', mainLoop u fuel inputs M = some M' ∧
      M'.currentState = state.tcpConnectionActive ∧ M'.history = M.history := by
  induction inputs with
  | nil => intro M hs _; exact ⟨M, rfl, hs, rfl⟩
  | cons x rest ih =>
    intro M hs hcmd
    obtain ⟨cmd, rx⟩ := x
    obtain ⟨M1, e1, s1, h1, -⟩ := mainLoopBody_active u fuel cmd rx M hs
      (hcmd (cmd, rx) (List.mem_cons_self _ _))
    obtain ⟨M', e2, s2, h2⟩ := ih M1 s1 (fun y hy => hcmd y (List.mem_cons_of_mem _ hy))
    refine ⟨M', ?_, s2, by rw [h2, h1]⟩
    simp only [mainLoop, e1, Option.some_bind]
    exact e2

/-! ## Lemmas: classifiers -/

/-- The `ok &= ...` comparison loop yields true exactly when it was entered with
true and the compared bytes agree over its whole range. -/
theorem andEqLoop_iff (a b : Nat → Nat) (n : Nat) : ∀ (i : Nat) (ok : Bool),
    andEqLoop a b n i ok = true ↔ ok = true ∧ ∀ j, i ≤ j → j < i + n → a j = b j := by
  induction n with
  | zero =>
    intro i ok
    simp only [andEqLoop]
    exact ⟨fun h => ⟨h, fun j h1 h2 => absurd h2 (by omega)⟩, fun h => h.1⟩
  | succ n ih =>
    intro i ok
    simp only [andEqLoop]
    rw [ih (i + 1) (ok && decide (a i = b i))]
    simp only [Bool.and_eq_true, decide_eq_true_eq]
    constructor
    · rintro ⟨⟨h1, h2⟩, h3⟩
      refine ⟨h1, fun j hj1 hj2 => ?_⟩
      by_cases e : j = i
      · subst e; exact h2
      · exact h3 j (by omega) (by omega)
    · rintro ⟨h1, h2⟩
      exact ⟨⟨h1, h2 i (le_refl _) (by omega)⟩, fun j hj1 hj2 => h2 j (by omega) (by omega)⟩

/-- The comparison of the destination hardware address of a frame with the local
MAC, as run by the TCP and MQTT classifiers. -/
theorem macLoop_iff (g : Globals) (ether : Mem) :
    andEqLoop (fun i => ether (ETH_DEST + i)) g.macAddress HW_ADD_LENGTH 0 true = true ↔
      ∀ i, i < 6 → ether (ETH_DEST + i) = g.macAddress i := by
  rw [andEqLoop_iff]
  simp only [HW_ADD_LENGTH, Nat.zero_add, true_and]
  exact ⟨fun h i hi => h i (Nat.zero_le _) hi, fun h j _ hj => h j hj⟩

/-- The result of `etherIsIpUnicast`. -/
theorem etherIsIpUnicast_iff (g : Globals) (ether : Mem) :
    etherIsIpUnicast g ether = true ↔
      ∀ i, i < 4 → ether (ETH_DATA + IP_DEST_IP + i) = g.ipAddress i := by
  unfold etherIsIpUnicast
  simp only [IP_ADD_LENGTH]
  rw [eqWhile_four]
  simp only [true_and]

/-- The result of `etherIsTcpAck`. -/
theorem etherIsTcpAck_iff (ether : Mem) :
    etherIsTcpAck ether = true ↔
      ether (ETH_DATA + IP_PROTOCOL) = 6 ∧
      (htons (rd16 ether (ETH_DATA + ipHeaderLength ether ETH_DATA + TCP_OFFSET_FIELDS)) % 4096
          = TCP_SYNACK ∨
        htons (rd16 ether (ETH_DATA + ipHeaderLength ether ETH_DATA + TCP_OFFSET_FIELDS)) % 4096
          = TCP_ACK ∨
        htons (rd16 ether (ETH_DATA + ipHeaderLength ether ETH_DATA + TCP_OFFSET_FIELDS)) % 4096
          = TCP_PUSH_ACK ∨
        htons (rd16 ether (ETH_DATA + ipHeaderLength ether ETH_DATA + TCP_OFFSET_FIELDS)) % 4096
          = TCP_FIN_ACK ∨
        htons (rd16 ether (ETH_DATA + ipHeaderLength ether ETH_DATA + TCP_OFFSET_FIELDS)) % 4096
          = TCP_REST_ACK) := by
  unfold etherIsTcpAck etherIsTcp
  by_cases h : ether (ETH_DATA + IP_PROTOCOL) = 6
  · simp only [h, decide_True, if_true, Bool.or_eq_true, decide_eq_true_eq, true_and, or_assoc]
  · simp [h]

/-- The result of `etherIsTcpFinAck` and of `etherIsTcpResetAck` is the
comparison of the flag field alone. -/
theorem etherIsTcpFinAck_iff (g : Globals) (ether : Mem) :
    (etherIsTcpFinAck g ether = true ↔
      htons (rd16 ether (ETH_DATA + ipHeaderLength ether ETH_DATA + TCP_OFFSET_FIELDS)) % 4096
        = TCP_FIN_ACK) ∧
    (etherIsTcpResetAck g ether = true ↔
      htons (rd16 ether (ETH_DATA + ipHeaderLength ether ETH_DATA + TCP_OFFSET_FIELDS)) % 4096
        = TCP_REST_ACK) := by
  constructor
  · simp only [etherIsTcpFinAck, overwrite, decide_eq_true_eq]
  · simp only [etherIsTcpResetAck, overwrite, decide_eq_true_eq]

/-- The result of `etherIsMqttConnectAck`. -/
theorem etherIsMqttConnectAck_iff (g : Globals) (ether : Mem) :
    etherIsMqttConnectAck g ether = true ↔
      (∀ i, i < 6 → ether (ETH_DEST + i) = g.macAddress i) ∧
      ether (ETH_DATA + ipHeaderLength ether ETH_DATA + TCP_DATA + 0) = 0x20 ∧
      ether (ETH_DATA + ipHeaderLength ether ETH_DATA + TCP_DATA + 2) = 0x00 := by
  unfold etherIsMqttConnectAck
  by_cases h : andEqLoop (fun i => ether (ETH_DEST + i)) g.macAddress HW_ADD_LENGTH 0 true = true
  · have hm := (macLoop_iff g ether).1 h
    simp only [h, if_true, overwrite, Bool.and_eq_true, decide_eq_true_eq]
    exact ⟨fun x => ⟨hm, x⟩, fun x => x.2⟩
  · have hm : ¬ ∀ i, i < 6 → ether (ETH_DEST + i) = g.macAddress i :=
      fun x => h ((macLoop_iff g ether).2 x)
    simp only [h]
    exact ⟨fun x => absurd x (by simp), fun x => absurd x.1 hm⟩

/-- A classifier that records the length, for a first payload byte `k`: shape of
its result. -/
theorem recordingClassifier_spec (g : Globals) (ether : Mem) (k : Nat) (r : Bool × Globals)
    (hr : r = (if andEqLoop (fun i => ether (ETH_DEST + i)) g.macAddress HW_ADD_LENGTH 0 true
        = true then
      (andEqLoop (fun i => ether (ETH_DEST + i)) g.macAddress HW_ADD_LENGTH 0 true
        && decide (ether (ETH_DATA + ipHeaderLength ether ETH_DATA + TCP_DATA + 0) = k),
       { g with payLoadLength :=
          (ether (ETH_DATA + ipHeaderLength ether ETH_DATA + TCP_DATA + 1) + 2) % 4294967296 })
      else (andEqLoop (fun i => ether (ETH_DEST + i)) g.macAddress HW_ADD_LENGTH 0 true, g))) :
    (r.1 = true ↔ (∀ i, i < 6 → ether (ETH_DEST + i) = g.macAddress i) ∧
      ether (ETH_DATA + ipHeaderLength ether ETH_DATA + TCP_DATA + 0) = k) ∧
    ((∀ i, i < 6 → ether (ETH_DEST + i) = g.macAddress i) →
      r.2 = { g with payLoadLength :=
        (ether (ETH_DATA + ipHeaderLength ether ETH_DATA + TCP_DATA + 1) + 2) % 4294967296 }) ∧
    ((¬ ∀ i, i < 6 → ether (ETH_DEST + i) = g.macAddress i) → r.2 = g) := by
  by_cases h : andEqLoop (fun i => ether (ETH_DEST + i)) g.macAddress HW_ADD_LENGTH 0 true = true
  · have hm := (macLoop_iff g ether).1 h
    rw [if_pos h] at hr
    subst hr
    refine ⟨?_, fun _ => rfl, fun x => absurd hm x⟩
    simp only [h, Bool.true_and, decide_eq_true_eq]
    exact ⟨fun x => ⟨hm, x⟩, fun x => x.2⟩
  · have hm : ¬ ∀ i, i < 6 → ether (ETH_DEST + i) = g.macAddress i :=
      fun x => h ((macLoop_iff g ether).2 x)
    rw [if_neg h] at hr
    subst hr
    refine ⟨?_, fun x => absurd x hm, fun _ => rfl⟩
    exact ⟨fun x => absurd x h, fun x => absurd x.1 hm⟩

/-- The result of `etherIsMqttSubAck`: true exactly for a frame to the local MAC
whose first payload byte is 0x90; the length is recorded whenever the frame is
to the local MAC, and nothing is assigned otherwise. -/
theorem etherIsMqttSubAck_spec (g : Globals) (ether : Mem) :
    ((etherIsMqttSubAck g ether).1 = true ↔
      (∀ i, i < 6 → ether (ETH_DEST + i) = g.macAddress i) ∧
      ether (ETH_DATA + ipHeaderLength ether ETH_DATA + TCP_DATA + 0) = 0x90) ∧
    ((∀ i, i < 6 → ether (ETH_DEST + i) = g.macAddress i) →
      (etherIsMqttSubAck g ether).2 = { g with payLoadLength :=
        (ether (ETH_DATA + ipHeaderLength ether ETH_DATA + TCP_DATA + 1) + 2) % 4294967296 }) ∧
    ((¬ ∀ i, i < 6 → ether (ETH_DEST + i) = g.macAddress i) →
      (etherIsMqttSubAck g ether).2 = g) :=
  recordingClassifier_spec g ether 0x90 _ rfl

/-- The same for `etherIsMqttUnSubAck` and the byte 0xB0. -/
theorem etherIsMqttUnSubAck_spec (g : Globals) (ether : Mem) :
    ((etherIsMqttUnSubAck g ether).1 = true ↔
      (∀ i, i < 6 → ether (ETH_DEST + i) = g.macAddress i) ∧
      ether (ETH_DATA + ipHeaderLength ether ETH_DATA + TCP_DATA + 0) = 0xB0) ∧
    ((∀ i, i < 6 → ether (ETH_DEST + i) = g.macAddress i) →
      (etherIsMqttUnSubAck g ether).2 = { g with payLoadLength :=
        (ether (ETH_DATA + ipHeaderLength ether ETH_DATA + TCP_DATA + 1) + 2) % 4294967296 }) ∧
    ((¬ ∀ i, i < 6 → ether (ETH_DEST + i) = g.macAddress i) →
      (etherIsMqttUnSubAck g ether).2 = g) :=
  recordingClassifier_spec g ether 0xB0 _ rfl

/-- The same for `etherIsMqttPublish` and the byte 0x30. -/
theorem etherIsMqttPublish_spec (g : Globals) (ether : Mem) :
    ((etherIsMqttPublish g ether).1 = true ↔
      (∀ i, i < 6 → ether (ETH_DEST + i) = g.macAddress i) ∧
      ether (ETH_DATA + ipHeaderLength ether ETH_DATA + TCP_DATA + 0) = 0x30) ∧
    ((∀ i, i < 6 → ether (ETH_DEST + i) = g.macAddress i) →
      (etherIsMqttPublish g ether).2 = { g with payLoadLength :=
        (ether (ETH_DATA + ipHeaderLength ether ETH_DATA + TCP_DATA + 1) + 2) % 4294967296 }) ∧
    ((¬ ∀ i, i < 6 → ether (ETH_DEST + i) = g.macAddress i) →
      (etherIsMqttPublish g ether).2 = g) :=
  recordingClassifier_spec g ether 0x30 _ rfl

/-- A classifier that records the length changes no global but `payLoadLength`,
and a second call on the same buffer returns the same result and leaves the
globals as the first call left them. -/
theorem recordingClassifier_pure (f : Globals → Mem → Bool × Globals)
    (hf : ∀ g ether,
      ((∀ i, i < 6 → ether (ETH_DEST + i) = g.macAddress i) →
        (f g ether).2 = { g with payLoadLength :=
          (ether (ETH_DATA + ipHeaderLength ether ETH_DATA + TCP_DATA + 1) + 2)
            % 4294967296 }) ∧
      ((¬ ∀ i, i < 6 → ether (ETH_DEST + i) = g.macAddress i) → (f g ether).2 = g))
    (hres : ∀ g g' ether, g'.macAddress = g.macAddress → (f g' ether).1 = (f g ether).1)
    (g : Globals) (ether : Mem) :
    (f g ether).2 = { g with payLoadLength := (f g ether).2.payLoadLength } ∧
    f (f g ether).2 ether = f g ether := by
  by_cases hm : ∀ i, i < 6 → ether (ETH_DEST + i) = g.macAddress i
  · have e := (hf g ether).1 hm
    have hmac : (f g ether).2.macAddress = g.macAddress := by rw [e]
    have hm' : ∀ i, i < 6 → ether (ETH_DEST + i) = (f g ether).2.macAddress i := by
      rw [hmac]; exact hm
    have e' := (hf (f g ether).2 ether).1 hm'
    refine ⟨by rw [e], ?_⟩
    apply Prod.ext
    · exact hres g (f g ether).2 ether hmac
    · rw [e', e]
  · have e := (hf g ether).2 hm
    refine ⟨by rw [e], ?_⟩
    rw [e]

/-- The result of a recording classifier depends on the globals through the
local MAC only. -/
theorem etherIsMqtt_result_congr (g g' : Globals) (ether : Mem)
    (h : g'.macAddress = g.macAddress) :
    (etherIsMqttSubAck g' ether).1 = (etherIsMqttSubAck g ether).1 ∧
    (etherIsMqttUnSubAck g' ether).1 = (etherIsMqttUnSubAck g ether).1 ∧
    (etherIsMqttPublish g' ether).1 = (etherIsMqttPublish g ether).1 := by
  refine ⟨?_, ?_, ?_⟩
  · simp only [etherIsMqttSubAck, h]
    split <;> rfl
  · simp only [etherIsMqttUnSubAck, h]
    split <;> rfl
  · simp only [etherIsMqttPublish, h]
    split <;> rfl

/-- Every classifier leaves all globals but `payLoadLength` as they are, and
called again on the same buffer it returns the same result and the same
globals. -/
theorem classify_pure (c : Classifier) (g : Globals) (ether : Mem) :
    (classify c g ether).2 = { g with payLoadLength := (classify c g ether).2.payLoadLength } ∧
    classify c (classify c g ether).2 ether = classify c g ether := by
  cases c
  case isMqttSubAck =>
    exact recordingClassifier_pure etherIsMqttSubAck
      (fun g ether => (etherIsMqttSubAck_spec g ether).2)
      (fun g g' ether h => (etherIsMqtt_result_congr g g' ether h).1) g ether
  case isMqttUnSubAck =>
    exact recordingClassifier_pure etherIsMqttUnSubAck
      (fun g ether => (etherIsMqttUnSubAck_spec g ether).2)
      (fun g g' ether h => (etherIsMqtt_result_congr g g' ether h).2.1) g ether
  case isMqttPublish =>
    exact recordingClassifier_pure etherIsMqttPublish
      (fun g ether => (etherIsMqttPublish_spec g ether).2)
      (fun g g' ether h => (etherIsMqtt_result_congr g g' ether h).2.2) g ether
  all_goals exact ⟨rfl, rfl⟩

/-! ## Lemmas: ARP request and UDP reply fields -/

/-- The 42 bytes of the frame built by `etherSendArpRequest`, in order. -/
theorem etherSendArpRequest_frame (g : Globals) (ether ipArg : Mem) :
    (List.range 42).map (etherSendArpRequest g ether ipArg).buf
      = [0xFF, 0xFF, 0xFF, 0xFF, 0xFF, 0xFF,
         g.macAddress 0, g.macAddress 1, g.macAddress 2, g.macAddress 3, g.macAddress 4,
         g.macAddress 5,
         0x08, 0x06, 0x00, 0x01, 0x08, 0x00, 6, 4, 0x00, 0x01,
         g.macAddress 0, g.macAddress 1, g.macAddress 2, g.macAddress 3, g.macAddress 4,
         g.macAddress 5,
         g.ipAddress 0, g.ipAddress 1, g.ipAddress 2, g.ipAddress 3,
         0xFF, 0xFF, 0xFF, 0xFF, 0xFF, 0xFF,
         ipArg 0, ipArg 1, ipArg 2, ipArg 3] := rfl

/-- The port fields of the frame left by `etherSendUdpResponse`, on a frame of
bytes whose header-length nibble is at least 5: both hold the destination port
bytes of the request. -/
theorem etherSendUdpResponse_ports (ether : Mem) (he : IsBytes ether) (udpData : Mem)
    (udpSize : Nat) (h5 : 5 ≤ ether (ETH_DATA + IP_REV_SIZE) % 16) :
    (etherSendUdpResponse ether udpData udpSize).buf
        (ETH_DATA + ipHeaderLength ether ETH_DATA + UDP_SOURCE_PORT)
      = ether (ETH_DATA + ipHeaderLength ether ETH_DATA + UDP_DEST_PORT) ∧
    (etherSendUdpResponse ether udpData udpSize).buf
        (ETH_DATA + ipHeaderLength ether ETH_DATA + UDP_SOURCE_PORT + 1)
      = ether (ETH_DATA + ipHeaderLength ether ETH_DATA + UDP_DEST_PORT + 1) ∧
    (etherSendUdpResponse ether udpData udpSize).buf
        (ETH_DATA + ipHeaderLength ether ETH_DATA + UDP_DEST_PORT)
      = ether (ETH_DATA + ipHeaderLength ether ETH_DATA + UDP_DEST_PORT) ∧
    (etherSendUdpResponse ether udpData udpSize).buf
        (ETH_DATA + ipHeaderLength ether ETH_DATA + UDP_DEST_PORT + 1)
      = ether (ETH_DATA + ipHeaderLength ether ETH_DATA + UDP_DEST_PORT + 1) := by
  have h14 : ether (ETH_DATA + IP_REV_SIZE) = ether 14 := rfl
  rw [h14] at h5
  have hihl : ipHeaderLength ether ETH_DATA = ether 14 % 16 * 4 := rfl
  obtain ⟨ihl, hi⟩ : ∃ ihl, ihl = ipHeaderLength ether ETH_DATA := ⟨_, rfl⟩
  rw [← hi]
  have hlo : 20 ≤ ihl := by omega
  obtain ⟨A, hA⟩ : ∃ A, A = forLoop (swapBody ETH_DEST ETH_SOURCE) HW_ADD_LENGTH 0 ether :=
    ⟨_, rfl⟩
  obtain ⟨B, hB⟩ : ∃ B, B = forLoop (swapBody (ETH_DATA + IP_DEST_IP) (ETH_DATA + IP_SOURCE_IP))
    IP_ADD_LENGTH 0 A := ⟨_, rfl⟩
  obtain ⟨C, hC⟩ : ∃ C, C = wr16 B (ETH_DATA + ihl + UDP_SOURCE_PORT)
    (rd16 B (ETH_DATA + ihl + UDP_DEST_PORT)) := ⟨_, rfl⟩
  obtain ⟨D, hD⟩ : ∃ D, D = wr16 C (ETH_DATA + IP_LENGTH)
    (htons ((ihl + (8 + udpSize) % 65536) % 65536)) := ⟨_, rfl⟩
  obtain ⟨E, hE⟩ : ∃ E, E = etherCalcIpChecksum D ETH_DATA := ⟨_, rfl⟩
  obtain ⟨Fm, hFm⟩ : ∃ Fm, Fm = wr16 E (ETH_DATA + ihl + UDP_LENGTH)
    (htons ((8 + udpSize) % 65536)) := ⟨_, rfl⟩
  obtain ⟨G, hG⟩ : ∃ G, G = forLoop (fun i m => wr m (ETH_DATA + ihl + UDP_DATA + i) (udpData i))
    udpSize 0 Fm := ⟨_, rfl⟩
  obtain ⟨S0, hS0⟩ : ∃ S0, S0 = etherSumWords G (ETH_DATA + ihl + UDP_LENGTH) 2
    ((etherSumWords G (ETH_DATA + IP_SOURCE_IP) 8 0 + G (ETH_DATA + IP_PROTOCOL) % 256 * 256)
      % 4294967296) := ⟨_, rfl⟩
  obtain ⟨F, hF⟩ : ∃ F, F = wr16 (wr16 G (ETH_DATA + ihl + UDP_CHECK) 0)
    (ETH_DATA + ihl + UDP_CHECK)
    (getEtherChecksum (etherSumWords (wr16 G (ETH_DATA + ihl + UDP_CHECK) 0) (ETH_DATA + ihl)
      ((8 + udpSize) % 65536) S0)) := ⟨_, rfl⟩
  have hbuf : (etherSendUdpResponse ether udpData udpSize).buf = F := by
    rw [hF, hS0, hG, hFm, hE, hD, hC, hB, hA, hi]; rfl
  rw [hbuf]
  have rA : ∀ j, 12 ≤ j → A j = ether j := fun j hj => by
    rw [hA]; exact forLoop_swap_other _ _ _ (by decide) _ _
      (by simp only [ETH_DEST, HW_ADD_LENGTH]; omega)
      (by simp only [ETH_SOURCE, HW_ADD_LENGTH]; omega)
  have rB : ∀ j, j < 26 ∨ 34 ≤ j → B j = A j := fun j hj => by
    rw [hB]; exact forLoop_swap_other _ _ _ (by decide) _ _
      (by simp only [ETH_DATA, IP_DEST_IP, IP_ADD_LENGTH]; omega)
      (by simp only [ETH_DATA, IP_SOURCE_IP, IP_ADD_LENGTH]; omega)
  have rC : ∀ j, j < 14 + ihl ∨ 14 + ihl + 2 ≤ j → C j = B j := fun j hj => by
    rw [hC]; exact wr16_other _ _ _ _ (by simp only [ETH_DATA, UDP_SOURCE_PORT]; omega)
      (by simp only [ETH_DATA, UDP_SOURCE_PORT]; omega)
  have rD : ∀ j, j < 16 ∨ 18 ≤ j → D j = C j := fun j hj => by
    rw [hD]; exact wr16_other _ _ _ _ (by simp only [ETH_DATA, IP_LENGTH]; omega)
      (by simp only [ETH_DATA, IP_LENGTH]; omega)
  have rE : ∀ j, j < 24 ∨ 26 ≤ j → E j = D j := fun j hj => by
    rw [hE]; exact etherCalcIpChecksum_other _ _ _ (by simp only [ETH_DATA]; omega)
      (by simp only [ETH_DATA]; omega)
  have rFm : ∀ j, j < 14 + ihl + 4 ∨ 14 + ihl + 6 ≤ j → Fm j = E j := fun j hj => by
    rw [hFm]; exact wr16_other _ _ _ _ (by simp only [ETH_DATA, UDP_LENGTH]; omega)
      (by simp only [ETH_DATA, UDP_LENGTH]; omega)
  have rG : ∀ j, j < 14 + ihl + 8 → G j = Fm j := fun j hj => by
    rw [hG, forLoop_wr, if_neg (by simp only [ETH_DATA, UDP_DATA]; omega)]
  have rF : ∀ j, j < 14 + ihl + 6 ∨ 14 + ihl + 8 ≤ j → F j = G j := fun j hj => by
    rw [hF, wr16_other _ _ _ _ (by simp only [ETH_DATA, UDP_CHECK]; omega)
      (by simp only [ETH_DATA, UDP_CHECK]; omega),
      wr16_other _ _ _ _ (by simp only [ETH_DATA, UDP_CHECK]; omega)
      (by simp only [ETH_DATA, UDP_CHECK]; omega)]
  -- the four port bytes pass unchanged through the later stages
  have rFC : ∀ j, 14 + ihl ≤ j → j < 14 + ihl + 4 → F j = C j := fun j h1 h2 => by
    rw [rF j (by omega), rG j (by omega), rFm j (by omega), rE j (by omega), rD j (by omega)]
  have rBe : ∀ j, 34 ≤ j → B j = ether j := fun j hj => by
    rw [rB j (by omega), rA j (by omega)]
  have b2 := he (14 + ihl + 2)
  have b3 := he (14 + ihl + 3)
  have e2 : B (14 + ihl + 2) = ether (14 + ihl + 2) := rBe _ (by omega)
  have e3 : B (14 + ihl + 3) = ether (14 + ihl + 3) := rBe _ (by omega)
  have hrd : rd16 B (ETH_DATA + ihl + UDP_DEST_PORT)
      = ether (14 + ihl + 2) + 256 * ether (14 + ihl + 3) := by
    show B (14 + ihl + 2) + 256 * B (14 + ihl + 2 + 1) = _
    rw [e2, show 14 + ihl + 2 + 1 = 14 + ihl + 3 by omega, e3]
  have hC0 : C (14 + ihl) = ether (14 + ihl + 2) := by
    rw [hC, hrd]
    show wr16 B (14 + ihl + 0) _ (14 + ihl) = _
    unfold wr16
    rw [wr_other _ _ _ _ (by omega), show 14 + ihl + 0 = 14 + ihl by omega, wr_same]
    omega
  have hC1 : C (14 + ihl + 1) = ether (14 + ihl + 3) := by
    rw [hC, hrd]
    show wr16 B (14 + ihl + 0) _ (14 + ihl + 1) = _
    unfold wr16
    rw [show 14 + ihl + 0 + 1 = 14 + ihl + 1 by omega, wr_same]
    omega
  refine ⟨?_, ?_, ?_, ?_⟩
  · show F (14 + ihl + 0) = ether (14 + ihl + 2)
    rw [rFC _ (by omega) (by omega)]
    exact hC0
  · show F (14 + ihl + 0 + 1) = ether (14 + ihl + 2 + 1)
    rw [rFC _ (by omega) (by omega)]
    exact hC1
  · show F (14 + ihl + 2) = ether (14 + ihl + 2)
    rw [rFC _ (by omega) (by omega), rC _ (by omega), e2]
  · show F (14 + ihl + 2 + 1) = ether (14 + ihl + 2 + 1)
    rw [rFC _ (by omega) (by omega), rC _ (by omega), show 14 + ihl + 2 + 1 = 14 + ihl + 3 by omega,
      e3]

/-- The two bytes of the frame-type or operation field of a frame of bytes, as
compared by the ARP classifiers with `htons` of a constant. -/
theorem rd16_eq_htons_iff (ether : Mem) (he : IsBytes ether) (a v : Nat) (hv : v < 65536) :
    rd16 ether a = htons v ↔ ether a = v / 256 ∧ ether (a + 1) = v % 256 := by
  have h0 := he a
  have h1 := he (a + 1)
  have ha : v / 256 < 256 := by omega
  have hb : v % 256 < 256 := Nat.mod_lt _ (by norm_num)
  have e : htons v = v / 256 + v % 256 * 256 := by
    unfold htons
    rw [Nat.mod_eq_of_lt ha, Nat.mod_eq_of_lt (by omega)]
  rw [e]
  unfold rd16
  generalize v / 256 = x at ha
  generalize v % 256 = y at hb
  constructor
  · intro h; omega
  · rintro ⟨p, q⟩; omega

/-! ## Lemmas: byte pairs and the 32-bit accumulator -/

/-- Over an even number of bytes the weighted sum is the sum of the byte pairs
read as little-endian words. -/
theorem wordSum_pairs (m : Mem) (p k : Nat) :
    wordSum m p (2 * k) = littleEndianPairSum m p k := by
  induction k with
  | zero => rfl
  | succ k ih =>
    have e : 2 * (k + 1) = 2 * k + 1 + 1 := by omega
    rw [e]
    simp only [wordSum, littleEndianPairSum]
    rw [ih, byteWeight_even (2 * k) (by omega), byteWeight_odd (2 * k + 1) (by omega)]
    have e2 : p + (2 * k + 1) = p + 2 * k + 1 := by omega
    rw [e2]
    omega

/-- The exact weighted sum of `n` bytes: each byte at an even offset counts at
most 255, each byte at an odd offset at most 255 * 256. -/
theorem wordSum_le_tight (m : Mem) (hm : IsBytes m) (p n : Nat) :
    wordSum m p n ≤ 255 * ((n + 1) / 2) + 65280 * (n / 2) := by
  induction n with
  | zero => simp [wordSum]
  | succ n ih =>
    have h1 := hm (p + n)
    simp only [wordSum]
    rcases Nat.mod_two_eq_zero_or_one n with h | h
    · rw [byteWeight_even n h]
      omega
    · rw [byteWeight_odd n h]
      omega

/-- The folded sum of a non-zero 32-bit sum, in closed form. -/
theorem getEtherChecksum_closed (s : Nat) (hs : s < 4294967296) (h0 : 0 < s) :
    getEtherChecksum s = 65535 - ((s - 1) % 65535 + 1) := by
  obtain ⟨r, a, b, c, d⟩ := getEtherChecksum_spec s hs
  rw [a]
  have hr : 0 < r := by
    rcases Nat.eq_zero_or_pos r with h | h
    · exact absurd (d.1 h) (by omega)
    · exact h
  omega

/-! ## Lemmas: the IP header under the echo reply -/

/-- Two buffers that agree from offset `a` on have the same weighted sum over
the bytes `a .. a + b - 1`. -/
theorem wordSum_tail_congr (m m' : Mem) (p a b : Nat)
    (h : ∀ i, a ≤ i → i < a + b → m' (p + i) = m (p + i)) :
    wordSum m' p (a + b) + wordSum m p a = wordSum m p (a + b) + wordSum m' p a := by
  induction b with
  | zero => simp only [Nat.add_zero]; omega
  | succ b ih =>
    have e : a + (b + 1) = a + b + 1 := by omega
    rw [e]
    simp only [wordSum]
    rw [h (a + b) (by omega) (by omega)]
    have := ih (fun i h1 h2 => h i h1 (by omega))
    omega

/-- Exchanging the source and destination address fields of an IP header keeps
the weighted sum of its first twenty bytes: the fields are an even number of
bytes apart. -/
theorem wordSum_swap_addresses (m m' : Mem) (p : Nat)
    (hlo : ∀ i, i < 12 → m' (p + i) = m (p + i))
    (hs : ∀ i, i < 4 → m' (p + 12 + i) = m (p + 16 + i))
    (hd : ∀ i, i < 4 → m' (p + 16 + i) = m (p + 12 + i)) :
    wordSum m' p 20 = wordSum m p 20 := by
  have l0 := hlo 0 (by decide)
  have l1 := hlo 1 (by decide)
  have l2 := hlo 2 (by decide)
  have l3 := hlo 3 (by decide)
  have l4 := hlo 4 (by decide)
  have l5 := hlo 5 (by decide)
  have l6 := hlo 6 (by decide)
  have l7 := hlo 7 (by decide)
  have l8 := hlo 8 (by decide)
  have l9 := hlo 9 (by decide)
  have l10 := hlo 10 (by decide)
  have l11 := hlo 11 (by decide)
  have s0 : m' (p + 12) = m (p + 16) := hs 0 (by decide)
  have s1 : m' (p + 13) = m (p + 17) := hs 1 (by decide)
  have s2 : m' (p + 14) = m (p + 18) := hs 2 (by decide)
  have s3 : m' (p + 15) = m (p + 19) := hs 3 (by decide)
  have d0 : m' (p + 16) = m (p + 12) := hd 0 (by decide)
  have d1 : m' (p + 17) = m (p + 13) := hd 1 (by decide)
  have d2 : m' (p + 18) = m (p + 14) := hd 2 (by decide)
  have d3 : m' (p + 19) = m (p + 15) := hd 3 (by decide)
  simp only [wordSum, byteWeight, l0, l1, l2, l3, l4, l5, l6, l7, l8, l9, l10, l11,
    s0, s1, s2, s3, d0, d1, d2, d3]
  norm_num
  omega

/-- The bytes of the IP header and of the frame type after `etherSendPingResponse`,
for a header-length nibble of at least 5. -/
theorem etherSendPingResponse_header (ether : Mem)
    (h5 : 5 ≤ ether (ETH_DATA + IP_REV_SIZE) % 16) :
    (∀ j, 12 ≤ j → j < 26 → (etherSendPingResponse ether).buf j = ether j) ∧
    (∀ i, i < 4 → (etherSendPingResponse ether).buf (26 + i) = ether (30 + i)) ∧
    (∀ i, i < 4 → (etherSendPingResponse ether).buf (30 + i) = ether (26 + i)) ∧
    (∀ j, 34 ≤ j → j < 14 + ipHeaderLength ether ETH_DATA →
      (etherSendPingResponse ether).buf j = ether j) := by
  have h14 : ether (ETH_DATA + IP_REV_SIZE) = ether 14 := rfl
  rw [h14] at h5
  have hihl : ipHeaderLength ether ETH_DATA = ether 14 % 16 * 4 := rfl
  obtain ⟨C, hC, hbuf, -⟩ := etherSendPingResponse_buf ether _ rfl
  obtain ⟨ihl, hi⟩ : ∃ ihl, ihl = ipHeaderLength ether ETH_DATA := ⟨_, rfl⟩
  rw [← hi] at hC hbuf ⊢
  have hlo : 20 ≤ ihl := by omega
  obtain ⟨A, hA⟩ : ∃ A, A = forLoop (swapBody ETH_DEST ETH_SOURCE) HW_ADD_LENGTH 0 ether :=
    ⟨_, rfl⟩
  obtain ⟨B, hB⟩ : ∃ B, B = forLoop (swapBody (ETH_DATA + IP_DEST_IP) (ETH_DATA + IP_SOURCE_IP))
    IP_ADD_LENGTH 0 A := ⟨_, rfl⟩
  rw [← hA, ← hB] at hC
  have rA : ∀ j, 12 ≤ j → A j = ether j := fun j hj => by
    rw [hA]; exact forLoop_swap_other _ _ _ (by decide) _ _
      (by simp only [ETH_DEST, HW_ADD_LENGTH]; omega)
      (by simp only [ETH_SOURCE, HW_ADD_LENGTH]; omega)
  have rB : ∀ j, B j = if 30 ≤ j ∧ j < 34 then A (j - 30 + 26)
      else if 26 ≤ j ∧ j < 30 then A (j - 26 + 30) else A j := fun j => by
    rw [hB, forLoop_swap _ _ _ (by decide)]
    rfl
  have rF : ∀ j, j < 14 + ihl → (etherSendPingResponse ether).buf j = B j := fun j hj => by
    rw [hbuf, wr16_other _ _ _ _ (by simp only [ETH_DATA, ICMP_CHECK]; omega)
      (by simp only [ETH_DATA, ICMP_CHECK]; omega),
      wr16_other _ _ _ _ (by simp only [ETH_DATA, ICMP_CHECK]; omega)
      (by simp only [ETH_DATA, ICMP_CHECK]; omega), hC,
      wr_other _ _ _ _ (by simp only [ETH_DATA, ICMP_TYPE]; omega)]
  refine ⟨?_, ?_, ?_, ?_⟩
  · intro j h1 h2
    rw [rF j (by omega), rB, if_neg (by omega), if_neg (by omega), rA j h1]
  · intro i h
    rw [rF _ (by omega), rB, if_neg (by omega), if_pos (by omega), rA _ (by omega)]
    congr 1; omega
  · intro i h
    rw [rF _ (by omega), rB, if_pos (by omega), rA _ (by omega)]
    congr 1; omega
  · intro j h1 h2
    rw [rF j h2, rB, if_neg (by omega), if_neg (by omega), rA j (by omega)]

/-- A frame with a header-length nibble of at least 5 that satisfies `etherIsIp`
still does after `etherSendPingResponse`. -/
theorem etherIsIp_pingResponse (ether : Mem)
    (h5 : 5 ≤ ether (ETH_DATA + IP_REV_SIZE) % 16) (hip : etherIsIp ether = true) :
    etherIsIp (etherSendPingResponse ether).buf = true := by
  obtain ⟨k1, k2, k3, k4⟩ := etherSendPingResponse_header ether h5
  have h14 : ether (ETH_DATA + IP_REV_SIZE) = ether 14 := rfl
  rw [h14] at h5
  have hihl : ipHeaderLength ether ETH_DATA = ether 14 % 16 * 4 := rfl
  obtain ⟨F, hF⟩ : ∃ F, F = (etherSendPingResponse ether).buf := ⟨_, rfl⟩
  rw [← hF] at k1 k2 k3 k4 ⊢
  have hlenF : ipHeaderLength F ETH_DATA = ipHeaderLength ether ETH_DATA := by
    show F 14 % 16 * 4 = ether 14 % 16 * 4
    rw [k1 14 (by omega) (by omega)]
  obtain ⟨ihl, hi⟩ : ∃ ihl, ihl = ipHeaderLength ether ETH_DATA := ⟨_, rfl⟩
  rw [← hi] at k4 hlenF
  have hlo : 20 ≤ ihl := by omega
  have hty : rd16 F ETH_FRAME_TYPE = rd16 ether ETH_FRAME_TYPE :=
    rd16_congr _ _ _ (k1 12 (by omega) (by omega)) (k1 13 (by omega) (by omega))
  have h20 : wordSum F 14 20 = wordSum ether 14 20 := by
    apply wordSum_swap_addresses
    · intro i h
      exact k1 _ (by omega) (by omega)
    · intro i h
      have := k2 i h
      rw [show 14 + 12 + i = 26 + i by omega, show 14 + 16 + i = 30 + i by omega]
      exact this
    · intro i h
      have := k3 i h
      rw [show 14 + 12 + i = 26 + i by omega, show 14 + 16 + i = 30 + i by omega]
      exact this
  have hsum : wordSum F 14 ihl = wordSum ether 14 ihl := by
    obtain ⟨b, hb⟩ : ∃ b, ihl = 20 + b := ⟨ihl - 20, by omega⟩
    have := wordSum_tail_congr ether F 14 20 b (fun i h1 h2 => k4 _ (by omega) (by omega))
    rw [hb]
    omega
  have hs : etherSumWords F (ETH_DATA + IP_REV_SIZE) ihl 0
      = etherSumWords ether (ETH_DATA + IP_REV_SIZE) ihl 0 := by
    rw [etherSumWords_eq _ _ _ _ (by decide), etherSumWords_eq _ _ _ _ (by decide)]
    show (0 + wordSum F 14 ihl) % 4294967296 = (0 + wordSum ether 14 ihl) % 4294967296
    rw [hsum]
  unfold etherIsIp at hip ⊢
  simp only [hlenF, hty, hs]
  simp only [← hi] at hip
  exact hip

/-! ## Lemmas: the transition out of `waitTcpSynAck` -/

/-- In state `waitTcpSynAck` a frame on which one of the four classifiers
`etherIsIp`, `etherIsIpUnicast`, `etherIsTcp`, `etherIsTcpAck` fails changes
neither the state nor the globals. -/
theorem processPacket_waitTcpSynAck_keeps (M : Machine)
    (hs : M.currentState = state.waitTcpSynAck)
    (h : ¬ (etherIsIp M.buffer = true ∧ etherIsIpUnicast M.g M.buffer = true ∧
      etherIsTcp M.buffer = true ∧ etherIsTcpAck M.buffer = true)) :
    (processPacket M).currentState = M.currentState ∧ (processPacket M).g = M.g := by
  obtain ⟨r1, r2, r3, r12, r13⟩ := handleArpRequest_keeps M
  have hrep : handleArpReply (handleArpRequest M) = handleArpRequest M :=
    handleArpReply_of_not _ (Or.inr (by rw [r1, hs]; decide))
  unfold processPacket
  rw [hrep]
  by_cases hreq : etherIsArpRequest M.g M.buffer = true
  · have hty := ((etherIsArpRequest_iff _ _).1 hreq).1
    have hip : etherIsIp (handleArpRequest M).buffer = false := by
      rw [Bool.eq_false_iff]
      intro hc
      have ht := etherIsIp_frameType _ hc
      have ht' : rd16 M.buffer ETH_FRAME_TYPE = htons 0x0800 := by
        rw [← ht]; exact rd16_congr _ _ _ r12.symm r13.symm
      rw [hty] at ht'
      exact htons_0806_ne_0800 ht'
    obtain ⟨a, -, c⟩ := handleIp_keeps _ (Or.inl hip)
    rw [a, c, r1, r3]
    exact ⟨rfl, rfl⟩
  · have hreq' : etherIsArpRequest M.g M.buffer = false := by simpa using hreq
    rw [handleArpRequest_of_not M hreq']
    by_cases hip : etherIsIp M.buffer = true
    · by_cases hu : etherIsIpUnicast M.g M.buffer = true
      · have key : etherIsTcp M.buffer = false ∨ etherIsTcpAck M.buffer = false := by
          by_cases ht : etherIsTcp M.buffer = true
          · right
            rw [Bool.eq_false_iff]
            intro ha
            exact h ⟨hip, hu, ht, ha⟩
          · left
            simpa using ht
        obtain ⟨a, -, c⟩ := handleIp_keeps M
          (key.elim (fun k => Or.inr (Or.inl k)) (fun k => Or.inr (Or.inr (Or.inl k))))
        exact ⟨a, c⟩
      · have hu' : etherIsIpUnicast M.g M.buffer = false := by simpa using hu
        unfold handleIp
        simp [hip, hu']
    · have hip' : etherIsIp M.buffer = false := by simpa using hip
      obtain ⟨a, -, c⟩ := handleIp_keeps M (Or.inl hip')
      exact ⟨a, c⟩

/-- One iteration without a command in state `waitTcpSynAck` that receives the
packet `p`: the transition to `sendTcpAck` fires exactly when the four
classifiers hold on the received frame. -/
theorem mainLoopBody_waitTcpSynAck (u : Unspecified) (fuel : Nat) (M : Machine) (p : List Nat)
    (hs : M.currentState = state.waitTcpSynAck) :
    ∃ M', mainLoopBody u fuel none (some p) M = some M' ∧
      (M'.currentState = state.sendTcpAck ↔
        (etherIsIp (received M.buffer p) = true ∧
          etherIsIpUnicast M.g (received M.buffer p) = true ∧
          etherIsTcp (received M.buffer p) = true ∧
          etherIsTcpAck (received M.buffer p) = true)) ∧
      (M'.currentState = state.sendTcpAck →
        M'.g.acknowledgementNumber
            = rd32 (received M.buffer p)
                (ETH_DATA + ipHeaderLength (received M.buffer p) ETH_DATA + TCP_SEQUENCE_NUMBER) ∧
        M'.g.sequenceNumber
            = rd32 (received M.buffer p)
                (ETH_DATA + ipHeaderLength (received M.buffer p) ETH_DATA
                  + TCP_ACKNOWLEDGEMENT_NUMBER)) ∧
      (M'.currentState ≠ state.sendTcpAck →
        M'.currentState = state.waitTcpSynAck ∧ M'.g = M.g) := by
  refine ⟨_, mainLoopBody_waiting u fuel (some p) M (Or.inr hs), ?_⟩
  obtain ⟨M0, hM0⟩ : ∃ M0 : Machine, M0 = { M with buffer := received M.buffer p } := ⟨_, rfl⟩
  have e : receive (some p) M = processPacket M0 := by rw [hM0]; rfl
  have hb : M0.buffer = received M.buffer p := by rw [hM0]
  have hg : M0.g = M.g := by rw [hM0]
  have hs0 : M0.currentState = state.waitTcpSynAck := by rw [hM0]; exact hs
  rw [e, ← hb, ← hg]
  by_cases h : etherIsIp M0.buffer = true ∧ etherIsIpUnicast M0.g M0.buffer = true ∧
      etherIsTcp M0.buffer = true ∧ etherIsTcpAck M0.buffer = true
  · have k := processPacket_tcpAck M0 hs0 h.1 h.2.1 h.2.2.1 h.2.2.2
    rw [k]
    refine ⟨⟨fun _ => h, fun _ => rfl⟩, fun _ => ⟨rfl, rfl⟩, fun hc => absurd rfl hc⟩
  · obtain ⟨a, c⟩ := processPacket_waitTcpSynAck_keeps M0 hs0 h
    rw [a, c, hs0]
    refine ⟨⟨fun hc => absurd hc (by decide), fun hc => absurd hc h⟩,
      fun hc => absurd hc (by decide), fun _ => ⟨rfl, rfl⟩⟩

/-! ## Lemmas: printing a received PUBLISH -/

/-- A print loop with a bound of at most 255 ends and has sent the bytes
`m (off + i) .. m (off + bound - 1)` in order. -/
theorem printLoopU8_spec (m : Mem) (off bound : Nat) (hn : bound ≤ 255) :
    ∀ (fuel i : Nat) (out : List Nat), i ≤ bound → bound - i < fuel →
      printLoopU8 m off bound fuel i out
        = some (bound, out ++ (List.range' i (bound - i)).map (fun k => m (off + k))) := by
  intro fuel
  induction fuel with
  | zero => intro i out _ h; omega
  | succ fuel ih =>
    intro i out hi hf
    by_cases h : i < bound
    · have hw : (i + 1) % 256 = i + 1 := Nat.mod_eq_of_lt (by omega)
      simp only [printLoopU8, if_pos h, hw]
      rw [ih (i + 1) _ (by omega) (by omega)]
      have e : bound - i = (bound - (i + 1)) + 1 := by omega
      rw [e, List.range'_succ]
      simp
    · have hin : i = bound := by omega
      subst hin
      simp [printLoopU8]

/-- The bytes `f 0 .. f (n - 1)` as sent by a print loop started at 0. -/
theorem map_range_congr (f g : Nat → Nat) (n : Nat) (h : ∀ k, k < n → f k = g k) :
    (List.range n).map f = (List.range n).map g := by
  apply List.map_congr_left
  intro k hk
  exact h k (List.mem_range.1 hk)

/-- On a frame whose TCP payload starts with the bytes of a PUBLISH for a topic
of `T` bytes and data of `D` bytes, `T + D ≤ 251`, `printPublishData` returns
these lengths and these bytes. -/
theorem printPublishData_spec (frame payload topic data : Mem) (T D fuel : Nat)
    (hTD : T + D ≤ 251) (hfT : T < fuel) (hfD : D < fuel)
    (hf : ∀ k, k < T + D + 6 →
      frame (ETH_DATA + ipHeaderLength frame ETH_DATA + TCP_DATA + k) = payload k)
    (b1 : payload 1 = T + D + 4) (b2 : payload 2 = T / 256) (b3 : payload 3 = T % 256)
    (bt : ∀ i, i < T → payload (4 + i) = topic i)
    (bd : ∀ j, j < D → payload (6 + T + j) = data j) :
    printPublishData frame fuel
      = some { topicLength := T, topic := (List.range T).map topic,
               dataLength := D, data := (List.range D).map data } := by
  obtain ⟨cd, hcd⟩ : ∃ cd, cd = ETH_DATA + ipHeaderLength frame ETH_DATA + TCP_DATA := ⟨_, rfl⟩
  rw [← hcd] at hf
  have f1 : frame (cd + 1) = T + D + 4 := by rw [hf 1 (by omega), b1]
  have f2 : frame (cd + 2) = 0 := by
    rw [hf 2 (by omega), b2]
    exact Nat.div_eq_of_lt (by omega)
  have f3 : frame (cd + 2 + 1) = T := by
    rw [show cd + 2 + 1 = cd + 3 by omega, hf 3 (by omega), b3]
    exact Nat.mod_eq_of_lt (by omega)
  have htl : htons (rd16 frame (cd + 2)) = T := by
    unfold rd16 htons
    rw [f2, f3]
    omega
  have hdl : (frame (cd + 1) + 65792 - 4 - T) % 256 = D := by
    rw [f1]
    omega
  have l1 := printLoopU8_spec frame (cd + 4) T (by omega) fuel 0 [] (Nat.zero_le _) (by omega)
  have l2 := printLoopU8_spec frame (cd + T + 6) D (by omega) fuel 0 [] (Nat.zero_le _)
    (by omega)
  simp only [Nat.sub_zero, List.nil_append, ← List.range_eq_range'] at l1 l2
  have m1 : (List.range T).map (fun k => frame (cd + 4 + k)) = (List.range T).map topic :=
    map_range_congr _ _ _ (fun k hk => by
      rw [show cd + 4 + k = cd + (4 + k) by omega, hf _ (by omega), bt k hk])
  have m2 : (List.range D).map (fun k => frame (cd + T + 6 + k)) = (List.range D).map data :=
    map_range_congr _ _ _ (fun k hk => by
      rw [show cd + T + 6 + k = cd + (6 + T + k) by omega, hf _ (by omega), bd k hk])
  rw [m1] at l1
  rw [m2] at l2
  unfold printPublishData
  simp only [← hcd, htl, l1, Option.some_bind, hdl, l2, Option.map_some']

/-! ## Lemmas: `itoa` and `reverse` -/

/-- The swap loop of `reverse` ends within `(j - i) / 2 + 1` rounds and mirrors
the cells `i .. j`. -/
theorem reverseLoop_spec :
    ∀ (fuel : Nat) (s : Mem) (i j : Nat), j ≤ 255 → j ≤ i + 2 * fuel →
      ∃ s', reverseLoop (fuel + 1) s i j = some s' ∧
        ∀ k, s' k = if i ≤ k ∧ k ≤ j then s (i + j - k) else s k := by
  intro fuel
  induction fuel with
  | zero =>
    intro s i j _ h
    refine ⟨s, ?_, ?_⟩
    · simp only [reverseLoop, if_neg (show ¬ i < j by omega)]
    · intro k
      by_cases hk : i ≤ k ∧ k ≤ j
      · rw [if_pos hk]
        congr 1; omega
      · rw [if_neg hk]
  | succ fuel ih =>
    intro s i j hj h
    by_cases hij : i < j
    · have e1 : (i + 1) % 256 = i + 1 := Nat.mod_eq_of_lt (by omega)
      have e2 : (j + 255) % 256 = j - 1 := by omega
      obtain ⟨s', a, b⟩ := ih (wr (wr s i (s j)) j (s i)) (i + 1) (j - 1) (by omega) (by omega)
      refine ⟨s', ?_, ?_⟩
      · rw [reverseLoop, if_pos hij, e1, e2]
        exact a
      · intro k
        rw [b k]
        by_cases h1 : i + 1 ≤ k ∧ k ≤ j - 1
        · rw [if_pos h1, if_pos (by omega), wr_other _ _ _ _ (by omega),
            wr_other _ _ _ _ (by omega)]
          congr 1; omega
        · rw [if_neg h1]
          by_cases h2 : k = j
          · subst h2
            rw [wr_same, if_pos (by omega)]
            congr 1; omega
          · rw [wr_other _ _ _ _ h2]
            by_cases h3 : k = i
            · subst h3
              rw [wr_same, if_pos (by omega)]
              congr 1; omega
            · rw [wr_other _ _ _ _ h3, if_neg (by omega)]
    · refine ⟨s, ?_, ?_⟩
      · rw [reverseLoop, if_neg hij]
      · intro k
        by_cases hk : i ≤ k ∧ k ≤ j
        · rw [if_pos hk]
          congr 1; omega
        · rw [if_neg hk]

/-- The function `reverse` on a string of `1 ≤ l ≤ 255` characters. -/
theorem reverse_spec (s : Mem) (l fuel : Nat) (h1 : 1 ≤ l) (h2 : l ≤ 255) (hf : l ≤ 2 * fuel + 1) :
    ∃ s', reverse s l (fuel + 1) = some s' ∧
      (∀ k, k < l → s' k = s (l - 1 - k)) ∧ ∀ k, l ≤ k → s' k = s k := by
  have e : (l + 255) % 256 = l - 1 := by omega
  obtain ⟨s', a, b⟩ := reverseLoop_spec fuel s 0 (l - 1) (by omega) (by omega)
  refine ⟨s', ?_, ?_, ?_⟩
  · unfold reverse
    rw [e]
    exact a
  · intro k hk
    rw [b k, if_pos (by omega)]
    congr 1; omega
  · intro k hk
    rw [b k, if_neg (by omega)]

/-- With a base other than 16 the padding loop of `itoa` does nothing. -/
theorem itoaPad_base10 (num : Int) (fuel i : Nat) (str : Mem) :
    itoaPad num 10 (fuel + 1) i str = some (i, str) := by
  rw [itoaPad, if_neg]
  rintro ⟨-, -, h⟩
  exact absurd h (by decide)

/-- The byte stored for a decimal digit. -/
theorem charOfInt_digit (d : Nat) (h : d < 10) : charOfInt ((d : Int) + 48) = d + 48 := by
  unfold charOfInt
  omega

/-- The digit loop of `itoa` in base 10 on a non-negative value below `10 ^ k`
ends within `k + 1` rounds and has stored the decimal digits, least significant
first, from index `i` on. -/
theorem itoaDigits_spec :
    ∀ (k n fuel i : Nat) (str : Mem), n < 10 ^ k → k < fuel →
      ∃ str', itoaDigits 10 fuel (n : Int) i str
          = some (0, i + (Nat.digits 10 n).length, str') ∧
        (∀ j, j < (Nat.digits 10 n).length → str' (i + j) = (Nat.digits 10 n).getD j 0 + 48) ∧
        (∀ j, (j < i ∨ i + (Nat.digits 10 n).length ≤ j) → str' j = str j) ∧
        (Nat.digits 10 n).length ≤ k := by
  intro k
  induction k with
  | zero =>
    intro n fuel i str hn hf
    have h0 : n = 0 := by simpa using hn
    subst h0
    obtain ⟨f, rfl⟩ : ∃ f, fuel = f + 1 := ⟨fuel - 1, by omega⟩
    refine ⟨str, ?_, ?_, ?_, ?_⟩
    · simp [itoaDigits]
    · intro j hj
      simp at hj
    · intro j _
      rfl
    · simp
  | succ k ih =>
    intro n fuel i str hn hf
    obtain ⟨f, rfl⟩ : ∃ f, fuel = f + 1 := ⟨fuel - 1, by omega⟩
    rcases Nat.eq_zero_or_pos n with h0 | hpos
    · subst h0
      refine ⟨str, ?_, ?_, ?_, ?_⟩
      · simp [itoaDigits]
      · intro j hj
        simp at hj
      · intro j _
        rfl
      · simp
    · have hne : (n : Int) ≠ 0 := by omega
      have hd : Nat.digits 10 n = n % 10 :: Nat.digits 10 (n / 10) :=
        Nat.digits_def' (by decide) hpos
      have hlt : n / 10 < 10 ^ k := by
        rw [pow_succ] at hn
        omega
      obtain ⟨str', a, b, c, d⟩ := ih (n / 10) f (i + 1)
        (wr str i (n % 10 + 48)) hlt (by omega)
      have hm : Int.tmod (n : Int) 10 = ((n % 10 : Nat) : Int) := by
        have := Int.ofNat_tmod n 10
        simpa using this.symm
      have hq : Int.tdiv (n : Int) 10 = ((n / 10 : Nat) : Int) := by
        have := Int.ofNat_tdiv n 10
        simpa using this.symm
      have hr : ¬ (((n % 10 : Nat) : Int) > 9) := by omega
      refine ⟨str', ?_, ?_, ?_, ?_⟩
      · rw [itoaDigits, if_pos hne]
        simp only [hm, hq, if_neg hr]
        rw [charOfInt_digit _ (Nat.mod_lt _ (by decide)), a, hd]
        simp only [List.length_cons]
        congr 3
        omega
      · intro j hj
        rw [hd] at hj ⊢
        simp only [List.length_cons] at hj
        rcases Nat.eq_zero_or_pos j with hj0 | hjp
        · subst hj0
          have e : i + 0 = i := rfl
          rw [e, c i (Or.inl (by omega)), wr_same]
          rfl
        · obtain ⟨j', rfl⟩ : ∃ j', j = j' + 1 := ⟨j - 1, by omega⟩
          have := b j' (by omega)
          rw [show i + (j' + 1) = i + 1 + j' by omega, this]
          rfl
      · intro j hj
        rw [hd] at hj
        simp only [List.length_cons] at hj
        rw [c j (by omega), wr_other _ _ _ _ (by omega)]
      · rw [hd]
        simp only [List.length_cons]
        omega

/-- A positive number has at least one decimal digit. -/
theorem digits_length_pos (n : Nat) (h0 : 0 < n) : 1 ≤ (Nat.digits 10 n).length := by
  rw [Nat.digits_def' (by decide) h0]
  simp

/-- A memory read along `0 .. l - 1` after mirroring is the reversed list. -/
theorem map_range_mirror (s s' : Mem) (l : Nat) (h : ∀ k, k < l → s' k = s (l - 1 - k)) :
    (List.range l).map s' = ((List.range l).map s).reverse := by
  apply List.ext_getElem
  · simp
  · intro n h1 h2
    have hn : n < l := by simpa using h1
    simp only [List.getElem_map, List.getElem_range, List.getElem_reverse, List.length_map,
      List.length_range]
    exact h n hn

/-- A memory that holds the elements of a list, each plus 48, read along the
length of the list. -/
theorem map_range_digits (s : Mem) (ds : List Nat)
    (h : ∀ j, j < ds.length → s j = ds.getD j 0 + 48) :
    (List.range ds.length).map s = ds.map (· + 48) := by
  apply List.ext_getElem
  · simp
  · intro n h1 h2
    have hn : n < ds.length := by simpa using h1
    simp only [List.getElem_map, List.getElem_range]
    rw [h n hn, List.getD_eq_getElem _ _ hn]

/-- The function `itoa` in base 10 on a value other than the minimum: it returns,
and the string holds the sign, the decimal digits of the absolute value, most
significant first, and a NUL; the cells after the NUL are untouched. -/
theorem itoa_spec (num : Int) (str : Mem) (fuel : Nat)
    (hlo : -2147483648 < num) (hhi : num < 2147483648) (hf : 11 ≤ fuel) :
    ∃ s, itoa num str 10 fuel = some s ∧
      (List.range (decimalString num).length).map s = decimalString num ∧
      s (decimalString num).length = 0 ∧
      ∀ k, (decimalString num).length < k → s k = str k := by
  obtain ⟨f, rfl⟩ : ∃ f, fuel = f + 1 := ⟨fuel - 1, by omega⟩
  by_cases h0 : num = 0
  · subst h0
    refine ⟨wr (wr str 0 48) 1 0, ?_, ?_, ?_, ?_⟩
    · unfold itoa
      rw [if_pos rfl, itoaPad_base10]
      rfl
    · rfl
    · rfl
    · intro k hk
      have hk' : 1 < k := hk
      rw [wr_other _ _ _ _ (by omega), wr_other _ _ _ _ (by omega)]
  · obtain ⟨n, hn⟩ : ∃ n : Nat, n = num.natAbs := ⟨_, rfl⟩
    have hn0 : 0 < n := by omega
    have hnlt : n < 2147483648 := by omega
    have l1 := digits_length_pos n hn0
    obtain ⟨ds, hds⟩ : ∃ ds, ds = Nat.digits 10 n := ⟨_, rfl⟩
    rw [← hds] at l1
    have hnum' : (if num < 0 ∧ True then wrapInt (-num) else num) = (n : Int) := by
      unfold wrapInt
      by_cases hneg : num < 0
      · rw [if_pos ⟨hneg, trivial⟩]
        omega
      · rw [if_neg (fun h => hneg h.1)]
        omega
    obtain ⟨s1, a, b, c, l2⟩ := itoaDigits_spec 10 n (f + 1) 0 str (by omega) (by omega)
    rw [← hds] at a b c l2
    simp only [Nat.zero_add] at a b
    by_cases hneg : num < 0
    · -- negative: digits, then the sign, then the NUL, then the mirror
      obtain ⟨s4, r1, r2, r3⟩ := reverse_spec (wr (wr s1 ds.length 45) (ds.length + 1) 0)
        (ds.length + 1) f (by omega) (by omega) (by omega)
      have hdec : decimalString num = 45 :: (ds.map (· + 48)).reverse := by
        unfold decimalString
        rw [if_neg h0, if_pos hneg, ← hn, ← hds, List.map_reverse]
        rfl
      have hlen : (decimalString num).length = ds.length + 1 := by
        rw [hdec]; simp
      refine ⟨s4, ?_, ?_, ?_, ?_⟩
      · unfold itoa
        rw [if_neg h0]
        simp only [hnum', a, Option.some_bind]
        have hd : decide (num < 0 ∧ True) = true := by simp [hneg]
        simp only [hd, if_true, itoaPad_base10, Option.some_bind]
        rw [Nat.mod_eq_of_lt (by omega)]
        exact r1
      · rw [hlen, map_range_mirror _ s4 _ r2, List.range_succ, List.map_append,
          List.reverse_append, hdec]
        have e1 : (List.range ds.length).map (wr (wr s1 ds.length 45) (ds.length + 1) 0)
            = ds.map (· + 48) := by
          apply map_range_digits
          intro j hj
          rw [wr_other _ _ _ _ (by omega), wr_other _ _ _ _ (by omega)]
          exact b j hj
        rw [e1]
        simp only [List.map_cons, List.map_nil, List.reverse_cons, List.reverse_nil,
          List.nil_append, List.singleton_append, List.cons.injEq, and_true]
        rw [wr_other _ _ _ _ (by omega), wr_same]
      · rw [hlen, r3 _ (Nat.le_refl _), wr_same]
      · intro k hk
        rw [hlen] at hk
        rw [r3 k (by omega), wr_other _ _ _ _ (by omega), wr_other _ _ _ _ (by omega),
          c k (Or.inr (by omega))]
    · obtain ⟨s4, r1, r2, r3⟩ := reverse_spec (wr s1 ds.length 0) ds.length f l1 (by omega)
        (by omega)
      have hdec : decimalString num = (ds.map (· + 48)).reverse := by
        unfold decimalString
        rw [if_neg h0, if_neg hneg, ← hn, ← hds, List.map_reverse]
        rfl
      have hlen : (decimalString num).length = ds.length := by
        rw [hdec]; simp
      refine ⟨s4, ?_, ?_, ?_, ?_⟩
      · unfold itoa
        rw [if_neg h0]
        simp only [hnum', a, Option.some_bind]
        have hd : decide (num < 0 ∧ True) = false := by simp [hneg]
        simp only [hd, Bool.false_eq_true, if_false, itoaPad_base10, Option.some_bind]
        rw [Nat.mod_eq_of_lt (by omega)]
        exact r1
      · rw [hlen, map_range_mirror _ s4 _ r2, hdec]
        congr 1
        apply map_range_digits
        intro j hj
        rw [wr_other _ _ _ _ (by omega)]
        exact b j hj
      · rw [hlen, r3 _ (Nat.le_refl _), wr_same]
      · intro k hk
        rw [hlen] at hk
        rw [r3 k (by omega), wr_other _ _ _ _ (by omega), c k (Or.inr (by omega))]

/-! ## Lemmas: `getsUart0` -/

/-- Reading a list without its last element. -/
theorem getD_dropLast (l : List Nat) (k : Nat) (h : k + 1 < l.length) :
    l.dropLast.getD k 0 = l.getD k 0 := by
  have h1 : k < l.dropLast.length := by
    rw [List.length_dropLast]
    omega
  rw [List.getD_eq_getElem _ _ h1, List.getD_eq_getElem _ _ (by omega), List.getElem_dropLast]

/-- Reading a list with one more element at its end. -/
theorem getD_append_singleton (l : List Nat) (c k : Nat) :
    (l ++ [c]).getD k 0 = if k < l.length then l.getD k 0 else if k = l.length then c else 0 := by
  by_cases h : k < l.length
  · rw [if_pos h, List.getD_append _ _ _ _ h]
  · rw [if_neg h, List.getD_append_right _ _ _ _ (by omega)]
    by_cases h2 : k = l.length
    · rw [if_pos h2, h2, Nat.sub_self]
      rfl
    · rw [if_neg h2]
      obtain ⟨d, hd⟩ : ∃ d, k - l.length = d + 1 := ⟨k - l.length - 1, by omega⟩
      rw [hd]
      rfl

/-- The loop of `getsUart0`, with `count` characters stored that form `line`,
follows `editLine`: it blocks when the input ends first, and otherwise leaves
the edited line followed by a NUL, within the cells 0 to 80. -/
theorem getsUart0Loop_spec :
    ∀ (input line : List Nat) (count : Nat) (buffer : Mem),
      count = line.length → count < 80 → (∀ k, k < count → buffer k = line.getD k 0) →
      (editLine input line = none → getsUart0Loop input count buffer = none) ∧
      (∀ l rest, editLine input line = some (l, rest) →
        ∃ b, getsUart0Loop input count buffer = some (b, rest) ∧ l.length ≤ 80 ∧
          (∀ k, k < l.length → b k = l.getD k 0) ∧ b l.length = 0 ∧
          ∀ k, 80 < k → b k = buffer k) := by
  intro input
  induction input with
  | nil =>
    intro line count buffer hc hlt hb
    refine ⟨fun _ => ?_, fun l rest h => ?_⟩
    · simp only [getsUart0Loop, MAX_CHARS, if_pos hlt]
    · simp only [editLine] at h
      exact absurd h (by simp)
  | cons c rest ih =>
    intro line count buffer hc hlt hb
    by_cases h1 : c = 8 ∨ c = 127
    · -- backspace
      have e : editLine (c :: rest) line = editLine rest line.dropLast := by
        simp only [editLine, if_pos h1]
      rw [e]
      by_cases h0 : count > 0
      · have g : getsUart0Loop (c :: rest) count buffer
            = getsUart0Loop rest (count - 1) buffer := by
          simp only [getsUart0Loop, MAX_CHARS, if_pos hlt, if_pos h1, if_pos h0]
        rw [g]
        exact ih line.dropLast (count - 1) buffer (by rw [List.length_dropLast, hc])
          (by omega) (fun k hk => by rw [hb k (by omega), getD_dropLast _ _ (by omega)])
      · have g : getsUart0Loop (c :: rest) count buffer = getsUart0Loop rest count buffer := by
          simp only [getsUart0Loop, MAX_CHARS, if_pos hlt, if_pos h1, if_neg h0]
        have hnil : line = [] := List.eq_nil_of_length_eq_zero (by omega)
        rw [g, hnil]
        exact ih [] count buffer (by rw [hc, hnil]) hlt (fun k hk => absurd hk (by omega))
    · by_cases h2 : c = 13 ∨ c = 10
      · -- end of line
        have e : editLine (c :: rest) line = some (line, rest) := by
          simp only [editLine, if_neg h1, if_pos h2]
        have g : getsUart0Loop (c :: rest) count buffer = some (wr buffer count 0, rest) := by
          simp only [getsUart0Loop, MAX_CHARS, if_pos hlt, if_neg h1, if_pos h2]
        rw [e, g]
        refine ⟨fun h => absurd h (by simp), fun l r h => ?_⟩
        simp only [Option.some.injEq, Prod.mk.injEq] at h
        obtain ⟨rfl, rfl⟩ := h
        refine ⟨_, rfl, by omega, fun k hk => ?_, ?_, fun k hk => ?_⟩
        · rw [wr_other _ _ _ _ (by omega), hb k (by omega)]
        · rw [← hc, wr_same]
        · rw [wr_other _ _ _ _ (by omega)]
      · by_cases h3 : 32 ≤ c
        · have hw : (count + 1) % 256 = count + 1 := Nat.mod_eq_of_lt (by omega)
          have hlen : (line ++ [c]).length = count + 1 := by
            rw [List.length_append, hc]
            rfl
          have hb' : ∀ k, k < count + 1 → wr buffer count c k = (line ++ [c]).getD k 0 := by
            intro k hk
            rw [getD_append_singleton]
            by_cases hk2 : k = count
            · rw [hk2, wr_same, if_neg (by omega), if_pos hc]
            · rw [wr_other _ _ _ _ hk2, if_pos (by omega), hb k (by omega)]
          by_cases h4 : count + 1 = 80
          · -- the 80th character
            have e : editLine (c :: rest) line = some (line ++ [c], rest) := by
              simp only [editLine, if_neg h1, if_neg h2, if_pos h3]
              rw [if_pos (by rw [hlen, h4])]
            have g : getsUart0Loop (c :: rest) count buffer
                = some (wr (wr buffer count c) (count + 1) 0, rest) := by
              simp only [getsUart0Loop, MAX_CHARS, if_pos hlt, if_neg h1, if_neg h2,
                if_pos (show c ≥ 32 from h3), hw, if_pos h4]
            rw [e, g]
            refine ⟨fun h => absurd h (by simp), fun l r h => ?_⟩
            simp only [Option.some.injEq, Prod.mk.injEq] at h
            obtain ⟨rfl, rfl⟩ := h
            rw [hlen]
            refine ⟨_, rfl, by omega, fun k hk => ?_, wr_same _ _ _, fun k hk => ?_⟩
            · rw [wr_other _ _ _ _ (by omega)]
              exact hb' k hk
            · rw [wr_other _ _ _ _ (by omega), wr_other _ _ _ _ (by omega)]
          · have e : editLine (c :: rest) line = editLine rest (line ++ [c]) := by
              simp only [editLine, if_neg h1, if_neg h2, if_pos h3]
              rw [if_neg (by rw [hlen]; exact h4)]
            have g : getsUart0Loop (c :: rest) count buffer
                = getsUart0Loop rest (count + 1) (wr buffer count c) := by
              simp only [getsUart0Loop, MAX_CHARS, if_pos hlt, if_neg h1, if_neg h2,
                if_pos (show c ≥ 32 from h3), hw, if_neg h4]
            rw [e, g]
            obtain ⟨i1, i2⟩ := ih (line ++ [c]) (count + 1) (wr buffer count c) hlen.symm
              (by omega) hb'
            refine ⟨i1, fun l r h => ?_⟩
            obtain ⟨b, q1, q2, q3, q4, q5⟩ := i2 l r h
            refine ⟨b, q1, q2, q3, q4, fun k hk => ?_⟩
            rw [q5 k hk, wr_other _ _ _ _ (by omega)]
        · -- a control character is ignored
          have e : editLine (c :: rest) line = editLine rest line := by
            simp only [editLine, if_neg h1, if_neg h2, if_neg h3]
          have g : getsUart0Loop (c :: rest) count buffer = getsUart0Loop rest count buffer := by
            simp only [getsUart0Loop, MAX_CHARS, if_pos hlt, if_neg h1, if_neg h2,
              if_neg (show ¬ c ≥ 32 from h3)]
          rw [e, g]
          exact ih line count buffer hc hlt hb

/-- A memory that holds the elements of a list, read along its length. -/
theorem map_range_getD (s : Mem) (l : List Nat) (h : ∀ k, k < l.length → s k = l.getD k 0) :
    (List.range l.length).map s = l := by
  apply List.ext_getElem
  · simp
  · intro n h1 h2
    simp only [List.getElem_map, List.getElem_range]
    rw [h n h2, List.getD_eq_getElem _ _ h2]

/-- The function `getsUart0` against `editLine`. -/
theorem getsUart0_spec (data : USER_DATA) (input : List Nat) :
    (editLine input [] = none → getsUart0 data input = none) ∧
    (∀ line rest, editLine input [] = some (line, rest) →
      ∃ data', getsUart0 data input = some (data', rest) ∧ line.length ≤ 80 ∧
        (List.range line.length).map data'.buffer = line ∧ data'.buffer line.length = 0 ∧
        (∀ k, 80 < k → data'.buffer k = data.buffer k) ∧
        data'.fieldCount = data.fieldCount ∧ data'.fieldPositon = data.fieldPositon ∧
        data'.fieldType = data.fieldType) := by
  obtain ⟨a, b⟩ := getsUart0Loop_spec input [] 0 data.buffer rfl (by decide)
    (fun k hk => absurd hk (Nat.not_lt_zero k))
  refine ⟨fun h => ?_, fun line rest h => ?_⟩
  · unfold getsUart0
    rw [a h]
    rfl
  · obtain ⟨buf, q1, q2, q3, q4, q5⟩ := b line rest h
    refine ⟨{ data with buffer := buf }, ?_, q2, map_range_getD _ _ q3, q4, q5, rfl, rfl, rfl⟩
    unfold getsUart0
    rw [q1]
    rfl

/-! ## Lemmas: `parseFields` -/

/-- After the conversion to upper case the test of `parseFields` accepts exactly
the letters and digits. -/
theorem isFieldChar_toUpper (c : Nat) : isFieldChar (toUpper c) = isAlnum c := by
  rw [Bool.eq_iff_iff]
  unfold isFieldChar isAlnum toUpper
  simp only [Bool.or_eq_true, Bool.and_eq_true, decide_eq_true_eq]
  by_cases h : 97 ≤ c ∧ c ≤ 122
  · rw [if_pos h]
    omega
  · rw [if_neg h]
    omega

/-- A letter or digit is not stored as NUL. -/
theorem toUpper_ne_zero (c : Nat) (h : isAlnum c = true) : toUpper c ≠ 0 := by
  unfold isAlnum at h
  simp only [Bool.or_eq_true, Bool.and_eq_true, decide_eq_true_eq] at h
  unfold toUpper
  by_cases h2 : 97 ≤ c ∧ c ≤ 122
  · rw [if_pos h2]
    omega
  · rw [if_neg h2]
    omega

theorem isRunStart_iff (line : Mem) (s : Nat) :
    isRunStart line s = true ↔
      isAlnum (line s) = true ∧ (s = 0 ∨ isAlnum (line (s - 1)) = false) := by
  unfold isRunStart
  simp only [Bool.and_eq_true, Bool.or_eq_true, decide_eq_true_eq, Bool.not_eq_true']

theorem countRuns_mono (line : Mem) (a b : Nat) (h : a ≤ b) :
    countRuns line a ≤ countRuns line b := by
  induction b with
  | zero =>
    have : a = 0 := by omega
    rw [this]
  | succ b ih =>
    by_cases hab : a = b + 1
    · rw [hab]
    · have := ih (by omega)
      simp only [countRuns]
      omega

theorem countRuns_le (line : Mem) (n : Nat) : countRuns line n ≤ n := by
  induction n with
  | zero => exact Nat.le_refl _
  | succ n ih =>
    simp only [countRuns]
    split <;> omega

/-- The state of the loop of `parseFields` at index `i` of the line `line`. -/
theorem parseFieldsLoop_spec (line : Mem) (L : Nat) (fc0 : Nat) (fp0 ft0 : Mem)
    (hL : L ≤ 255) (hnz : ∀ x, x < L → line x ≠ 0) (hz : line L = 0)
    (hk : countRuns line L ≤ 29) :
    ∀ (fuel i : Nat) (d : USER_DATA), i ≤ L → L - i < fuel →
      (∀ x, x < i → d.buffer x = if isAlnum (line x) then toUpper (line x) else 0) →
      (∀ x, i ≤ x → d.buffer x = line x) →
      (∀ s, s < i → isRunStart line s = true → d.fieldPositon (countRuns line s) = s) →
      (∀ x, countRuns line i ≤ x → d.fieldPositon x = fp0 x) →
      d.fieldCount = fc0 → d.fieldType = ft0 →
      ∃ d', parseFieldsLoop fuel d i (countRuns line i) = some d' ∧
        (∀ x, x < L → d'.buffer x = if isAlnum (line x) then toUpper (line x) else 0) ∧
        (∀ x, L ≤ x → d'.buffer x = line x) ∧
        (∀ s, s < L → isRunStart line s = true → d'.fieldPositon (countRuns line s) = s) ∧
        (∀ x, countRuns line L ≤ x → d'.fieldPositon x = fp0 x) ∧
        d'.fieldCount = countRuns line L + 1 ∧ d'.fieldType = ft0 := by
  intro fuel
  induction fuel with
  | zero => intro i d _ h; omega
  | succ fuel ih =>
    intro i d hi hf I1 I2 I3 I4 I5 I6
    by_cases hiL : i = L
    · -- the terminating NUL
      subst hiL
      have hb : d.buffer i = 0 := by rw [I2 i (Nat.le_refl _), hz]
      refine ⟨{ d with fieldCount := (countRuns line i + 1) % 256 }, ?_, I1, I2, I3, I4, ?_, I6⟩
      · rw [parseFieldsLoop, if_neg (by rw [hb]; exact fun h => h rfl)]
      · exact Nat.mod_eq_of_lt (by omega)
    · have hlt : i < L := by omega
      have hc : d.buffer i = line i := I2 i (Nat.le_refl _)
      have hne : d.buffer i ≠ 0 := by rw [hc]; exact hnz i hlt
      have hw : (i + 1) % 256 = i + 1 := Nat.mod_eq_of_lt (by omega)
      have hmono := countRuns_mono line (i + 1) L (by omega)
      -- the buffer after the conversion to upper case
      obtain ⟨b1, hb1⟩ : ∃ b1, b1 =
          (if d.buffer i ≥ 97 ∧ d.buffer i ≤ 122 then wr d.buffer i (d.buffer i - 32)
            else d.buffer) := ⟨_, rfl⟩
      have b1i : b1 i = toUpper (line i) := by
        rw [hb1]
        unfold toUpper
        by_cases h : d.buffer i ≥ 97 ∧ d.buffer i ≤ 122
        · rw [if_pos h, wr_same, ← hc, if_pos h]
        · rw [if_neg h, ← hc, if_neg h]
      have b1o : ∀ x, x ≠ i → b1 x = d.buffer x := by
        intro x hx
        rw [hb1]
        split
        · rw [wr_other _ _ _ _ hx]
        · rfl
      have hfc : isFieldChar (b1 i) = isAlnum (line i) := by rw [b1i, isFieldChar_toUpper]
      have hprev : 0 < i → (b1 (i - 1) = 0 ↔ isAlnum (line (i - 1)) = false) := by
        intro h0
        rw [b1o (i - 1) (by omega), I1 (i - 1) (by omega)]
        by_cases ha : isAlnum (line (i - 1)) = true
        · rw [if_pos ha]
          constructor
          · intro h; exact absurd h (toUpper_ne_zero _ ha)
          · intro h; rw [ha] at h; exact absurd h (by decide)
        · rw [if_neg ha]
          constructor
          · intro _; simpa using ha
          · intro _; rfl
      have step : parseFieldsLoop (fuel + 1) d i (countRuns line i)
          = parseFieldsLoop fuel
              (if isRunStart line i = true then
                { d with buffer := b1, fieldPositon := wr d.fieldPositon (countRuns line i) i }
               else if isAlnum (line i) = true then { d with buffer := b1 }
               else { d with buffer := wr b1 i 0 })
              (i + 1) (countRuns line (i + 1)) := by
        rw [parseFieldsLoop, if_pos hne]
        simp only [← hb1, hfc, hw, MAX_FIELDS]
        by_cases ha : isAlnum (line i) = true
        · by_cases h0 : i = 0
          · have hs : isRunStart line i = true := (isRunStart_iff line i).2 ⟨ha, Or.inl h0⟩
            have hj : countRuns line (i + 1) = countRuns line i + 1 := by
              simp only [countRuns, hs, if_true]
            have hjm : (countRuns line i + 1) % 256 = countRuns line i + 1 :=
              Nat.mod_eq_of_lt (by omega)
            simp only [ha, if_pos h0, if_true, hs, hjm]
            rw [if_pos (by omega), hj]
          · by_cases hp : b1 (i - 1) = 0
            · have hs : isRunStart line i = true :=
                (isRunStart_iff line i).2 ⟨ha, Or.inr ((hprev (by omega)).1 hp)⟩
              have hj : countRuns line (i + 1) = countRuns line i + 1 := by
                simp only [countRuns, hs, if_true]
              have hjm : (countRuns line i + 1) % 256 = countRuns line i + 1 :=
                Nat.mod_eq_of_lt (by omega)
              simp only [ha, if_neg h0, if_true, if_pos hp, hs, hjm]
              rw [if_pos (by omega), hj]
            · have hs : isRunStart line i = false := by
                rw [Bool.eq_false_iff]
                intro hc2
                rcases ((isRunStart_iff line i).1 hc2).2 with h | h
                · exact h0 h
                · exact hp ((hprev (by omega)).2 h)
              have hj : countRuns line (i + 1) = countRuns line i := by
                simp only [countRuns, hs, Bool.false_eq_true, if_false, Nat.add_zero]
              simp only [ha, if_neg h0, if_true, if_neg hp, hs, Bool.false_eq_true, if_false]
              rw [if_pos (by omega), hj]
        · have ha' : isAlnum (line i) = false := by simpa using ha
          have hs : isRunStart line i = false := by
            rw [Bool.eq_false_iff]
            intro hc2
            exact ha ((isRunStart_iff line i).1 hc2).1
          have hj : countRuns line (i + 1) = countRuns line i := by
            simp only [countRuns, hs, Bool.false_eq_true, if_false, Nat.add_zero]
          simp only [ha', Bool.false_eq_true, if_false, ite_self, hs]
          rw [if_pos (by omega), hj]
      rw [step]
      apply ih (i + 1) _ (by omega) (by omega)
      · -- the buffer below i + 1
        intro x hx
        by_cases hxi : x = i
        · subst hxi
          by_cases hs : isRunStart line x = true
          · have ha : isAlnum (line x) = true := ((isRunStart_iff line x).1 hs).1
            rw [if_pos hs, if_pos ha]
            exact b1i
          · rw [if_neg hs]
            by_cases ha : isAlnum (line x) = true
            · rw [if_pos ha, if_pos ha]
              exact b1i
            · rw [if_neg ha, if_neg ha]
              exact wr_same _ _ _
        · have hold := I1 x (by omega)
          by_cases hs : isRunStart line i = true
          · rw [if_pos hs]
            show b1 x = _
            rw [b1o x hxi, hold]
          · rw [if_neg hs]
            by_cases ha : isAlnum (line i) = true
            · rw [if_pos ha]
              show b1 x = _
              rw [b1o x hxi, hold]
            · rw [if_neg ha]
              show wr b1 i 0 x = _
              rw [wr_other _ _ _ _ hxi, b1o x hxi, hold]
      · -- the buffer from i + 1 on
        intro x hx
        have hxi : x ≠ i := by omega
        have hold := I2 x (by omega)
        by_cases hs : isRunStart line i = true
        · rw [if_pos hs]
          show b1 x = _
          rw [b1o x hxi, hold]
        · rw [if_neg hs]
          by_cases ha : isAlnum (line i) = true
          · rw [if_pos ha]
            show b1 x = _
            rw [b1o x hxi, hold]
          · rw [if_neg ha]
            show wr b1 i 0 x = _
            rw [wr_other _ _ _ _ hxi, b1o x hxi, hold]
      · -- the recorded positions
        intro s hs hst
        by_cases hsi : s = i
        · subst hsi
          rw [if_pos hst]
          exact wr_same _ _ _
        · have hold := I3 s (by omega) hst
          have hlt2 : countRuns line s < countRuns line i := by
            have h1 : countRuns line (s + 1) = countRuns line s + 1 := by
              simp only [countRuns, hst, if_true]
            have h2 := countRuns_mono line (s + 1) i (by omega)
            omega
          by_cases hs2 : isRunStart line i = true
          · rw [if_pos hs2]
            show wr d.fieldPositon (countRuns line i) i (countRuns line s) = s
            rw [wr_other _ _ _ _ (by omega), hold]
          · rw [if_neg hs2]
            by_cases ha : isAlnum (line i) = true
            · rw [if_pos ha]
              exact hold
            · rw [if_neg ha]
              exact hold
      · -- the positions not yet used
        intro x hx
        by_cases hs2 : isRunStart line i = true
        · have hj : countRuns line (i + 1) = countRuns line i + 1 := by
            simp only [countRuns, hs2, if_true]
          rw [if_pos hs2]
          show wr d.fieldPositon (countRuns line i) i x = fp0 x
          rw [wr_other _ _ _ _ (by omega), I4 x (by omega)]
        · have hj : countRuns line (i + 1) = countRuns line i := by
            have : isRunStart line i = false := by simpa using hs2
            simp only [countRuns, this, Bool.false_eq_true, if_false, Nat.add_zero]
          rw [if_neg hs2]
          by_cases ha : isAlnum (line i) = true
          · rw [if_pos ha]
            exact I4 x (by omega)
          · rw [if_neg ha]
            exact I4 x (by omega)
      · split
        · exact I5
        · split
          · exact I5
          · exact I5
      · split
        · exact I6
        · split
          · exact I6
          · exact I6

/-! ## Lemmas: the decimal string -/

/-- The string `decimalString num` is canonical: an optional sign, then digits
below ten, at least one, the first not zero unless the value is zero, whose
value is the absolute value. -/
theorem decimalString_canonical (num : Int) :
    ∃ ds : List Nat,
      decimalString num = (if num < 0 then [45] else []) ++ ds.map (· + 48) ∧
      ds ≠ [] ∧ (∀ d ∈ ds, d < 10) ∧ (num ≠ 0 → ds.head? ≠ some 0) ∧
      Nat.ofDigits 10 ds.reverse = num.natAbs := by
  by_cases h0 : num = 0
  · subst h0
    refine ⟨[0], ?_, by simp, ?_, fun h => absurd rfl h, ?_⟩
    · rfl
    · intro d hd
      simp only [List.mem_singleton] at hd
      omega
    · rfl
  · have hn : num.natAbs ≠ 0 := by omega
    have hne : Nat.digits 10 num.natAbs ≠ [] := Nat.digits_ne_nil_iff_ne_zero.2 hn
    refine ⟨(Nat.digits 10 num.natAbs).reverse, ?_, ?_, ?_, fun _ => ?_, ?_⟩
    · unfold decimalString
      rw [if_neg h0]
    · simpa using hne
    · intro d hd
      exact Nat.digits_lt_base (by decide) (List.mem_reverse.1 hd)
    · rw [List.head?_reverse, List.getLast?_eq_getLast _ hne]
      intro h
      exact Nat.getLast_digit_ne_zero 10 hn (Option.some.inj h)
    · rw [List.reverse_reverse, Nat.ofDigits_digits]

/-! ## Lemmas: classifier calls on a memory -/

/-- The four bytes stored by `wr32`. -/
theorem wr32_cell (m : Mem) (a v : Nat) :
    wr32 m a v a = v % 256 ∧ wr32 m a v (a + 1) = v / 256 % 256 ∧
    wr32 m a v (a + 2) = v / 65536 % 256 ∧ wr32 m a v (a + 3) = v / 16777216 % 256 := by
  unfold wr32
  refine ⟨?_, ?_, ?_, ?_⟩
  · rw [wr_other _ _ _ _ (by omega), wr_other _ _ _ _ (by omega), wr_other _ _ _ _ (by omega),
      wr_same]
  · rw [wr_other _ _ _ _ (by omega), wr_other _ _ _ _ (by omega), wr_same]
  · rw [wr_other _ _ _ _ (by omega), wr_same]
  · rw [wr_same]

/-- A 32-bit value stored is the value loaded. -/
theorem rd32_wr32 (m : Mem) (a v : Nat) (hv : v < 4294967296) : rd32 (wr32 m a v) a = v := by
  obtain ⟨e0, e1, e2, e3⟩ := wr32_cell m a v
  unfold rd32
  rw [e0, e1, e2, e3]
  omega

/-- Two memories that agree outside a 32-bit cell are equal after a store to
that cell. -/
theorem wr32_congr (m m' : Mem) (a v : Nat) (h : ∀ i, i < a ∨ a + 3 < i → m' i = m i) :
    wr32 m' a v = wr32 m a v := by
  funext i
  by_cases hi : i < a ∨ a + 3 < i
  · rw [wr32_other _ _ _ _ hi, wr32_other _ _ _ _ hi, h i hi]
  · obtain ⟨e0, e1, e2, e3⟩ := wr32_cell m a v
    obtain ⟨f0, f1, f2, f3⟩ := wr32_cell m' a v
    have hc : i = a ∨ i = a + 1 ∨ i = a + 2 ∨ i = a + 3 := by omega
    rcases hc with rfl | rfl | rfl | rfl
    · rw [e0, f0]
    · rw [e1, f1]
    · rw [e2, f2]
    · rw [e3, f3]

/-- The loop of `etherSumWords` stores to the four bytes of `*sum` only. -/
theorem etherSumWordsAtLoop_frame (sum : Nat) :
    ∀ (n p phase : Nat) (m : Mem) (a : Nat), a < sum ∨ sum + 3 < a →
      etherSumWordsAtLoop sum n p phase m a = m a := by
  intro n
  induction n with
  | zero => intro p phase m a _; rfl
  | succ n ih =>
    intro p phase m a ha
    rw [etherSumWordsAtLoop, ih _ _ _ a ha, wr32_other _ _ _ _ ha]

theorem etherSumWordsAt_frame (m : Mem) (data n sum a : Nat) (ha : a < sum ∨ sum + 3 < a) :
    etherSumWordsAt m data n sum a = m a :=
  etherSumWordsAtLoop_frame sum n data 0 m a ha

/-- When `*sum` lies outside the bytes summed, the loop on the memory leaves in
`*sum` the value computed by the loop on the accumulator. -/
theorem etherSumWordsAtLoop_value (sum : Nat) (m0 : Mem) :
    ∀ (n p phase : Nat) (m : Mem) (s : Nat), rd32 m sum = s → s < 4294967296 →
      (sum + 4 ≤ p ∨ p + n ≤ sum) → (∀ a, a < sum ∨ sum + 3 < a → m a = m0 a) →
      rd32 (etherSumWordsAtLoop sum n p phase m) sum = etherSumWordsLoop m0 n p phase s := by
  intro n
  induction n with
  | zero => intro p phase m s hs _ _ _; exact hs
  | succ n ih =>
    intro p phase m s hs hlt hreg hag
    have hp : m p = m0 p := hag p (by omega)
    rw [etherSumWordsAtLoop, etherSumWordsLoop, hs, hp]
    have hv : (if phase ≠ 0 then (s + m0 p * 256) % 4294967296 else (s + m0 p) % 4294967296)
        < 4294967296 := by
      split <;> exact Nat.mod_lt _ (by norm_num)
    exact ih (p + 1) (1 - phase) _ _ (rd32_wr32 _ _ _ hv) hv (by omega)
      (fun a ha => by rw [wr32_other _ _ _ _ ha, hag a ha])

/-- The accumulator loop on the frame seen through a pointer is the loop on the
memory at the shifted address. -/
theorem etherSumWordsLoop_view (m : Mem) (ether : Nat) :
    ∀ (n p phase s : Nat),
      etherSumWordsLoop (view m ether) n p phase s = etherSumWordsLoop m n (ether + p) phase s := by
  intro n
  induction n with
  | zero => intro p phase s; rfl
  | succ n ih =>
    intro p phase s
    rw [etherSumWordsLoop, etherSumWordsLoop, ih]
    rfl

/-- The value of `*sum` after `etherSumWords` on the memory, for data inside the
frame at `ether` and `*sum` outside the bytes summed. -/
theorem etherSumWordsAt_value (m m0 : Mem) (ether off n sum s : Nat)
    (hs : rd32 m sum = s) (hlt : s < 4294967296)
    (hreg : sum + 4 ≤ ether + off ∨ ether + off + n ≤ sum)
    (hag : ∀ a, a < sum ∨ sum + 3 < a → m a = m0 a) :
    rd32 (etherSumWordsAt m (ether + off) n sum) sum = etherSumWords (view m0 ether) off n s := by
  unfold etherSumWordsAt etherSumWords
  rw [etherSumWordsAtLoop_value sum m0 n (ether + off) 0 m s hs hlt hreg hag,
    etherSumWordsLoop_view]

/-- The call of `etherIsIp` stores to the four bytes of its local `sum` only. -/
theorem etherIsIpAt_frame (m : Mem) (ether sum a : Nat) (ha : a < sum ∨ sum + 3 < a) :
    (etherIsIpAt m ether sum).2 a = m a := by
  unfold etherIsIpAt
  dsimp only
  split
  · dsimp only
    rw [etherSumWordsAt_frame _ _ _ _ _ ha, wr32_other _ _ _ _ ha]
  · exact wr32_other _ _ _ _ ha

/-- The call of `etherIsIp` depends on the memory outside its local `sum` only. -/
theorem etherIsIpAt_congr (m m' : Mem) (ether sum : Nat)
    (h : ∀ a, a < sum ∨ sum + 3 < a → m' a = m a)
    (h14 : m' (ether + ETH_DATA + IP_REV_SIZE) = m (ether + ETH_DATA + IP_REV_SIZE)) :
    etherIsIpAt m' ether sum = etherIsIpAt m ether sum := by
  have hl : ipHeaderLength m' (ether + ETH_DATA) = ipHeaderLength m (ether + ETH_DATA) := by
    unfold ipHeaderLength
    rw [h14]
  unfold etherIsIpAt
  simp only [hl, wr32_congr m m' sum 0 h]

/-- The low byte of a 32-bit value loaded from a cell whose first byte is a
byte. -/
theorem rd32_mod (m : Mem) (a : Nat) (h : m a < 256) : rd32 m a % 256 = m a := by
  unfold rd32
  omega

/-- The first byte of `*sum` stays a byte under the loop of `etherSumWords`. -/
theorem etherSumWordsAtLoop_cell_lt (sum : Nat) :
    ∀ (n p phase : Nat) (m : Mem), m sum < 256 → etherSumWordsAtLoop sum n p phase m sum < 256 := by
  intro n
  induction n with
  | zero => intro p phase m h; exact h
  | succ n ih =>
    intro p phase m _
    rw [etherSumWordsAtLoop]
    apply ih
    rw [(wr32_cell m sum _).1]
    exact Nat.mod_lt _ (by norm_num)

/-- The call of `etherIsIp` when the local `sum` lies outside the frame type and
the IP header: the returned value is that of `etherIsIp` on the frame, and on a
frame of type 0x0800 the first byte of the local holds the low byte of the sum
over the header. -/
theorem etherIsIpAt_spec (m : Mem) (ether sum : Nat)
    (hdis : sum + 4 ≤ ether + 12 ∨ ether + 14 + ipHeaderLength (view m ether) ETH_DATA ≤ sum) :
    (etherIsIpAt m ether sum).1 = etherIsIp (view m ether) ∧
    (rd16 (view m ether) ETH_FRAME_TYPE = htons 0x0800 →
      (etherIsIpAt m ether sum).2 sum
        = etherSumWords (view m ether) (ETH_DATA + IP_REV_SIZE)
            (ipHeaderLength (view m ether) ETH_DATA) 0 % 256) := by
  obtain ⟨V, hV⟩ : ∃ V, V = view m ether := ⟨_, rfl⟩
  rw [← hV] at hdis ⊢
  obtain ⟨ihl, hihl⟩ : ∃ ihl, ihl = ipHeaderLength V ETH_DATA := ⟨_, rfl⟩
  rw [← hihl] at hdis ⊢
  have hVa : ∀ i, V i = m (ether + i) := fun i => by rw [hV]; rfl
  obtain ⟨m1, hm1⟩ : ∃ m1, m1 = wr32 m sum 0 := ⟨_, rfl⟩
  obtain ⟨m2, hm2⟩ : ∃ m2, m2 = etherSumWordsAt m1 (ether + ETH_DATA + IP_REV_SIZE) ihl sum :=
    ⟨_, rfl⟩
  have hdef : etherIsIpAt m ether sum
      = if rd16 m1 (ether + ETH_FRAME_TYPE) = htons 0x0800 then
          (decide (getEtherChecksum (rd32 m2 sum) = 0), m2)
        else (false, m1) := by
    rw [hm2, hm1, hihl, hV]
    rfl
  have hpure : etherIsIp V
      = if rd16 V ETH_FRAME_TYPE = htons 0x0800 then
          decide (getEtherChecksum (etherSumWords V (ETH_DATA + IP_REV_SIZE) ihl 0) = 0)
        else false := by
    rw [hihl]
    rfl
  have f1 : ∀ a, a < sum ∨ sum + 3 < a → m1 a = m a := fun a ha => by
    rw [hm1, wr32_other _ _ _ _ ha]
  have hty : rd16 m1 (ether + ETH_FRAME_TYPE) = rd16 V ETH_FRAME_TYPE := by
    unfold rd16
    rw [f1 _ (by simp only [ETH_FRAME_TYPE]; omega), f1 _ (by simp only [ETH_FRAME_TYPE]; omega),
      hVa, hVa, Nat.add_assoc]
  have hsum : rd32 m2 sum = etherSumWords V (ETH_DATA + IP_REV_SIZE) ihl 0 := by
    have := etherSumWordsAt_value m1 m ether (ETH_DATA + IP_REV_SIZE) ihl sum 0
      (by rw [hm1]; exact rd32_wr32 _ _ _ (by decide)) (by decide)
      (by simp only [ETH_DATA, IP_REV_SIZE]; omega) f1
    rw [hm2, hV, ← this]
    rfl
  have hcell : m2 sum < 256 := by
    rw [hm2]
    apply etherSumWordsAtLoop_cell_lt
    rw [hm1, (wr32_cell m sum 0).1]
    decide
  rw [hdef, hpure, hty, hsum]
  constructor
  · split <;> rfl
  · intro h
    rw [if_pos h, ← hsum]
    exact (rd32_mod m2 sum hcell).symm

/-- The call of `etherIsIp` returns the value of `etherIsIp` on the frame, when
the local `sum` lies outside the frame. -/
theorem etherIsIpAt_result (m : Mem) (ether sum : Nat)
    (hdis : sum + 4 ≤ ether ∨ ether + 74 ≤ sum) :
    (etherIsIpAt m ether sum).1 = etherIsIp (view m ether) := by
  have hlen : ipHeaderLength (view m ether) ETH_DATA ≤ 60 := by
    unfold ipHeaderLength
    omega
  exact (etherIsIpAt_spec m ether sum (by omega)).1

/-- The call of `etherIsUdp` stores to the four bytes of its local `sum` only. -/
theorem etherIsUdpAt_frame (m : Mem) (ether sum a : Nat) (ha : a < sum ∨ sum + 3 < a) :
    (etherIsUdpAt m ether sum).2 a = m a := by
  unfold etherIsUdpAt
  dsimp only
  split
  · dsimp only
    rw [etherSumWordsAt_frame _ _ _ _ _ ha, etherSumWordsAt_frame _ _ _ _ _ ha,
      wr32_other _ _ _ _ ha, etherSumWordsAt_frame _ _ _ _ _ ha, wr32_other _ _ _ _ ha]
  · exact wr32_other _ _ _ _ ha

/-- The call of `etherIsUdp` depends on the memory outside its local `sum` only. -/
theorem etherIsUdpAt_congr (m m' : Mem) (ether sum : Nat)
    (h : ∀ a, a < sum ∨ sum + 3 < a → m' a = m a)
    (h14 : m' (ether + ETH_DATA + IP_REV_SIZE) = m (ether + ETH_DATA + IP_REV_SIZE)) :
    etherIsUdpAt m' ether sum = etherIsUdpAt m ether sum := by
  have hl : ipHeaderLength m' (ether + ETH_DATA) = ipHeaderLength m (ether + ETH_DATA) := by
    unfold ipHeaderLength
    rw [h14]
  unfold etherIsUdpAt
  simp only [hl, wr32_congr m m' sum 0 h]

/-- The call of `etherIsUdp` returns the value of `etherIsUdp` on the frame,
when the local `sum` lies outside every byte that the length field of the
datagram can make the function read. -/
theorem etherIsUdpAt_result (m : Mem) (ether sum : Nat)
    (hdis : sum + 4 ≤ ether ∨ ether + 65609 ≤ sum) :
    (etherIsUdpAt m ether sum).1 = etherIsUdp (view m ether) := by
  obtain ⟨V, hV⟩ : ∃ V, V = view m ether := ⟨_, rfl⟩
  obtain ⟨ihl, hihl⟩ : ∃ ihl, ihl = ipHeaderLength V ETH_DATA := ⟨_, rfl⟩
  have hlen : ihl ≤ 60 := by
    rw [hihl]
    unfold ipHeaderLength
    omega
  have hVa : ∀ i, V i = m (ether + i) := fun i => by rw [hV]; rfl
  -- the memory after each statement
  obtain ⟨m1, hm1⟩ : ∃ m1, m1 = wr32 m sum 0 := ⟨_, rfl⟩
  obtain ⟨m2, hm2⟩ : ∃ m2, m2 = etherSumWordsAt m1 (ether + ETH_DATA + IP_SOURCE_IP) 8 sum :=
    ⟨_, rfl⟩
  obtain ⟨m3, hm3⟩ : ∃ m3, m3 = wr32 m2 sum
      ((rd32 m2 sum + m2 (ether + ETH_DATA + IP_PROTOCOL) % 256 * 256) % 4294967296) := ⟨_, rfl⟩
  obtain ⟨m4, hm4⟩ : ∃ m4, m4 = etherSumWordsAt m3 (ether + ETH_DATA + ihl + UDP_LENGTH) 2 sum :=
    ⟨_, rfl⟩
  obtain ⟨m5, hm5⟩ : ∃ m5, m5 = etherSumWordsAt m4 (ether + ETH_DATA + ihl)
      (htons (rd16 m4 (ether + ETH_DATA + ihl + UDP_LENGTH))) sum := ⟨_, rfl⟩
  have hdef : etherIsUdpAt m ether sum
      = if m1 (ether + ETH_DATA + IP_PROTOCOL) = 0x11 then
          (decide (getEtherChecksum (rd32 m5 sum) = 0), m5)
        else (false, m1) := by
    rw [hm5, hm4, hm3, hm2, hm1, hihl, hV]
    rfl
  -- the accumulator after each statement of the function on the frame
  obtain ⟨S1, hS1⟩ : ∃ S1, S1 = etherSumWords V (ETH_DATA + IP_SOURCE_IP) 8 0 := ⟨_, rfl⟩
  obtain ⟨S2, hS2⟩ : ∃ S2, S2 = (S1 + V (ETH_DATA + IP_PROTOCOL) % 256 * 256) % 4294967296 :=
    ⟨_, rfl⟩
  obtain ⟨S3, hS3⟩ : ∃ S3, S3 = etherSumWords V (ETH_DATA + ihl + UDP_LENGTH) 2 S2 := ⟨_, rfl⟩
  obtain ⟨L, hL⟩ : ∃ L, L = htons (rd16 V (ETH_DATA + ihl + UDP_LENGTH)) := ⟨_, rfl⟩
  have hpure : etherIsUdp V
      = if V (ETH_DATA + IP_PROTOCOL) = 0x11 then
          decide (getEtherChecksum (etherSumWords V (ETH_DATA + ihl) L S3) = 0)
        else false := by
    rw [hL, hS3, hS2, hS1, hihl]
    rfl
  have hS2lt : S2 < 4294967296 := by rw [hS2]; exact Nat.mod_lt _ (by norm_num)
  have hS3lt : S3 < 4294967296 := by rw [hS3]; exact etherSumWords_lt _ _ _ _ hS2lt
  have hLlt : L < 65536 := by
    rw [hL]
    unfold htons
    exact Nat.mod_lt _ (by norm_num)
  -- the memories agree with `m` outside the local
  have f1 : ∀ a, a < sum ∨ sum + 3 < a → m1 a = m a := fun a ha => by
    rw [hm1, wr32_other _ _ _ _ ha]
  have f2 : ∀ a, a < sum ∨ sum + 3 < a → m2 a = m a := fun a ha => by
    rw [hm2, etherSumWordsAt_frame _ _ _ _ _ ha, f1 a ha]
  have f3 : ∀ a, a < sum ∨ sum + 3 < a → m3 a = m a := fun a ha => by
    rw [hm3, wr32_other _ _ _ _ ha, f2 a ha]
  have f4 : ∀ a, a < sum ∨ sum + 3 < a → m4 a = m a := fun a ha => by
    rw [hm4, etherSumWordsAt_frame _ _ _ _ _ ha, f3 a ha]
  have hpr : m1 (ether + ETH_DATA + IP_PROTOCOL) = V (ETH_DATA + IP_PROTOCOL) := by
    rw [f1 _ (by simp only [ETH_DATA, IP_PROTOCOL]; omega), hVa]
    rfl
  have hpr2 : m2 (ether + ETH_DATA + IP_PROTOCOL) = V (ETH_DATA + IP_PROTOCOL) := by
    rw [f2 _ (by simp only [ETH_DATA, IP_PROTOCOL]; omega), hVa]
    rfl
  -- the local after each statement
  have s1 : rd32 m1 sum = 0 := by rw [hm1]; exact rd32_wr32 _ _ _ (by decide)
  have s2 : rd32 m2 sum = S1 := by
    have := etherSumWordsAt_value m1 m ether (ETH_DATA + IP_SOURCE_IP) 8 sum 0 s1 (by decide)
      (by simp only [ETH_DATA, IP_SOURCE_IP]; omega) f1
    rw [hm2, hS1, hV, ← this]
    rfl
  have s3 : rd32 m3 sum = S2 := by
    rw [hm3, s2, hpr2, ← hS2]
    exact rd32_wr32 _ _ _ hS2lt
  have a4 : ether + ETH_DATA + ihl + UDP_LENGTH = ether + (ETH_DATA + ihl + UDP_LENGTH) := by
    omega
  have a5 : ether + ETH_DATA + ihl = ether + (ETH_DATA + ihl) := by omega
  have s4 : rd32 m4 sum = S3 := by
    have := etherSumWordsAt_value m3 m ether (ETH_DATA + ihl + UDP_LENGTH) 2 sum S2 s3 hS2lt
      (by simp only [ETH_DATA, UDP_LENGTH]; omega) f3
    rw [hm4, hS3, hV, a4, this]
  have hrd : rd16 m4 (ether + ETH_DATA + ihl + UDP_LENGTH) = rd16 V (ETH_DATA + ihl + UDP_LENGTH) := by
    rw [a4]
    unfold rd16
    rw [f4 _ (by simp only [ETH_DATA, UDP_LENGTH]; omega),
      f4 _ (by simp only [ETH_DATA, UDP_LENGTH]; omega), hVa, hVa]
    rfl
  have s5 : rd32 m5 sum = etherSumWords V (ETH_DATA + ihl) L S3 := by
    have := etherSumWordsAt_value m4 m ether (ETH_DATA + ihl) L sum S3 s4 hS3lt
      (by simp only [ETH_DATA]; omega) f4
    rw [hm5, hrd, ← hL, hV, a5, this]
  rw [hdef, ← hV, hpure, hpr, s5]
  split <;> rfl

/-- The globals after a call of a classifier on a memory are those of the
classifier on the frame. -/
theorem classifyAt_globals (c : Classifier) (g : Globals) (m : Mem) (ether sum : Nat) :
    (classifyAt c g m ether sum).2.1 = (classify c g (view m ether)).2 := by
  cases c <;> rfl

/-- A call of a classifier stores to no byte of the memory other than the four
bytes of the local `sum`. -/
theorem classifyAt_frame (c : Classifier) (g : Globals) (m : Mem) (ether sum a : Nat)
    (ha : a < sum ∨ sum + 3 < a) : (classifyAt c g m ether sum).2.2 a = m a := by
  cases c
  case isIp => exact etherIsIpAt_frame m ether sum a ha
  case isUdp => exact etherIsUdpAt_frame m ether sum a ha
  all_goals rfl

/-- A second call of a classifier, on the memory and globals left by the first,
returns the same value and leaves the same memory and globals, when the local
`sum` lies outside the frame. -/
theorem classifyAt_again (c : Classifier) (g : Globals) (m : Mem) (ether sum : Nat)
    (hdis : sum + 4 ≤ ether ∨ ether + MAX_PACKET_SIZE ≤ sum) :
    classifyAt c (classifyAt c g m ether sum).2.1 (classifyAt c g m ether sum).2.2 ether sum
      = classifyAt c g m ether sum := by
  have h14 : ether + ETH_DATA + IP_REV_SIZE < sum ∨ sum + 3 < ether + ETH_DATA + IP_REV_SIZE := by
    simp only [ETH_DATA, IP_REV_SIZE, MAX_PACKET_SIZE] at hdis ⊢
    omega
  have hrec : ∀ f : Globals → Mem → Bool × Globals,
      f (f g (view m ether)).2 (view m ether) = f g (view m ether) →
      (((f (f g (view m ether)).2 (view m ether)).1, (f (f g (view m ether)).2 (view m ether)).2, m)
          : Bool × Globals × Mem)
        = ((f g (view m ether)).1, (f g (view m ether)).2, m) := by
    intro f hf
    rw [hf]
  cases c
  case isIp =>
    have e := etherIsIpAt_congr m (etherIsIpAt m ether sum).2 ether sum
      (fun a ha => etherIsIpAt_frame m ether sum a ha) (etherIsIpAt_frame m ether sum _ h14)
    show ((etherIsIpAt (etherIsIpAt m ether sum).2 ether sum).1, g,
        (etherIsIpAt (etherIsIpAt m ether sum).2 ether sum).2) = _
    rw [e]
    rfl
  case isUdp =>
    have e := etherIsUdpAt_congr m (etherIsUdpAt m ether sum).2 ether sum
      (fun a ha => etherIsUdpAt_frame m ether sum a ha) (etherIsUdpAt_frame m ether sum _ h14)
    show ((etherIsUdpAt (etherIsUdpAt m ether sum).2 ether sum).1, g,
        (etherIsUdpAt (etherIsUdpAt m ether sum).2 ether sum).2) = _
    rw [e]
    rfl
  case isMqttSubAck =>
    exact hrec etherIsMqttSubAck (classify_pure Classifier.isMqttSubAck g (view m ether)).2
  case isMqttUnSubAck =>
    exact hrec etherIsMqttUnSubAck (classify_pure Classifier.isMqttUnSubAck g (view m ether)).2
  case isMqttPublish =>
    exact hrec etherIsMqttPublish (classify_pure Classifier.isMqttPublish g (view m ether)).2
  all_goals rfl

/-- The value returned by a call of a classifier on a memory is the value of
the classifier on the frame, when the local `sum` lies outside every byte that
can be read. -/
theorem classifyAt_result (c : Classifier) (g : Globals) (m : Mem) (ether sum : Nat)
    (hdis : sum + 4 ≤ ether ∨ ether + 65609 ≤ sum) :
    (classifyAt c g m ether sum).1 = (classify c g (view m ether)).1 := by
  cases c
  case isIp => exact etherIsIpAt_result m ether sum (by omega)
  case isUdp => exact etherIsUdpAt_result m ether sum hdis
  all_goals rfl

/-- With the local `sum` placed inside the frame, on the four bytes that follow
the IP header, the call of `etherIsIp` changes the frame: the ICMP type byte 8
of the example echo request becomes FE, the low byte of the header sum. -/
theorem etherIsIpAt_local_inside_frame :
    exampleMemory (8 + 34) = 8 ∧ (etherIsIpAt exampleMemory 8 (8 + 34)).2 (8 + 34) = 0xFE := by
  refine ⟨by decide, ?_⟩
  rw [(etherIsIpAt_spec exampleMemory 8 (8 + 34) (Or.inr (by decide))).2 (by decide)]
  decide

/-! ## Claims -/

/-- C1. Checksum round trip: for every IPv4 header (any bytes) whose
header-length nibble is at least 5, after `etherCalcIpChecksum` the header
length is unchanged and `etherSumWords` over the same IHL*4 bytes from 0,
followed by `getEtherChecksum`, yields 0. -/
theorem ip_checksum_round_trip (m : Mem) (ip : Nat) (hm : IsBytes m)
    (h5 : 5 ≤ m (ip + IP_REV_SIZE) % 16) :
    ipHeaderLength (etherCalcIpChecksum m ip) ip = ipHeaderLength m ip ∧
    getEtherChecksum
      (etherSumWords (etherCalcIpChecksum m ip) ip (ipHeaderLength m ip) 0) = 0 :=
  etherCalcIpChecksum_valid m ip hm h5

/-- C2. For every configuration, every recognised flags value (SYN, ACK, FIN-ACK,
RST, RST-ACK, FIN, PUSH-ACK) and every payload of n <= 255 bytes, odd lengths
included, `etherSendTcp` returns (any fuel above n suffices for the copy loop),
the frame it leaves satisfies `etherIsIp`, and the sum of the 12-byte
pseudo-header followed by the TCP segment of header and payload bytes folds to
zero under `getEtherChecksum`. -/
theorem tcp_frame_checksums_valid (g : Globals) (hg : g.WF) (ether : Mem) (he : IsBytes ether)
    (s : Socket) (flags : Nat)
    (hflags : flags = TCP_SYNC ∨ flags = TCP_ACK ∨ flags = TCP_FIN_ACK ∨ flags = TCP_RESET
      ∨ flags = TCP_REST_ACK ∨ flags = TCP_FIN ∨ flags = TCP_PUSH_ACK)
    (tcpData : Mem) (hd : IsBytes tcpData) (n : Nat) (hn : n ≤ 255) (off0 fuel : Nat)
    (hfuel : n < fuel) :
    ∃ r, etherSendTcp g ether s flags tcpData n off0 fuel = some r ∧
      etherIsIp r.buf = true ∧
      getEtherChecksum (etherSumWords r.buf (ETH_DATA + 20)
        ((if flags = TCP_SYNC then 24 else 20) + n)
        (etherSumWords (tcpPseudoHeader r.buf ((if flags = TCP_SYNC then 24 else 20) + n))
          0 12 0)) = 0 :=
  etherSendTcp_valid g hg ether he s flags hflags tcpData hd n hn off0 fuel hfuel

/-- C2, for a PUSH-ACK segment with a payload of three bytes. -/
theorem tcp_frame_checksums_valid_witness :
    ∃ r, etherSendTcp exampleGlobals zeroMem exampleSocket TCP_PUSH_ACK examplePayload 3 0 4
        = some r ∧
      etherIsIp r.buf = true ∧
      getEtherChecksum (etherSumWords r.buf (ETH_DATA + 20)
        ((if TCP_PUSH_ACK = TCP_SYNC then 24 else 20) + 3)
        (etherSumWords (tcpPseudoHeader r.buf ((if TCP_PUSH_ACK = TCP_SYNC then 24 else 20) + 3))
          0 12 0)) = 0 :=
  tcp_frame_checksums_valid exampleGlobals exampleGlobals_wf zeroMem isBytes_zeroMem
    exampleSocket TCP_PUSH_ACK (by decide) examplePayload (isBytes_memOfList _ (by decide)) 3
    (by decide) 0 4 (by decide)

/-- C3. For every received frame with frame type 0x0800, header-length nibble at
least 5 and IP protocol 17, and every reply payload of `udpSize` bytes (0..255,
odd sizes included), the buffer produced by `etherSendUdpResponse` satisfies
`etherIsIp` and `etherIsUdp`, its UDP length field is 8 + udpSize, its IP total
length is IHL*4 + 8 + udpSize (both read in network byte order), and the
`udpSize` bytes after the UDP header equal the supplied payload. -/
theorem udp_response_well_formed (ether : Mem) (he : IsBytes ether) (udpData : Mem)
    (hd : IsBytes udpData) (udpSize : Nat) (hs : udpSize ≤ 255)
    (hty : rd16 ether ETH_FRAME_TYPE = htons 0x0800)
    (h5 : 5 ≤ ether (ETH_DATA + IP_REV_SIZE) % 16)
    (hp : ether (ETH_DATA + IP_PROTOCOL) = 17) :
    etherIsIp (etherSendUdpResponse ether udpData udpSize).buf = true ∧
    etherIsUdp (etherSendUdpResponse ether udpData udpSize).buf = true ∧
    htons (rd16 (etherSendUdpResponse ether udpData udpSize).buf
      (ETH_DATA + ipHeaderLength ether ETH_DATA + UDP_LENGTH)) = 8 + udpSize ∧
    htons (rd16 (etherSendUdpResponse ether udpData udpSize).buf (ETH_DATA + IP_LENGTH))
      = ipHeaderLength ether ETH_DATA + 8 + udpSize ∧
    ∀ i, i < udpSize →
      (etherSendUdpResponse ether udpData udpSize).buf
        (ETH_DATA + ipHeaderLength ether ETH_DATA + UDP_DATA + i) = udpData i :=
  etherSendUdpResponse_spec ether he udpData hd udpSize hs hty h5 hp

/-- C3, for the reply "Received" (9 bytes) to a UDP request. -/
theorem udp_response_well_formed_witness :
    etherIsIp (etherSendUdpResponse exampleUdpRequest udpReceived 9).buf = true ∧
    etherIsUdp (etherSendUdpResponse exampleUdpRequest udpReceived 9).buf = true ∧
    htons (rd16 (etherSendUdpResponse exampleUdpRequest udpReceived 9).buf
      (ETH_DATA + ipHeaderLength exampleUdpRequest ETH_DATA + UDP_LENGTH)) = 8 + 9 ∧
    htons (rd16 (etherSendUdpResponse exampleUdpRequest udpReceived 9).buf (ETH_DATA + IP_LENGTH))
      = ipHeaderLength exampleUdpRequest ETH_DATA + 8 + 9 ∧
    ∀ i, i < 9 →
      (etherSendUdpResponse exampleUdpRequest udpReceived 9).buf
        (ETH_DATA + ipHeaderLength exampleUdpRequest ETH_DATA + UDP_DATA + i) = udpReceived i :=
  udp_response_well_formed exampleUdpRequest (isBytes_memOfList _ (by decide)) udpReceived
    (isBytes_memOfList _ (by decide)) 9 (by decide) (by decide) (by decide) (by decide)

/-- C5 (amended). ICMP echo identity: for every frame whose header-length nibble
is at least 5, `etherSendPingResponse` exchanges the Ethernet source and
destination addresses, exchanges the IP source and destination addresses, sets
the ICMP type byte to 0, and leaves every ICMP byte after the checksum field
(identifier, sequence number and echo data) unchanged. -/
theorem ping_reply_echo_identity (ether : Mem)
    (h5 : 5 ≤ ether (ETH_DATA + IP_REV_SIZE) % 16) :
    (∀ i, i < 6 →
      (etherSendPingResponse ether).buf (ETH_DEST + i) = ether (ETH_SOURCE + i) ∧
      (etherSendPingResponse ether).buf (ETH_SOURCE + i) = ether (ETH_DEST + i)) ∧
    (∀ i, i < 4 →
      (etherSendPingResponse ether).buf (ETH_DATA + IP_DEST_IP + i)
        = ether (ETH_DATA + IP_SOURCE_IP + i) ∧
      (etherSendPingResponse ether).buf (ETH_DATA + IP_SOURCE_IP + i)
        = ether (ETH_DATA + IP_DEST_IP + i)) ∧
    (etherSendPingResponse ether).buf (ETH_DATA + ipHeaderLength ether ETH_DATA + ICMP_TYPE) = 0 ∧
    ∀ j, 4 ≤ j →
      (etherSendPingResponse ether).buf (ETH_DATA + ipHeaderLength ether ETH_DATA + j)
        = ether (ETH_DATA + ipHeaderLength ether ETH_DATA + j) :=
  etherSendPingResponse_fields ether h5

/-- C5 (amended), at an echo request with IHL 5. -/
theorem ping_reply_echo_identity_witness :
    (∀ i, i < 6 →
      (etherSendPingResponse examplePingRequest).buf (ETH_DEST + i)
        = examplePingRequest (ETH_SOURCE + i) ∧
      (etherSendPingResponse examplePingRequest).buf (ETH_SOURCE + i)
        = examplePingRequest (ETH_DEST + i)) ∧
    (∀ i, i < 4 →
      (etherSendPingResponse examplePingRequest).buf (ETH_DATA + IP_DEST_IP + i)
        = examplePingRequest (ETH_DATA + IP_SOURCE_IP + i) ∧
      (etherSendPingResponse examplePingRequest).buf (ETH_DATA + IP_SOURCE_IP + i)
        = examplePingRequest (ETH_DATA + IP_DEST_IP + i)) ∧
    (etherSendPingResponse examplePingRequest).buf
      (ETH_DATA + ipHeaderLength examplePingRequest ETH_DATA + ICMP_TYPE) = 0 ∧
    ∀ j, 4 ≤ j →
      (etherSendPingResponse examplePingRequest).buf
        (ETH_DATA + ipHeaderLength examplePingRequest ETH_DATA + j)
        = examplePingRequest (ETH_DATA + ipHeaderLength examplePingRequest ETH_DATA + j) :=
  ping_reply_echo_identity examplePingRequest (by decide)

/-- C5 as stated fails: on a frame with header-length nibble 4 (a valid 16-byte
header checksum, protocol 1, ICMP type 8 at `ip + 16`) the ICMP type byte is the
first byte of the IP destination address, so after `etherSendPingResponse` the
IP destination address starts with 0 and not with the first byte (192) of the
request's IP source address. -/
theorem ping_reply_short_header_not_swapped :
    etherIsIp shortHeaderPingRequest = true ∧
    etherIsPingRequest shortHeaderPingRequest = true ∧
    (etherSendPingResponse shortHeaderPingRequest).buf (ETH_DATA + IP_DEST_IP + 0) = 0 ∧
    shortHeaderPingRequest (ETH_DATA + IP_SOURCE_IP + 0) = 192 ∧
    ¬ (∀ i, i < 4 →
      (etherSendPingResponse shortHeaderPingRequest).buf (ETH_DATA + IP_DEST_IP + i)
        = shortHeaderPingRequest (ETH_DATA + IP_SOURCE_IP + i)) := by
  have h0 : (etherSendPingResponse shortHeaderPingRequest).buf (ETH_DATA + IP_DEST_IP + 0) = 0 := by
    decide
  refine ⟨by decide, by decide, h0, by decide, ?_⟩
  intro h
  have := h 0 (by decide)
  rw [h0] at this
  revert this
  decide

/-- C6 (amended). ARP symmetry: for every ARP request frame with ARP sender S and
ARP target IP equal to the local IP, the frame built by `etherSendArpResponse`
has operation 2, Ethernet source and ARP sender hardware address equal to the
local MAC, ARP sender IP equal to the local IP, ARP target hardware address
equal to S's hardware address, ARP target IP equal to S's IP, and Ethernet
destination equal to the Ethernet source address of the request; the Ethernet
destination is therefore S's hardware address whenever the request carries that
address as its Ethernet source. -/
theorem arp_reply_symmetry (g : Globals) (ether : Mem)
    (hreq : etherIsArpRequest g ether = true) :
    htons (rd16 (etherSendArpResponse g ether).buf (ETH_DATA + ARP_OP)) = 2 ∧
    (∀ i, i < 6 →
      (etherSendArpResponse g ether).buf (ETH_SOURCE + i) = g.macAddress i ∧
      (etherSendArpResponse g ether).buf (ETH_DATA + ARP_SOURCE_ADDRESS + i) = g.macAddress i) ∧
    (∀ i, i < 4 →
      (etherSendArpResponse g ether).buf (ETH_DATA + ARP_SOURCE_IP + i) = g.ipAddress i) ∧
    (∀ i, i < 6 →
      (etherSendArpResponse g ether).buf (ETH_DATA + ARP_DEST_ADDRESS + i)
        = ether (ETH_DATA + ARP_SOURCE_ADDRESS + i)) ∧
    (∀ i, i < 4 →
      (etherSendArpResponse g ether).buf (ETH_DATA + ARP_DEST_IP + i)
        = ether (ETH_DATA + ARP_SOURCE_IP + i)) ∧
    (∀ i, i < 6 →
      (etherSendArpResponse g ether).buf (ETH_DEST + i) = ether (ETH_SOURCE + i)) ∧
    ((∀ i, i < 6 → ether (ETH_SOURCE + i) = ether (ETH_DATA + ARP_SOURCE_ADDRESS + i)) →
      ∀ i, i < 6 →
        (etherSendArpResponse g ether).buf (ETH_DEST + i)
          = ether (ETH_DATA + ARP_SOURCE_ADDRESS + i)) := by
  obtain ⟨o0, o1, hmac, hip, -, -, -⟩ := etherSendArpResponse_fields g ether
  obtain ⟨-, htarget, -⟩ := (etherIsArpRequest_iff g ether).1 hreq
  refine ⟨?_, fun i hi => ⟨(hmac i hi).1, (hmac i hi).2.1⟩, ?_, fun i hi => (hmac i hi).2.2.2,
    fun i hi => (hip i hi).2, fun i hi => (hmac i hi).2.2.1, ?_⟩
  · simp only [rd16, o0, o1]; decide
  · intro i hi
    rw [(hip i hi).1, htarget i hi]
  · intro hsame i hi
    rw [(hmac i hi).2.2.1, hsame i hi]

/-- C6 (amended), at a broadcast ARP request for the local IP. -/
theorem arp_reply_symmetry_witness :
    htons (rd16 (etherSendArpResponse exampleGlobals (memOfList exampleArpRequest)).buf
      (ETH_DATA + ARP_OP)) = 2 ∧
    (∀ i, i < 6 →
      (etherSendArpResponse exampleGlobals (memOfList exampleArpRequest)).buf (ETH_SOURCE + i)
        = exampleGlobals.macAddress i ∧
      (etherSendArpResponse exampleGlobals (memOfList exampleArpRequest)).buf
        (ETH_DATA + ARP_SOURCE_ADDRESS + i) = exampleGlobals.macAddress i) ∧
    (∀ i, i < 4 →
      (etherSendArpResponse exampleGlobals (memOfList exampleArpRequest)).buf
        (ETH_DATA + ARP_SOURCE_IP + i) = exampleGlobals.ipAddress i) ∧
    (∀ i, i < 6 →
      (etherSendArpResponse exampleGlobals (memOfList exampleArpRequest)).buf
        (ETH_DATA + ARP_DEST_ADDRESS + i)
        = memOfList exampleArpRequest (ETH_DATA + ARP_SOURCE_ADDRESS + i)) ∧
    (∀ i, i < 4 →
      (etherSendArpResponse exampleGlobals (memOfList exampleArpRequest)).buf
        (ETH_DATA + ARP_DEST_IP + i)
        = memOfList exampleArpRequest (ETH_DATA + ARP_SOURCE_IP + i)) ∧
    (∀ i, i < 6 →
      (etherSendArpResponse exampleGlobals (memOfList exampleArpRequest)).buf (ETH_DEST + i)
        = memOfList exampleArpRequest (ETH_SOURCE + i)) ∧
    ((∀ i, i < 6 → memOfList exampleArpRequest (ETH_SOURCE + i)
        = memOfList exampleArpRequest (ETH_DATA + ARP_SOURCE_ADDRESS + i)) →
      ∀ i, i < 6 →
        (etherSendArpResponse exampleGlobals (memOfList exampleArpRequest)).buf (ETH_DEST + i)
          = memOfList exampleArpRequest (ETH_DATA + ARP_SOURCE_ADDRESS + i)) :=
  arp_reply_symmetry exampleGlobals (memOfList exampleArpRequest) (by decide)

/-- C6 as stated fails: on an ARP request for the local IP whose Ethernet source
address (AA:...) is not the ARP sender hardware address (11:...), the Ethernet
destination of the reply is the Ethernet source of the request, not the
hardware address of the ARP sender S. -/
theorem arp_reply_ether_dest_is_ether_source :
    etherIsArpRequest exampleGlobals (memOfList relayedArpRequest) = true ∧
    (etherSendArpResponse exampleGlobals (memOfList relayedArpRequest)).buf (ETH_DEST + 0)
      = 0xaa ∧
    memOfList relayedArpRequest (ETH_DATA + ARP_SOURCE_ADDRESS + 0) = 0x11 ∧
    ¬ (∀ i, i < 6 →
      (etherSendArpResponse exampleGlobals (memOfList relayedArpRequest)).buf (ETH_DEST + i)
        = memOfList relayedArpRequest (ETH_DATA + ARP_SOURCE_ADDRESS + i)) := by
  refine ⟨by decide, by decide, by decide, ?_⟩
  intro h
  have := h 0 (by decide)
  revert this
  decide

/-- C10. No timeout: for any number of loop iterations in which no command is
entered, the state stays `waitArpRes` as long as no received frame has frame
type 0x0806, and stays `waitTcpSynAck` as long as no received frame is an IPv4
frame with protocol 6; no value is assigned to `currentState` at all (the
history is unchanged), whatever the number of iterations.  The condition on a
received packet `p` is on the frame the code sees after `etherGetPacket`,
whatever the buffer `b` held before. -/
theorem no_timeout_in_waiting_states (u : Unspecified) (fuel : Nat)
    (inputs : List (Option Command × Option (List Nat))) (M : Machine)
    (hs : M.currentState = state.waitArpRes ∨ M.currentState = state.waitTcpSynAck)
    (hcmd : ∀ x ∈ inputs, x.1 = none)
    (hrx : ∀ x ∈ inputs, ∀ p, x.2 = some p → ∀ b,
      (M.currentState = state.waitArpRes → rd16 (received b p) ETH_FRAME_TYPE ≠ htons 0x0806) ∧
      (M.currentState = state.waitTcpSynAck →
        ¬ (rd16 (received b p) ETH_FRAME_TYPE = htons 0x0800 ∧
          received b p (ETH_DATA + IP_PROTOCOL) = 6))) :
    ∃ M', mainLoop u fuel inputs M = some M' ∧ M'.currentState = M.currentState ∧
      M'.history = M.history :=
  mainLoop_waiting u fuel inputs M hs hcmd hrx

/-- C10, for three iterations in state `waitTcpSynAck` during which an ICMP echo
request arrives. -/
theorem no_timeout_in_waiting_states_witness :
    ∃ M', mainLoop exampleUnspecified 1
        [(none, none), (none, some examplePingPacket), (none, none)]
        (exampleMachine state.waitTcpSynAck) = some M' ∧
      M'.currentState = (exampleMachine state.waitTcpSynAck).currentState ∧
      M'.history = (exampleMachine state.waitTcpSynAck).history :=
  no_timeout_in_waiting_states exampleUnspecified 1
    [(none, none), (none, some examplePingPacket), (none, none)]
    (exampleMachine state.waitTcpSynAck) (Or.inr rfl)
    (by
      intro x hx
      simp only [List.mem_cons, List.mem_singleton, List.not_mem_nil, or_false] at hx
      rcases hx with rfl | rfl | rfl <;> rfl)
    (by
      intro x hx p hp b
      simp only [List.mem_cons, List.mem_singleton, List.not_mem_nil, or_false] at hx
      rcases hx with rfl | rfl | rfl
      · exact absurd hp (by simp)
      · have hp' : examplePingPacket = p := Option.some.inj hp
        subst hp'
        refine ⟨fun h => absurd h (by decide), fun _ hc => ?_⟩
        have h23 := hc.2
        rw [received_apply b examplePingPacket _ (by decide) (by decide)] at h23
        revert h23
        decide
      · exact absurd hp (by simp))

/-- C7. TCP handshake sequencing: starting in state `idle`, a CONNECT command,
then a received ARP reply addressed to the local IP, then a received
checksum-valid, unicast TCP SYN-ACK segment (with any number `k1`, `k2`, `k3` of
iterations without input in between and at least one after) make
`currentState` take exactly the values `sendArpReq`, `waitArpRes`, `sendTcpSyn`,
`waitTcpSynAck`, `sendTcpAck`, `tcpConnectionActive` in that order, while
exactly three frames are transmitted, in order: an ARP request (type 0x0806,
operation 1, 42 bytes) for the configured broker IP, a TCP SYN (data offset 6,
flags SYN) and a TCP ACK (data offset 5, flags ACK). -/
theorem tcp_handshake_sequencing (u : Unspecified) (fuel : Nat) (M : Machine)
    (pArp pSyn : List Nat) (k1 k2 k3 : Nat)
    (_hs : M.currentState = state.idle)
    (hArp : ∀ b, etherIsArpReply M.g (received b pArp) = true)
    (hSyn : ∀ b, etherIsIp (received b pSyn) = true ∧
      etherIsIpUnicast M.g (received b pSyn) = true ∧
      etherIsTcp (received b pSyn) = true ∧
      htons (rd16 (received b pSyn)
        (ETH_DATA + ipHeaderLength (received b pSyn) ETH_DATA + TCP_OFFSET_FIELDS)) % 4096
          = TCP_SYNACK) :
    ∃ (M' : Machine) (t1 t2 t3 : TxFrame),
      mainLoop u fuel
        ([(some Command.connect, none)] ++ List.replicate k1 (none, none)
          ++ [(none, some pArp)] ++ List.replicate k2 (none, none)
          ++ [(none, some pSyn)] ++ List.replicate (k3 + 1) (none, none)) M = some M' ∧
      M'.currentState = state.tcpConnectionActive ∧
      M'.history = M.history ++ [state.sendArpReq, state.waitArpRes, state.sendTcpSyn,
        state.waitTcpSynAck, state.sendTcpAck, state.tcpConnectionActive] ∧
      M'.sent = M.sent ++ [t1, t2, t3] ∧
      (t1.size = 42 ∧ rd16 t1.frame ETH_FRAME_TYPE = htons 0x0806 ∧
        htons (rd16 t1.frame (ETH_DATA + ARP_OP)) = 1 ∧
        ∀ i, i < 4 → t1.frame (ETH_DATA + ARP_DEST_IP + i) = M.g.mqttBrokerIpAddress i) ∧
      (rd16 t2.frame ETH_FRAME_TYPE = htons 0x0800 ∧ t2.frame (ETH_DATA + IP_PROTOCOL) = 6 ∧
        htons (rd16 t2.frame (ETH_DATA + 20 + TCP_OFFSET_FIELDS)) = 6 * 4096 + TCP_SYNC) ∧
      (rd16 t3.frame ETH_FRAME_TYPE = htons 0x0800 ∧ t3.frame (ETH_DATA + IP_PROTOCOL) = 6 ∧
        htons (rd16 t3.frame (ETH_DATA + 20 + TCP_OFFSET_FIELDS)) = 5 * 4096 + TCP_ACK) :=
  handshake_run u fuel M pArp pSyn k1 k2 k3 hArp hSyn

/-- C7, for the example configuration, an ARP reply and a SYN-ACK from the
broker, with one idle iteration after the CONNECT and after the ARP reply. -/
theorem tcp_handshake_sequencing_witness :
    ∃ (M' : Machine) (t1 t2 t3 : TxFrame),
      mainLoop exampleUnspecified 1
        ([(some Command.connect, none)] ++ List.replicate 1 (none, none)
          ++ [(none, some exampleArpReply)] ++ List.replicate 1 (none, none)
          ++ [(none, some exampleSynAck)] ++ List.replicate (0 + 1) (none, none))
        (exampleMachine state.idle) = some M' ∧
      M'.currentState = state.tcpConnectionActive ∧
      M'.history = (exampleMachine state.idle).history ++ [state.sendArpReq, state.waitArpRes,
        state.sendTcpSyn, state.waitTcpSynAck, state.sendTcpAck, state.tcpConnectionActive] ∧
      M'.sent = (exampleMachine state.idle).sent ++ [t1, t2, t3] ∧
      (t1.size = 42 ∧ rd16 t1.frame ETH_FRAME_TYPE = htons 0x0806 ∧
        htons (rd16 t1.frame (ETH_DATA + ARP_OP)) = 1 ∧
        ∀ i, i < 4 → t1.frame (ETH_DATA + ARP_DEST_IP + i)
          = (exampleMachine state.idle).g.mqttBrokerIpAddress i) ∧
      (rd16 t2.frame ETH_FRAME_TYPE = htons 0x0800 ∧ t2.frame (ETH_DATA + IP_PROTOCOL) = 6 ∧
        htons (rd16 t2.frame (ETH_DATA + 20 + TCP_OFFSET_FIELDS)) = 6 * 4096 + TCP_SYNC) ∧
      (rd16 t3.frame ETH_FRAME_TYPE = htons 0x0800 ∧ t3.frame (ETH_DATA + IP_PROTOCOL) = 6 ∧
        htons (rd16 t3.frame (ETH_DATA + 20 + TCP_OFFSET_FIELDS)) = 5 * 4096 + TCP_ACK) :=
  tcp_handshake_sequencing exampleUnspecified 1 (exampleMachine state.idle) exampleArpReply
    exampleSynAck 1 1 0 rfl
    (fun b => by
      rw [etherIsArpReply_received _ b exampleArpReply (by decide) (by decide)]
      decide)
    (fun b => by
      obtain ⟨c1, c2, c3, c4⟩ := tcp_classifiers_received (exampleMachine state.idle).g b
        exampleSynAck (by decide) (by decide) (by decide)
      rw [c1, c2, c3, c4]
      decide)

/-- C8. For every SYN-ACK segment accepted in state `waitTcpSynAck` (a frame of
bytes with valid IP header checksum, unicast, protocol 6, flag field SYN-ACK),
nothing is transmitted in the accepting iteration, and the next iteration
(with any command other than CONNECT, which restarts the handshake, and REBOOT,
which resets the device, and with any received packet) transmits as its first
frame a TCP ACK segment that carries, byte for byte, the received
segment's acknowledgment-number field as its sequence number and the received
segment's sequence-number field as its acknowledgment number. -/
theorem ack_carries_synack_numbers (u : Unspecified) (fuel : Nat) (M : Machine) (p : List Nat)
    (cmd : Option Command) (rx : Option (List Nat))
    (hs : M.currentState = state.waitTcpSynAck)
    (hb : IsBytes (received M.buffer p))
    (hip : etherIsIp (received M.buffer p) = true)
    (hu : etherIsIpUnicast M.g (received M.buffer p) = true)
    (ht : etherIsTcp (received M.buffer p) = true)
    (hfl : htons (rd16 (received M.buffer p)
      (ETH_DATA + ipHeaderLength (received M.buffer p) ETH_DATA + TCP_OFFSET_FIELDS)) % 4096
        = TCP_SYNACK)
    (hc : cmd ≠ some Command.connect) (_hr : cmd ≠ some Command.reboot) :
    ∃ M1 M2 t rest,
      mainLoopBody u fuel none (some p) M = some M1 ∧
      M1.currentState = state.sendTcpAck ∧ M1.sent = M.sent ∧
      M1.history = M.history ++ [state.sendTcpAck] ∧
      mainLoopBody u fuel cmd rx M1 = some M2 ∧
      M2.currentState = state.tcpConnectionActive ∧
      M2.history = M.history ++ [state.sendTcpAck, state.tcpConnectionActive] ∧
      M2.sent = M.sent ++ t :: rest ∧ (rx = none → rest = []) ∧
      rd16 t.frame ETH_FRAME_TYPE = htons 0x0800 ∧
      t.frame (ETH_DATA + IP_PROTOCOL) = 6 ∧
      htons (rd16 t.frame (ETH_DATA + 20 + TCP_OFFSET_FIELDS)) = 5 * 4096 + TCP_ACK ∧
      ∀ i, i < 4 →
        t.frame (ETH_DATA + 20 + TCP_SEQUENCE_NUMBER + i)
          = received M.buffer p
            (ETH_DATA + ipHeaderLength (received M.buffer p) ETH_DATA
              + TCP_ACKNOWLEDGEMENT_NUMBER + i) ∧
        t.frame (ETH_DATA + 20 + TCP_ACKNOWLEDGEMENT_NUMBER + i)
          = received M.buffer p
            (ETH_DATA + ipHeaderLength (received M.buffer p) ETH_DATA
              + TCP_SEQUENCE_NUMBER + i) :=
  synAck_then_ack u fuel M p cmd rx hs hb hip hu ht hfl hc

/-- C8, for the example SYN-ACK received in state `waitTcpSynAck`. -/
theorem ack_carries_synack_numbers_witness :
    ∃ M1 M2 t rest,
      mainLoopBody exampleUnspecified 1 none (some exampleSynAck)
        (exampleMachine state.waitTcpSynAck) = some M1 ∧
      M1.currentState = state.sendTcpAck ∧
      M1.sent = (exampleMachine state.waitTcpSynAck).sent ∧
      M1.history = (exampleMachine state.waitTcpSynAck).history ++ [state.sendTcpAck] ∧
      mainLoopBody exampleUnspecified 1 none none M1 = some M2 ∧
      M2.currentState = state.tcpConnectionActive ∧
      M2.history = (exampleMachine state.waitTcpSynAck).history
        ++ [state.sendTcpAck, state.tcpConnectionActive] ∧
      M2.sent = (exampleMachine state.waitTcpSynAck).sent ++ t :: rest ∧
      ((none : Option (List Nat)) = none → rest = []) ∧
      rd16 t.frame ETH_FRAME_TYPE = htons 0x0800 ∧
      t.frame (ETH_DATA + IP_PROTOCOL) = 6 ∧
      htons (rd16 t.frame (ETH_DATA + 20 + TCP_OFFSET_FIELDS)) = 5 * 4096 + TCP_ACK ∧
      ∀ i, i < 4 →
        t.frame (ETH_DATA + 20 + TCP_SEQUENCE_NUMBER + i)
          = received (exampleMachine state.waitTcpSynAck).buffer exampleSynAck
            (ETH_DATA + ipHeaderLength
              (received (exampleMachine state.waitTcpSynAck).buffer exampleSynAck) ETH_DATA
              + TCP_ACKNOWLEDGEMENT_NUMBER + i) ∧
        t.frame (ETH_DATA + 20 + TCP_ACKNOWLEDGEMENT_NUMBER + i)
          = received (exampleMachine state.waitTcpSynAck).buffer exampleSynAck
            (ETH_DATA + ipHeaderLength
              (received (exampleMachine state.waitTcpSynAck).buffer exampleSynAck) ETH_DATA
              + TCP_SEQUENCE_NUMBER + i) :=
  ack_carries_synack_numbers exampleUnspecified 1 (exampleMachine state.waitTcpSynAck)
    exampleSynAck none none rfl
    (isBytes_received _ isBytes_zeroMem _ (by decide))
    (by decide) (by decide) (by decide) (by decide) (by simp) (by simp)

/-- C9, the code at the failing input: in state `waitArpRes` an ARP request for
the local IP whose sender IP is also the local IP is not an ARP reply, yet after
the iteration the state is `sendTcpSyn` and the stored broker MAC is the local
MAC (02:...), not the sender hardware address (0A:...) of the received frame:
`etherSendArpResponse` has rewritten the buffer in place before
`etherIsArpReply` looked at it. -/
theorem arp_request_from_own_ip_taken_for_reply :
    etherIsArpReply exampleGlobals (received zeroMem conflictingArpRequest) = false ∧
    etherIsArpRequest exampleGlobals (received zeroMem conflictingArpRequest) = true ∧
    ∃ M', mainLoopBody exampleUnspecified 1 none (some conflictingArpRequest)
        (exampleMachine state.waitArpRes) = some M' ∧
      M'.currentState = state.sendTcpSyn ∧
      (∀ i, i < 6 → M'.g.mqttBrokerMacAddress i = exampleGlobals.macAddress i) ∧
      M'.g.mqttBrokerMacAddress 0
        ≠ received zeroMem conflictingArpRequest (ETH_DATA + ARP_SOURCE_ADDRESS + 0) :=
  ⟨by decide, by decide, _,
    mainLoopBody_waiting exampleUnspecified 1 (some conflictingArpRequest)
      (exampleMachine state.waitArpRes) (Or.inl rfl),
    by decide, by decide, by decide⟩

/-- C1, at a concrete header. -/
theorem ip_checksum_round_trip_witness :
    ipHeaderLength (etherCalcIpChecksum exampleIpHeader 0) 0 = ipHeaderLength exampleIpHeader 0 ∧
    getEtherChecksum
      (etherSumWords (etherCalcIpChecksum exampleIpHeader 0) 0
        (ipHeaderLength exampleIpHeader 0) 0) = 0 :=
  ip_checksum_round_trip exampleIpHeader 0
    (isBytes_memOfList _ (by decide)) (by decide)

/-- C11 (amended). Once the state is `tcpConnectionActive`, no received frame
and no command other than CONNECT changes `currentState` (REBOOT, which resets
the device, is left aside): for any number of iterations with such commands and
any received packets the loop keeps running, the state is still
`tcpConnectionActive`, and nothing has been assigned to `currentState` (the
history is unchanged). -/
theorem active_state_kept_without_connect (u : Unspecified) (fuel : Nat)
    (inputs : List (Option Command × Option (List Nat))) (M : Machine)
    (hs : M.currentState = state.tcpConnectionActive)
    (hcmd : ∀ x ∈ inputs, x.1 ≠ some Command.connect ∧ x.1 ≠ some Command.reboot) :
    ∃ M', mainLoop u fuel inputs M = some M' ∧
      M'.currentState = state.tcpConnectionActive ∧ M'.history = M.history :=
  mainLoop_active u fuel inputs M hs (fun x hx => (hcmd x hx).1)

/-- C11 (amended), for three iterations in state `tcpConnectionActive` with a
STATUS command and a SYN-ACK, a SET MQTT command and an ARP reply, and an ICMP
echo request. -/
theorem active_state_kept_without_connect_witness :
    ∃ M', mainLoop exampleUnspecified 1
        [(some Command.status, some exampleSynAck),
          (some (Command.setMqtt 192 168 1 20), some exampleArpReply),
          (none, some examplePingPacket)]
        (exampleMachine state.tcpConnectionActive) = some M' ∧
      M'.currentState = state.tcpConnectionActive ∧
      M'.history = (exampleMachine state.tcpConnectionActive).history :=
  active_state_kept_without_connect exampleUnspecified 1
    [(some Command.status, some exampleSynAck),
      (some (Command.setMqtt 192 168 1 20), some exampleArpReply),
      (none, some examplePingPacket)]
    (exampleMachine state.tcpConnectionActive) rfl
    (by
      intro x hx
      simp only [List.mem_cons, List.mem_singleton, List.not_mem_nil, or_false] at hx
      rcases hx with rfl | rfl | rfl <;> exact ⟨by simp, by simp⟩)

/-- C11, the claim as stated fails: a CONNECT command entered in state
`tcpConnectionActive` assigns `sendArpReq`; in the same iteration an ARP request
is transmitted and the state becomes `waitArpRes`. -/
theorem connect_command_leaves_active_state :
    ∃ M', mainLoopBody exampleUnspecified 1 (some Command.connect) none
        (exampleMachine state.tcpConnectionActive) = some M' ∧
      M'.currentState = state.waitArpRes ∧
      M'.history = [state.sendArpReq, state.waitArpRes] ∧
      M'.sent.length = 1 :=
  ⟨_, mainLoopBody_connect exampleUnspecified 1 (exampleMachine state.tcpConnectionActive),
    rfl, rfl, rfl⟩

/-- C12. For every input buffer, `etherMqttCreateConnectPayload` writes exactly
the 17 bytes 10 0F 00 04 'M' 'Q' 'T' 'T' 04 02 00 3C 00 03 'r' 'b' 'v' at
indices 0..16, leaves every other byte of the buffer as it was, and stores the
encoded length 17 in `payLoadLength`. -/
theorem mqtt_connect_payload (g : Globals) (mqttPayload : Mem) :
    (List.range 17).map (etherMqttCreateConnectPayload g mqttPayload).mqttPayload
      = [0x10, 0x0F, 0x00, 0x04, 77, 81, 84, 84, 0x04, 0x02, 0x00, 0x3C, 0x00, 0x03,
          114, 98, 118] ∧
    (∀ i, 17 ≤ i → (etherMqttCreateConnectPayload g mqttPayload).mqttPayload i = mqttPayload i) ∧
    (etherMqttCreateConnectPayload g mqttPayload).g.payLoadLength = 17 := by
  obtain ⟨-, h2, h3⟩ := etherMqttCreateConnectPayload_spec g mqttPayload
  refine ⟨rfl, h2, ?_⟩
  rw [h3]

/-- C13. For every topic of L <= 250 non-NUL bytes (followed by a NUL),
`etherMqttCreateSubscribePayload` returns (any fuel above L suffices for its
loops) and has written 0x82, the remaining length L+5, the packet identifier
00 0C, the topic length as two big-endian bytes, the L topic bytes and a
terminating 0x00, nothing beyond; it stores the encoded length L+7, and the
remaining-length byte equals the number of encoded bytes that follow it. -/
theorem mqtt_subscribe_payload (g : Globals) (mqttPayload subTopic : Mem) (L fuel : Nat)
    (hL : L ≤ 250) (hs : ∀ j, j < L → subTopic j ≠ 0) (h0 : subTopic L = 0) (hf : L < fuel) :
    ∃ r, etherMqttCreateSubscribePayload g mqttPayload subTopic fuel = some r ∧
      r.mqttPayload 0 = 0x82 ∧ r.mqttPayload 1 = L + 5 ∧
      r.mqttPayload 2 = 0x00 ∧ r.mqttPayload 3 = 0x0C ∧
      r.mqttPayload 4 = L / 256 ∧ r.mqttPayload 5 = L % 256 ∧
      (∀ i, i < L → r.mqttPayload (6 + i) = subTopic i) ∧
      r.mqttPayload (6 + L) = 0x00 ∧
      (∀ j, 6 + L < j → r.mqttPayload j = mqttPayload j) ∧
      r.g.payLoadLength = L + 7 ∧
      r.mqttPayload 1 = r.g.payLoadLength - 2 := by
  obtain ⟨r, e, b0, b1, b2, b3, b4, b5, bt, bz, bo, hg⟩ :=
    etherMqttCreateSubscribePayload_spec g mqttPayload subTopic L fuel (by omega) hs h0 hf
  have hmod : (L + 5) % 256 = L + 5 := Nat.mod_eq_of_lt (by omega)
  rw [hmod] at b1 hg
  have hlen : r.g.payLoadLength = L + 7 := by rw [hg]
  exact ⟨r, e, b0, b1, b2, b3, b4, b5, bt, bz, bo, hlen, by rw [hlen, b1]; omega⟩

/-- C13, for the topic "a/b". -/
theorem mqtt_subscribe_payload_witness :
    ∃ r, etherMqttCreateSubscribePayload exampleGlobals zeroMem exampleTopic 4 = some r ∧
      r.mqttPayload 0 = 0x82 ∧ r.mqttPayload 1 = 3 + 5 ∧
      r.mqttPayload 2 = 0x00 ∧ r.mqttPayload 3 = 0x0C ∧
      r.mqttPayload 4 = 3 / 256 ∧ r.mqttPayload 5 = 3 % 256 ∧
      (∀ i, i < 3 → r.mqttPayload (6 + i) = exampleTopic i) ∧
      r.mqttPayload (6 + 3) = 0x00 ∧
      (∀ j, 6 + 3 < j → r.mqttPayload j = zeroMem j) ∧
      r.g.payLoadLength = 3 + 7 ∧
      r.mqttPayload 1 = r.g.payLoadLength - 2 :=
  mqtt_subscribe_payload exampleGlobals zeroMem exampleTopic 3 4 (by decide)
    (by intro j hj; interval_cases j <;> decide) (by decide) (by decide)

/-- C14 (amended). For every topic of L <= 251 non-NUL bytes, the UNSUBSCRIBE
packet encoded by `etherMqttCreateUnSubscribePayload` does not include the
terminator: the function writes 0xA2, the remaining length L+4, the packet
identifier 00 0C, the topic length and the L topic bytes, and stores the encoded
length L+6; the 0x00 it writes at index 6+L is the first byte beyond that
length and is not counted by the remaining-length byte. -/
theorem mqtt_unsubscribe_payload (g : Globals) (mqttPayload subTopic : Mem) (L fuel : Nat)
    (hL : L ≤ 251) (hs : ∀ j, j < L → subTopic j ≠ 0) (h0 : subTopic L = 0) (hf : L < fuel) :
    ∃ r, etherMqttCreateUnSubscribePayload g mqttPayload subTopic fuel = some r ∧
      r.mqttPayload 0 = 0xA2 ∧ r.mqttPayload 1 = L + 4 ∧
      r.mqttPayload 2 = 0x00 ∧ r.mqttPayload 3 = 0x0C ∧
      r.mqttPayload 4 = L / 256 ∧ r.mqttPayload 5 = L % 256 ∧
      (∀ i, i < L → r.mqttPayload (6 + i) = subTopic i) ∧
      r.mqttPayload (6 + L) = 0x00 ∧
      (∀ j, 6 + L < j → r.mqttPayload j = mqttPayload j) ∧
      r.g.payLoadLength = L + 6 ∧
      r.mqttPayload 1 = r.g.payLoadLength - 2 := by
  obtain ⟨r, e, b0, b1, b2, b3, b4, b5, bt, bz, bo, hg⟩ :=
    etherMqttCreateUnSubscribePayload_spec g mqttPayload subTopic L fuel (by omega) hs h0 hf
  have hmod : (L + 4) % 256 = L + 4 := Nat.mod_eq_of_lt (by omega)
  rw [hmod] at b1 hg
  have hlen : r.g.payLoadLength = L + 6 := by rw [hg]
  exact ⟨r, e, b0, b1, b2, b3, b4, b5, bt, bz, bo, hlen, by rw [hlen, b1]; omega⟩

/-- C14 (amended), for the topic "a/b". -/
theorem mqtt_unsubscribe_payload_witness :
    ∃ r, etherMqttCreateUnSubscribePayload exampleGlobals zeroMem exampleTopic 4 = some r ∧
      r.mqttPayload 0 = 0xA2 ∧ r.mqttPayload 1 = 3 + 4 ∧
      r.mqttPayload 2 = 0x00 ∧ r.mqttPayload 3 = 0x0C ∧
      r.mqttPayload 4 = 3 / 256 ∧ r.mqttPayload 5 = 3 % 256 ∧
      (∀ i, i < 3 → r.mqttPayload (6 + i) = exampleTopic i) ∧
      r.mqttPayload (6 + 3) = 0x00 ∧
      (∀ j, 6 + 3 < j → r.mqttPayload j = zeroMem j) ∧
      r.g.payLoadLength = 3 + 6 ∧
      r.mqttPayload 1 = r.g.payLoadLength - 2 :=
  mqtt_unsubscribe_payload exampleGlobals zeroMem exampleTopic 3 4 (by decide)
    (by intro j hj; interval_cases j <;> decide) (by decide) (by decide)

/-- C14, the claim as stated fails: for the topic "a/b" (L = 3) the
remaining-length byte is 7, not L+5 = 8, the stored length is 9, not L+7 = 10,
and the index 6+L = 9 of the terminator is not below the stored length. -/
theorem mqtt_unsubscribe_omits_terminator :
    (∀ j, j < 3 → exampleTopic j ≠ 0) ∧ exampleTopic 3 = 0 ∧
    ∃ r, etherMqttCreateUnSubscribePayload exampleGlobals zeroMem exampleTopic 4 = some r ∧
      r.mqttPayload 1 = 7 ∧ r.mqttPayload 1 ≠ 3 + 5 ∧
      r.g.payLoadLength = 9 ∧ r.g.payLoadLength ≠ 3 + 7 ∧
      ¬ (6 + 3 < r.g.payLoadLength) := by
  have hs : ∀ j, j < 3 → exampleTopic j ≠ 0 := by
    intro j hj; interval_cases j <;> decide
  obtain ⟨r, e, -, b1, -, -, -, -, -, -, -, hg⟩ :=
    etherMqttCreateUnSubscribePayload_spec exampleGlobals zeroMem exampleTopic 3 4 (by decide)
      hs (by decide) (by decide)
  have hlen : r.g.payLoadLength = 9 := by rw [hg]
  refine ⟨hs, by decide, r, e, b1, by rw [b1]; decide, hlen, by rw [hlen]; decide,
    by rw [hlen]; decide⟩

/-- C15 (amended). For every topic of T bytes and data of D bytes with
T + D <= 251, `etherMqttCreatePublishPayload` returns and has written 0x30, the
remaining length T+D+4, the topic length as two big-endian bytes at indices
2..3, the T topic bytes, the byte 0x10, the byte (0x11+T) mod 256 (which is
0x11+T when T <= 238), then the D data bytes starting at index 6+T, nothing
beyond; it stores the encoded length T+D+6. -/
theorem mqtt_publish_payload (g : Globals) (mqttPayload topic data : Mem) (T D fuel : Nat)
    (hTD : T + D ≤ 251)
    (ht : ∀ j, j < T → topic j ≠ 0) (ht0 : topic T = 0)
    (hd : ∀ j, j < D → data j ≠ 0) (hd0 : data D = 0)
    (hfT : T < fuel) (hfD : D < fuel) :
    ∃ r, etherMqttCreatePublishPayload g mqttPayload topic data fuel = some r ∧
      r.mqttPayload 0 = 0x30 ∧ r.mqttPayload 1 = T + D + 4 ∧
      r.mqttPayload 2 = T / 256 ∧ r.mqttPayload 3 = T % 256 ∧
      (∀ i, i < T → r.mqttPayload (4 + i) = topic i) ∧
      r.mqttPayload (4 + T) = 0x10 ∧ r.mqttPayload (5 + T) = (0x11 + T) % 256 ∧
      (T ≤ 238 → r.mqttPayload (5 + T) = 0x11 + T) ∧
      (∀ j, j < D → r.mqttPayload (6 + T + j) = data j) ∧
      (∀ j, 6 + T + D ≤ j → r.mqttPayload j = mqttPayload j) ∧
      r.g.payLoadLength = T + D + 6 := by
  obtain ⟨r, e, b0, b1, b2, b3, bt, b10, b11, bd, bo, hg⟩ :=
    etherMqttCreatePublishPayload_spec g mqttPayload topic data T D fuel (by omega) (by omega)
      ht ht0 hd hd0 hfT hfD
  have hmod : (T + D + 4) % 256 = T + D + 4 := Nat.mod_eq_of_lt (by omega)
  rw [hmod] at b1 hg
  refine ⟨r, e, b0, b1, b2, b3, bt, b10, b11, ?_, bd, bo, by rw [hg]⟩
  intro h
  rw [b11]
  exact Nat.mod_eq_of_lt (by omega)

/-- C15 (amended), for the topic "a/b" and the data "on". -/
theorem mqtt_publish_payload_witness :
    ∃ r, etherMqttCreatePublishPayload exampleGlobals zeroMem exampleTopic exampleData 4
        = some r ∧
      r.mqttPayload 0 = 0x30 ∧ r.mqttPayload 1 = 3 + 2 + 4 ∧
      r.mqttPayload 2 = 3 / 256 ∧ r.mqttPayload 3 = 3 % 256 ∧
      (∀ i, i < 3 → r.mqttPayload (4 + i) = exampleTopic i) ∧
      r.mqttPayload (4 + 3) = 0x10 ∧ r.mqttPayload (5 + 3) = (0x11 + 3) % 256 ∧
      (3 ≤ 238 → r.mqttPayload (5 + 3) = 0x11 + 3) ∧
      (∀ j, j < 2 → r.mqttPayload (6 + 3 + j) = exampleData j) ∧
      (∀ j, 6 + 3 + 2 ≤ j → r.mqttPayload j = zeroMem j) ∧
      r.g.payLoadLength = 3 + 2 + 6 :=
  mqtt_publish_payload exampleGlobals zeroMem exampleTopic exampleData 3 2 4 (by decide)
    (by intro j hj; interval_cases j <;> decide) (by decide)
    (by intro j hj; interval_cases j <;> decide) (by decide) (by decide) (by decide)

/-- C15, the claim as stated fails: for a topic of T = 239 bytes and empty data
(T + D <= 251) the byte after 0x10 is 0x00, the low byte of 0x11 + 239 = 0x100,
not 0x11 + T. -/
theorem mqtt_publish_index_byte_wraps :
    (∀ j, j < 239 → repeated 97 239 j ≠ 0) ∧ repeated 97 239 239 = 0 ∧ zeroMem 0 = 0 ∧
    ∃ r, etherMqttCreatePublishPayload exampleGlobals zeroMem (repeated 97 239) zeroMem 240
        = some r ∧
      r.mqttPayload (4 + 239) = 0x10 ∧
      r.mqttPayload (5 + 239) = 0 ∧ r.mqttPayload (5 + 239) ≠ 0x11 + 239 := by
  have hs : ∀ j, j < 239 → repeated 97 239 j ≠ 0 := by
    intro j hj; simp [repeated, hj]
  have h0 : repeated 97 239 239 = 0 := by simp [repeated]
  obtain ⟨r, e, -, -, -, -, -, b10, b11, -, -, -⟩ :=
    etherMqttCreatePublishPayload_spec exampleGlobals zeroMem (repeated 97 239) zeroMem 239 0 240
      (by decide) (by decide) hs h0 (fun j hj => absurd hj (Nat.not_lt_zero j)) rfl
      (by decide) (by decide)
  have b : r.mqttPayload (5 + 239) = 0 := by rw [b11]
  exact ⟨hs, h0, rfl, r, e, b10, b, by rw [b]; decide⟩

/-- C16 (amended). The remaining-length byte is the number of bytes encoded
after it taken modulo 256: for every topic of T <= 255 and data of D <= 255
non-NUL bytes, the SUBSCRIBE constructor writes (T + 5) mod 256 and the PUBLISH
constructor (T + D + 4) mod 256, and the length each stores is that byte plus 2.
The byte equals the number itself, T + 5, when T <= 250, and T + D + 4 when
T + D <= 251. -/
theorem mqtt_remaining_length_mod_256 (g : Globals) (mqttPayload topic data : Mem)
    (T D fuel : Nat) (hT : T ≤ 255) (hD : D ≤ 255)
    (ht : ∀ j, j < T → topic j ≠ 0) (ht0 : topic T = 0)
    (hd : ∀ j, j < D → data j ≠ 0) (hd0 : data D = 0)
    (hfT : T < fuel) (hfD : D < fuel) :
    (∃ r, etherMqttCreateSubscribePayload g mqttPayload topic fuel = some r ∧
      r.mqttPayload 1 = (T + 5) % 256 ∧ r.g.payLoadLength = (T + 5) % 256 + 2 ∧
      (T ≤ 250 → r.mqttPayload 1 = T + 5 ∧ r.g.payLoadLength = T + 5 + 2)) ∧
    (∃ r, etherMqttCreatePublishPayload g mqttPayload topic data fuel = some r ∧
      r.mqttPayload 1 = (T + D + 4) % 256 ∧ r.g.payLoadLength = (T + D + 4) % 256 + 2 ∧
      (T + D ≤ 251 → r.mqttPayload 1 = T + D + 4 ∧ r.g.payLoadLength = T + D + 4 + 2)) := by
  obtain ⟨r, e, -, b1, -, -, -, -, -, -, -, hg⟩ :=
    etherMqttCreateSubscribePayload_spec g mqttPayload topic T fuel hT ht ht0 hfT
  obtain ⟨r', e', -, b1', -, -, -, -, -, -, -, hg'⟩ :=
    etherMqttCreatePublishPayload_spec g mqttPayload topic data T D fuel hT hD ht ht0 hd hd0
      hfT hfD
  have hlen : r.g.payLoadLength = (T + 5) % 256 + 2 := by rw [hg]
  have hlen' : r'.g.payLoadLength = (T + D + 4) % 256 + 2 := by rw [hg']
  refine ⟨⟨r, e, b1, hlen, fun h => ?_⟩, ⟨r', e', b1', hlen', fun h => ?_⟩⟩
  · have hmod : (T + 5) % 256 = T + 5 := Nat.mod_eq_of_lt (by omega)
    rw [b1, hlen, hmod]
    exact ⟨rfl, rfl⟩
  · have hmod : (T + D + 4) % 256 = T + D + 4 := Nat.mod_eq_of_lt (by omega)
    rw [b1', hlen', hmod]
    exact ⟨rfl, rfl⟩

/-- C16 (amended), for the topic "a/b" and the data "on". -/
theorem mqtt_remaining_length_mod_256_witness :
    (∃ r, etherMqttCreateSubscribePayload exampleGlobals zeroMem exampleTopic 4 = some r ∧
      r.mqttPayload 1 = (3 + 5) % 256 ∧ r.g.payLoadLength = (3 + 5) % 256 + 2 ∧
      (3 ≤ 250 → r.mqttPayload 1 = 3 + 5 ∧ r.g.payLoadLength = 3 + 5 + 2)) ∧
    (∃ r, etherMqttCreatePublishPayload exampleGlobals zeroMem exampleTopic exampleData 4
        = some r ∧
      r.mqttPayload 1 = (3 + 2 + 4) % 256 ∧ r.g.payLoadLength = (3 + 2 + 4) % 256 + 2 ∧
      (3 + 2 ≤ 251 → r.mqttPayload 1 = 3 + 2 + 4 ∧ r.g.payLoadLength = 3 + 2 + 4 + 2)) :=
  mqtt_remaining_length_mod_256 exampleGlobals zeroMem exampleTopic exampleData 3 2 4
    (by decide) (by decide)
    (by intro j hj; interval_cases j <;> decide) (by decide)
    (by intro j hj; interval_cases j <;> decide) (by decide) (by decide) (by decide)

/-- C16, the claim as stated fails: for a topic of 251 bytes the SUBSCRIBE
constructor writes all 251 topic bytes, so that 256 bytes follow the
remaining-length byte, but that byte is 0 and the stored length is 2. -/
theorem mqtt_subscribe_remaining_length_wraps :
    (∀ j, j < 251 → repeated 97 251 j ≠ 0) ∧ repeated 97 251 251 = 0 ∧
    ∃ r, etherMqttCreateSubscribePayload exampleGlobals zeroMem (repeated 97 251) 252 = some r ∧
      (∀ i, i < 251 → r.mqttPayload (6 + i) = 97) ∧ r.mqttPayload (6 + 251) = 0 ∧
      r.mqttPayload 1 = 0 ∧ r.mqttPayload 1 ≠ 251 + 5 ∧
      r.g.payLoadLength = 2 ∧ r.g.payLoadLength ≠ 251 + 5 + 2 := by
  have hs : ∀ j, j < 251 → repeated 97 251 j ≠ 0 := by
    intro j hj; simp [repeated, hj]
  have h0 : repeated 97 251 251 = 0 := by simp [repeated]
  obtain ⟨r, e, -, b1, -, -, -, -, bt, bz, -, hg⟩ :=
    etherMqttCreateSubscribePayload_spec exampleGlobals zeroMem (repeated 97 251) 251 252
      (by decide) hs h0 (by decide)
  have hb : r.mqttPayload 1 = 0 := by rw [b1]
  have hlen : r.g.payLoadLength = 2 := by rw [hg]
  refine ⟨hs, h0, r, e, ?_, bz, hb, by rw [hb]; decide, hlen, by rw [hlen]; decide⟩
  intro i hi
  rw [bt i hi]
  simp [repeated, hi]

/-- C17. For flags = TCP_SYNC, whatever the other arguments, `etherSendTcp`
returns, resets the process-wide sequence and acknowledgment numbers to 0,
writes zero sequence and acknowledgment fields, sets the data offset to 6 words
with only the SYN flag in the 12-bit flag field, and writes the four option
bytes 02 04 04 C4 immediately after the 20-byte fixed TCP header. -/
theorem tcp_syn_segment (g : Globals) (ether : Mem) (s : Socket) (tcpData : Mem)
    (n off0 fuel : Nat) :
    ∃ r, etherSendTcp g ether s TCP_SYNC tcpData n off0 fuel = some r ∧
      r.g.sequenceNumber = 0 ∧ r.g.acknowledgementNumber = 0 ∧
      (List.range 4).map (fun i => r.buf (ETH_DATA + 20 + TCP_SEQUENCE_NUMBER + i))
        = [0, 0, 0, 0] ∧
      (List.range 4).map (fun i => r.buf (ETH_DATA + 20 + TCP_ACKNOWLEDGEMENT_NUMBER + i))
        = [0, 0, 0, 0] ∧
      htons (rd16 r.buf (ETH_DATA + 20 + TCP_OFFSET_FIELDS)) / 4096 = 6 ∧
      htons (rd16 r.buf (ETH_DATA + 20 + TCP_OFFSET_FIELDS)) % 4096 = TCP_SYNC ∧
      (List.range 4).map (fun i => r.buf (ETH_DATA + 20 + TCP_DATA + i))
        = [0x02, 0x04, 0x04, 0xC4] := by
  obtain ⟨r, e, hg, hseq, hack, hfl, o0, o1, o2, o3⟩ :=
    etherSendTcp_syn g ether s tcpData n off0 fuel
  refine ⟨r, e, by rw [hg], by rw [hg], ?_, ?_, by rw [hfl]; decide, by rw [hfl]; decide, ?_⟩
  · have q0 := hseq 0 (by decide)
    have q1 := hseq 1 (by decide)
    have q2 := hseq 2 (by decide)
    have q3 := hseq 3 (by decide)
    simp only [List.range, List.range.loop, List.map, q0, q1, q2, q3]
  · have q0 := hack 0 (by decide)
    have q1 := hack 1 (by decide)
    have q2 := hack 2 (by decide)
    have q3 := hack 3 (by decide)
    simp only [List.range, List.range.loop, List.map, q0, q1, q2, q3]
  · simp only [List.range, List.range.loop, List.map, o0, o1, o2, o3]

/-- C18 (amended). For every recognised flags value and every dataLength for
which the call returns (at most 255 for PUSH-ACK, any value otherwise),
`etherSendTcp` computes the TCP length as (4*dataOffset + dataLength) mod 65536
(dataOffset 6 for SYN, 5 otherwise), hands the transmit primitive the length
(34 + TCP length) mod 65536 and writes the IP total length
(20 + TCP length) mod 65536, high byte first.  Whenever
14 + 20 + 4*dataOffset + dataLength fits in 16 bits these are
14 + 20 + 4*dataOffset + dataLength and 20 + 4*dataOffset + dataLength. -/
theorem tcp_transmitted_length (g : Globals) (ether : Mem) (s : Socket) (flags : Nat)
    (hflags : flags = TCP_SYNC ∨ flags = TCP_ACK ∨ flags = TCP_FIN_ACK ∨ flags = TCP_RESET
      ∨ flags = TCP_REST_ACK ∨ flags = TCP_FIN ∨ flags = TCP_PUSH_ACK)
    (tcpData : Mem) (n off0 fuel : Nat) (hn : flags = TCP_PUSH_ACK → n ≤ 255 ∧ n < fuel) :
    ∃ r, etherSendTcp g ether s flags tcpData n off0 fuel = some r ∧
      r.size = (34 + (4 * (if flags = TCP_SYNC then 6 else 5) + n) % 65536) % 65536 ∧
      r.buf (ETH_DATA + IP_LENGTH) * 256 + r.buf (ETH_DATA + IP_LENGTH + 1)
        = (20 + (4 * (if flags = TCP_SYNC then 6 else 5) + n) % 65536) % 65536 ∧
      (14 + 20 + 4 * (if flags = TCP_SYNC then 6 else 5) + n < 65536 →
        r.size = 14 + 20 + 4 * (if flags = TCP_SYNC then 6 else 5) + n ∧
        r.buf (ETH_DATA + IP_LENGTH) * 256 + r.buf (ETH_DATA + IP_LENGTH + 1)
          = 20 + 4 * (if flags = TCP_SYNC then 6 else 5) + n) := by
  obtain ⟨r, e, a, b, c⟩ := etherSendTcp_lengths g ether s flags hflags tcpData n off0 fuel hn
  have hb : r.buf (ETH_DATA + IP_LENGTH) = r.buf 16 := rfl
  have hc : r.buf (ETH_DATA + IP_LENGTH + 1) = r.buf 17 := rfl
  refine ⟨r, e, ?_, ?_, ?_⟩
  · rw [a]
    by_cases h : flags = TCP_SYNC
    · simp only [if_pos h]
    · simp only [if_neg h]
  · rw [hb, hc, b, c]
    by_cases h : flags = TCP_SYNC
    · simp only [if_pos h]; omega
    · simp only [if_neg h]; omega
  · intro hsz
    rw [hb, hc, a, b, c]
    by_cases h : flags = TCP_SYNC
    · simp only [if_pos h] at hsz ⊢; omega
    · simp only [if_neg h] at hsz ⊢; omega

/-- C18 (amended), for a PUSH-ACK segment with a payload of three bytes. -/
theorem tcp_transmitted_length_witness :
    ∃ r, etherSendTcp exampleGlobals zeroMem exampleSocket TCP_PUSH_ACK examplePayload 3 0 4
        = some r ∧
      r.size = (34 + (4 * (if TCP_PUSH_ACK = TCP_SYNC then 6 else 5) + 3) % 65536) % 65536 ∧
      r.buf (ETH_DATA + IP_LENGTH) * 256 + r.buf (ETH_DATA + IP_LENGTH + 1)
        = (20 + (4 * (if TCP_PUSH_ACK = TCP_SYNC then 6 else 5) + 3) % 65536) % 65536 ∧
      (14 + 20 + 4 * (if TCP_PUSH_ACK = TCP_SYNC then 6 else 5) + 3 < 65536 →
        r.size = 14 + 20 + 4 * (if TCP_PUSH_ACK = TCP_SYNC then 6 else 5) + 3 ∧
        r.buf (ETH_DATA + IP_LENGTH) * 256 + r.buf (ETH_DATA + IP_LENGTH + 1)
          = 20 + 4 * (if TCP_PUSH_ACK = TCP_SYNC then 6 else 5) + 3) :=
  tcp_transmitted_length exampleGlobals zeroMem exampleSocket TCP_PUSH_ACK (by decide)
    examplePayload 3 0 4 (fun _ => ⟨by decide, by decide⟩)

/-- C18, the claim as stated fails: for flags = TCP_ACK and dataLength = 65535
the TCP length is computed in 16 bits as 19, the length handed to the transmit
primitive is 53 and the IP total length written is 39. -/
theorem tcp_length_wraps_at_16_bits :
    ∃ r, etherSendTcp exampleGlobals zeroMem exampleSocket TCP_ACK zeroMem 65535 0 1 = some r ∧
      r.size = 53 ∧ r.size ≠ 14 + 20 + 4 * 5 + 65535 ∧
      r.buf (ETH_DATA + IP_LENGTH) * 256 + r.buf (ETH_DATA + IP_LENGTH + 1) = 39 := by
  obtain ⟨r, e, a, b, c⟩ := etherSendTcp_lengths exampleGlobals zeroMem exampleSocket TCP_ACK
    (by decide) zeroMem 65535 0 1 (fun h => absurd h (by decide))
  have ha : r.size = 53 := by rw [a]; decide
  have hb : r.buf 16 = 0 := by rw [b]; decide
  have hc : r.buf 17 = 39 := by rw [c]; decide
  refine ⟨r, e, ha, by rw [ha]; decide, ?_⟩
  show r.buf 16 * 256 + r.buf 17 = 39
  rw [hb, hc]

/-- C19, the code at the failing inputs: for flags = TCP_PUSH_ACK and every
dataLength of 256 or more, `etherSendTcp` does not return, whatever the fuel:
the copy loop compares its `uint8_t` counter with the 16-bit dataLength and the
counter wraps to 0 after 255. -/
theorem tcp_push_ack_long_payload_never_returns (g : Globals) (ether : Mem) (s : Socket)
    (tcpData : Mem) (n off0 : Nat) (hn : 256 ≤ n) (fuel : Nat) :
    etherSendTcp g ether s TCP_PUSH_ACK tcpData n off0 fuel = none :=
  etherSendTcp_pushAck_diverges g ether s tcpData n off0 hn fuel

/-- C19, for a payload of 256 bytes, which fits the 1522-byte buffer, and ten
thousand rounds of fuel. -/
theorem tcp_push_ack_long_payload_never_returns_witness :
    54 + 256 ≤ MAX_PACKET_SIZE ∧
    etherSendTcp exampleGlobals zeroMem exampleSocket TCP_PUSH_ACK (repeated 97 256) 256 0 10000
      = none :=
  ⟨by decide,
    tcp_push_ack_long_payload_never_returns exampleGlobals zeroMem exampleSocket
      (repeated 97 256) 256 0 (by decide) 10000⟩

/-- C20. For every initial content of the socket passed in, the frame built by
`etherSendTcp` (for a recognised flags value, with at most 255 payload bytes for
PUSH-ACK) has Ethernet source = local MAC, Ethernet destination = broker MAC,
IP source = local IP, IP destination = broker IP, frame type 0x0800, IP
protocol 6, TCP source port 110 and TCP destination port 1883; two calls with
the same configuration, buffer, flags and payload but different initial socket
contents produce the same frame, the same length and the same globals. -/
theorem tcp_frame_independent_of_socket (g : Globals) (ether : Mem) (s1 s2 : Socket)
    (flags : Nat)
    (hflags : flags = TCP_SYNC ∨ flags = TCP_ACK ∨ flags = TCP_FIN_ACK ∨ flags = TCP_RESET
      ∨ flags = TCP_REST_ACK ∨ flags = TCP_FIN ∨ flags = TCP_PUSH_ACK)
    (tcpData : Mem) (n off0 fuel : Nat) (hn : flags = TCP_PUSH_ACK → n ≤ 255 ∧ n < fuel) :
    (etherSendTcp g ether s1 flags tcpData n off0 fuel).map (fun r => (r.buf, r.size, r.g))
      = (etherSendTcp g ether s2 flags tcpData n off0 fuel).map
          (fun r => (r.buf, r.size, r.g)) ∧
    ∃ r, etherSendTcp g ether s1 flags tcpData n off0 fuel = some r ∧
      (∀ i, i < 6 → r.buf (ETH_SOURCE + i) = g.macAddress i) ∧
      (∀ i, i < 6 → r.buf (ETH_DEST + i) = g.mqttBrokerMacAddress i) ∧
      (∀ i, i < 4 → r.buf (ETH_DATA + IP_SOURCE_IP + i) = g.ipAddress i) ∧
      (∀ i, i < 4 → r.buf (ETH_DATA + IP_DEST_IP + i) = g.mqttBrokerIpAddress i) ∧
      rd16 r.buf ETH_FRAME_TYPE = htons 0x0800 ∧
      r.buf (ETH_DATA + IP_PROTOCOL) = 6 ∧
      htons (rd16 r.buf (ETH_DATA + 20 + TCP_SOURCE_PORT)) = 110 ∧
      htons (rd16 r.buf (ETH_DATA + 20 + TCP_DEST_PORT)) = 1883 :=
  ⟨etherSendTcp_socket g ether s1 s2 flags tcpData n off0 fuel,
    etherSendTcp_addressing g ether s1 flags hflags tcpData n off0 fuel hn⟩

/-- C20, for a PUSH-ACK segment built from two different sockets. -/
theorem tcp_frame_independent_of_socket_witness :
    (etherSendTcp exampleGlobals zeroMem exampleSocket TCP_PUSH_ACK examplePayload 3 0 4).map
        (fun r => (r.buf, r.size, r.g))
      = (etherSendTcp exampleGlobals zeroMem otherSocket TCP_PUSH_ACK examplePayload 3 0 4).map
          (fun r => (r.buf, r.size, r.g)) ∧
    ∃ r, etherSendTcp exampleGlobals zeroMem exampleSocket TCP_PUSH_ACK examplePayload 3 0 4
        = some r ∧
      (∀ i, i < 6 → r.buf (ETH_SOURCE + i) = exampleGlobals.macAddress i) ∧
      (∀ i, i < 6 → r.buf (ETH_DEST + i) = exampleGlobals.mqttBrokerMacAddress i) ∧
      (∀ i, i < 4 → r.buf (ETH_DATA + IP_SOURCE_IP + i) = exampleGlobals.ipAddress i) ∧
      (∀ i, i < 4 → r.buf (ETH_DATA + IP_DEST_IP + i) = exampleGlobals.mqttBrokerIpAddress i) ∧
      rd16 r.buf ETH_FRAME_TYPE = htons 0x0800 ∧
      r.buf (ETH_DATA + IP_PROTOCOL) = 6 ∧
      htons (rd16 r.buf (ETH_DATA + 20 + TCP_SOURCE_PORT)) = 110 ∧
      htons (rd16 r.buf (ETH_DATA + 20 + TCP_DEST_PORT)) = 1883 :=
  tcp_frame_independent_of_socket exampleGlobals zeroMem exampleSocket otherSocket TCP_PUSH_ACK
    (by decide) examplePayload 3 0 4 (fun _ => ⟨by decide, by decide⟩)

/-- C21. For every target IP (and every configuration and previous buffer
content), `etherSendArpRequest` hands 42 bytes to the transmit primitive, and
the frame has Ethernet destination FF:FF:FF:FF:FF:FF, Ethernet source and ARP
sender hardware address equal to the local MAC, ARP sender IP equal to the local
IP, ARP target IP equal to the given IP, frame type 08 06, hardware type 00 01,
protocol type 08 00, address sizes 6 and 4, and operation 00 01, the two-byte
fields high byte first. -/
theorem arp_request_frame (g : Globals) (ether ipArg : Mem) :
    (etherSendArpRequest g ether ipArg).size = 42 ∧
    (List.range 32).map (etherSendArpRequest g ether ipArg).buf
      = [0xFF, 0xFF, 0xFF, 0xFF, 0xFF, 0xFF,
         g.macAddress 0, g.macAddress 1, g.macAddress 2, g.macAddress 3, g.macAddress 4,
         g.macAddress 5,
         0x08, 0x06, 0x00, 0x01, 0x08, 0x00, 6, 4, 0x00, 0x01,
         g.macAddress 0, g.macAddress 1, g.macAddress 2, g.macAddress 3, g.macAddress 4,
         g.macAddress 5,
         g.ipAddress 0, g.ipAddress 1, g.ipAddress 2, g.ipAddress 3] ∧
    (List.range 4).map (fun i => (etherSendArpRequest g ether ipArg).buf
        (ETH_DATA + ARP_DEST_IP + i))
      = [ipArg 0, ipArg 1, ipArg 2, ipArg 3] := by
  have h := etherSendArpRequest_frame g ether ipArg
  refine ⟨rfl, ?_, ?_⟩
  · have := congrArg (List.take 32) h
    simpa [List.range_succ] using this
  · have := congrArg (List.drop 38) h
    simpa [List.range_succ, ETH_DATA, ARP_DEST_IP] using this

/-- C22 (amended). For every target IP, the ARP request built by
`etherSendArpRequest` has the ARP target hardware address FF:FF:FF:FF:FF:FF. -/
theorem arp_request_target_hardware_address (g : Globals) (ether ipArg : Mem) :
    (List.range 6).map (fun i => (etherSendArpRequest g ether ipArg).buf
        (ETH_DATA + ARP_DEST_ADDRESS + i))
      = [0xFF, 0xFF, 0xFF, 0xFF, 0xFF, 0xFF] := by
  have h := congrArg (fun l => List.take 6 (List.drop 32 l))
    (etherSendArpRequest_frame g ether ipArg)
  simpa [List.range_succ, ETH_DATA, ARP_DEST_ADDRESS] using h

/-- C22, the claim as stated fails: in the request for 192.168.1.10 built with
the example configuration, the six bytes of the ARP target hardware address are
FF, none of them 00. -/
theorem arp_request_target_not_zero :
    (List.range 6).map (fun i => (etherSendArpRequest exampleGlobals zeroMem exampleTargetIp).buf
        (ETH_DATA + ARP_DEST_ADDRESS + i))
      = [0xFF, 0xFF, 0xFF, 0xFF, 0xFF, 0xFF] ∧
    ∀ i, i < 6 → (etherSendArpRequest exampleGlobals zeroMem exampleTargetIp).buf
        (ETH_DATA + ARP_DEST_ADDRESS + i) ≠ 0 := by
  refine ⟨by decide, ?_⟩
  intro i hi
  interval_cases i <;> decide

/-- C23 (amended). For every UDP request frame (bytes, header-length nibble at
least 5), in the reply built by `etherSendUdpResponse` the UDP source port
equals the request's destination port and the UDP destination port is left as
it was: it too equals the request's destination port. -/
theorem udp_reply_ports (ether : Mem) (he : IsBytes ether) (udpData : Mem) (udpSize : Nat)
    (h5 : 5 ≤ ether (ETH_DATA + IP_REV_SIZE) % 16) :
    rd16 (etherSendUdpResponse ether udpData udpSize).buf
        (ETH_DATA + ipHeaderLength ether ETH_DATA + UDP_SOURCE_PORT)
      = rd16 ether (ETH_DATA + ipHeaderLength ether ETH_DATA + UDP_DEST_PORT) ∧
    rd16 (etherSendUdpResponse ether udpData udpSize).buf
        (ETH_DATA + ipHeaderLength ether ETH_DATA + UDP_DEST_PORT)
      = rd16 ether (ETH_DATA + ipHeaderLength ether ETH_DATA + UDP_DEST_PORT) := by
  obtain ⟨p0, p1, p2, p3⟩ := etherSendUdpResponse_ports ether he udpData udpSize h5
  refine ⟨?_, rd16_congr _ _ _ p2 p3⟩
  unfold rd16
  rw [p0, p1]

/-- C23 (amended), for the reply "Received" to the example request (source port
12345, destination port 1024). -/
theorem udp_reply_ports_witness :
    rd16 (etherSendUdpResponse exampleUdpRequest udpReceived 9).buf
        (ETH_DATA + ipHeaderLength exampleUdpRequest ETH_DATA + UDP_SOURCE_PORT)
      = rd16 exampleUdpRequest
        (ETH_DATA + ipHeaderLength exampleUdpRequest ETH_DATA + UDP_DEST_PORT) ∧
    rd16 (etherSendUdpResponse exampleUdpRequest udpReceived 9).buf
        (ETH_DATA + ipHeaderLength exampleUdpRequest ETH_DATA + UDP_DEST_PORT)
      = rd16 exampleUdpRequest
        (ETH_DATA + ipHeaderLength exampleUdpRequest ETH_DATA + UDP_DEST_PORT) :=
  udp_reply_ports exampleUdpRequest (isBytes_memOfList _ (by decide)) udpReceived 9 (by decide)

/-- C23, the claim as stated fails: the example request has source port 12345
and destination port 1024; the reply has destination port 1024, not 12345. -/
theorem udp_reply_destination_port_not_swapped :
    htons (rd16 exampleUdpRequest (ETH_DATA + 20 + UDP_SOURCE_PORT)) = 12345 ∧
    htons (rd16 exampleUdpRequest (ETH_DATA + 20 + UDP_DEST_PORT)) = 1024 ∧
    htons (rd16 (etherSendUdpResponse exampleUdpRequest udpReceived 9).buf
      (ETH_DATA + 20 + UDP_SOURCE_PORT)) = 1024 ∧
    htons (rd16 (etherSendUdpResponse exampleUdpRequest udpReceived 9).buf
      (ETH_DATA + 20 + UDP_DEST_PORT)) = 1024 := by
  obtain ⟨p0, p1, p2, p3⟩ := etherSendUdpResponse_ports exampleUdpRequest
    (isBytes_memOfList _ (by decide)) udpReceived 9 (by decide)
  have hl : ipHeaderLength exampleUdpRequest ETH_DATA = 20 := by decide
  rw [hl] at p0 p1 p2 p3
  refine ⟨by decide, by decide, ?_, ?_⟩
  · unfold rd16
    rw [p0, p1]
    decide
  · unfold rd16
    rw [p2, p3]
    decide

/-- C24. Unicast filter: for every frame and every local IP, `etherIsIpUnicast`
returns true if and only if all four destination-IP octets equal the
corresponding local-IP octets; it returns false when the two differ in an octet
position, whichever of the four positions. -/
theorem unicast_filter (g : Globals) (ether : Mem) :
    (etherIsIpUnicast g ether = true ↔
      ∀ i, i < 4 → ether (ETH_DATA + IP_DEST_IP + i) = g.ipAddress i) ∧
    (∀ k, k < 4 → ether (ETH_DATA + IP_DEST_IP + k) ≠ g.ipAddress k →
      etherIsIpUnicast g ether = false) := by
  have h := etherIsIpUnicast_iff g ether
  refine ⟨h, fun k hk hne => ?_⟩
  cases hu : etherIsIpUnicast g ether with
  | false => rfl
  | true => exact absurd (h.1 hu k hk) hne

/-- C25. For every frame of bytes and every local IP, `etherIsArpRequest` (resp.
`etherIsArpReply`) returns true if and only if the frame type bytes are 08 06,
the four octets of the ARP target IP equal those of the local IP, and the
operation bytes are 00 01 (resp. 00 02); no frame satisfies both predicates. -/
theorem arp_classifiers (g : Globals) (ether : Mem) (he : IsBytes ether) :
    (etherIsArpRequest g ether = true ↔
      (ether ETH_FRAME_TYPE = 0x08 ∧ ether (ETH_FRAME_TYPE + 1) = 0x06) ∧
      (∀ i, i < 4 → ether (ETH_DATA + ARP_DEST_IP + i) = g.ipAddress i) ∧
      (ether (ETH_DATA + ARP_OP) = 0x00 ∧ ether (ETH_DATA + ARP_OP + 1) = 0x01)) ∧
    (etherIsArpReply g ether = true ↔
      (ether ETH_FRAME_TYPE = 0x08 ∧ ether (ETH_FRAME_TYPE + 1) = 0x06) ∧
      (∀ i, i < 4 → ether (ETH_DATA + ARP_DEST_IP + i) = g.ipAddress i) ∧
      (ether (ETH_DATA + ARP_OP) = 0x00 ∧ ether (ETH_DATA + ARP_OP + 1) = 0x02)) ∧
    ¬ (etherIsArpRequest g ether = true ∧ etherIsArpReply g ether = true) := by
  have t := rd16_eq_htons_iff ether he ETH_FRAME_TYPE 0x0806 (by norm_num)
  have o1 := rd16_eq_htons_iff ether he (ETH_DATA + ARP_OP) 1 (by norm_num)
  have o2 := rd16_eq_htons_iff ether he (ETH_DATA + ARP_OP) 2 (by norm_num)
  norm_num at t o1 o2
  refine ⟨?_, ?_, ?_⟩
  · rw [etherIsArpRequest_iff, t, o1]
  · rw [etherIsArpReply_iff, t, o2]
  · rintro ⟨h1, h2⟩
    have a := ((etherIsArpRequest_iff g ether).1 h1).2.2
    have b := ((etherIsArpReply_iff g ether).1 h2).2.2
    rw [a] at b
    exact htons_2_ne_1 b.symm

/-- C25, for the example ARP request and the example configuration. -/
theorem arp_classifiers_witness :
    (etherIsArpRequest exampleGlobals (memOfList exampleArpRequest) = true ↔
      ((memOfList exampleArpRequest) ETH_FRAME_TYPE = 0x08 ∧
        (memOfList exampleArpRequest) (ETH_FRAME_TYPE + 1) = 0x06) ∧
      (∀ i, i < 4 → (memOfList exampleArpRequest) (ETH_DATA + ARP_DEST_IP + i)
        = exampleGlobals.ipAddress i) ∧
      ((memOfList exampleArpRequest) (ETH_DATA + ARP_OP) = 0x00 ∧
        (memOfList exampleArpRequest) (ETH_DATA + ARP_OP + 1) = 0x01)) ∧
    (etherIsArpReply exampleGlobals (memOfList exampleArpRequest) = true ↔
      ((memOfList exampleArpRequest) ETH_FRAME_TYPE = 0x08 ∧
        (memOfList exampleArpRequest) (ETH_FRAME_TYPE + 1) = 0x06) ∧
      (∀ i, i < 4 → (memOfList exampleArpRequest) (ETH_DATA + ARP_DEST_IP + i)
        = exampleGlobals.ipAddress i) ∧
      ((memOfList exampleArpRequest) (ETH_DATA + ARP_OP) = 0x00 ∧
        (memOfList exampleArpRequest) (ETH_DATA + ARP_OP + 1) = 0x02)) ∧
    ¬ (etherIsArpRequest exampleGlobals (memOfList exampleArpRequest) = true ∧
      etherIsArpReply exampleGlobals (memOfList exampleArpRequest) = true) :=
  arp_classifiers exampleGlobals (memOfList exampleArpRequest) (isBytes_memOfList _ (by decide))

/-- C26, the code against the claim: for every frame, `etherIsTcpFinAck` (resp.
`etherIsTcpResetAck`) returns true if and only if the low 12 bits of the TCP
offset/flags word equal the FIN-ACK (resp. RST-ACK) value, whatever the
destination hardware address and the IP protocol.  It returns true on a FIN-ACK
segment sent to another hardware address, and `etherIsTcpResetAck` returns true
on a UDP datagram sent to another hardware address. -/
theorem tcp_fin_ack_ignores_mac_and_protocol (g : Globals) (ether : Mem) :
    (etherIsTcpFinAck g ether = true ↔
      htons (rd16 ether (ETH_DATA + ipHeaderLength ether ETH_DATA + TCP_OFFSET_FIELDS)) % 4096
        = TCP_FIN_ACK) ∧
    (etherIsTcpResetAck g ether = true ↔
      htons (rd16 ether (ETH_DATA + ipHeaderLength ether ETH_DATA + TCP_OFFSET_FIELDS)) % 4096
        = TCP_REST_ACK) ∧
    (etherIsTcpFinAck exampleGlobals foreignFinAck = true ∧
      foreignFinAck (ETH_DATA + IP_PROTOCOL) = 6 ∧
      foreignFinAck (ETH_DEST + 0) ≠ exampleGlobals.macAddress 0) ∧
    (etherIsTcpResetAck exampleGlobals foreignUdpDatagram = true ∧
      foreignUdpDatagram (ETH_DATA + IP_PROTOCOL) ≠ 6 ∧
      foreignUdpDatagram (ETH_DEST + 0) ≠ exampleGlobals.macAddress 0) :=
  ⟨(etherIsTcpFinAck_iff g ether).1, (etherIsTcpFinAck_iff g ether).2,
    ⟨by decide, by decide, by decide⟩, ⟨by decide, by decide, by decide⟩⟩

/-- C27. For every frame, whatever its destination hardware address (so in
particular when it equals the local MAC), `etherIsTcpAck` returns true if and
only if the IP protocol is 6 and the low 12 bits of the TCP offset/flags word,
read in network byte order at the offset given by the IP header length, equal
one of the SYN-ACK, ACK, PUSH-ACK, FIN-ACK or RST-ACK values. -/
theorem tcp_ack_classifier (ether : Mem) :
    etherIsTcpAck ether = true ↔
      ether (ETH_DATA + IP_PROTOCOL) = 6 ∧
      (htons (rd16 ether (ETH_DATA + ipHeaderLength ether ETH_DATA + TCP_OFFSET_FIELDS)) % 4096
          = TCP_SYNACK ∨
        htons (rd16 ether (ETH_DATA + ipHeaderLength ether ETH_DATA + TCP_OFFSET_FIELDS)) % 4096
          = TCP_ACK ∨
        htons (rd16 ether (ETH_DATA + ipHeaderLength ether ETH_DATA + TCP_OFFSET_FIELDS)) % 4096
          = TCP_PUSH_ACK ∨
        htons (rd16 ether (ETH_DATA + ipHeaderLength ether ETH_DATA + TCP_OFFSET_FIELDS)) % 4096
          = TCP_FIN_ACK ∨
        htons (rd16 ether (ETH_DATA + ipHeaderLength ether ETH_DATA + TCP_OFFSET_FIELDS)) % 4096
          = TCP_REST_ACK) :=
  etherIsTcpAck_iff ether

/-- C28. For every frame, `etherIsMqttConnectAck` returns true if and only if the
six bytes of the destination hardware address equal the local MAC, the first
byte of the TCP payload (20 bytes past the TCP header start located from the IP
header length) is 0x20, and the payload byte at offset 2 is 0x00. -/
theorem mqtt_connect_ack_classifier (g : Globals) (ether : Mem) :
    etherIsMqttConnectAck g ether = true ↔
      (∀ i, i < 6 → ether (ETH_DEST + i) = g.macAddress i) ∧
      ether (ETH_DATA + ipHeaderLength ether ETH_DATA + TCP_DATA + 0) = 0x20 ∧
      ether (ETH_DATA + ipHeaderLength ether ETH_DATA + TCP_DATA + 2) = 0x00 :=
  etherIsMqttConnectAck_iff g ether

/-- C29. For every frame of bytes, each of `etherIsMqttSubAck`,
`etherIsMqttUnSubAck` and `etherIsMqttPublish` returns true exactly when the
destination hardware address equals the local MAC and the first TCP payload
byte is 0x90, 0xB0 or 0x30 respectively, and whenever it returns true the
`payLoadLength` recorded afterwards equals payload byte 1 plus 2. -/
theorem mqtt_recorded_payload_length (g : Globals) (ether : Mem) (he : IsBytes ether) :
    (((etherIsMqttSubAck g ether).1 = true ↔
        (∀ i, i < 6 → ether (ETH_DEST + i) = g.macAddress i) ∧
        ether (ETH_DATA + ipHeaderLength ether ETH_DATA + TCP_DATA + 0) = 0x90) ∧
      ((etherIsMqttSubAck g ether).1 = true →
        (etherIsMqttSubAck g ether).2.payLoadLength
          = ether (ETH_DATA + ipHeaderLength ether ETH_DATA + TCP_DATA + 1) + 2)) ∧
    (((etherIsMqttUnSubAck g ether).1 = true ↔
        (∀ i, i < 6 → ether (ETH_DEST + i) = g.macAddress i) ∧
        ether (ETH_DATA + ipHeaderLength ether ETH_DATA + TCP_DATA + 0) = 0xB0) ∧
      ((etherIsMqttUnSubAck g ether).1 = true →
        (etherIsMqttUnSubAck g ether).2.payLoadLength
          = ether (ETH_DATA + ipHeaderLength ether ETH_DATA + TCP_DATA + 1) + 2)) ∧
    (((etherIsMqttPublish g ether).1 = true ↔
        (∀ i, i < 6 → ether (ETH_DEST + i) = g.macAddress i) ∧
        ether (ETH_DATA + ipHeaderLength ether ETH_DATA + TCP_DATA + 0) = 0x30) ∧
      ((etherIsMqttPublish g ether).1 = true →
        (etherIsMqttPublish g ether).2.payLoadLength
          = ether (ETH_DATA + ipHeaderLength ether ETH_DATA + TCP_DATA + 1) + 2)) := by
  have hb := he (ETH_DATA + ipHeaderLength ether ETH_DATA + TCP_DATA + 1)
  have hmod : (ether (ETH_DATA + ipHeaderLength ether ETH_DATA + TCP_DATA + 1) + 2) % 4294967296
      = ether (ETH_DATA + ipHeaderLength ether ETH_DATA + TCP_DATA + 1) + 2 :=
    Nat.mod_eq_of_lt (by omega)
  obtain ⟨a1, a2, -⟩ := etherIsMqttSubAck_spec g ether
  obtain ⟨b1, b2, -⟩ := etherIsMqttUnSubAck_spec g ether
  obtain ⟨c1, c2, -⟩ := etherIsMqttPublish_spec g ether
  refine ⟨⟨a1, fun h => ?_⟩, ⟨b1, fun h => ?_⟩, ⟨c1, fun h => ?_⟩⟩
  · rw [a2 (a1.1 h).1]; exact hmod
  · rw [b2 (b1.1 h).1]; exact hmod
  · rw [c2 (c1.1 h).1]; exact hmod

/-- C29, for the example SUBACK segment, on which `etherIsMqttSubAck` returns
true. -/
theorem mqtt_recorded_payload_length_witness :
    (etherIsMqttSubAck exampleGlobals exampleSubAck).1 = true ∧
    (((etherIsMqttSubAck exampleGlobals exampleSubAck).1 = true ↔
        (∀ i, i < 6 → exampleSubAck (ETH_DEST + i) = exampleGlobals.macAddress i) ∧
        exampleSubAck (ETH_DATA + ipHeaderLength exampleSubAck ETH_DATA + TCP_DATA + 0)
          = 0x90) ∧
      ((etherIsMqttSubAck exampleGlobals exampleSubAck).1 = true →
        (etherIsMqttSubAck exampleGlobals exampleSubAck).2.payLoadLength
          = exampleSubAck (ETH_DATA + ipHeaderLength exampleSubAck ETH_DATA + TCP_DATA + 1)
            + 2)) ∧
    (((etherIsMqttUnSubAck exampleGlobals exampleSubAck).1 = true ↔
        (∀ i, i < 6 → exampleSubAck (ETH_DEST + i) = exampleGlobals.macAddress i) ∧
        exampleSubAck (ETH_DATA + ipHeaderLength exampleSubAck ETH_DATA + TCP_DATA + 0)
          = 0xB0) ∧
      ((etherIsMqttUnSubAck exampleGlobals exampleSubAck).1 = true →
        (etherIsMqttUnSubAck exampleGlobals exampleSubAck).2.payLoadLength
          = exampleSubAck (ETH_DATA + ipHeaderLength exampleSubAck ETH_DATA + TCP_DATA + 1)
            + 2)) ∧
    (((etherIsMqttPublish exampleGlobals exampleSubAck).1 = true ↔
        (∀ i, i < 6 → exampleSubAck (ETH_DEST + i) = exampleGlobals.macAddress i) ∧
        exampleSubAck (ETH_DATA + ipHeaderLength exampleSubAck ETH_DATA + TCP_DATA + 0)
          = 0x30) ∧
      ((etherIsMqttPublish exampleGlobals exampleSubAck).1 = true →
        (etherIsMqttPublish exampleGlobals exampleSubAck).2.payLoadLength
          = exampleSubAck (ETH_DATA + ipHeaderLength exampleSubAck ETH_DATA + TCP_DATA + 1)
            + 2)) :=
  ⟨by decide,
    mqtt_recorded_payload_length exampleGlobals exampleSubAck (isBytes_memOfList _ (by decide))⟩

/-- C30. Classifier purity: a call of any of the fourteen classifier predicates,
made with a pointer to the frame in a memory where the local `sum` of the
checksum classifiers is an object apart from the 1522-byte packet buffer,
leaves every byte of the packet buffer unchanged (it stores to no byte of the
memory but the four of that local) and every configuration value other than
`payLoadLength` unchanged (addresses, sequence and acknowledgment numbers among
them); a second call on the memory and globals the first one left returns the
same result and leaves the same memory and globals. -/
theorem classifier_purity (c : Classifier) (g : Globals) (m : Mem) (ether sum : Nat)
    (hdis : sum + 4 ≤ ether ∨ ether + MAX_PACKET_SIZE ≤ sum) :
    (∀ i, i < MAX_PACKET_SIZE → (classifyAt c g m ether sum).2.2 (ether + i) = m (ether + i)) ∧
    (∀ a, a < sum ∨ sum + 4 ≤ a → (classifyAt c g m ether sum).2.2 a = m a) ∧
    (classifyAt c g m ether sum).2.1
      = { g with payLoadLength := (classifyAt c g m ether sum).2.1.payLoadLength } ∧
    ((classifyAt c g m ether sum).2.1.macAddress = g.macAddress ∧
      (classifyAt c g m ether sum).2.1.ipAddress = g.ipAddress ∧
      (classifyAt c g m ether sum).2.1.ipSubnetMask = g.ipSubnetMask ∧
      (classifyAt c g m ether sum).2.1.ipGwAddress = g.ipGwAddress ∧
      (classifyAt c g m ether sum).2.1.mqttBrokerIpAddress = g.mqttBrokerIpAddress ∧
      (classifyAt c g m ether sum).2.1.mqttBrokerMacAddress = g.mqttBrokerMacAddress ∧
      (classifyAt c g m ether sum).2.1.sequenceNumber = g.sequenceNumber ∧
      (classifyAt c g m ether sum).2.1.acknowledgementNumber = g.acknowledgementNumber) ∧
    classifyAt c (classifyAt c g m ether sum).2.1 (classifyAt c g m ether sum).2.2 ether sum
      = classifyAt c g m ether sum ∧
    ((sum + 4 ≤ ether ∨ ether + 65609 ≤ sum) →
      (classifyAt c g m ether sum).1 = (classify c g (view m ether)).1) := by
  have h1 : (classifyAt c g m ether sum).2.1
      = { g with payLoadLength := (classifyAt c g m ether sum).2.1.payLoadLength } := by
    rw [classifyAt_globals]
    exact (classify_pure c g (view m ether)).1
  refine ⟨fun i hi => classifyAt_frame c g m ether sum _ ?_,
    fun a ha => classifyAt_frame c g m ether sum a (by omega), h1, ?_,
    classifyAt_again c g m ether sum hdis, classifyAt_result c g m ether sum⟩
  · simp only [MAX_PACKET_SIZE] at hdis hi
    omega
  · refine ⟨?_, ?_, ?_, ?_, ?_, ?_, ?_, ?_⟩ <;> rw [h1]

/-- C30, for the call of `etherIsIp` on the example echo request held at address
8, with the local `sum` in the four bytes at address 0: the call returns true
and has stored the low byte FE of the header sum over the byte EE the local
held. -/
theorem classifier_purity_witness :
    ((0 : Nat) + 4 ≤ 8 ∨ 8 + MAX_PACKET_SIZE ≤ 0) ∧
    (classifyAt Classifier.isIp exampleGlobals exampleMemory 8 0).1 = true ∧
    exampleMemory 0 = 0xEE ∧
    (classifyAt Classifier.isIp exampleGlobals exampleMemory 8 0).2.2 0 = 0xFE ∧
    (∀ i, i < MAX_PACKET_SIZE →
      (classifyAt Classifier.isIp exampleGlobals exampleMemory 8 0).2.2 (8 + i)
        = exampleMemory (8 + i)) ∧
    (∀ a, a < 0 ∨ 0 + 4 ≤ a →
      (classifyAt Classifier.isIp exampleGlobals exampleMemory 8 0).2.2 a = exampleMemory a) ∧
    (classifyAt Classifier.isIp exampleGlobals exampleMemory 8 0).2.1
      = { exampleGlobals with
          payLoadLength :=
            (classifyAt Classifier.isIp exampleGlobals exampleMemory 8 0).2.1.payLoadLength } ∧
    ((classifyAt Classifier.isIp exampleGlobals exampleMemory 8 0).2.1.macAddress
        = exampleGlobals.macAddress ∧
      (classifyAt Classifier.isIp exampleGlobals exampleMemory 8 0).2.1.ipAddress
        = exampleGlobals.ipAddress ∧
      (classifyAt Classifier.isIp exampleGlobals exampleMemory 8 0).2.1.ipSubnetMask
        = exampleGlobals.ipSubnetMask ∧
      (classifyAt Classifier.isIp exampleGlobals exampleMemory 8 0).2.1.ipGwAddress
        = exampleGlobals.ipGwAddress ∧
      (classifyAt Classifier.isIp exampleGlobals exampleMemory 8 0).2.1.mqttBrokerIpAddress
        = exampleGlobals.mqttBrokerIpAddress ∧
      (classifyAt Classifier.isIp exampleGlobals exampleMemory 8 0).2.1.mqttBrokerMacAddress
        = exampleGlobals.mqttBrokerMacAddress ∧
      (classifyAt Classifier.isIp exampleGlobals exampleMemory 8 0).2.1.sequenceNumber
        = exampleGlobals.sequenceNumber ∧
      (classifyAt Classifier.isIp exampleGlobals exampleMemory 8 0).2.1.acknowledgementNumber
        = exampleGlobals.acknowledgementNumber) ∧
    classifyAt Classifier.isIp
        (classifyAt Classifier.isIp exampleGlobals exampleMemory 8 0).2.1
        (classifyAt Classifier.isIp exampleGlobals exampleMemory 8 0).2.2 8 0
      = classifyAt Classifier.isIp exampleGlobals exampleMemory 8 0 ∧
    (((0 : Nat) + 4 ≤ 8 ∨ 8 + 65609 ≤ 0) →
      (classifyAt Classifier.isIp exampleGlobals exampleMemory 8 0).1
        = (classify Classifier.isIp exampleGlobals (view exampleMemory 8)).1) :=
  ⟨by decide,
    by rw [classifyAt_result _ _ _ _ _ (Or.inl (by decide))]; decide,
    by decide,
    by
      show (etherIsIpAt exampleMemory 8 0).2 0 = 0xFE
      rw [(etherIsIpAt_spec exampleMemory 8 0 (Or.inl (by decide))).2 (by decide)]
      decide,
    classifier_purity Classifier.isIp exampleGlobals exampleMemory 8 0 (by decide)⟩

/-- C31 (amended): over a buffer of even length `2 * k`,
`etherSumWords` adds to the running sum, modulo 2^32, the value of each
consecutive byte pair read as a little-endian 16-bit word, low byte first: a
pair `(b0, b1)` contributes `b0 + b1 * 256`. -/
theorem sum_words_adds_little_endian_pairs (m : Mem) (p k sum : Nat)
    (hs : sum < 4294967296) :
    etherSumWords m p (2 * k) sum = (sum + littleEndianPairSum m p k) % 4294967296 := by
  rw [etherSumWords_eq m p (2 * k) sum hs, wordSum_pairs]

/-- C31 (amended), for the buffer 12 34 56 78 and the running sum 5. -/
theorem sum_words_adds_little_endian_pairs_witness :
    (5 : Nat) < 4294967296 ∧
    etherSumWords (memOfList [0x12, 0x34, 0x56, 0x78]) 0 (2 * 2) 5
      = (5 + littleEndianPairSum (memOfList [0x12, 0x34, 0x56, 0x78]) 0 2) % 4294967296 :=
  ⟨by decide, sum_words_adds_little_endian_pairs (memOfList [0x12, 0x34, 0x56, 0x78]) 0 2 5
    (by decide)⟩

/-- C31, the claim as stated fails: on the two-byte buffer `(1, 0)` with running
sum 0, `etherSumWords` gives 1, while the pair read as a big-endian word is 256. -/
theorem sum_words_not_big_endian :
    etherSumWords (memOfList [1, 0]) 0 2 0 = 1 ∧
    bigEndianPairSum (memOfList [1, 0]) 0 1 = 256 ∧
    etherSumWords (memOfList [1, 0]) 0 2 0
      ≠ (0 + bigEndianPairSum (memOfList [1, 0]) 0 1) % 4294967296 := by
  decide

/-- C32: for every 32-bit sum, `getEtherChecksum` returns 0xFFFF when the sum is
0 and otherwise `0xFFFF - (((sum - 1) mod 65535) + 1)`, the 16-bit one's
complement of the end-around-carry fold; it returns 0 exactly when the sum is a
positive multiple of 65535. -/
theorem ether_checksum_closed_form (s : Nat) (hs : s < 4294967296) :
    (s = 0 → getEtherChecksum s = 65535) ∧
    (0 < s → getEtherChecksum s = 65535 - ((s - 1) % 65535 + 1)) ∧
    (getEtherChecksum s = 0 ↔ 0 < s ∧ s % 65535 = 0) := by
  refine ⟨?_, getEtherChecksum_closed s hs, ?_⟩
  · intro h
    subst h
    decide
  · rcases Nat.eq_zero_or_pos s with h | h
    · subst h
      constructor
      · intro hc
        exact absurd hc (by decide)
      · rintro ⟨hc, -⟩
        exact absurd hc (by decide)
    · rw [getEtherChecksum_closed s hs h]
      omega

/-- C32, for the sum 131070 = 2 * 65535. -/
theorem ether_checksum_closed_form_witness :
    (131070 : Nat) < 4294967296 ∧
    ((131070 : Nat) = 0 → getEtherChecksum 131070 = 65535) ∧
    (0 < 131070 → getEtherChecksum 131070 = 65535 - ((131070 - 1) % 65535 + 1)) ∧
    (getEtherChecksum 131070 = 0 ↔ 0 < 131070 ∧ 131070 % 65535 = 0) :=
  ⟨by decide, ether_checksum_closed_form 131070 (by decide)⟩

/-- C33: a frame with a header-length nibble of at least 5 that satisfies
`etherIsIp` still satisfies it after `etherSendPingResponse`, although the
builder has exchanged the IP source and destination addresses and has left the
two bytes of the IP header checksum as they were. -/
theorem ping_response_keeps_ip_checksum_valid (ether : Mem)
    (h5 : 5 ≤ ether (ETH_DATA + IP_REV_SIZE) % 16) (hip : etherIsIp ether = true) :
    etherIsIp (etherSendPingResponse ether).buf = true ∧
    (∀ i, i < 4 → (etherSendPingResponse ether).buf (ETH_DATA + IP_SOURCE_IP + i)
      = ether (ETH_DATA + IP_DEST_IP + i)) ∧
    (∀ i, i < 4 → (etherSendPingResponse ether).buf (ETH_DATA + IP_DEST_IP + i)
      = ether (ETH_DATA + IP_SOURCE_IP + i)) ∧
    (etherSendPingResponse ether).buf (ETH_DATA + IP_CHECKSUM)
      = ether (ETH_DATA + IP_CHECKSUM) ∧
    (etherSendPingResponse ether).buf (ETH_DATA + IP_CHECKSUM + 1)
      = ether (ETH_DATA + IP_CHECKSUM + 1) := by
  obtain ⟨k1, k2, k3, -⟩ := etherSendPingResponse_header ether h5
  exact ⟨etherIsIp_pingResponse ether h5 hip, k2, k3, k1 24 (by decide) (by decide),
    k1 25 (by decide) (by decide)⟩

/-- C33, for the example echo request. -/
theorem ping_response_keeps_ip_checksum_valid_witness :
    5 ≤ examplePingRequest (ETH_DATA + IP_REV_SIZE) % 16 ∧
    etherIsIp examplePingRequest = true ∧
    etherIsIp (etherSendPingResponse examplePingRequest).buf = true ∧
    (∀ i, i < 4 → (etherSendPingResponse examplePingRequest).buf (ETH_DATA + IP_SOURCE_IP + i)
      = examplePingRequest (ETH_DATA + IP_DEST_IP + i)) ∧
    (∀ i, i < 4 → (etherSendPingResponse examplePingRequest).buf (ETH_DATA + IP_DEST_IP + i)
      = examplePingRequest (ETH_DATA + IP_SOURCE_IP + i)) ∧
    (etherSendPingResponse examplePingRequest).buf (ETH_DATA + IP_CHECKSUM)
      = examplePingRequest (ETH_DATA + IP_CHECKSUM) ∧
    (etherSendPingResponse examplePingRequest).buf (ETH_DATA + IP_CHECKSUM + 1)
      = examplePingRequest (ETH_DATA + IP_CHECKSUM + 1) :=
  ⟨by decide, by decide,
    ping_response_keeps_ip_checksum_valid examplePingRequest (by decide) (by decide)⟩

/-- C34: an iteration of the main loop without a command in state
`waitTcpSynAck` that receives a frame moves to `sendTcpAck` exactly when
`etherIsIp`, `etherIsIpUnicast`, `etherIsTcp` and `etherIsTcpAck` all hold on the
received frame, and then captures the acknowledgment and sequence numbers from
it; otherwise the state and the globals are kept. The four classifiers hold
exactly when the frame passes `etherIsIp`, its destination IP is the local one,
its protocol is 6 and its flags are SYN-ACK, ACK, PUSH-ACK, FIN-ACK or RST-ACK:
the source address, the ports and the destination MAC play no part. -/
theorem wait_syn_ack_fires_on_any_ack (u : Unspecified) (fuel : Nat) (M : Machine)
    (p : List Nat) (hs : M.currentState = state.waitTcpSynAck) :
    (∃ M', mainLoopBody u fuel none (some p) M = some M' ∧
      (M'.currentState = state.sendTcpAck ↔
        (etherIsIp (received M.buffer p) = true ∧
          etherIsIpUnicast M.g (received M.buffer p) = true ∧
          etherIsTcp (received M.buffer p) = true ∧
          etherIsTcpAck (received M.buffer p) = true)) ∧
      (M'.currentState = state.sendTcpAck →
        M'.g.acknowledgementNumber
            = rd32 (received M.buffer p)
                (ETH_DATA + ipHeaderLength (received M.buffer p) ETH_DATA + TCP_SEQUENCE_NUMBER) ∧
        M'.g.sequenceNumber
            = rd32 (received M.buffer p)
                (ETH_DATA + ipHeaderLength (received M.buffer p) ETH_DATA
                  + TCP_ACKNOWLEDGEMENT_NUMBER)) ∧
      (M'.currentState ≠ state.sendTcpAck →
        M'.currentState = state.waitTcpSynAck ∧ M'.g = M.g)) ∧
    ((etherIsIp (received M.buffer p) = true ∧
        etherIsIpUnicast M.g (received M.buffer p) = true ∧
        etherIsTcp (received M.buffer p) = true ∧
        etherIsTcpAck (received M.buffer p) = true) ↔
      (etherIsIp (received M.buffer p) = true ∧
        (∀ i, i < 4 → received M.buffer p (ETH_DATA + IP_DEST_IP + i) = M.g.ipAddress i) ∧
        received M.buffer p (ETH_DATA + IP_PROTOCOL) = 6 ∧
        (htons (rd16 (received M.buffer p)
            (ETH_DATA + ipHeaderLength (received M.buffer p) ETH_DATA + TCP_OFFSET_FIELDS)) % 4096
              = TCP_SYNACK ∨
          htons (rd16 (received M.buffer p)
            (ETH_DATA + ipHeaderLength (received M.buffer p) ETH_DATA + TCP_OFFSET_FIELDS)) % 4096
              = TCP_ACK ∨
          htons (rd16 (received M.buffer p)
            (ETH_DATA + ipHeaderLength (received M.buffer p) ETH_DATA + TCP_OFFSET_FIELDS)) % 4096
              = TCP_PUSH_ACK ∨
          htons (rd16 (received M.buffer p)
            (ETH_DATA + ipHeaderLength (received M.buffer p) ETH_DATA + TCP_OFFSET_FIELDS)) % 4096
              = TCP_FIN_ACK ∨
          htons (rd16 (received M.buffer p)
            (ETH_DATA + ipHeaderLength (received M.buffer p) ETH_DATA + TCP_OFFSET_FIELDS)) % 4096
              = TCP_REST_ACK))) := by
  refine ⟨mainLoopBody_waitTcpSynAck u fuel M p hs, ?_⟩
  rw [etherIsIpUnicast_iff, etherIsTcpAck_iff]
  have ht : etherIsTcp (received M.buffer p) = true
      ↔ received M.buffer p (ETH_DATA + IP_PROTOCOL) = 6 := by
    unfold etherIsTcp
    simp
  rw [ht]
  constructor
  · rintro ⟨a, b, c, -, d⟩
    exact ⟨a, b, c, d⟩
  · rintro ⟨a, b, c, d⟩
    exact ⟨a, b, c, c, d⟩

/-- C34, for the example machine in state `waitTcpSynAck` receiving a RST-ACK
segment from a foreign source address and port, addressed to a hardware address
that is not the local one: the transition fires. -/
theorem wait_syn_ack_fires_on_any_ack_witness :
    (exampleMachine state.waitTcpSynAck).currentState = state.waitTcpSynAck ∧
    (etherIsIp (received (exampleMachine state.waitTcpSynAck).buffer strangerResetAck) = true ∧
      etherIsIpUnicast (exampleMachine state.waitTcpSynAck).g
        (received (exampleMachine state.waitTcpSynAck).buffer strangerResetAck) = true ∧
      etherIsTcp (received (exampleMachine state.waitTcpSynAck).buffer strangerResetAck) = true ∧
      etherIsTcpAck (received (exampleMachine state.waitTcpSynAck).buffer strangerResetAck)
        = true) ∧
    ∃ M', mainLoopBody exampleUnspecified 0 none (some strangerResetAck)
        (exampleMachine state.waitTcpSynAck) = some M' ∧
      (M'.currentState = state.sendTcpAck ↔
        (etherIsIp (received (exampleMachine state.waitTcpSynAck).buffer strangerResetAck) = true ∧
          etherIsIpUnicast (exampleMachine state.waitTcpSynAck).g
            (received (exampleMachine state.waitTcpSynAck).buffer strangerResetAck) = true ∧
          etherIsTcp (received (exampleMachine state.waitTcpSynAck).buffer strangerResetAck)
            = true ∧
          etherIsTcpAck (received (exampleMachine state.waitTcpSynAck).buffer strangerResetAck)
            = true)) ∧
      (M'.currentState = state.sendTcpAck →
        M'.g.acknowledgementNumber
            = rd32 (received (exampleMachine state.waitTcpSynAck).buffer strangerResetAck)
                (ETH_DATA + ipHeaderLength
                  (received (exampleMachine state.waitTcpSynAck).buffer strangerResetAck) ETH_DATA
                  + TCP_SEQUENCE_NUMBER) ∧
        M'.g.sequenceNumber
            = rd32 (received (exampleMachine state.waitTcpSynAck).buffer strangerResetAck)
                (ETH_DATA + ipHeaderLength
                  (received (exampleMachine state.waitTcpSynAck).buffer strangerResetAck) ETH_DATA
                  + TCP_ACKNOWLEDGEMENT_NUMBER)) ∧
      (M'.currentState ≠ state.sendTcpAck →
        M'.currentState = state.waitTcpSynAck ∧ M'.g = (exampleMachine state.waitTcpSynAck).g) :=
  ⟨rfl, by decide,
    (wait_syn_ack_fires_on_any_ack exampleUnspecified 0 (exampleMachine state.waitTcpSynAck)
      strangerResetAck rfl).1⟩

/-- C35: PUBLISH round trip. For every topic of T bytes and data of D bytes with
T + D <= 251, `etherMqttCreatePublishPayload` returns, and on every frame whose
TCP payload starts with the T + D + 6 bytes it produced, `printPublishData`
returns the topic length T, exactly the T topic bytes, the data length D and
exactly the D data bytes. -/
theorem publish_round_trip (g : Globals) (mqttPayload topic data : Mem) (T D fuel : Nat)
    (hTD : T + D ≤ 251)
    (ht : ∀ j, j < T → topic j ≠ 0) (ht0 : topic T = 0)
    (hd : ∀ j, j < D → data j ≠ 0) (hd0 : data D = 0)
    (hfT : T < fuel) (hfD : D < fuel) :
    ∃ r, etherMqttCreatePublishPayload g mqttPayload topic data fuel = some r ∧
      ∀ frame : Mem,
        (∀ k, k < T + D + 6 →
          frame (ETH_DATA + ipHeaderLength frame ETH_DATA + TCP_DATA + k) = r.mqttPayload k) →
        printPublishData frame fuel
          = some { topicLength := T, topic := (List.range T).map topic,
                   dataLength := D, data := (List.range D).map data } := by
  obtain ⟨r, e, -, b1, b2, b3, bt, -, -, bd, -, -⟩ :=
    etherMqttCreatePublishPayload_spec g mqttPayload topic data T D fuel (by omega) (by omega)
      ht ht0 hd hd0 hfT hfD
  have hmod : (T + D + 4) % 256 = T + D + 4 := Nat.mod_eq_of_lt (by omega)
  rw [hmod] at b1
  exact ⟨r, e, fun frame hf =>
    printPublishData_spec frame r.mqttPayload topic data T D fuel hTD hfT hfD hf b1 b2 b3 bt bd⟩

/-- C35, for the topic "a/b" and the data "on", with the example PUBLISH segment
parsed back. -/
theorem publish_round_trip_witness :
    printPublishData examplePublish 4
      = some { topicLength := 3, topic := [97, 47, 98], dataLength := 2, data := [111, 110] } ∧
    ∃ r, etherMqttCreatePublishPayload exampleGlobals zeroMem exampleTopic exampleData 4
        = some r ∧
      ∀ frame : Mem,
        (∀ k, k < 3 + 2 + 6 →
          frame (ETH_DATA + ipHeaderLength frame ETH_DATA + TCP_DATA + k) = r.mqttPayload k) →
        printPublishData frame 4
          = some { topicLength := 3, topic := (List.range 3).map exampleTopic,
                   dataLength := 2, data := (List.range 2).map exampleData } :=
  ⟨by decide,
    publish_round_trip exampleGlobals zeroMem exampleTopic exampleData 3 2 4 (by decide)
      (by intro j hj; interval_cases j <;> decide) (by decide)
      (by intro j hj; interval_cases j <;> decide) (by decide) (by decide) (by decide)⟩

/-- C36: for every buffer of `n ≤ 65535` bytes and every initial running sum
below 2^31, `etherSumWords` does not wrap the 32-bit accumulator: the result is
the initial sum plus the exact sum of the per-byte contributions, and it is
below 2^32. -/
theorem sum_words_never_wraps (m : Mem) (hm : IsBytes m) (p n sum : Nat)
    (hn : n ≤ 65535) (hs : sum < 2147483648) :
    etherSumWords m p n sum = sum + wordSum m p n ∧ sum + wordSum m p n < 4294967296 := by
  have h := wordSum_le_tight m hm p n
  have hb : sum + wordSum m p n < 4294967296 := by omega
  rw [etherSumWords_eq m p n sum (by omega), Nat.mod_eq_of_lt hb]
  exact ⟨rfl, hb⟩

/-- C36, for three bytes FF and the running sum 2^31 - 1. -/
theorem sum_words_never_wraps_witness :
    IsBytes (memOfList [0xFF, 0xFF, 0xFF]) ∧ (3 : Nat) ≤ 65535 ∧ (2147483647 : Nat) < 2147483648 ∧
    etherSumWords (memOfList [0xFF, 0xFF, 0xFF]) 0 3 2147483647
      = 2147483647 + wordSum (memOfList [0xFF, 0xFF, 0xFF]) 0 3 ∧
    2147483647 + wordSum (memOfList [0xFF, 0xFF, 0xFF]) 0 3 < 4294967296 :=
  ⟨isBytes_memOfList _ (by decide), by decide, by decide,
    sum_words_never_wraps (memOfList [0xFF, 0xFF, 0xFF]) (isBytes_memOfList _ (by decide)) 0 3
      2147483647 (by decide) (by decide)⟩
/-- C37: on a frame of bytes, each of `etherIsMqttSubAck`, `etherIsMqttUnSubAck`
and `etherIsMqttPublish` leaves the globals with `payLoadLength` overwritten by
TCP payload byte 1 plus 2 when the destination hardware address equals the
local MAC, whatever the first payload byte and the returned value, and leaves
the globals unchanged when the address differs. -/
theorem mqtt_payload_length_written_on_mac_match (g : Globals) (ether : Mem)
    (he : IsBytes ether) :
    ((∀ i, i < 6 → ether (ETH_DEST + i) = g.macAddress i) →
      (etherIsMqttSubAck g ether).2 = { g with
          payLoadLength :=
            ether (ETH_DATA + ipHeaderLength ether ETH_DATA + TCP_DATA + 1) + 2 } ∧
      (etherIsMqttUnSubAck g ether).2 = { g with
          payLoadLength :=
            ether (ETH_DATA + ipHeaderLength ether ETH_DATA + TCP_DATA + 1) + 2 } ∧
      (etherIsMqttPublish g ether).2 = { g with
          payLoadLength :=
            ether (ETH_DATA + ipHeaderLength ether ETH_DATA + TCP_DATA + 1) + 2 }) ∧
    ((¬ ∀ i, i < 6 → ether (ETH_DEST + i) = g.macAddress i) →
      (etherIsMqttSubAck g ether).2 = g ∧ (etherIsMqttUnSubAck g ether).2 = g ∧
      (etherIsMqttPublish g ether).2 = g) := by
  have hb := he (ETH_DATA + ipHeaderLength ether ETH_DATA + TCP_DATA + 1)
  have hmod : (ether (ETH_DATA + ipHeaderLength ether ETH_DATA + TCP_DATA + 1) + 2) % 4294967296
      = ether (ETH_DATA + ipHeaderLength ether ETH_DATA + TCP_DATA + 1) + 2 :=
    Nat.mod_eq_of_lt (by omega)
  obtain ⟨-, a2, a3⟩ := etherIsMqttSubAck_spec g ether
  obtain ⟨-, b2, b3⟩ := etherIsMqttUnSubAck_spec g ether
  obtain ⟨-, c2, c3⟩ := etherIsMqttPublish_spec g ether
  rw [hmod] at a2 b2 c2
  exact ⟨fun h => ⟨a2 h, b2 h, c2 h⟩, fun h => ⟨a3 h, b3 h, c3 h⟩⟩

/-- C37, for the example SUBACK segment, addressed to the local MAC: its first
payload byte is 0x90, so `etherIsMqttPublish` returns false, and
`payLoadLength` is overwritten with 3 + 2 all the same. -/
theorem mqtt_payload_length_written_on_mac_match_witness :
    IsBytes exampleSubAck ∧
    (etherIsMqttPublish exampleGlobals exampleSubAck).1 = false ∧
    (etherIsMqttPublish exampleGlobals exampleSubAck).2.payLoadLength = 5 ∧
    ((∀ i, i < 6 → exampleSubAck (ETH_DEST + i) = exampleGlobals.macAddress i) →
      (etherIsMqttSubAck exampleGlobals exampleSubAck).2 = { exampleGlobals with
          payLoadLength :=
            exampleSubAck (ETH_DATA + ipHeaderLength exampleSubAck ETH_DATA + TCP_DATA + 1)
              + 2 } ∧
      (etherIsMqttUnSubAck exampleGlobals exampleSubAck).2
        = { exampleGlobals with
          payLoadLength :=
            exampleSubAck (ETH_DATA + ipHeaderLength exampleSubAck ETH_DATA + TCP_DATA + 1)
              + 2 } ∧
      (etherIsMqttPublish exampleGlobals exampleSubAck).2
        = { exampleGlobals with
          payLoadLength :=
            exampleSubAck (ETH_DATA + ipHeaderLength exampleSubAck ETH_DATA + TCP_DATA + 1)
              + 2 }) ∧
    ((¬ ∀ i, i < 6 → exampleSubAck (ETH_DEST + i) = exampleGlobals.macAddress i) →
      (etherIsMqttSubAck exampleGlobals exampleSubAck).2 = exampleGlobals ∧
      (etherIsMqttUnSubAck exampleGlobals exampleSubAck).2 = exampleGlobals ∧
      (etherIsMqttPublish exampleGlobals exampleSubAck).2 = exampleGlobals) :=
  ⟨isBytes_memOfList _ (by decide), by decide, by decide,
    mqtt_payload_length_written_on_mac_match exampleGlobals exampleSubAck
      (isBytes_memOfList _ (by decide))⟩
/-- C38: for every sequence of received characters, `getsUart0` follows
`editLine`: it waits for more input exactly when the sequence ends before a
carriage return or line feed is read or 80 characters are stored; otherwise it
returns right after the character that ended the line, the buffer holds the
edited line (the accepted characters in order, each backspace having removed
the last stored one if any) followed by a NUL, the line has at most 80
characters, and no cell of the buffer beyond index 80 nor any other field is
changed. -/
theorem gets_uart_line_editing (data : USER_DATA) (input : List Nat) :
    (editLine input [] = none → getsUart0 data input = none) ∧
    (∀ line rest, editLine input [] = some (line, rest) →
      ∃ data', getsUart0 data input = some (data', rest) ∧ line.length ≤ 80 ∧
        (List.range line.length).map data'.buffer = line ∧ data'.buffer line.length = 0 ∧
        (∀ k, 80 < k → data'.buffer k = data.buffer k) ∧
        data'.fieldCount = data.fieldCount ∧ data'.fieldPositon = data.fieldPositon ∧
        data'.fieldType = data.fieldType) :=
  getsUart0_spec data input

/-- C39: for every NUL-terminated line of at most 255 characters (the buffer of
`USER_DATA` holds at most 80) with k <= 29 maximal runs of letters and digits,
`parseFields` returns; every lowercase letter is stored in upper case, every
character that is not a letter or digit is replaced by NUL, the other
characters are kept; the start index of the run number n (from 0) is stored in
`fieldPositon[n]`, no other cell of `fieldPositon` is changed, in particular
none at an index of 30 or more; `fieldCount` is k + 1. -/
theorem parse_fields_marks_runs (data : USER_DATA) (L fuel : Nat)
    (hL : L ≤ 255) (hnz : ∀ x, x < L → data.buffer x ≠ 0) (hz : data.buffer L = 0)
    (hk : countRuns data.buffer L ≤ 29) (hf : L < fuel) :
    ∃ d', parseFields data fuel = some d' ∧
      (∀ x, x < L → d'.buffer x
        = if isAlnum (data.buffer x) then toUpper (data.buffer x) else 0) ∧
      (∀ x, L ≤ x → d'.buffer x = data.buffer x) ∧
      (∀ s, s < L → isRunStart data.buffer s = true →
        d'.fieldPositon (countRuns data.buffer s) = s) ∧
      (∀ x, countRuns data.buffer L ≤ x → d'.fieldPositon x = data.fieldPositon x) ∧
      d'.fieldCount = countRuns data.buffer L + 1 ∧ d'.fieldType = data.fieldType := by
  unfold parseFields
  exact parseFieldsLoop_spec data.buffer L data.fieldCount data.fieldPositon data.fieldType
    hL hnz hz hk fuel 0 data (Nat.zero_le _) (by omega)
    (fun x hx => absurd hx (Nat.not_lt_zero x)) (fun _ _ => rfl)
    (fun s hs => absurd hs (Nat.not_lt_zero s)) (fun _ _ => rfl) rfl rfl

/-- C39, for the line `" set 1.zy"`: three runs, starting at indices 1, 5 and 7. -/
theorem parse_fields_marks_runs_witness :
    (9 : Nat) ≤ 255 ∧ (∀ x, x < 9 → exampleUserData.buffer x ≠ 0) ∧
    exampleUserData.buffer 9 = 0 ∧ countRuns exampleUserData.buffer 9 = 3 ∧
    ∃ d', parseFields exampleUserData 10 = some d' ∧
      (∀ x, x < 9 → d'.buffer x
        = if isAlnum (exampleUserData.buffer x) then toUpper (exampleUserData.buffer x)
          else 0) ∧
      (∀ x, 9 ≤ x → d'.buffer x = exampleUserData.buffer x) ∧
      (∀ s, s < 9 → isRunStart exampleUserData.buffer s = true →
        d'.fieldPositon (countRuns exampleUserData.buffer s) = s) ∧
      (∀ x, countRuns exampleUserData.buffer 9 ≤ x →
        d'.fieldPositon x = exampleUserData.fieldPositon x) ∧
      d'.fieldCount = countRuns exampleUserData.buffer 9 + 1 ∧
      d'.fieldType = exampleUserData.fieldType :=
  ⟨by decide, by intro x hx; interval_cases x <;> decide, by decide, by decide,
    parse_fields_marks_runs exampleUserData 9 10 (by decide)
      (by intro x hx; interval_cases x <;> decide) (by decide) (by decide) (by decide)⟩

/-- C40: for every `int` value other than the minimum and base 10, `itoa`
returns, and the buffer holds the canonical decimal representation followed by
NUL, the cells after the NUL being untouched: the representation is `"0"` for
zero, and otherwise an optional `'-'` (exactly for negative values) followed by
decimal digits whose first is not `'0'` and whose value is the absolute value. -/
theorem itoa_decimal (num : Int) (str : Mem) (fuel : Nat)
    (hlo : -2147483648 < num) (hhi : num < 2147483648) (hf : 11 ≤ fuel) :
    (∃ s, itoa num str 10 fuel = some s ∧
      (List.range (decimalString num).length).map s = decimalString num ∧
      s (decimalString num).length = 0 ∧
      ∀ k, (decimalString num).length < k → s k = str k) ∧
    (∃ ds : List Nat,
      decimalString num = (if num < 0 then [45] else []) ++ ds.map (· + 48) ∧
      ds ≠ [] ∧ (∀ d ∈ ds, d < 10) ∧ (num ≠ 0 → ds.head? ≠ some 0) ∧
      Nat.ofDigits 10 ds.reverse = num.natAbs) :=
  ⟨itoa_spec num str fuel hlo hhi hf, decimalString_canonical num⟩

/-- C40, for the value -1203. -/
theorem itoa_decimal_witness :
    (-2147483648 : Int) < -1203 ∧ (-1203 : Int) < 2147483648 ∧ 11 ≤ 11 ∧
    (itoa (-1203) zeroMem 10 11).map (fun s => (List.range 6).map s)
      = some [45, 49, 50, 48, 51, 0] ∧
    (∃ s, itoa (-1203) zeroMem 10 11 = some s ∧
      (List.range (decimalString (-1203)).length).map s = decimalString (-1203) ∧
      s (decimalString (-1203)).length = 0 ∧
      ∀ k, (decimalString (-1203)).length < k → s k = zeroMem k) ∧
    (∃ ds : List Nat,
      decimalString (-1203) = (if (-1203 : Int) < 0 then [45] else []) ++ ds.map (· + 48) ∧
      ds ≠ [] ∧ (∀ d ∈ ds, d < 10) ∧ ((-1203 : Int) ≠ 0 → ds.head? ≠ some 0) ∧
      Nat.ofDigits 10 ds.reverse = (-1203 : Int).natAbs) :=
  ⟨by decide, by decide, by decide, by decide,
    itoa_decimal (-1203) zeroMem 11 (by decide) (by decide) (by decide)⟩

end MqttClient
